import Mathlib

/-! # fw_checker: DFU host protocol engine and verification automaton

A shallow embedding of `source/dfu_host/dfu_host.c` and `source/main.c`.

* The C statics of both translation units and the state of the external
  collaborators (STM32 HAL UART driver, tick counter, board lines) are the
  fields of one record, `Sys`; every C function is a state-passing function.
* Machine integers are `Nat`/`Int`; truncation to `uint8_t`/`uint32_t` is
  written `% 256` / `% 2 ^ 32` at the places where the C code truncates.
* A function returns `none` when the C function has no defined return: a
  failed assertion in an `ASSERT_ON` build ends in `assert_post_action`, which
  is `while(true);`, the busy-wait of `recv` may spin for ever, and a store
  outside a local array is undefined behaviour.
* The HAL is not part of the repository.  Its answers are supplied by
  oracles stored in `Sys` (`tx_status`, `rx_line`, `it_status`, `events`), so
  theorems quantify over every behaviour of the transport.
-/

namespace FwChecker

/-! ## Error codes (`include/dfu_host.h`) -/

def DFU_HOST_ERR_NONE : Int := 0
def DFU_HOST_ERR_EIO : Int := -1000
def DFU_HOST_ERR_EINVAL : Int := -1001
def DFU_HOST_ERR_NACK : Int := -1002
def DFU_HOST_ERR_TIMEOUT : Int := -1003
def DFU_HOST_ERR_WRONG_ANS : Int := -1004
def DFU_HOST_ERR_OVERFLOW : Int := -1005

/-! ## Protocol constants (`dfu_host.c`) -/

def CONFIG_DFU_HOST_RX_BUFFER_SIZE : Nat := 256
def CONFIG_DFU_HOST_RECEIVE_TIMEOUT_MS : Nat := 1000

def DFU_HOST_CMD_ID_PING : Nat := 0x7F
def DFU_HOST_CMD_ID_GET : Nat := 0x00
def DFU_HOST_CMD_ID_GET_VERSION : Nat := 0x01
def DFU_HOST_CMD_ID_GET_ID : Nat := 0x02
def DFU_HOST_CMD_ID_READ_MEM : Nat := 0x11
def DFU_HOST_CMD_ID_GO : Nat := 0x21
def DFU_HOST_CMD_ID_WRITE_MEM : Nat := 0x31
def DFU_HOST_CMD_ID_WRITE_EXT_ERASE : Nat := 0x44
def DFU_HOST_CMD_ID_WRITE_PROTECT : Nat := 0x63
def DFU_HOST_CMD_ID_WRITE_UNPROTECT : Nat := 0x73
def DFU_HOST_CMD_ID_READOUT_PROTECT : Nat := 0x82
def DFU_HOST_CMD_ID_READOUT_UNPROTECT : Nat := 0x92

/-- The enumerators of `cmd_id_t`, in declaration order. -/
def cmd_id_t : List Nat :=
  [DFU_HOST_CMD_ID_PING, DFU_HOST_CMD_ID_GET, DFU_HOST_CMD_ID_GET_VERSION,
   DFU_HOST_CMD_ID_GET_ID, DFU_HOST_CMD_ID_READ_MEM, DFU_HOST_CMD_ID_GO,
   DFU_HOST_CMD_ID_WRITE_MEM, DFU_HOST_CMD_ID_WRITE_EXT_ERASE,
   DFU_HOST_CMD_ID_WRITE_PROTECT, DFU_HOST_CMD_ID_WRITE_UNPROTECT,
   DFU_HOST_CMD_ID_READOUT_PROTECT, DFU_HOST_CMD_ID_READOUT_UNPROTECT]

def DFU_HOST_RESP_ACK : Nat := 0x79
def DFU_HOST_RESP_NACK : Nat := 0x1F

/-! ## The environment: HAL, clock and board -/

/-- The HAL status codes, `HAL_StatusTypeDef`. -/
inductive HalStatus where
  | HAL_OK
  | HAL_ERROR
  | HAL_BUSY
  | HAL_TIMEOUT
  deriving DecidableEq, Repr

/-- What the serial line offers to one blocking `HAL_UART_Receive` call: the
bytes that arrive before its deadline, and whether the peripheral reports a
line error (framing, parity, overrun). -/
structure RxLine where
  fault : Bool
  bytes : List Nat
  deriving DecidableEq, Repr

/-- Something that happens while `recv` busy-waits: the UART receives one
byte (its interrupt handler runs), or `ms` milliseconds pass. -/
inductive Ev where
  | rx (b : Nat)
  | elapse (ms : Nat)
  deriving DecidableEq, Repr

/-- A call made by the program into the HAL or the board layer. -/
inductive Call where
  | transmit (frame : List Nat)
  | receive (len timeout : Nat)
  | receive_it (idx : Nat)
  | register_cb
  | abort_receive
  | delay (ms : Nat)
  | led_write (value : Bool)
  | reset_write (value : Bool)
  | boot0_write (value : Bool)
  deriving DecidableEq, Repr

/-- The automaton states, `app_state_t` of `main.c`. -/
inductive app_state_t where
  | APP_STATE_INITIAL
  | APP_STATE_READ_META
  | APP_STATE_CHECK_FW_CRC
  | APP_STATE_CHECK_DONE
  | APP_STATE_CHECK_FAILURE
  deriving DecidableEq, Repr

/-- The metadata record `fw_meta_t` of `main.c` (packed: 4 bytes of size, 2 bytes of CRC). -/
structure fw_meta_t where
  fw_size : Nat
  crc16 : Nat
  deriving DecidableEq, Repr

/-- The whole machine: build configuration, the statics of `dfu_host.c` and
`main.c`, and the environment. -/
structure Sys where
  /-- Whether `ASSERT_ON` is defined (the build does not define `NDEBUG`). -/
  assert_on : Bool
  /-- The `static UART_HandleTypeDef* huart` (`none` is `NULL`). -/
  huart : Option Nat
  /-- The `static uint8_t rcv_buffer[256]`; indices from 256 on lie outside the array. -/
  rcv_buffer : Nat → Nat
  /-- The `static size_t rcv_count`. -/
  rcv_count : Nat
  /-- The `static volatile bool rcv_cplt`. -/
  rcv_cplt : Bool
  /-- The `static volatile int rcv_err`. -/
  rcv_err : Int
  /-- The `static app_state_t app_state`. -/
  app_state : app_state_t
  /-- The `static fw_meta_t fw_meta`. -/
  fw_meta : fw_meta_t
  /-- The `static bool value` of the `APP_STATE_CHECK_DONE` case. -/
  led_done : Bool
  /-- The `static bool value` of the `APP_STATE_CHECK_FAILURE` case. -/
  led_failure : Bool
  /-- Status returned by the `i`-th call of `HAL_UART_Transmit`. -/
  tx_status : Nat → HalStatus
  /-- What the line offers to the `i`-th call of `HAL_UART_Receive`. -/
  rx_line : Nat → RxLine
  /-- Status returned by the `i`-th call of `HAL_UART_Receive_IT`. -/
  it_status : Nat → HalStatus
  /-- Number of `HAL_UART_Transmit` calls made so far. -/
  n_tx : Nat
  /-- Number of `HAL_UART_Receive` calls made so far. -/
  n_rx : Nat
  /-- Number of `HAL_UART_Receive_IT` calls made so far. -/
  n_it : Nat
  /-- Buffer index at which a pending interrupt-driven receive stores its byte. -/
  armed : Option Nat
  /-- Whether `rcv_complete_cb` is registered as the receive-complete callback. -/
  cb_registered : Bool
  /-- Milliseconds since start-up (not wrapped); `HAL_GetTick` reads it modulo `2 ^ 32`. -/
  now : Nat
  /-- What is still going to happen while the program busy-waits. -/
  events : List Ev
  /-- Every call made into the HAL and the board layer, oldest first. -/
  trace : List Call

/-- The frames handed to `HAL_UART_Transmit`, oldest first. -/
def tx_frames (tr : List Call) : List (List Nat) :=
  tr.filterMap fun c => match c with
    | Call.transmit f => some f
    | _ => none

/-- Model of `HAL_UART_Transmit(huart, buffer, size, HAL_MAX_DELAY)`. -/
def HAL_UART_Transmit (frame : List Nat) (s : Sys) : HalStatus × Sys :=
  (s.tx_status s.n_tx,
   { s with n_tx := s.n_tx + 1, trace := s.trace ++ [Call.transmit frame] })

/-- Store `bytes` (as `uint8_t`) into the buffer from index `start` on. -/
def store_bytes (buf : Nat → Nat) (start : Nat) (bytes : List Nat) : Nat → Nat :=
  fun i => if start ≤ i ∧ i < start + bytes.length then bytes.getD (i - start) 0 % 256 else buf i

/-- Model of `HAL_UART_Receive(huart, rcv_buffer, len, timeout)`: the bytes that arrive
in time are stored from the start of `rcv_buffer`, at most `len` of them; the
call reports `HAL_ERROR` on a line error, `HAL_TIMEOUT` when fewer than `len`
bytes arrived, `HAL_OK` otherwise. -/
def HAL_UART_Receive (len timeout : Nat) (s : Sys) : HalStatus × Sys :=
  let line := s.rx_line s.n_rx
  let st := if line.fault then HalStatus.HAL_ERROR
            else if line.bytes.length < len then HalStatus.HAL_TIMEOUT
            else HalStatus.HAL_OK
  (st, { s with n_rx := s.n_rx + 1,
                trace := s.trace ++ [Call.receive len timeout],
                rcv_buffer := store_bytes s.rcv_buffer 0 (line.bytes.take len) })

/-- Model of `HAL_UART_Receive_IT(huart, rcv_buffer + idx, 1)`. -/
def HAL_UART_Receive_IT (idx : Nat) (s : Sys) : HalStatus × Sys :=
  let st := s.it_status s.n_it
  (st, { s with n_it := s.n_it + 1,
                trace := s.trace ++ [Call.receive_it idx],
                armed := if st = HalStatus.HAL_OK then some idx else s.armed })

/-- Model of `HAL_UART_RegisterCallback(huart, HAL_UART_RX_COMPLETE_CB_ID, rcv_complete_cb)`. -/
def HAL_UART_RegisterCallback (s : Sys) : Sys :=
  { s with cb_registered := true, trace := s.trace ++ [Call.register_cb] }

/-- Model of `HAL_UART_AbortReceive_IT(huart)`. -/
def HAL_UART_AbortReceive_IT (s : Sys) : Sys :=
  { s with armed := none, trace := s.trace ++ [Call.abort_receive] }

/-- Model of `HAL_GetTick()`: a 32-bit millisecond counter. -/
def HAL_GetTick (s : Sys) : Nat := s.now % 2 ^ 32

/-- Model of `HAL_Delay(ms)`. -/
def HAL_Delay (ms : Nat) (s : Sys) : Sys :=
  { s with now := s.now + ms, trace := s.trace ++ [Call.delay ms] }

/-- Model of `board_led_write(value)`. -/
def board_led_write (value : Bool) (s : Sys) : Sys :=
  { s with trace := s.trace ++ [Call.led_write value] }

/-- Model of `board_reset_write(value)`. -/
def board_reset_write (value : Bool) (s : Sys) : Sys :=
  { s with trace := s.trace ++ [Call.reset_write value] }

/-- Value of `board_get_fw_meta_addr()`: `CONFIG_FW_META_ADDR` of both boards. -/
def board_get_fw_meta_addr : Nat := 0x0803F800

/-! ## `core/util.h` -/

/-- Function `bcd2bin`: `(10 * (bcd >> 4)) + (bcd & 0x0F)`, returned as `uint8_t`. -/
def bcd2bin (bcd : Nat) : Nat := (10 * (bcd >>> 4) + (bcd &&& 0x0F)) % 256

/-- Macro `MIN(a, b)`: `((a) < (b)) ? (a) : (b)`. -/
def MIN (a b : Nat) : Nat := if a < b then a else b

/-! ## `dfu_host.c` -/

/-- Function `calc_xor8(data, len)`: XOR of the first `len` bytes. -/
def calc_xor8 (data : List Nat) (len : Nat) : Nat :=
  (data.take len).foldl (fun result d => (result ^^^ d) &&& 0xFF) 0

/-- Function `start_rcv_next_byte()`. -/
def start_rcv_next_byte (s : Sys) : Int × Sys :=
  if s.rcv_count = CONFIG_DFU_HOST_RX_BUFFER_SIZE then
    (DFU_HOST_ERR_OVERFLOW, s)
  else
    let r := HAL_UART_Receive_IT s.rcv_count s
    if r.1 = HalStatus.HAL_OK then (DFU_HOST_ERR_NONE, r.2)
    else ( DFU_HOST_ERR_EIO, r.2)

/-- Function `recv_fixed(len, timeout)`. -/
def recv_fixed (len timeout : Nat) (s : Sys) : Option (Int × Sys) :=
  if s.assert_on = true ∧ ¬ (len ≤ CONFIG_DFU_HOST_RX_BUFFER_SIZE ∧ 0 < timeout) then none
  else
    let r := HAL_UART_Receive len timeout s
    if r.1 = HalStatus.HAL_OK then some ((len : Int), r.2)
    else some ( DFU_HOST_ERR_EIO, r.2)

/-- Function `send_data(buffer, size, rx_timeout_ms)`.  `buffer` is never `NULL` at
any call site, so the first `CHECK` always passes. -/
def send_data (buffer : List Nat) (size rx_timeout_ms : Nat) (s : Sys) : Option (Int × Sys) :=
  if size = 0 ∨ rx_timeout_ms = 0 then
    if s.assert_on then none else some (DFU_HOST_ERR_EINVAL, s)
  else
    let t := HAL_UART_Transmit (buffer.take size) s
    if t.1 = HalStatus.HAL_OK then
      match recv_fixed 1 rx_timeout_ms t.2 with
      | none => none
      | some (rc, s1) =>
        if rc < 0 then some (rc, s1)
        else if s1.rcv_buffer 0 = DFU_HOST_RESP_ACK then some (DFU_HOST_ERR_NONE, s1)
        else if s1.rcv_buffer 0 = DFU_HOST_RESP_NACK then some (DFU_HOST_ERR_NACK, s1)
        else some (DFU_HOST_ERR_WRONG_ANS, s1)
    else some ( DFU_HOST_ERR_EIO, t.2)

/-- Function `send_command(cmd, ack_timeout)`: `buffer[2] = { cmd, 0xFF ^ cmd }`, both
initialisers converted to `uint8_t`. -/
def send_command (cmd ack_timeout : Nat) (s : Sys) : Option (Int × Sys) :=
  send_data [cmd % 256, (0xFF ^^^ cmd) % 256] 2 ack_timeout s

/-- Function `rcv_complete_cb(handle)`: the `NACK` case falls through into the
`ACK` case. -/
def rcv_complete_cb (s : Sys) : Sys :=
  let data := s.rcv_buffer s.rcv_count
  if data = DFU_HOST_RESP_NACK then
    { s with rcv_err := DFU_HOST_ERR_NACK, rcv_cplt := true }
  else if data = DFU_HOST_RESP_ACK then
    { s with rcv_cplt := true }
  else
    let r := start_rcv_next_byte { s with rcv_count := s.rcv_count + 1 }
    if r.1 < 0 then { r.2 with rcv_err := r.1, rcv_cplt := true } else r.2

/-- One event during a busy-wait.  A byte that arrives while an
interrupt-driven receive is pending is stored at the armed index and the
registered callback runs; a byte that arrives otherwise is lost. -/
def on_event (e : Ev) (s : Sys) : Sys :=
  match e with
  | Ev.elapse ms => { s with now := s.now + ms }
  | Ev.rx b =>
    match s.armed with
    | none => s
    | some idx =>
      let s1 := { s with armed := none,
                         rcv_buffer := Function.update s.rcv_buffer idx (b % 256) }
      if s1.cb_registered then rcv_complete_cb s1 else s1

/-- The loop `while (rcv_cplt == false) { if (HAL_GetTick() >= end_tp) ... }` of
`recv`.  The flag and the tick are polled between any two events.  The result
is `true` when the loop was left because `rcv_cplt` was set and `false` when
the deadline passed (the receive is aborted); `none` when the events run out
while neither holds. -/
def recv_wait (end_tp : Nat) : List Ev → Sys → Option (Bool × Sys)
  | [], s =>
    if s.rcv_cplt then some (true, { s with events := [] })
    else if HAL_GetTick s ≥ end_tp then
      some (false, HAL_UART_AbortReceive_IT { s with events := [] })
    else none
  | e :: es, s =>
    if s.rcv_cplt then some (true, { s with events := e :: es })
    else if HAL_GetTick s ≥ end_tp then
      some (false, HAL_UART_AbortReceive_IT { s with events := e :: es })
    else recv_wait end_tp es (on_event e s)

/-- Function `recv(timeout)`. -/
def recv (timeout : Nat) (s : Sys) : Option (Int × Sys) :=
  if s.assert_on = true ∧ ¬ 0 < timeout then none
  else
    let s1 := HAL_UART_RegisterCallback s
    let s2 := { s1 with rcv_count := 0, rcv_cplt := false }
    let r := start_rcv_next_byte s2
    if r.1 < 0 then some (r.1, r.2)
    else
      let end_tp := (HAL_GetTick r.2 + timeout) % 2 ^ 32
      match recv_wait end_tp r.2.events r.2 with
      | none => none
      | some (false, s3) => some (DFU_HOST_ERR_TIMEOUT, s3)
      | some (true, s3) =>
        if s3.rcv_err ≠ 0 then some (s3.rcv_err, s3)
        else some ((s3.rcv_count : Int), s3)

/-- Function `dfu_host_ping(timeout)`. -/
def dfu_host_ping (timeout : Nat) (s : Sys) : Option (Int × Sys) :=
  if ¬ 0 < timeout then
    if s.assert_on then none else some (DFU_HOST_ERR_EINVAL, s)
  else send_data [DFU_HOST_CMD_ID_PING] 1 timeout s

/-- Function `dfu_host_get_version()`. -/
def dfu_host_get_version (s : Sys) : Option (Int × Sys) :=
  match send_command DFU_HOST_CMD_ID_GET_VERSION CONFIG_DFU_HOST_RECEIVE_TIMEOUT_MS s with
  | none => none
  | some (rc, s1) =>
    if rc < 0 then some (rc, s1)
    else
      match recv CONFIG_DFU_HOST_RECEIVE_TIMEOUT_MS s1 with
      | none => none
      | some (rc2, s2) =>
        if rc2 < 0 then some (rc2, s2)
        else if rc2 ≠ 3 then some (DFU_HOST_ERR_WRONG_ANS, s2)
        else some ((bcd2bin (s2.rcv_buffer 0) : Int), s2)

/-- Result of `dfu_host_get_id`: the return code and, on success, the index in
`rcv_buffer` at which `*id` points and the value of `*id_len`. -/
structure GetId where
  rc : Int
  id : Option Nat
  id_len : Option Nat
  deriving DecidableEq, Repr

/-- Function `dfu_host_get_id(id, id_len)`; both out-pointers are non-`NULL` at
the only call site. -/
def dfu_host_get_id (s : Sys) : Option (GetId × Sys) :=
  match send_command DFU_HOST_CMD_ID_GET_ID CONFIG_DFU_HOST_RECEIVE_TIMEOUT_MS s with
  | none => none
  | some (rc, s1) =>
    if rc < 0 then some (⟨rc, none, none⟩, s1)
    else
      match recv CONFIG_DFU_HOST_RECEIVE_TIMEOUT_MS s1 with
      | none => none
      | some (rc2, s2) =>
        if rc2 < 0 then some (⟨rc2, none, none⟩, s2)
        else if rc2 = 0 then some (⟨DFU_HOST_ERR_WRONG_ANS, none, none⟩, s2)
        else some (⟨DFU_HOST_ERR_NONE, some 1, some (rc2 - 1).toNat⟩, s2)

/-- The five bytes `buff[0..5)` built from a 32-bit address:
`address >> 24`, `address >> 16`, `address >> 8`, `address` (each converted to
`uint8_t`) and `calc_xor8(buff, 4)`. -/
def address_frame (address : Nat) : List Nat :=
  let buff := [(address >>> 24) % 256, (address >>> 16) % 256, (address >>> 8) % 256,
               address % 256, 0]
  buff.set 4 (calc_xor8 buff 4)

/-- Function `dfu_host_read_memory(address, result, len)`; `result` is non-`NULL`
at every call site and is set to `rcv_buffer` on success. -/
def dfu_host_read_memory (address len : Nat) (s : Sys) : Option (Int × Sys) :=
  if len = 0 ∨ ¬ len ≤ CONFIG_DFU_HOST_RX_BUFFER_SIZE then
    if s.assert_on then none else some (DFU_HOST_ERR_EINVAL, s)
  else
    match send_command DFU_HOST_CMD_ID_READ_MEM CONFIG_DFU_HOST_RECEIVE_TIMEOUT_MS s with
    | none => none
    | some (rc, s1) =>
      if rc < 0 then some (rc, s1)
      else
        let buff := address_frame address
        match send_data buff 5 CONFIG_DFU_HOST_RECEIVE_TIMEOUT_MS s1 with
        | none => none
        | some (rc2, s2) =>
          if rc2 < 0 then some (rc2, s2)
          else
            let buff1 := buff.set 0 ((len - 1) % 256)
            let buff2 := buff1.set 1 ((0xFF ^^^ buff1.getD 0 0) % 256)
            match send_data buff2 2 CONFIG_DFU_HOST_RECEIVE_TIMEOUT_MS s2 with
            | none => none
            | some (rc3, s3) =>
              if rc3 < 0 then some (rc3, s3)
              else
                match recv_fixed len CONFIG_DFU_HOST_RECEIVE_TIMEOUT_MS s3 with
                | none => none
                | some (rc4, s4) => some (rc4, s4)

/-- Function `dfu_host_go(address)`. -/
def dfu_host_go (address : Nat) (s : Sys) : Option (Int × Sys) :=
  match send_command DFU_HOST_CMD_ID_GO CONFIG_DFU_HOST_RECEIVE_TIMEOUT_MS s with
  | none => none
  | some (rc, s1) =>
    if rc < 0 then some (rc, s1)
    else send_data (address_frame address) 5 CONFIG_DFU_HOST_RECEIVE_TIMEOUT_MS s1

/-- Function `dfu_host_readout_unprotect()`. -/
def dfu_host_readout_unprotect (s : Sys) : Option (Int × Sys) :=
  match send_command DFU_HOST_CMD_ID_READOUT_UNPROTECT CONFIG_DFU_HOST_RECEIVE_TIMEOUT_MS s with
  | none => none
  | some (rc, s1) =>
    if rc < 0 then some (rc, s1)
    else recv CONFIG_DFU_HOST_RECEIVE_TIMEOUT_MS s1

/-! ## `core/crc.h` (not among the sources) -/

/-- One bit of the reflected (LSB-first) CRC-16 register update. -/
def crc16_bit (poly crc : Nat) : Nat :=
  if crc % 2 = 1 then (crc >>> 1) ^^^ poly else crc >>> 1

/-- One byte of the reflected CRC-16: the byte is XORed into the low half of
the register, which is then shifted eight times. -/
def crc16_byte (poly crc b : Nat) : Nat :=
  (crc16_bit poly)^[8] (crc ^^^ b)

/-- Modelled from the spec: `crc16_reflect(poly, seed, src, len)` of the absent
`core/crc.h`, the CRC-16 "using polynomial 0xA001 applied in reflected
(LSB-first) form", continued from the register value `seed` over the bytes of
`src`. -/
def crc16_reflect (poly seed : Nat) (src : List Nat) : Nat :=
  src.foldl (crc16_byte poly) seed

/-! ## `main.c` -/

/-- The first `n` bytes of the receive buffer. -/
def rcv_bytes (s : Sys) (n : Nat) : List Nat :=
  (List.range n).map s.rcv_buffer

/-- The packed `fw_meta_t` read through a pointer to the receive buffer
(little-endian target): `fw_size` from bytes 0 to 3, `crc16` from bytes 4 and 5. -/
def fw_meta_of_buffer (buf : Nat → Nat) : fw_meta_t :=
  { fw_size := buf 0 + buf 1 * 2 ^ 8 + buf 2 * 2 ^ 16 + buf 3 * 2 ^ 24,
    crc16 := buf 4 + buf 5 * 2 ^ 8 }

/-- Function `read_fw_meta(&fw_meta)`; `sizeof(fw_meta_t)` is 6. -/
def read_fw_meta (s : Sys) : Option (Int × Sys) :=
  match dfu_host_read_memory board_get_fw_meta_addr 6 s with
  | none => none
  | some (rc, s1) =>
    if rc < 0 then some (rc, s1)
    else some (0, { s1 with fw_meta := fw_meta_of_buffer s1.rcv_buffer })

/-- The loop `for (int i = 0; i < 5; ++i)` of the `APP_STATE_INITIAL` case, with
`n` iterations left.  The `return` after a successful ping leaves the whole
function, as does falling out of the loop (`break` of the case). -/
def ping_loop : Nat → Sys → Option Sys
  | 0, s => some s
  | n + 1, s =>
    match dfu_host_ping 1000 s with
    | none => none
    | some (rc, s1) =>
      if rc = 0 then some { s1 with app_state := app_state_t.APP_STATE_READ_META }
      else ping_loop n (HAL_Delay 1000 s1)

/-- The loop `for (uint8_t i = 0; i < 5; ++i)` of the `APP_STATE_CHECK_FW_CRC`
case, with `n` iterations left; the result is `(rc, err_cnt)` at loop exit. -/
def read_retry (addr sz : Nat) : Nat → Int → Nat → Sys → Option ((Int × Nat) × Sys)
  | 0, rc, err_cnt, s => some ((rc, err_cnt), s)
  | n + 1, _, err_cnt, s =>
    match dfu_host_read_memory addr sz s with
    | none => none
    | some (rc, s1) =>
      if rc > 0 then some ((rc, 0), s1)
      else read_retry addr sz n rc ((err_cnt + 1) % 256) s1

/-- The locals `data_left`, `crc` and `addr` of the `APP_STATE_CHECK_FW_CRC` case. -/
structure check_vars where
  data_left : Nat
  crc : Nat
  addr : Nat
  deriving DecidableEq, Repr

/-- The loop `while (data_left != 0)` of the `APP_STATE_CHECK_FW_CRC` case; the
result holds the values of the locals at loop exit.  The loop is unrolled at
most `fuel` times (`none` when that is not enough). -/
def check_loop : Nat → check_vars → Sys → Option (check_vars × Sys)
  | 0, v, s => if v.data_left = 0 then some (v, s) else none
  | fuel + 1, v, s =>
    if v.data_left = 0 then some (v, s)
    else
      let sz := MIN v.data_left 256
      match read_retry v.addr sz 5 0 0 s with
      | none => none
      | some ((rc, err_cnt), s1) =>
        if err_cnt ≠ 0 then
          some (v, { s1 with app_state := app_state_t.APP_STATE_INITIAL })
        else
          check_loop fuel
            { data_left := v.data_left - sz,
              crc := crc16_reflect 0xA001 v.crc (rcv_bytes s1 rc.toNat),
              addr := (v.addr + sz) % 2 ^ 32 } s1

/-- Function `app_dispatch()`: one step of the automaton.  Log output is not
modelled.  Every iteration of the `while` loop of `APP_STATE_CHECK_FW_CRC`
lowers `data_left` by at least one, so `fw_size` unrollings are enough. -/
def app_dispatch (s : Sys) : Option Sys :=
  match s.app_state with
  | app_state_t.APP_STATE_INITIAL =>
    ping_loop 5 (HAL_Delay 1000 (board_reset_write true
      (HAL_Delay 100 (board_reset_write false s))))
  | app_state_t.APP_STATE_READ_META =>
    match dfu_host_get_id s with
    | none => none
    | some (r, s1) =>
      if r.rc < 0 then some s1
      else
        match dfu_host_get_version s1 with
        | none => none
        | some (rc, s2) =>
          if rc < 0 then some s2
          else
            match read_fw_meta s2 with
            | none => none
            | some (rc3, s3) =>
              if rc3 < 0 then
                match dfu_host_readout_unprotect
                    { s3 with app_state := app_state_t.APP_STATE_INITIAL } with
                | none => none
                | some (_, s4) => some (HAL_Delay 1000 s4)
              else some { s3 with app_state := app_state_t.APP_STATE_CHECK_FW_CRC }
  | app_state_t.APP_STATE_CHECK_FW_CRC =>
    match check_loop s.fw_meta.fw_size
        { data_left := s.fw_meta.fw_size, crc := 0xFFFF, addr := 0x08000000 } s with
    | none => none
    | some (v, s1) =>
      if s1.fw_meta.crc16 ≠ v.crc then
        some { s1 with app_state := app_state_t.APP_STATE_CHECK_FAILURE }
      else
        match dfu_host_go 0x08000000 s1 with
        | none => none
        | some (rc, s2) =>
          if rc < 0 then some { s2 with app_state := app_state_t.APP_STATE_CHECK_FAILURE }
          else some { s2 with app_state := app_state_t.APP_STATE_CHECK_DONE }
  | app_state_t.APP_STATE_CHECK_DONE =>
    some (HAL_Delay 1000 (board_led_write (!s.led_done) { s with led_done := !s.led_done }))
  | app_state_t.APP_STATE_CHECK_FAILURE =>
    some (HAL_Delay 150
      (board_led_write (!s.led_failure) { s with led_failure := !s.led_failure }))

/-! ## Auxiliary notions used in the statements -/

/-- What no function of `dfu_host.c` changes: the build configuration, the
statics of `main.c` and the oracles of the environment; the trace only grows. -/
structure Frame (s t : Sys) : Prop where
  assert_on : t.assert_on = s.assert_on
  app_state : t.app_state = s.app_state
  fw_meta : t.fw_meta = s.fw_meta
  led_done : t.led_done = s.led_done
  led_failure : t.led_failure = s.led_failure
  tx_status : t.tx_status = s.tx_status
  rx_line : t.rx_line = s.rx_line
  it_status : t.it_status = s.it_status
  trace : ∃ l, t.trace = s.trace ++ l

/-! ## Concrete machines used to exercise the statements -/

/-- A release build (`NDEBUG`) just after start-up, facing a device that
acknowledges every frame with `ACK`; nothing happens during busy-waits. -/
def sys_ack : Sys :=
  { assert_on := false, huart := some 0, rcv_buffer := fun _ => 0, rcv_count := 0,
    rcv_cplt := false, rcv_err := 0, app_state := app_state_t.APP_STATE_INITIAL,
    fw_meta := ⟨0, 0⟩, led_done := false, led_failure := false,
    tx_status := fun _ => HalStatus.HAL_OK, rx_line := fun _ => ⟨false, [0x79]⟩,
    it_status := fun _ => HalStatus.HAL_OK, n_tx := 0, n_rx := 0, n_it := 0, armed := none,
    cb_registered := false, now := 0, events := [], trace := [] }

/-- The machine `sys_ack` with three bytes about to arrive during busy-waits:
a `NACK`, then the data byte `0x41` and an `ACK`. -/
def sys_nack_then_data : Sys :=
  { sys_ack with events := [Ev.rx 0x1F, Ev.rx 0x41, Ev.rx 0x79] }

/-- A machine in `APP_STATE_CHECK_FW_CRC` with metadata `{fw_size = 256,
crc16 = 0xBEEF}` whose every `HAL_UART_Transmit` fails, so that every
`dfu_host_read_memory` fails. -/
def sys_read_fails : Sys :=
  { sys_ack with app_state := app_state_t.APP_STATE_CHECK_FW_CRC, fw_meta := ⟨256, 0xBEEF⟩,
                 tx_status := fun _ => HalStatus.HAL_ERROR }

/-- A machine in `APP_STATE_CHECK_FW_CRC` with metadata `{fw_size = 256,
crc16 = 0xFFFF}` facing a device that answers `NACK` to the first five frames
(the five Read-Memory commands) and `ACK` to every later frame. -/
def sys_read_nacked : Sys :=
  { sys_ack with app_state := app_state_t.APP_STATE_CHECK_FW_CRC, fw_meta := ⟨256, 0xFFFF⟩,
                 rx_line := fun i => if i < 5 then ⟨false, [0x1F]⟩ else ⟨false, [0x79]⟩ }

/-- A machine in `APP_STATE_READ_META` facing a device that acknowledges the
Get-ID command, replies to it with `01 04 32` and `ACK`, and answers `NACK`
to the next frame (the Get-Version command). -/
def sys_get_version_nacked : Sys :=
  { sys_ack with app_state := app_state_t.APP_STATE_READ_META,
                 rx_line := fun i => if i = 1 then ⟨false, [0x1F]⟩ else ⟨false, [0x79]⟩,
                 events := [Ev.rx 0x01, Ev.rx 0x04, Ev.rx 0x32, Ev.rx 0x79] }

/-- The `k`-th ping (counted from 0) of the `APP_STATE_INITIAL` loop, for the
statement of what the loop does: the pings before it have been issued, each
followed by `HAL_Delay(1000)`. -/
def ping_attempt : Nat → Sys → Option (Int × Sys)
  | 0, s => dfu_host_ping 1000 s
  | k + 1, s =>
    match dfu_host_ping 1000 s with
    | none => none
    | some (_, s1) => ping_attempt k (HAL_Delay 1000 s1)

/-- The reset pulse that opens the `APP_STATE_INITIAL` case:
`board_reset_write(0); HAL_Delay(100); board_reset_write(1); HAL_Delay(1000);`. -/
def reset_pulse (s : Sys) : Sys :=
  HAL_Delay 1000 (board_reset_write true (HAL_Delay 100 (board_reset_write false s)))

/-- A machine in `APP_STATE_INITIAL` facing a device that stays silent during
the first two pings and answers `ACK` to the third. -/
def sys_third_ping_acked : Sys :=
  { sys_ack with rx_line := fun i => if i < 2 then ⟨false, []⟩ else ⟨false, [0x79]⟩ }

/-- The calls of one successful `dfu_host_read_memory(addr, &rd, len)`: command
`11 EE`, address frame and length frame, each followed by the one-byte receive
of its acknowledgment, then the receive of the `len` data bytes. -/
def read_exchange (addr len : Nat) : List Call :=
  [Call.transmit [0x11, 0xEE], Call.receive 1 1000,
   Call.transmit (address_frame addr), Call.receive 1 1000,
   Call.transmit [len - 1, 0xFF ^^^ (len - 1)], Call.receive 1 1000,
   Call.receive len 1000]

/-- Number of chunks of at most 256 bytes in `fw_size` bytes: `ceil(fw_size / 256)`. -/
def chunk_count (fw_size : Nat) : Nat := (fw_size + 255) / 256

/-- The device answers the coming Read-Memory exchanges with the image `img`,
256 bytes at a time: every transmit succeeds, the three frames of the `j`-th
exchange are acknowledged with `ACK`, and its data phase delivers the bytes
`img[256 j ..]` (at most 256 of them). -/
def image_served (s : Sys) (img : List Nat) : Prop :=
  (∀ i, s.tx_status (s.n_tx + i) = HalStatus.HAL_OK)
  ∧ ∀ j, j < chunk_count img.length →
      (∀ k, k < 3 → s.rx_line (s.n_rx + 4 * j + k) = ⟨false, [0x79]⟩)
      ∧ s.rx_line (s.n_rx + 4 * j + 3) = ⟨false, (img.drop (256 * j)).take 256⟩

/-- The machine after one served Read-Memory exchange (see
`dfu_host_read_memory_ok`): three more transmits, four more blocking receives,
the calls `read_exchange addr len` appended to the trace, and the three `ACK`
bytes and then `data` stored from the start of the receive buffer. -/
def after_read (s : Sys) (addr len : Nat) (data : List Nat) : Sys :=
  { s with n_tx := s.n_tx + 3, n_rx := s.n_rx + 4,
           trace := s.trace ++ read_exchange addr len,
           rcv_buffer := store_bytes (store_bytes (store_bytes
             (store_bytes s.rcv_buffer 0 [0x79]) 0 [0x79]) 0 [0x79]) 0 data }

/-- A device that serves the image `img` to Read-Memory exchanges that follow
one another from the first blocking receive on: every fourth receive is the
data phase of an exchange and gets the next 256 bytes of the image, every
other receive gets `ACK`. -/
def device_serving (img : List Nat) : Nat → RxLine :=
  fun i => if i % 4 = 3 then ⟨false, (img.drop (256 * (i / 4))).take 256⟩ else ⟨false, [0x79]⟩

/-- A machine in `APP_STATE_CHECK_FW_CRC` whose metadata announce the size of
`img` and the checksum `crc16`, facing `device_serving img`. -/
def sys_image (img : List Nat) (crc16 : Nat) : Sys :=
  { sys_ack with app_state := app_state_t.APP_STATE_CHECK_FW_CRC,
                 fw_meta := ⟨img.length, crc16⟩,
                 rx_line := device_serving img }

/-- An image of 512 bytes (two chunks of 256) whose CRC-16 is `0xBEEF`. -/
def image_beef : List Nat :=
  (List.range 510).map (fun i => (7 * i + 3) % 256) ++ [177, 148]

/-- An image of 512 bytes (two chunks of 256) whose CRC-16 is `0x0000`. -/
def image_zero_crc : List Nat :=
  List.replicate 510 0 ++ [255, 228]

/-- The machine `sys_image image_beef 0xBEEF` with a device that answers `NACK`
to the ninth frame (the Go command, after the eight receives of the two
Read-Memory exchanges). -/
def sys_beef_go_nacked : Sys :=
  { sys_image image_beef 0xBEEF with
    rx_line := fun i => if i = 8 then ⟨false, [0x1F]⟩ else device_serving image_beef i }

/-! ## Notions for the XOR-8 checksum statements -/

/-- The XOR of all bytes of a list, without truncation. -/
def xor_all (l : List Nat) : Nat := l.foldl (fun r d => r ^^^ d) 0

/-- Number of bits set among the eight low bits of `e`, that is, the number of
bits of a byte that XOR-ing it with the mask `e` flips. -/
def flipped_bits (e : Nat) : Nat := ((List.range 8).filter fun i => e.testBit i).length

/-- The frame `frame` after a corruption that flips, in its `i`-th byte, the
bits set in the `i`-th mask of `errs`. -/
def corrupt (frame errs : List Nat) : List Nat :=
  List.zipWith (fun b e => b ^^^ e) frame errs

/-! ## `dfu_host.c`: the write operations -/

/-- The store `buf[i] = v` into a local `uint8_t` array; `none` when `i` lies
outside the array. -/
def array_store (buf : List Nat) (i v : Nat) : Option (List Nat) :=
  if i < buf.length then some (buf.set i (v % 256)) else none

/-- The call `memcpy(buf + off, src, n)` into a local `uint8_t` array; `none` when
the copy reads past the end of `src` or writes past the end of `buf`. -/
def array_memcpy (buf : List Nat) (off : Nat) (src : List Nat) (n : Nat) : Option (List Nat) :=
  if n ≤ src.length ∧ off + n ≤ buf.length then
    some (buf.take off ++ (src.take n).map (fun b => b % 256) ++ buf.drop (off + n))
  else none

/-- The three statements `buf[0] = n - 1; memcpy(buf + 1, src, n);
buf[n + 1] = calc_xor8(buf, n + 1);` that `dfu_host_write_memory` and
`dfu_host_write_protect_sectors` run on their local array `buf` of `size`
elements.  The array is not initialised; every element read afterwards has
been written by then. -/
def fill_payload (size : Nat) (src : List Nat) (n : Nat) : Option (List Nat) :=
  (array_store (List.replicate size 0) 0 (n - 1)).bind fun b0 =>
  (array_memcpy b0 1 src n).bind fun b1 =>
  array_store b1 (n + 1) (calc_xor8 b1 (n + 1))

/-- Function `dfu_host_write_memory(address, data, len)`, with `data` a non-`NULL`
pointer to the bytes of the list; the local array is `uint8_t buf[256 + 1]`. -/
def dfu_host_write_memory (address : Nat) (data : List Nat) (len : Nat) (s : Sys) :
    Option (Int × Sys) :=
  if len = 0 ∨ ¬ len ≤ 256 then
    if s.assert_on then none else some (DFU_HOST_ERR_EINVAL, s)
  else
    match send_command DFU_HOST_CMD_ID_WRITE_MEM CONFIG_DFU_HOST_RECEIVE_TIMEOUT_MS s with
    | none => none
    | some (rc, s1) =>
      if rc < 0 then some (rc, s1)
      else
        match send_data (address_frame address) 5 CONFIG_DFU_HOST_RECEIVE_TIMEOUT_MS s1 with
        | none => none
        | some (rc2, s2) =>
          if rc2 < 0 then some (rc2, s2)
          else
            match fill_payload (256 + 1) data len with
            | none => none
            | some buf =>
              match send_data buf (len + 2) CONFIG_DFU_HOST_RECEIVE_TIMEOUT_MS s2 with
              | none => none
              | some (rc3, s3) =>
                if rc3 < 0 then some (rc3, s3) else some ((len : Int), s3)

/-- Function `dfu_host_write_protect_sectors(sectors, count)`, with `sectors` a
non-`NULL` pointer to the bytes of the list; the local array is
`uint8_t buf[count + 2]`. -/
def dfu_host_write_protect_sectors (sectors : List Nat) (count : Nat) (s : Sys) :
    Option (Int × Sys) :=
  if count = 0 then
    if s.assert_on then none else some (DFU_HOST_ERR_EINVAL, s)
  else
    match send_command DFU_HOST_CMD_ID_WRITE_PROTECT CONFIG_DFU_HOST_RECEIVE_TIMEOUT_MS s with
    | none => none
    | some (rc, s1) =>
      if rc < 0 then some (rc, s1)
      else
        match fill_payload (count + 2) sectors count with
        | none => none
        | some buf => send_data buf (count + 2) CONFIG_DFU_HOST_RECEIVE_TIMEOUT_MS s1

/-- The local array of `dfu_host_write_protect_area` after its loop
`for (uint8_t i = 0; i < len; ++i) sectors[i] = start + i;`: `len` elements, each
converted to `uint8_t`. -/
def area_sectors (start len : Nat) : List Nat :=
  (List.range len).map fun i => (start + i) % 256

/-- Function `dfu_host_write_protect_area(start, end)` for 16-bit `start` and
`end`: `const uint8_t len = end - start + 1` is computed in `int` and cut to
eight bits; the array `uint8_t sectors[len]` is taken to be empty when `len`
is 0. -/
def dfu_host_write_protect_area (start end_ : Nat) (s : Sys) : Option (Int × Sys) :=
  if ¬ start ≤ end_ then
    if s.assert_on then none else some (DFU_HOST_ERR_EINVAL, s)
  else
    let len := (end_ - start + 1) % 256
    dfu_host_write_protect_sectors (area_sectors start len) len s

/-- The machine `sys_ack` in a debug build (`NDEBUG` not defined, so `ASSERT_ON` is). -/
def sys_debug : Sys :=
  { sys_ack with assert_on := true }

/-- The machine `sys_ack` facing a device that acknowledges three frames and
then delivers the six bytes `00 02 00 00 EF BE`. -/
def sys_six_bytes : Sys :=
  { sys_ack with
    rx_line := fun i => if i = 3 then ⟨false, [0x00, 0x02, 0x00, 0x00, 0xEF, 0xBE]⟩
                        else ⟨false, [0x79]⟩ }

/-- The machine `sys_ack` with the bytes `reply` about to arrive during the
busy-wait of the next `recv`. -/
def sys_reply (reply : List Nat) : Sys :=
  { sys_ack with events := reply.map Ev.rx }

/-! ## `dfu_host.c`: the remaining public operations -/

/-- Function `dfu_host_init(handle)` (`none` is a `NULL` handle): the check is
`ASSERT_NO_MSG(handle != NULL)`, which is empty without `ASSERT_ON`. -/
def dfu_host_init (handle : Option Nat) (s : Sys) : Option (Int × Sys) :=
  if s.assert_on = true ∧ handle = none then none
  else some (0, { s with huart := handle })

/-- Function `dfu_host_erase_all()`: `buf[3] = { 0 }; buf[0] = 0xFF; buf[1] = 0xFF;
buf[2] = calc_xor8(buf, 2);`. -/
def dfu_host_erase_all (s : Sys) : Option (Int × Sys) :=
  match send_command DFU_HOST_CMD_ID_WRITE_EXT_ERASE CONFIG_DFU_HOST_RECEIVE_TIMEOUT_MS s with
  | none => none
  | some (rc, s1) =>
    if rc < 0 then some (rc, s1)
    else
      let buf := ([0, 0, 0].set 0 0xFF).set 1 0xFF
      send_data (buf.set 2 (calc_xor8 buf 2)) 3 CONFIG_DFU_HOST_RECEIVE_TIMEOUT_MS s1

/-- Function `dfu_host_write_unprotect()`. -/
def dfu_host_write_unprotect (s : Sys) : Option (Int × Sys) :=
  match send_command DFU_HOST_CMD_ID_WRITE_UNPROTECT CONFIG_DFU_HOST_RECEIVE_TIMEOUT_MS s with
  | none => none
  | some (rc, s1) =>
    if rc < 0 then some (rc, s1)
    else recv CONFIG_DFU_HOST_RECEIVE_TIMEOUT_MS s1

/-- Function `dfu_host_readout_protect()`. -/
def dfu_host_readout_protect (s : Sys) : Option (Int × Sys) :=
  match send_command DFU_HOST_CMD_ID_READOUT_PROTECT CONFIG_DFU_HOST_RECEIVE_TIMEOUT_MS s with
  | none => none
  | some (rc, s1) =>
    if rc < 0 then some (rc, s1)
    else recv CONFIG_DFU_HOST_RECEIVE_TIMEOUT_MS s1

/-- The receive buffer invariant: the count of received bytes does not exceed
the capacity of `rcv_buffer`, a pending interrupt-driven receive stores its
byte at `rcv_buffer[rcv_count]` inside the array, and every
`HAL_UART_Receive_IT` call made so far was given an address inside the array. -/
def rcv_inv (s : Sys) : Prop :=
  s.rcv_count ≤ 256
  ∧ (∀ idx, s.armed = some idx → idx = s.rcv_count ∧ idx < 256)
  ∧ ∀ idx, Call.receive_it idx ∈ s.trace → idx < 256

/-- The machine `sys_ack` with the tick counter at `t0` when `recv` is entered;
no byte arrives, and `ms` milliseconds pass during the busy-wait. -/
def sys_waiting (t0 ms : Nat) : Sys :=
  { sys_ack with now := t0, events := [Ev.elapse ms] }

/-- The machine `sys_ack` facing a device that never answers: every blocking
receive ends at its deadline with no byte received. -/
def sys_silent : Sys :=
  { sys_ack with rx_line := fun _ => ⟨false, []⟩ }

/-- The machine `sys_ack` facing a device that acknowledges three frames and
then sends nothing. -/
def sys_data_silent : Sys :=
  { sys_ack with rx_line := fun i => if i = 3 then ⟨false, []⟩ else ⟨false, [0x79]⟩ }

/-- The machine `sys_ack` facing a device that answers every frame with `NACK`. -/
def sys_nack : Sys :=
  { sys_ack with rx_line := fun _ => ⟨false, [0x1F]⟩ }

/-- Fail-fast sequencing, after the words of the specification ("every error
surfaces immediately to its caller"): the steps run in the given order, each
at most once; the first step that returns an error (a negative code) ends
the run with that error and in the state that step left, and no later step
runs; otherwise the result is that of the last step. -/
def fail_fast : List (Sys → Option (Int × Sys)) → Sys → Option (Int × Sys)
  | [], s => some (0, s)
  | [f], s => f s
  | f :: g :: fs, s =>
    match f s with
    | none => none
    | some (rc, t) => if rc < 0 then some (rc, t) else fail_fast (g :: fs) t

/-- A return value of the closed result set: non-negative, or one of the six
error codes of `dfu_host_err_t`. -/
def closed_result (rc : Int) : Prop :=
  0 ≤ rc ∨ rc = DFU_HOST_ERR_EIO ∨ rc = DFU_HOST_ERR_EINVAL ∨ rc = DFU_HOST_ERR_NACK
    ∨ rc = DFU_HOST_ERR_TIMEOUT ∨ rc = DFU_HOST_ERR_WRONG_ANS ∨ rc = DFU_HOST_ERR_OVERFLOW

/-- The frames `F` of an operation went out fail-fast between the state `s` and
the result `(rc, t)`: what was transmitted is a prefix of `F`, each frame once
and in order, and the whole of `F` unless `rc` is an error. -/
def sent_prefix (F : List (List Nat)) (s : Sys) (rc : Int) (t : Sys) : Prop :=
  ∃ k, k ≤ F.length ∧ tx_frames t.trace = tx_frames s.trace ++ F.take k
    ∧ (k < F.length → rc < 0)

/-- An operation keeps to the closed result set: started in a state whose
pending receive error `rcv_err` is of the closed set (it is 0 at start-up), it
returns a value of the closed set and leaves such a state behind. -/
def closed_op (f : Sys → Option (Int × Sys)) : Prop :=
  ∀ (s : Sys) (rc : Int) (t : Sys), closed_result s.rcv_err → f s = some (rc, t) →
    closed_result rc ∧ closed_result t.rcv_err

/-- A machine in `APP_STATE_READ_META` facing a device that acknowledges every
frame, replies `01 04 15` and `ACK` to Get-ID, `31 00 00` and `ACK` to
Get-Version, and delivers the metadata bytes `00 02 00 00 EF BE` (size 512,
CRC `0xBEEF`) to the Read-Memory. -/
def sys_read_meta : Sys :=
  { sys_ack with
    app_state := app_state_t.APP_STATE_READ_META,
    rx_line := fun i => if i = 5 then ⟨false, [0x00, 0x02, 0x00, 0x00, 0xEF, 0xBE]⟩
                        else ⟨false, [0x79]⟩,
    events := [Ev.rx 0x01, Ev.rx 0x04, Ev.rx 0x15, Ev.rx 0x79,
               Ev.rx 0x31, Ev.rx 0x00, Ev.rx 0x00, Ev.rx 0x79] }

/-- A machine in `APP_STATE_CHECK_FW_CRC` whose metadata was read from an erased
flash page (`fw_size = 0xFFFFFFFF`, `crc16 = 0xFFFF`), facing a device that
answers `NACK` to the first five frames (the five Read-Memory commands for the
first chunk) and `ACK` to every later frame. -/
def sys_erased_meta : Sys :=
  { sys_ack with app_state := app_state_t.APP_STATE_CHECK_FW_CRC,
                 fw_meta := ⟨0xFFFFFFFF, 0xFFFF⟩,
                 rx_line := fun i => if i < 5 then ⟨false, [0x1F]⟩ else ⟨false, [0x79]⟩ }

/-- The indices of the local array `buf` that `dfu_host_write_memory` writes for a
block of `len` bytes: `buf[0] = len - 1`, then `memcpy(buf + 1, data, len)`, then
`buf[len + 1] = ...`. -/
def payload_writes (len : Nat) : List Nat :=
  0 :: (List.range len).map (fun i => 1 + i) ++ [len + 1]

/-- The indices of the local array `buf` that `dfu_host_write_memory` reads for a
block of `len` bytes: `calc_xor8(buf, len + 1)` reads the first `len + 1`
elements and `send_data(buf, len + 2, ...)` hands the first `len + 2` elements
to the transmit. -/
def payload_reads (len : Nat) : List Nat :=
  List.range (len + 1) ++ List.range (len + 2)

/-- Function `bin2bcd` of `core/util.h`: `((bin / 10) << 4) | (bin % 10)`, returned
as `uint8_t`. -/
def bin2bcd (bin : Nat) : Nat := (((bin / 10) <<< 4) ||| (bin % 10)) % 256

/-- Every element of `rcv_buffer` holds a byte (it is a `uint8_t` array). -/
def buffer_bytes (s : Sys) : Prop := ∀ i, s.rcv_buffer i < 256

/-- The number of `dfu_host_read_memory` calls that the loop `read_retry` makes
with `n` iterations left: one per iteration, until a call returns a positive
value. -/
def read_retry_calls (addr sz : Nat) : Nat → Sys → Option Nat
  | 0, _ => some 0
  | n + 1, s =>
    match dfu_host_read_memory addr sz s with
    | none => none
    | some (rc, s1) =>
      if rc > 0 then some 1
      else (read_retry_calls addr sz n s1).map fun k => k + 1

/-- The number of iterations of the loop `check_loop` and the number of
`dfu_host_read_memory` calls made in them: an iteration whose reads all fail is
the last one. -/
def check_loop_counts : Nat → check_vars → Sys → Option (Nat × Nat)
  | 0, v, _ => if v.data_left = 0 then some (0, 0) else none
  | fuel + 1, v, s =>
    if v.data_left = 0 then some (0, 0)
    else
      let sz := MIN v.data_left 256
      match read_retry v.addr sz 5 0 0 s, read_retry_calls v.addr sz 5 s with
      | some ((rc, err_cnt), s1), some k =>
        if err_cnt ≠ 0 then some (1, k)
        else
          (check_loop_counts fuel
            { data_left := v.data_left - sz,
              crc := crc16_reflect 0xA001 v.crc (rcv_bytes s1 rc.toNat),
              addr := (v.addr + sz) % 2 ^ 32 } s1).map fun p => (p.1 + 1, p.2 + k)
      | _, _ => none

/-! ## `core/critical_section.c` -/

/-- The statics of `critical_section.c`, the interrupt mask of the core and the
build configuration. -/
structure CritState where
  /-- Whether `ASSERT_ON` is defined. -/
  assert_on : Bool
  /-- The `static uint32_t critical_section_reentrancy_counter`. -/
  critical_section_reentrancy_counter : Nat
  /-- The `static bool critical_interrupts_enabled`. -/
  critical_interrupts_enabled : Bool
  /-- The `static bool state_saved`. -/
  state_saved : Bool
  /-- Whether interrupts are enabled, that is bit 0 of `PRIMASK` is clear. -/
  irq_enabled : Bool
  deriving DecidableEq, Repr

/-- The constant `UINT32_MAX`. -/
def UINT32_MAX : Nat := 2 ^ 32 - 1

/-- Function `are_interrupts_enabled()`: `(__get_PRIMASK() & 0x1) == 0`. -/
def are_interrupts_enabled (c : CritState) : Bool := c.irq_enabled

/-- Function `in_critical_section()`: `state_saved == true`. -/
def in_critical_section (c : CritState) : Bool := c.state_saved

/-- Function `critical_section_enter()`; `__disable_irq()` clears `irq_enabled`, and
the increment of the counter is that of a `uint32_t`. -/
def critical_section_enter (c : CritState) : Option CritState :=
  let interrupt_state := are_interrupts_enabled c
  let c1 := { c with irq_enabled := false }
  let c2 := if c1.state_saved = false
            then { c1 with critical_interrupts_enabled := interrupt_state, state_saved := true }
            else c1
  if c2.assert_on = true ∧ ¬ c2.critical_section_reentrancy_counter < UINT32_MAX then none
  else some { c2 with
    critical_section_reentrancy_counter :=
      (c2.critical_section_reentrancy_counter + 1) % 2 ^ 32 }

/-- Function `critical_section_exit()`; `__enable_irq()` sets `irq_enabled`. -/
def critical_section_exit (c : CritState) : Option CritState :=
  if c.critical_section_reentrancy_counter = 0 then some c
  else
    let c1 := { c with
      critical_section_reentrancy_counter := c.critical_section_reentrancy_counter - 1 }
    if c1.critical_section_reentrancy_counter = 0 then
      if c1.assert_on = true ∧ are_interrupts_enabled c1 = true then none
      else
        let c2 := { c1 with state_saved := false }
        if c2.critical_interrupts_enabled = true then some { c2 with irq_enabled := true }
        else some c2
    else some c1

/-- A call of one of the two functions that delimit a critical section. -/
inductive cs_call where
  | enter
  | exit
  deriving DecidableEq, Repr

/-- A sequence of `critical_section_enter` / `critical_section_exit` calls, run in
order. -/
def cs_run : List cs_call → CritState → Option CritState
  | [], c => some c
  | cs_call.enter :: l, c => (critical_section_enter c).bind (cs_run l)
  | cs_call.exit :: l, c => (critical_section_exit c).bind (cs_run l)

/-- The nesting depth after a sequence of calls that starts at depth `d`: the
number of enters minus the number of matched exits (an exit at depth 0 matches
no enter). -/
def cs_depth : List cs_call → Nat → Nat
  | [], d => d
  | cs_call.enter :: l, d => cs_depth l (d + 1)
  | cs_call.exit :: l, d => cs_depth l (d - 1)

/-- The nesting depth never exceeds `UINT32_MAX` along a sequence of calls that
starts at depth `d`. -/
def cs_bounded : List cs_call → Nat → Prop
  | [], d => d ≤ UINT32_MAX
  | cs_call.enter :: l, d => d < UINT32_MAX ∧ cs_bounded l (d + 1)
  | cs_call.exit :: l, d => cs_bounded l (d - 1)

/-- The state of `critical_section.c` at nesting depth `d`, when interrupts
were in the state `i0` outside the critical sections. -/
def cs_inv (a : Bool) (i0 : Bool) (c : CritState) (d : Nat) : Prop :=
  c.assert_on = a ∧ c.critical_section_reentrancy_counter = d ∧ d ≤ UINT32_MAX
  ∧ c.state_saved = decide (0 < d)
  ∧ (0 < d → c.irq_enabled = false ∧ c.critical_interrupts_enabled = i0)
  ∧ (d = 0 → c.irq_enabled = i0)

/-- A state outside every critical section: a build with or without
`ASSERT_ON`, interrupts enabled or not. -/
def crit_outside (assert_on irq : Bool) : CritState :=
  { assert_on := assert_on, critical_section_reentrancy_counter := 0,
    critical_interrupts_enabled := false, state_saved := false, irq_enabled := irq }

/-! ## Timed delivery during a busy-wait -/

/-- The bytes that a sequence of events delivers, in order of arrival. -/
def ev_bytes : List Ev → List Nat
  | [] => []
  | Ev.rx b :: es => b :: ev_bytes es
  | Ev.elapse _ :: es => ev_bytes es

/-- The time in milliseconds that passes during a sequence of events. -/
def ev_time : List Ev → Nat
  | [] => 0
  | Ev.rx _ :: es => ev_time es
  | Ev.elapse ms :: es => ms + ev_time es

/-- The machine `sys_ack` with the events `evs` (bytes arriving and time
passing) about to happen during the busy-wait of the next `recv`. -/
def sys_timed (evs : List Ev) : Sys :=
  { sys_ack with events := evs }

/-- A device that sends one byte `00` every 3 ms, 256 times over, and then an
`ACK`. -/
def slow_flood : List Ev :=
  (List.range 256).flatMap fun _ => [Ev.elapse 3, Ev.rx 0x00]

/-! # Theorems -/

/-! ## Basic facts about the transport model -/

theorem HAL_UART_Transmit_fst (frame : List Nat) (s : Sys) :
    (HAL_UART_Transmit frame s).1 = s.tx_status s.n_tx := rfl

theorem store_bytes_zero_singleton (buf : Nat → Nat) (r : Nat) :
    store_bytes buf 0 [r] 0 = r % 256 := by
  simp [store_bytes]

/-- What `send_data` does once its arguments are accepted and the transmit
succeeds, in terms of the line offered to the one-byte receive. -/
theorem send_data_ok_tx (buffer : List Nat) (size timeout : Nat) (s : Sys)
    (hsize : size ≠ 0) (hto : 0 < timeout)
    (htx : s.tx_status s.n_tx = HalStatus.HAL_OK) (r : Nat) (hr : r < 256)
    (hrx : s.rx_line s.n_rx = ⟨false, [r]⟩) :
    send_data buffer size timeout s =
      some (if r = 0x79 then 0 else if r = 0x1F then -1002 else -1004,
        { s with n_tx := s.n_tx + 1, n_rx := s.n_rx + 1,
                 trace := s.trace ++ [Call.transmit (buffer.take size), Call.receive 1 timeout],
                 rcv_buffer := store_bytes s.rcv_buffer 0 [r] }) := by
  have hto' : timeout ≠ 0 := Nat.pos_iff_ne_zero.mp hto
  simp [send_data, hsize, hto', HAL_UART_Transmit, htx, recv_fixed, HAL_UART_Receive, hrx,
    CONFIG_DFU_HOST_RX_BUFFER_SIZE, hto, store_bytes_zero_singleton, Nat.mod_eq_of_lt hr,
    DFU_HOST_RESP_ACK, DFU_HOST_RESP_NACK, DFU_HOST_ERR_NONE, DFU_HOST_ERR_NACK,
    DFU_HOST_ERR_WRONG_ANS]
  split_ifs <;> simp_all

/-! ## The frame of the engine -/

theorem Frame.refl (s : Sys) : Frame s s :=
  ⟨rfl, rfl, rfl, rfl, rfl, rfl, rfl, rfl, ⟨[], by simp⟩⟩

theorem Frame.trans {s t u : Sys} (h1 : Frame s t) (h2 : Frame t u) : Frame s u := by
  obtain ⟨l1, e1⟩ := h1.trace
  obtain ⟨l2, e2⟩ := h2.trace
  exact ⟨h2.assert_on.trans h1.assert_on, h2.app_state.trans h1.app_state,
    h2.fw_meta.trans h1.fw_meta, h2.led_done.trans h1.led_done,
    h2.led_failure.trans h1.led_failure, h2.tx_status.trans h1.tx_status,
    h2.rx_line.trans h1.rx_line, h2.it_status.trans h1.it_status,
    ⟨l1 ++ l2, by rw [e2, e1, List.append_assoc]⟩⟩

theorem Frame_HAL_UART_Transmit (frame : List Nat) (s : Sys) :
    Frame s (HAL_UART_Transmit frame s).2 :=
  ⟨rfl, rfl, rfl, rfl, rfl, rfl, rfl, rfl, ⟨_, rfl⟩⟩

theorem Frame_HAL_UART_Receive (len timeout : Nat) (s : Sys) :
    Frame s (HAL_UART_Receive len timeout s).2 :=
  ⟨rfl, rfl, rfl, rfl, rfl, rfl, rfl, rfl, ⟨_, rfl⟩⟩

theorem Frame_HAL_UART_Receive_IT (idx : Nat) (s : Sys) :
    Frame s (HAL_UART_Receive_IT idx s).2 :=
  ⟨rfl, rfl, rfl, rfl, rfl, rfl, rfl, rfl, ⟨_, rfl⟩⟩

theorem Frame_start_rcv_next_byte (s : Sys) : Frame s (start_rcv_next_byte s).2 := by
  simp only [start_rcv_next_byte]
  split_ifs
  · exact Frame.refl s
  · exact Frame_HAL_UART_Receive_IT _ s
  · exact Frame_HAL_UART_Receive_IT _ s

theorem Frame_of_fields (s : Sys) (c : Nat) (b : Bool) (e : Int) (buf : Nat → Nat)
    (a : Option Nat) (n : Nat) (evs : List Ev) :
    Frame s { s with rcv_count := c, rcv_cplt := b, rcv_err := e, rcv_buffer := buf,
                     armed := a, now := n, events := evs } :=
  ⟨rfl, rfl, rfl, rfl, rfl, rfl, rfl, rfl, ⟨[], by simp⟩⟩

theorem Frame_rcv_complete_cb (s : Sys) : Frame s (rcv_complete_cb s) := by
  simp only [rcv_complete_cb]
  have h := Frame_start_rcv_next_byte { s with rcv_count := s.rcv_count + 1 }
  have h1 := Frame.trans (Frame_of_fields s (s.rcv_count + 1) s.rcv_cplt s.rcv_err s.rcv_buffer
    s.armed s.now s.events) h
  split_ifs
  · exact Frame_of_fields s _ _ _ _ _ _ _
  · exact Frame_of_fields s _ _ _ _ _ _ _
  · exact Frame.trans h1 (Frame_of_fields _ _ _ _ _ _ _ _)
  · exact h1

theorem Frame_on_event (e : Ev) (s : Sys) : Frame s (on_event e s) := by
  cases e with
  | elapse ms => exact Frame_of_fields s _ _ _ _ _ _ _
  | rx b =>
    simp only [on_event]
    cases ha : s.armed with
    | none => exact Frame.refl s
    | some idx =>
      simp only []
      split_ifs
      · exact Frame.trans (Frame_of_fields s _ _ _ _ _ _ _) (Frame_rcv_complete_cb _)
      · exact Frame_of_fields s _ _ _ _ _ _ _

theorem Frame_recv_wait (end_tp : Nat) (evs : List Ev) :
    ∀ (s : Sys) (b : Bool) (t : Sys), recv_wait end_tp evs s = some (b, t) → Frame s t := by
  induction evs with
  | nil =>
    intro s b t h
    simp only [recv_wait] at h
    split_ifs at h
    · simp only [Option.some.injEq, Prod.mk.injEq] at h
      rw [← h.2]; exact Frame_of_fields s _ _ _ _ _ _ _
    · simp only [Option.some.injEq, Prod.mk.injEq] at h
      rw [← h.2]; exact ⟨rfl, rfl, rfl, rfl, rfl, rfl, rfl, rfl, ⟨_, rfl⟩⟩
  | cons e es ih =>
    intro s b t h
    simp only [recv_wait] at h
    split_ifs at h
    · simp only [Option.some.injEq, Prod.mk.injEq] at h
      rw [← h.2]; exact Frame_of_fields s _ _ _ _ _ _ _
    · simp only [Option.some.injEq, Prod.mk.injEq] at h
      rw [← h.2]; exact ⟨rfl, rfl, rfl, rfl, rfl, rfl, rfl, rfl, ⟨_, rfl⟩⟩
    · exact Frame.trans (Frame_on_event e s) (ih _ _ _ h)

theorem Frame_recv_fixed (len timeout : Nat) (s : Sys) (rc : Int) (t : Sys)
    (h : recv_fixed len timeout s = some (rc, t)) : Frame s t := by
  simp only [recv_fixed] at h
  split_ifs at h <;> simp only [Option.some.injEq, Prod.mk.injEq] at h <;> rw [← h.2] <;>
    exact Frame_HAL_UART_Receive _ _ s

theorem Frame_send_data (buffer : List Nat) (size timeout : Nat) (s : Sys) (rc : Int) (t : Sys)
    (h : send_data buffer size timeout s = some (rc, t)) : Frame s t := by
  simp only [send_data] at h
  split_ifs at h with h1 h2 h3
  · simp only [Option.some.injEq, Prod.mk.injEq] at h
    rw [← h.2]; exact Frame.refl s
  · cases hr : recv_fixed 1 timeout (HAL_UART_Transmit (List.take size buffer) s).2 with
    | none => rw [hr] at h; cases h
    | some p =>
      obtain ⟨rc1, s1⟩ := p
      have hf := Frame.trans (Frame_HAL_UART_Transmit _ s) (Frame_recv_fixed _ _ _ _ _ hr)
      rw [hr] at h
      simp only [] at h
      split_ifs at h <;> simp only [Option.some.injEq, Prod.mk.injEq] at h <;> rw [← h.2] <;>
        exact hf
  · simp only [Option.some.injEq, Prod.mk.injEq] at h
    rw [← h.2]; exact Frame_HAL_UART_Transmit _ s

theorem Frame_send_command (cmd timeout : Nat) (s : Sys) (rc : Int) (t : Sys)
    (h : send_command cmd timeout s = some (rc, t)) : Frame s t :=
  Frame_send_data _ _ _ s rc t h

theorem Frame_recv (timeout : Nat) (s : Sys) (rc : Int) (t : Sys)
    (h : recv timeout s = some (rc, t)) : Frame s t := by
  simp only [recv] at h
  have h0 : Frame s { HAL_UART_RegisterCallback s with rcv_count := 0, rcv_cplt := false } :=
    ⟨rfl, rfl, rfl, rfl, rfl, rfl, rfl, rfl, ⟨_, rfl⟩⟩
  have h1 := Frame.trans h0 (Frame_start_rcv_next_byte _)
  split_ifs at h with ha hb
  · simp only [Option.some.injEq, Prod.mk.injEq] at h
    rw [← h.2]; exact h1
  · split at h
    · cases h
    · simp only [Option.some.injEq, Prod.mk.injEq] at h
      rw [← h.2]; exact Frame.trans h1 (Frame_recv_wait _ _ _ _ _ (by assumption))
    · split_ifs at h <;> simp only [Option.some.injEq, Prod.mk.injEq] at h <;> rw [← h.2] <;>
        exact Frame.trans h1 (Frame_recv_wait _ _ _ _ _ (by assumption))

/-! ## C1: `send_data` interprets the acknowledgment byte -/

/-- C1: for every non-empty frame (`size ≠ 0`) and positive timeout, when the
transport transmits successfully and the line delivers exactly one reply byte
`r`, `send_data` returns 0 if `r = 0x79`, `DFU_HOST_ERR_NACK` (-1002) if
`r = 0x1F`, and `DFU_HOST_ERR_WRONG_ANS` (-1004) for every other `r`. -/
theorem C1_send_data_reply (buffer : List Nat) (size timeout : Nat) (s : Sys) (r : Nat)
    (hsize : size ≠ 0) (hto : 0 < timeout)
    (htx : s.tx_status s.n_tx = HalStatus.HAL_OK)
    (hr : r < 256) (hrx : s.rx_line s.n_rx = ⟨false, [r]⟩) :
    (send_data buffer size timeout s).map Prod.fst =
        some (if r = 0x79 then DFU_HOST_ERR_NONE
              else if r = 0x1F then DFU_HOST_ERR_NACK
              else DFU_HOST_ERR_WRONG_ANS)
      ∧ DFU_HOST_ERR_NONE = 0 ∧ DFU_HOST_ERR_NACK = -1002 ∧ DFU_HOST_ERR_WRONG_ANS = -1004 := by
  rw [send_data_ok_tx buffer size timeout s hsize hto htx r hr hrx]
  simp [DFU_HOST_ERR_NONE, DFU_HOST_ERR_NACK, DFU_HOST_ERR_WRONG_ANS]

theorem C1_send_data_reply_witness :
    (1 ≠ 0 ∧ 0 < 1000 ∧ sys_ack.tx_status sys_ack.n_tx = HalStatus.HAL_OK ∧ 0x79 < 256
      ∧ sys_ack.rx_line sys_ack.n_rx = ⟨false, [0x79]⟩)
    ∧ (send_data [0x7F] 1 1000 sys_ack).map Prod.fst = some 0 :=
  ⟨⟨by decide, by decide, rfl, by decide, rfl⟩,
   (C1_send_data_reply [0x7F] 1 1000 sys_ack 0x79 (by decide) (by decide) rfl (by decide) rfl).1⟩

/-! ## C2: `recv` after an earlier exchange that ended with an error -/

/-- C2 (evaluation at the failing input): a first `recv` is answered by `NACK`
and returns `DFU_HOST_ERR_NACK`; a second `recv`, started in the state the
first one left behind, is answered by the data byte `0x41` followed by `ACK`.
It stores the byte (`rcv_count = 1`, `rcv_buffer[0] = 0x41`), completes, and
still returns `DFU_HOST_ERR_NACK` (-1002) instead of 1, because `rcv_err` is
never cleared. -/
theorem C2_recv_returns_stale_error :
    (recv 1000 sys_nack_then_data).map Prod.fst = some DFU_HOST_ERR_NACK
    ∧ ((recv 1000 sys_nack_then_data).bind fun p => recv 1000 p.2).map
        (fun p => (p.1, p.2.rcv_count, p.2.rcv_buffer 0, p.2.rcv_cplt, p.2.rcv_err))
      = some (-1002, 1, 0x41, true, -1002) := by
  decide

/-! ## The variable-length receive, byte by byte -/

/-- A data byte arrives while a receive is armed at `rcv_count`: it is
stored, the count goes up and the next receive is armed. -/
theorem on_event_rx_data (b : Nat) (u : Sys)
    (harmed : u.armed = some u.rcv_count) (hcb : u.cb_registered = true)
    (hb : b < 256) (hack : b ≠ 0x79) (hnack : b ≠ 0x1F) (hroom : u.rcv_count + 1 ≠ 256)
    (hit : u.it_status u.n_it = HalStatus.HAL_OK) :
    on_event (Ev.rx b) u =
      { u with armed := some (u.rcv_count + 1),
               rcv_buffer := Function.update u.rcv_buffer u.rcv_count b,
               rcv_count := u.rcv_count + 1,
               n_it := u.n_it + 1,
               trace := u.trace ++ [Call.receive_it (u.rcv_count + 1)] } := by
  have hb' : b % 256 = b := Nat.mod_eq_of_lt hb
  simp [on_event, harmed, hcb, rcv_complete_cb, hb', DFU_HOST_RESP_ACK, DFU_HOST_RESP_NACK,
    hack, hnack, start_rcv_next_byte, CONFIG_DFU_HOST_RX_BUFFER_SIZE, hroom,
    HAL_UART_Receive_IT, hit, DFU_HOST_ERR_NONE]

/-- An `ACK` arrives while a receive is armed at `rcv_count`: reception stops. -/
theorem on_event_rx_ack (u : Sys)
    (harmed : u.armed = some u.rcv_count) (hcb : u.cb_registered = true) :
    on_event (Ev.rx 0x79) u =
      { u with armed := none,
               rcv_buffer := Function.update u.rcv_buffer u.rcv_count 0x79,
               rcv_cplt := true } := by
  simp [on_event, harmed, hcb, rcv_complete_cb, DFU_HOST_RESP_ACK, DFU_HOST_RESP_NACK]

/-- A `NACK` arrives while a receive is armed at `rcv_count`: reception stops
and the error is recorded. -/
theorem on_event_rx_nack (u : Sys)
    (harmed : u.armed = some u.rcv_count) (hcb : u.cb_registered = true) :
    on_event (Ev.rx 0x1F) u =
      { u with armed := none,
               rcv_buffer := Function.update u.rcv_buffer u.rcv_count 0x1F,
               rcv_err := DFU_HOST_ERR_NACK,
               rcv_cplt := true } := by
  simp [on_event, harmed, hcb, rcv_complete_cb, DFU_HOST_RESP_ACK, DFU_HOST_RESP_NACK]

theorem recv_wait_complete (end_tp : Nat) (evs : List Ev) (u : Sys) (h : u.rcv_cplt = true) :
    recv_wait end_tp evs u = some (true, { u with events := evs }) := by
  cases evs <;> simp [recv_wait, h]

theorem recv_wait_pending (end_tp : Nat) (e : Ev) (evs : List Ev) (u : Sys)
    (h : u.rcv_cplt = false) (ht : HAL_GetTick u < end_tp) :
    recv_wait end_tp (e :: evs) u = recv_wait end_tp evs (on_event e u) := by
  have ht' : ¬ HAL_GetTick u ≥ end_tp := not_le.mpr ht
  simp [recv_wait, h, ht']

/-- The wait loop while `data` (no `ACK`, no `NACK` among the bytes) and then a
terminating byte `fin` (`ACK` or `NACK`) arrive, before the deadline and with
room in the buffer: the loop is left through `rcv_cplt`, the bytes are in the
buffer behind those received before, and `rcv_err` is touched only by a
`NACK`. -/
theorem recv_wait_data (end_tp fin : Nat) (rest : List Ev)
    (hfin : fin = 0x79 ∨ fin = 0x1F) :
    ∀ (data : List Nat) (u : Sys),
      u.rcv_cplt = false → u.armed = some u.rcv_count → u.cb_registered = true →
      HAL_GetTick u < end_tp → u.rcv_count + data.length ≤ 255 →
      (∀ b ∈ data, b < 256 ∧ b ≠ 0x79 ∧ b ≠ 0x1F) →
      (∀ i, i < data.length → u.it_status (u.n_it + i) = HalStatus.HAL_OK) →
      ∃ t, recv_wait end_tp (data.map Ev.rx ++ Ev.rx fin :: rest) u = some (true, t)
        ∧ t.rcv_count = u.rcv_count + data.length
        ∧ t.rcv_err = (if fin = 0x1F then DFU_HOST_ERR_NACK else u.rcv_err)
        ∧ t.events = rest
        ∧ (∀ i, i < u.rcv_count → t.rcv_buffer i = u.rcv_buffer i)
        ∧ (∀ i, i < data.length → t.rcv_buffer (u.rcv_count + i) = data.getD i 0) := by
  intro data
  induction data with
  | nil =>
    intro u hc ha hcb ht _ _ _
    simp only [List.map_nil, List.nil_append]
    rw [recv_wait_pending end_tp _ rest u hc ht]
    rcases hfin with h | h
    · subst h
      rw [on_event_rx_ack u ha hcb, recv_wait_complete _ _ _ rfl]
      refine ⟨_, rfl, rfl, rfl, rfl, ?_, ?_⟩
      · intro i hi
        exact Function.update_noteq (Nat.ne_of_lt hi) _ _
      · intro i hi
        exact absurd hi (Nat.not_lt_zero i)
    · subst h
      rw [on_event_rx_nack u ha hcb, recv_wait_complete _ _ _ rfl]
      refine ⟨_, rfl, rfl, rfl, rfl, ?_, ?_⟩
      · intro i hi
        exact Function.update_noteq (Nat.ne_of_lt hi) _ _
      · intro i hi
        exact absurd hi (Nat.not_lt_zero i)
  | cons b bs ih =>
    intro u hc ha hcb ht hroom hbytes hit
    obtain ⟨hb, hback, hbnack⟩ := hbytes b (List.mem_cons_self b bs)
    simp only [List.length_cons] at hroom hit
    simp only [List.map_cons, List.cons_append]
    rw [recv_wait_pending end_tp _ _ u hc ht,
      on_event_rx_data b u ha hcb hb hback hbnack (by omega) (hit 0 (Nat.succ_pos _))]
    obtain ⟨t, hrun, hcount, herr, hev, hold, hnew⟩ := ih
      { u with armed := some (u.rcv_count + 1),
               rcv_buffer := Function.update u.rcv_buffer u.rcv_count b,
               rcv_count := u.rcv_count + 1,
               n_it := u.n_it + 1,
               trace := u.trace ++ [Call.receive_it (u.rcv_count + 1)] }
      hc rfl hcb ht (by show u.rcv_count + 1 + bs.length ≤ 255; omega)
      (fun c hc' => hbytes c (List.mem_cons_of_mem b hc'))
      (fun i hi => by
        have := hit (i + 1) (Nat.succ_lt_succ hi)
        show u.it_status (u.n_it + 1 + i) = HalStatus.HAL_OK
        rw [Nat.add_assoc, Nat.add_comm 1 i]
        exact this)
    refine ⟨t, hrun, ?_, herr, hev, ?_, ?_⟩
    · rw [hcount]
      show u.rcv_count + 1 + bs.length = u.rcv_count + (bs.length + 1)
      omega
    · intro i hi
      rw [hold i (Nat.lt_succ_of_lt hi)]
      exact Function.update_noteq (Nat.ne_of_lt hi) _ _
    · intro i hi
      cases i with
      | zero =>
        rw [Nat.add_zero, hold u.rcv_count (Nat.lt_succ_self _)]
        simp
      | succ j =>
        have := hnew j (Nat.lt_of_succ_lt_succ (by simpa using hi))
        have e : u.rcv_count + (j + 1) = u.rcv_count + 1 + j := by omega
        rw [e]
        simpa using this

/-- What `recv` returns when `data` (at most 255 bytes, none of them `ACK` or
`NACK`) and then a terminating byte `fin` arrive before the deadline: after a
`NACK` it returns `DFU_HOST_ERR_NACK`; after an `ACK` it returns the number
of data bytes when `rcv_err` was 0 on entry, and otherwise the value that
`rcv_err` had on entry.  In every case the bytes are at the start of the
receive buffer and `rcv_count` is their number. -/
theorem recv_data_terminated (timeout fin : Nat) (s : Sys) (data : List Nat) (rest : List Ev)
    (hfin : fin = 0x79 ∨ fin = 0x1F) (hto : 0 < timeout) (hk : data.length ≤ 255)
    (hbytes : ∀ b ∈ data, b < 256 ∧ b ≠ 0x79 ∧ b ≠ 0x1F)
    (hev : s.events = data.map Ev.rx ++ Ev.rx fin :: rest)
    (hit : ∀ i, i ≤ data.length → s.it_status (s.n_it + i) = HalStatus.HAL_OK)
    (hdl : HAL_GetTick s + timeout < 2 ^ 32) :
    ∃ t, recv timeout s
        = some (if fin = 0x1F then DFU_HOST_ERR_NACK
                else if s.rcv_err ≠ 0 then s.rcv_err else (data.length : Int), t)
      ∧ t.rcv_count = data.length ∧ rcv_bytes t data.length = data ∧ t.events = rest := by
  have hit0 : s.it_status s.n_it = HalStatus.HAL_OK := hit 0 (Nat.zero_le _)
  obtain ⟨t, hrun, hcount, herr, hevt, -, hnew⟩ := recv_wait_data (HAL_GetTick s + timeout) fin
    rest hfin data
    { s with cb_registered := true, rcv_count := 0, rcv_cplt := false,
             n_it := s.n_it + 1, armed := some 0,
             trace := s.trace ++ [Call.register_cb] ++ [Call.receive_it 0] }
    rfl rfl rfl (show HAL_GetTick s < HAL_GetTick s + timeout by omega)
    (by show 0 + data.length ≤ 255; omega) hbytes
    (fun i hi => by
      have := hit (i + 1) hi
      show s.it_status (s.n_it + 1 + i) = HalStatus.HAL_OK
      rw [Nat.add_assoc, Nat.add_comm 1 i]
      exact this)
  have hnot : ¬ (s.assert_on = true ∧ ¬ 0 < timeout) := fun h => h.2 hto
  have hstart : start_rcv_next_byte
      { HAL_UART_RegisterCallback s with rcv_count := 0, rcv_cplt := false }
      = (DFU_HOST_ERR_NONE,
        { s with cb_registered := true, rcv_count := 0, rcv_cplt := false,
                 n_it := s.n_it + 1, armed := some 0,
                 trace := s.trace ++ [Call.register_cb] ++ [Call.receive_it 0] }) := by
    simp [start_rcv_next_byte, HAL_UART_RegisterCallback, CONFIG_DFU_HOST_RX_BUFFER_SIZE,
      HAL_UART_Receive_IT, hit0]
  have hend : (HAL_GetTick s + timeout) % 2 ^ 32 = HAL_GetTick s + timeout :=
    Nat.mod_eq_of_lt hdl
  have htick : HAL_GetTick
      { s with cb_registered := true, rcv_count := 0, rcv_cplt := false,
               n_it := s.n_it + 1, armed := some 0,
               trace := s.trace ++ [Call.register_cb] ++ [Call.receive_it 0] }
      = HAL_GetTick s := rfl
  have hneg : ¬ DFU_HOST_ERR_NONE < 0 := by decide
  rw [← hev] at hrun
  refine ⟨t, ?_, by simpa using hcount, ?_, hevt⟩
  · simp only [recv, if_neg hnot, hstart, if_neg hneg, htick, hend, hrun, herr]
    rcases hfin with h | h
    · subst h
      have hcount' : t.rcv_count = data.length := by simpa using hcount
      simp only [show ¬ ((0x79 : Nat) = 0x1F) by decide, if_false, hcount']
      split_ifs <;> rfl
    · subst h
      simp only [if_true]
      rfl
  · apply List.ext_getElem
    · simp [rcv_bytes]
    · intro i h1 h2
      have h' : t.rcv_buffer (0 + i) = data.getD i 0 := hnew i h2
      rw [Nat.zero_add] at h'
      simp only [rcv_bytes, List.getElem_map, List.getElem_range]
      rw [h']
      simp [List.getD_eq_getElem?_getD, List.getElem?_eq_getElem h2]

/-! ## C3: `APP_STATE_CHECK_FW_CRC` when a chunk cannot be read -/

/-- C3 (evaluation at the failing input): with `fw_size = 256` and every
Read-Memory failing, the step makes five read attempts (five transmits of
`11 EE`) and ends in `APP_STATE_CHECK_FAILURE`, not in `APP_STATE_INITIAL`; and
when the stored checksum is `0xFFFF` and the device rejects the five reads but
acknowledges what follows, the step goes on to transmit the Go command and its
address frame and ends in `APP_STATE_CHECK_DONE`. -/
theorem C3_read_failure_does_not_return_to_initial :
    (app_dispatch sys_read_fails).map (fun t => (t.app_state, tx_frames t.trace))
        = some (app_state_t.APP_STATE_CHECK_FAILURE,
            [[0x11, 0xEE], [0x11, 0xEE], [0x11, 0xEE], [0x11, 0xEE], [0x11, 0xEE]])
    ∧ (app_dispatch sys_read_nacked).map (fun t => (t.app_state, tx_frames t.trace))
        = some (app_state_t.APP_STATE_CHECK_DONE,
            [[0x11, 0xEE], [0x11, 0xEE], [0x11, 0xEE], [0x11, 0xEE], [0x11, 0xEE],
             [0x21, 0xDE], [0x08, 0, 0, 0, 0x08]]) := by
  decide

/-! ## C4: `APP_STATE_READ_META` failure policy -/

theorem send_data_trace (buffer : List Nat) (size timeout : Nat) (s : Sys) (rc : Int) (t : Sys)
    (hsize : size ≠ 0) (hto : timeout ≠ 0)
    (h : send_data buffer size timeout s = some (rc, t)) :
    ∃ rest, t.trace = s.trace ++ Call.transmit (buffer.take size) :: rest := by
  simp only [send_data, hsize, hto, or_self, if_false] at h
  split_ifs at h with h1
  · cases hr : recv_fixed 1 timeout (HAL_UART_Transmit (List.take size buffer) s).2 with
    | none => rw [hr] at h; cases h
    | some p =>
      obtain ⟨rc1, s1⟩ := p
      obtain ⟨l, hl⟩ := (Frame_recv_fixed _ _ _ _ _ hr).trace
      refine ⟨l, ?_⟩
      have e : t = s1 := by
        rw [hr] at h
        simp only [] at h
        split_ifs at h <;> simp only [Option.some.injEq, Prod.mk.injEq] at h <;> exact h.2.symm
      rw [e, hl]
      simp [HAL_UART_Transmit]
  · simp only [Option.some.injEq, Prod.mk.injEq] at h
    refine ⟨[], ?_⟩
    rw [← h.2]
    simp [HAL_UART_Transmit]

theorem Frame_dfu_host_get_id (s : Sys) (r : GetId) (t : Sys)
    (h : dfu_host_get_id s = some (r, t)) : Frame s t := by
  simp only [dfu_host_get_id] at h
  split at h
  · cases h
  · rename_i rc s1 hc
    have f1 := Frame_send_command _ _ _ _ _ hc
    split_ifs at h
    · simp only [Option.some.injEq, Prod.mk.injEq] at h
      rw [← h.2]; exact f1
    · split at h
      · cases h
      · rename_i rc2 s2 hr
        have f2 := Frame.trans f1 (Frame_recv _ _ _ _ hr)
        split_ifs at h <;> simp only [Option.some.injEq, Prod.mk.injEq] at h <;> rw [← h.2] <;>
          exact f2

theorem Frame_dfu_host_get_version (s : Sys) (rc : Int) (t : Sys)
    (h : dfu_host_get_version s = some (rc, t)) : Frame s t := by
  simp only [dfu_host_get_version] at h
  split at h
  · cases h
  · rename_i rc1 s1 hc
    have f1 := Frame_send_command _ _ _ _ _ hc
    split_ifs at h
    · simp only [Option.some.injEq, Prod.mk.injEq] at h
      rw [← h.2]; exact f1
    · split at h
      · cases h
      · rename_i rc2 s2 hr
        have f2 := Frame.trans f1 (Frame_recv _ _ _ _ hr)
        split_ifs at h <;> simp only [Option.some.injEq, Prod.mk.injEq] at h <;> rw [← h.2] <;>
          exact f2

theorem dfu_host_readout_unprotect_trace (s : Sys) (rc : Int) (t : Sys)
    (h : dfu_host_readout_unprotect s = some (rc, t)) :
    ∃ rest, t.trace = s.trace ++ Call.transmit [0x92, 0x6D] :: rest := by
  simp only [dfu_host_readout_unprotect] at h
  split at h
  · cases h
  · rename_i rc1 s1 hc
    obtain ⟨rest, hrest⟩ := send_data_trace _ _ _ _ _ _ (by decide) (by decide) hc
    have e : List.take 2 [DFU_HOST_CMD_ID_READOUT_UNPROTECT % 256,
        (255 ^^^ DFU_HOST_CMD_ID_READOUT_UNPROTECT) % 256] = [0x92, 0x6D] := by decide
    rw [e] at hrest
    split_ifs at h
    · simp only [Option.some.injEq, Prod.mk.injEq] at h
      rw [← h.2]; exact ⟨rest, hrest⟩
    · obtain ⟨l, hl⟩ := (Frame_recv _ _ _ _ h).trace
      refine ⟨rest ++ l, ?_⟩
      rw [hl, hrest]
      simp

theorem dfu_host_get_version_nack (s : Sys)
    (htx : s.tx_status s.n_tx = HalStatus.HAL_OK)
    (hrx : s.rx_line s.n_rx = ⟨false, [0x1F]⟩) :
    (dfu_host_get_version s).map Prod.fst = some DFU_HOST_ERR_NACK := by
  simp only [dfu_host_get_version, send_command]
  rw [send_data_ok_tx _ 2 _ s (by decide) (by decide) htx 0x1F (by decide) hrx]
  simp [DFU_HOST_ERR_NACK]

/-- C4 (counterexample): the device acknowledges Get-ID and answers `NACK` to
the Get-Version command frame.  `dfu_host_get_version` returns
`DFU_HOST_ERR_NACK`, and the step transmits the two command frames only (no
Readout-Unprotect, `92 6D`) and ends in `APP_STATE_READ_META`, not in
`APP_STATE_INITIAL`. -/
theorem C4_get_version_nack_stays_in_read_meta :
    ((dfu_host_get_id sys_get_version_nacked).bind fun p =>
        (dfu_host_get_version p.2).map Prod.fst) = some DFU_HOST_ERR_NACK
    ∧ (app_dispatch sys_get_version_nacked).map (fun t => (t.app_state, tx_frames t.trace))
        = some (app_state_t.APP_STATE_READ_META, [[0x02, 0xFD], [0x01, 0xFE]])
    ∧ ¬ ((app_dispatch sys_get_version_nacked).map (fun t => t.app_state)
          = some app_state_t.APP_STATE_INITIAL) := by
  decide

theorem Frame_dfu_host_readout_unprotect (s : Sys) (rc : Int) (t : Sys)
    (h : dfu_host_readout_unprotect s = some (rc, t)) : Frame s t := by
  simp only [dfu_host_readout_unprotect] at h
  split at h
  · cases h
  · rename_i rc1 s1 hc
    have f1 := Frame_send_command _ _ _ _ _ hc
    split_ifs at h
    · simp only [Option.some.injEq, Prod.mk.injEq] at h
      rw [← h.2]; exact f1
    · exact Frame.trans f1 (Frame_recv _ _ _ _ h)

/-- C4 (amended): in `APP_STATE_READ_META`,
* when Get-ID fails, the step ends at once: its final state is the state in
  which `dfu_host_get_id` returned, still `APP_STATE_READ_META`;
* when Get-ID succeeds and Get-Version fails, the step ends at once in the
  state in which `dfu_host_get_version` returned, still `APP_STATE_READ_META`;
* when both succeed and the metadata Read-Memory fails, the step sets
  `APP_STATE_INITIAL`, issues Readout-Unprotect (transmits `92 6D`; its result
  is ignored), delays 1000 ms and ends in `APP_STATE_INITIAL`;
* when the device answers `NACK` to the Get-Version command frame,
  `dfu_host_get_version` returns `DFU_HOST_ERR_NACK`. -/
theorem C4_read_meta_failure_policy (s : Sys)
    (hs : s.app_state = app_state_t.APP_STATE_READ_META) :
    (∀ r s1, dfu_host_get_id s = some (r, s1) → r.rc < 0 →
        app_dispatch s = some s1 ∧ s1.app_state = app_state_t.APP_STATE_READ_META)
    ∧ (∀ r s1 rc s2, dfu_host_get_id s = some (r, s1) → ¬ r.rc < 0 →
        dfu_host_get_version s1 = some (rc, s2) → rc < 0 →
        app_dispatch s = some s2 ∧ s2.app_state = app_state_t.APP_STATE_READ_META)
    ∧ (∀ r s1 rc s2 rc3 s3 rc4 s4, dfu_host_get_id s = some (r, s1) → ¬ r.rc < 0 →
        dfu_host_get_version s1 = some (rc, s2) → ¬ rc < 0 →
        read_fw_meta s2 = some (rc3, s3) → rc3 < 0 →
        dfu_host_readout_unprotect { s3 with app_state := app_state_t.APP_STATE_INITIAL }
          = some (rc4, s4) →
        app_dispatch s = some (HAL_Delay 1000 s4)
        ∧ (HAL_Delay 1000 s4).app_state = app_state_t.APP_STATE_INITIAL
        ∧ ∃ rest, (HAL_Delay 1000 s4).trace
            = s3.trace ++ Call.transmit [0x92, 0x6D] :: rest ++ [Call.delay 1000])
    ∧ (∀ s1 : Sys, s1.tx_status s1.n_tx = HalStatus.HAL_OK →
        s1.rx_line s1.n_rx = ⟨false, [0x1F]⟩ →
        (dfu_host_get_version s1).map Prod.fst = some DFU_HOST_ERR_NACK) := by
  refine ⟨?_, ?_, ?_, ?_⟩
  · intro r s1 h1 hr
    refine ⟨?_, ?_⟩
    · simp only [app_dispatch, hs, h1, hr, if_true]
    · rw [(Frame_dfu_host_get_id _ _ _ h1).app_state, hs]
  · intro r s1 rc s2 h1 hr h2 hrc
    refine ⟨?_, ?_⟩
    · simp only [app_dispatch, hs, h1, hr, if_false, h2, hrc, if_true]
    · rw [(Frame_dfu_host_get_version _ _ _ h2).app_state,
        (Frame_dfu_host_get_id _ _ _ h1).app_state, hs]
  · intro r s1 rc s2 rc3 s3 rc4 s4 h1 hr h2 hrc h3 hrc3 h4
    have f4 := Frame_dfu_host_readout_unprotect _ _ _ h4
    obtain ⟨rest, hrest⟩ := dfu_host_readout_unprotect_trace _ _ _ h4
    refine ⟨?_, ?_, rest, ?_⟩
    · simp only [app_dispatch, hs, h1, hr, if_false, h2, hrc, h3, hrc3, if_true, h4]
    · show s4.app_state = _
      rw [f4.app_state]
    · show s4.trace ++ [Call.delay 1000] = _
      rw [hrest]
  · intro s1 htx hrx
    exact dfu_host_get_version_nack s1 htx hrx

theorem get_id_returns_example :
    (dfu_host_get_id sys_get_version_nacked).isSome = true := by decide

theorem get_version_returns_example :
    (dfu_host_get_version
      ((dfu_host_get_id sys_get_version_nacked).get get_id_returns_example).2).isSome
      = true := by decide

theorem C4_read_meta_failure_policy_witness :
    sys_get_version_nacked.app_state = app_state_t.APP_STATE_READ_META
    ∧ (app_dispatch sys_get_version_nacked).map (fun t => t.app_state)
        = some app_state_t.APP_STATE_READ_META := by
  have h := (C4_read_meta_failure_policy sys_get_version_nacked rfl).2.1
    ((dfu_host_get_id sys_get_version_nacked).get get_id_returns_example).1
    ((dfu_host_get_id sys_get_version_nacked).get get_id_returns_example).2
    ((dfu_host_get_version ((dfu_host_get_id sys_get_version_nacked).get
      get_id_returns_example).2).get get_version_returns_example).1
    ((dfu_host_get_version ((dfu_host_get_id sys_get_version_nacked).get
      get_id_returns_example).2).get get_version_returns_example).2
    (Option.some_get get_id_returns_example).symm (by decide)
    (Option.some_get get_version_returns_example).symm (by decide)
  refine ⟨rfl, ?_⟩
  rw [h.1]
  exact congrArg some h.2

/-! ## C7: the CRC-16 can be computed chunk by chunk -/

/-- The model of `crc16_reflect` computes CRC-16/MODBUS: the check value of the
ASCII string `123456789` is `0x4B37`. -/
theorem crc16_reflect_check_value :
    crc16_reflect 0xA001 0xFFFF [0x31, 0x32, 0x33, 0x34, 0x35, 0x36, 0x37, 0x38, 0x39]
      = 0x4B37 := by
  decide!

theorem crc16_reflect_append (poly seed : Nat) (a b : List Nat) :
    crc16_reflect poly seed (a ++ b) = crc16_reflect poly (crc16_reflect poly seed a) b := by
  simp [crc16_reflect, List.foldl_append]

theorem crc16_reflect_fold (poly : Nat) (chunks : List (List Nat)) :
    ∀ seed, chunks.foldl (crc16_reflect poly) seed = crc16_reflect poly seed chunks.flatten := by
  induction chunks with
  | nil => intro seed; simp [crc16_reflect]
  | cons c cs ih =>
    intro seed
    rw [List.foldl_cons, ih, List.flatten_cons, crc16_reflect_append]

/-- C7: for every byte buffer and every split of it into consecutive chunks
(of size at least 1, or of any size), folding `crc16_reflect(0xA001, crc, chunk)` over the chunks
starting from `0xFFFF` gives the same value as one
`crc16_reflect(0xA001, 0xFFFF, buffer)` call. -/
theorem C7_crc16_streaming (buf : List Nat) (chunks : List (List Nat))
    (hsplit : chunks.flatten = buf) :
    chunks.foldl (fun crc chunk => crc16_reflect 0xA001 crc chunk) 0xFFFF
      = crc16_reflect 0xA001 0xFFFF buf := by
  rw [← hsplit]
  exact crc16_reflect_fold 0xA001 chunks 0xFFFF

theorem C7_crc16_streaming_witness :
    [[0x31, 0x32], [0x33], [0x34, 0x35, 0x36]].flatten = [0x31, 0x32, 0x33, 0x34, 0x35, 0x36]
    ∧ [[0x31, 0x32], [0x33], [0x34, 0x35, 0x36]].foldl
        (fun crc chunk => crc16_reflect 0xA001 crc chunk) 0xFFFF
      = crc16_reflect 0xA001 0xFFFF [0x31, 0x32, 0x33, 0x34, 0x35, 0x36] :=
  ⟨rfl,
   C7_crc16_streaming [0x31, 0x32, 0x33, 0x34, 0x35, 0x36] [[0x31, 0x32], [0x33], [0x34, 0x35, 0x36]]
     rfl⟩

/-! ## C10: command framing -/

theorem tx_frames_append (a b : List Call) : tx_frames (a ++ b) = tx_frames a ++ tx_frames b := by
  simp [tx_frames, List.filterMap_append]

/-- With accepted arguments `send_data` returns, and it hands exactly one
frame to `HAL_UART_Transmit`: the first `size` bytes of `buffer`. -/
theorem send_data_tx_frames (buffer : List Nat) (size timeout : Nat) (s : Sys)
    (hsize : size ≠ 0) (hto : 0 < timeout) :
    ∃ rc t, send_data buffer size timeout s = some (rc, t)
      ∧ tx_frames t.trace = tx_frames s.trace ++ [buffer.take size] := by
  have hto' : timeout ≠ 0 := Nat.pos_iff_ne_zero.mp hto
  have hr : ∀ u : Sys, recv_fixed 1 timeout u =
      if (HAL_UART_Receive 1 timeout u).1 = HalStatus.HAL_OK
      then some ((1 : Int), (HAL_UART_Receive 1 timeout u).2)
      else some ( DFU_HOST_ERR_EIO, (HAL_UART_Receive 1 timeout u).2) := by
    intro u
    simp [recv_fixed, CONFIG_DFU_HOST_RX_BUFFER_SIZE, hto]
  have hf : ∀ u : Sys, tx_frames (HAL_UART_Receive 1 timeout
      (HAL_UART_Transmit (List.take size buffer) u).2).2.trace
        = tx_frames u.trace ++ [List.take size buffer] := by
    intro u
    simp [HAL_UART_Receive, HAL_UART_Transmit, tx_frames_append, tx_frames]
  simp only [send_data, hsize, hto', or_self, if_false, hr]
  split_ifs with h1 h2
  · simp only []
    split_ifs <;> exact ⟨_, _, rfl, hf s⟩
  · simp only []
    split_ifs <;> exact ⟨_, _, rfl, hf s⟩
  · exact ⟨_, _, rfl, by simp [HAL_UART_Transmit, tx_frames_append, tx_frames]⟩

/-- C10: for every opcode of the command set (`cmd_id_t`) and every positive
timeout, `send_command` returns and transmits exactly one frame, the two bytes
`[opcode, 0xFF xor opcode]`; the second byte is the 8-bit complement of the
first (`255 - opcode`); and the frames of the ten commands sent with
`send_command` are 01 FE, 02 FD, 11 EE, 21 DE, 31 CE, 44 BB, 63 9C, 73 8C,
82 7D, 92 6D. -/
theorem C10_send_command_frame (cmd timeout : Nat) (s : Sys)
    (hcmd : cmd ∈ cmd_id_t) (hto : 0 < timeout) :
    (∃ rc t, send_command cmd timeout s = some (rc, t)
      ∧ tx_frames t.trace = tx_frames s.trace ++ [[cmd, 0xFF ^^^ cmd]])
    ∧ 0xFF ^^^ cmd = 255 - cmd ∧ cmd ≤ 255
    ∧ [DFU_HOST_CMD_ID_GET_VERSION, DFU_HOST_CMD_ID_GET_ID, DFU_HOST_CMD_ID_READ_MEM,
        DFU_HOST_CMD_ID_GO, DFU_HOST_CMD_ID_WRITE_MEM, DFU_HOST_CMD_ID_WRITE_EXT_ERASE,
        DFU_HOST_CMD_ID_WRITE_PROTECT, DFU_HOST_CMD_ID_WRITE_UNPROTECT,
        DFU_HOST_CMD_ID_READOUT_PROTECT, DFU_HOST_CMD_ID_READOUT_UNPROTECT].map
          (fun c => [c, 0xFF ^^^ c])
      = [[0x01, 0xFE], [0x02, 0xFD], [0x11, 0xEE], [0x21, 0xDE], [0x31, 0xCE], [0x44, 0xBB],
         [0x63, 0x9C], [0x73, 0x8C], [0x82, 0x7D], [0x92, 0x6D]] := by
  have hb : (0xFF ^^^ cmd = 255 - cmd ∧ cmd ≤ 255)
      ∧ List.take 2 [cmd % 256, (0xFF ^^^ cmd) % 256] = [cmd, 0xFF ^^^ cmd] := by
    simp only [cmd_id_t, List.mem_cons, List.mem_singleton, List.not_mem_nil, or_false] at hcmd
    rcases hcmd with h | h | h | h | h | h | h | h | h | h | h | h <;> subst h <;> decide
  obtain ⟨rc, t, h1, h2⟩ := send_data_tx_frames [cmd % 256, (0xFF ^^^ cmd) % 256] 2 timeout s
    (by decide) hto
  rw [hb.2] at h2
  exact ⟨⟨rc, t, h1, h2⟩, hb.1.1, hb.1.2, by decide⟩

theorem C10_send_command_frame_witness :
    (DFU_HOST_CMD_ID_GO ∈ cmd_id_t ∧ 0 < 1000)
    ∧ (send_command DFU_HOST_CMD_ID_GO 1000 sys_ack).map (fun p => tx_frames p.2.trace)
        = some [[0x21, 0xDE]] := by
  obtain ⟨rc, t, h1, h2⟩ :=
    (C10_send_command_frame DFU_HOST_CMD_ID_GO 1000 sys_ack (by decide) (by decide)).1
  refine ⟨⟨by decide, by decide⟩, ?_⟩
  rw [h1, Option.map_some', h2]
  rfl

/-! ## C9: the `APP_STATE_INITIAL` step -/

theorem send_data_n_tx (buffer : List Nat) (size timeout : Nat) (s : Sys) (rc : Int) (t : Sys)
    (hsize : size ≠ 0) (hto : timeout ≠ 0)
    (h : send_data buffer size timeout s = some (rc, t)) : t.n_tx = s.n_tx + 1 := by
  simp only [send_data, hsize, hto, or_self, if_false, recv_fixed] at h
  split_ifs at h <;> (try simp only [] at h) <;> (try split_ifs at h) <;>
    (simp only [Option.some.injEq, Prod.mk.injEq] at h; rw [← h.2]; rfl)

/-- A ping with the timeout of the automaton returns, transmits once and
leaves the statics of `main.c` alone. -/
theorem dfu_host_ping_returns (s : Sys) :
    ∃ rc t, dfu_host_ping 1000 s = some (rc, t) ∧ t.n_tx = s.n_tx + 1 ∧ Frame s t := by
  obtain ⟨rc, t, h, -⟩ := send_data_tx_frames [DFU_HOST_CMD_ID_PING] 1 1000 s (by decide)
    (by decide)
  have e : dfu_host_ping 1000 s = send_data [DFU_HOST_CMD_ID_PING] 1 1000 s := by
    simp [dfu_host_ping]
  exact ⟨rc, t, e.trans h, send_data_n_tx _ _ _ _ _ _ (by decide) (by decide) h,
    Frame_send_data _ _ _ _ _ _ h⟩

/-- The ping loop with `n` iterations left: either some ping `k < n` is the
first to return 0, the loop stops there after `k + 1` pings and the state
becomes `APP_STATE_READ_META`; or all `n` pings return non-zero and the state
is unchanged. -/
theorem ping_loop_cases (n : Nat) : ∀ s : Sys,
    (∃ k, k < n ∧ ∃ u, ping_attempt k s = some (0, u)
        ∧ (∀ j, j < k → ∃ rc v, ping_attempt j s = some (rc, v) ∧ rc ≠ 0)
        ∧ ping_loop n s = some { u with app_state := app_state_t.APP_STATE_READ_META }
        ∧ u.n_tx = s.n_tx + (k + 1))
    ∨ ((∀ j, j < n → ∃ rc v, ping_attempt j s = some (rc, v) ∧ rc ≠ 0)
        ∧ ∃ t, ping_loop n s = some t ∧ t.app_state = s.app_state ∧ t.n_tx = s.n_tx + n) := by
  induction n with
  | zero =>
    intro s
    exact Or.inr ⟨fun j hj => absurd hj (Nat.not_lt_zero j), s, rfl, rfl, rfl⟩
  | succ n ih =>
    intro s
    obtain ⟨rc, s1, hp, hn, hf⟩ := dfu_host_ping_returns s
    by_cases hrc : rc = 0
    · subst hrc
      refine Or.inl ⟨0, Nat.succ_pos n, s1, hp, fun j hj => absurd hj (Nat.not_lt_zero j), ?_, hn⟩
      simp [ping_loop, hp]
    · have hloop : ping_loop (n + 1) s = ping_loop n (HAL_Delay 1000 s1) := by
        simp [ping_loop, hp, hrc]
      have hatt : ∀ k, ping_attempt (k + 1) s = ping_attempt k (HAL_Delay 1000 s1) := by
        intro k
        simp [ping_attempt, hp]
      have hdn : (HAL_Delay 1000 s1).n_tx = s.n_tx + 1 := hn
      have hda : (HAL_Delay 1000 s1).app_state = s.app_state := hf.app_state
      rcases ih (HAL_Delay 1000 s1) with ⟨k, hk, u, hu, hprev, hl, hnu⟩ | ⟨hall, t, hl, hta, htn⟩
      · refine Or.inl ⟨k + 1, Nat.succ_lt_succ hk, u, (hatt k).trans hu, ?_, hloop.trans hl, ?_⟩
        · intro j hj
          cases j with
          | zero => exact ⟨rc, s1, hp, hrc⟩
          | succ j =>
            obtain ⟨rc', v, hv, hne⟩ := hprev j (Nat.lt_of_succ_lt_succ hj)
            exact ⟨rc', v, (hatt j).trans hv, hne⟩
        · rw [hnu, hdn]; omega
      · refine Or.inr ⟨?_, t, hloop.trans hl, hta.trans hda, ?_⟩
        · intro j hj
          cases j with
          | zero => exact ⟨rc, s1, hp, hrc⟩
          | succ j =>
            obtain ⟨rc', v, hv, hne⟩ := hall j (Nat.lt_of_succ_lt_succ hj)
            exact ⟨rc', v, (hatt j).trans hv, hne⟩
        · rw [htn, hdn]; omega

/-- C9: one step from `APP_STATE_INITIAL` returns; after the reset pulse it
issues pings with timeout 1000, at least one and never more than five
(counted by the transmits); either some ping `k < 5` is the first to return 0,
the step stops right after it (`k + 1` pings) in `APP_STATE_READ_META`, or all
five pings return non-zero and the state remains `APP_STATE_INITIAL`; so the
step ends in `APP_STATE_READ_META` if and only if one of the pings it issued
returned 0. -/
theorem C9_initial_step (s : Sys) (hs : s.app_state = app_state_t.APP_STATE_INITIAL) :
    ∃ t, app_dispatch s = some t
      ∧ s.n_tx + 1 ≤ t.n_tx ∧ t.n_tx ≤ s.n_tx + 5
      ∧ ((∃ k, k < 5 ∧ ∃ u, ping_attempt k (reset_pulse s) = some (0, u)
            ∧ (∀ j, j < k → ∃ rc v, ping_attempt j (reset_pulse s) = some (rc, v) ∧ rc ≠ 0)
            ∧ t = { u with app_state := app_state_t.APP_STATE_READ_META }
            ∧ t.n_tx = s.n_tx + (k + 1))
          ∨ ((∀ j, j < 5 → ∃ rc v, ping_attempt j (reset_pulse s) = some (rc, v) ∧ rc ≠ 0)
            ∧ t.app_state = app_state_t.APP_STATE_INITIAL ∧ t.n_tx = s.n_tx + 5))
      ∧ (t.app_state = app_state_t.APP_STATE_READ_META ↔
          ∃ k, k < t.n_tx - s.n_tx ∧ ∃ u, ping_attempt k (reset_pulse s) = some (0, u)) := by
  have hd : app_dispatch s = ping_loop 5 (reset_pulse s) := by
    simp [app_dispatch, hs, reset_pulse]
  have hn : (reset_pulse s).n_tx = s.n_tx := rfl
  have ha : (reset_pulse s).app_state = app_state_t.APP_STATE_INITIAL := hs
  rcases ping_loop_cases 5 (reset_pulse s) with
    ⟨k, hk, u, hu, hprev, hl, hnu⟩ | ⟨hall, t, hl, hta, htn⟩
  · rw [hn] at hnu
    have htn : ({ u with app_state := app_state_t.APP_STATE_READ_META } : Sys).n_tx
        = s.n_tx + (k + 1) := hnu
    refine ⟨_, hd.trans hl, ?_, ?_, Or.inl ⟨k, hk, u, hu, hprev, rfl, htn⟩, ?_⟩
    · rw [htn]; omega
    · rw [htn]; omega
    · constructor
      · intro _
        exact ⟨k, by rw [htn]; omega, u, hu⟩
      · intro _
        rfl
  · rw [hn] at htn
    rw [ha] at hta
    refine ⟨t, hd.trans hl, ?_, ?_, Or.inr ⟨hall, hta, htn⟩, ?_⟩
    · rw [htn]; omega
    · rw [htn]
    · constructor
      · intro h
        rw [hta] at h
        cases h
      · rintro ⟨k, hk, u, hu⟩
        obtain ⟨rc, v, hv, hne⟩ := hall k (by rw [htn] at hk; omega)
        rw [hu] at hv
        simp only [Option.some.injEq, Prod.mk.injEq] at hv
        exact absurd hv.1.symm hne

theorem C9_initial_step_witness :
    sys_third_ping_acked.app_state = app_state_t.APP_STATE_INITIAL
    ∧ (∃ t, app_dispatch sys_third_ping_acked = some t
        ∧ sys_third_ping_acked.n_tx + 1 ≤ t.n_tx ∧ t.n_tx ≤ sys_third_ping_acked.n_tx + 5)
    ∧ (app_dispatch sys_third_ping_acked).map
        (fun t => (t.app_state, t.n_tx, tx_frames t.trace))
      = some (app_state_t.APP_STATE_READ_META, 3, [[0x7F], [0x7F], [0x7F]]) :=
  ⟨rfl,
   (C9_initial_step sys_third_ping_acked rfl).imp fun _ h => ⟨h.1, h.2.1, h.2.2.1⟩,
   by decide⟩

/-! ## One successful Read-Memory exchange -/

theorem send_data_ack (buffer : List Nat) (size timeout : Nat) (s : Sys)
    (hsize : size ≠ 0) (hto : 0 < timeout)
    (htx : s.tx_status s.n_tx = HalStatus.HAL_OK)
    (hrx : s.rx_line s.n_rx = ⟨false, [0x79]⟩) :
    send_data buffer size timeout s =
      some (0,
        { s with n_tx := s.n_tx + 1, n_rx := s.n_rx + 1,
                 trace := s.trace ++ [Call.transmit (buffer.take size), Call.receive 1 timeout],
                 rcv_buffer := store_bytes s.rcv_buffer 0 [0x79] }) := by
  rw [send_data_ok_tx buffer size timeout s hsize hto htx 0x79 (by decide) hrx]
  rfl

theorem length_frame_bytes (address len : Nat) (h1 : 1 ≤ len) (h2 : len ≤ 256) :
    List.take 2 (((address_frame address).set 0 ((len - 1) % 256)).set 1
        ((0xFF ^^^ (((address_frame address).set 0 ((len - 1) % 256)).getD 0 0)) % 256))
      = [len - 1, 0xFF ^^^ (len - 1)] := by
  have e1 : (len - 1) % 256 = len - 1 := Nat.mod_eq_of_lt (by omega)
  have e2 : (0xFF ^^^ (len - 1)) % 256 = 0xFF ^^^ (len - 1) :=
    Nat.mod_eq_of_lt (Nat.xor_lt_two_pow (n := 8) (by decide) (by omega))
  simp [address_frame, e1, e2]

theorem address_frame_take (address : Nat) :
    List.take 5 (address_frame address) = address_frame address := by
  simp [address_frame]

theorem store_bytes_get (buf : Nat → Nat) (data : List Nat) (i : Nat) (h : i < data.length) :
    store_bytes buf 0 data i = data.getD i 0 % 256 := by
  simp [store_bytes, h]

theorem rcv_bytes_store (s : Sys) (buf : Nat → Nat) (data : List Nat) :
    rcv_bytes { s with rcv_buffer := store_bytes buf 0 data } data.length
      = data.map (fun b => b % 256) := by
  apply List.ext_getElem
  · simp [rcv_bytes]
  · intro i h1 h2
    simp only [rcv_bytes, List.length_map, List.length_range] at h1
    simp [rcv_bytes, store_bytes, h1, List.getD_eq_getElem?_getD, List.getElem?_eq_getElem h1]

/-- A Read-Memory exchange that the device serves: all three frames go out
and are acknowledged, and the data phase delivers exactly `len` bytes.  The
call returns `len`, having made the calls `read_exchange address len`, with
the data at the start of the receive buffer. -/
theorem dfu_host_read_memory_ok (address len : Nat) (s : Sys) (data : List Nat)
    (h1 : 1 ≤ len) (h2 : len ≤ 256)
    (htx : ∀ i, i < 3 → s.tx_status (s.n_tx + i) = HalStatus.HAL_OK)
    (hack : ∀ k, k < 3 → s.rx_line (s.n_rx + k) = ⟨false, [0x79]⟩)
    (hdata : s.rx_line (s.n_rx + 3) = ⟨false, data⟩) (hlen : data.length = len) :
    dfu_host_read_memory address len s =
      some ((len : Int),
        { s with n_tx := s.n_tx + 3, n_rx := s.n_rx + 4,
                 trace := s.trace ++ read_exchange address len,
                 rcv_buffer := store_bytes (store_bytes (store_bytes
                   (store_bytes s.rcv_buffer 0 [0x79]) 0 [0x79]) 0 [0x79]) 0 data }) := by
  have e1 : send_command DFU_HOST_CMD_ID_READ_MEM CONFIG_DFU_HOST_RECEIVE_TIMEOUT_MS s
      = some (0, { s with
          n_tx := s.n_tx + 1, n_rx := s.n_rx + 1,
          trace := s.trace ++ [Call.transmit [0x11, 0xEE], Call.receive 1 1000],
          rcv_buffer := store_bytes s.rcv_buffer 0 [0x79] }) := by
    rw [send_command, send_data_ack _ 2 _ s (by decide) (by decide) (htx 0 (by decide))
      (hack 0 (by decide))]
    rfl
  have e2 : send_data (address_frame address) 5 CONFIG_DFU_HOST_RECEIVE_TIMEOUT_MS
      { s with
          n_tx := s.n_tx + 1, n_rx := s.n_rx + 1,
          trace := s.trace ++ [Call.transmit [0x11, 0xEE], Call.receive 1 1000],
          rcv_buffer := store_bytes s.rcv_buffer 0 [0x79] }
      = some (0, { s with
          n_tx := s.n_tx + 2, n_rx := s.n_rx + 2,
          trace := s.trace ++ [Call.transmit [0x11, 0xEE], Call.receive 1 1000,
            Call.transmit (address_frame address), Call.receive 1 1000],
          rcv_buffer := store_bytes (store_bytes s.rcv_buffer 0 [0x79]) 0 [0x79] }) := by
    rw [send_data_ack _ 5 _ _ (by decide) (by decide) (htx 1 (by decide))
      (hack 1 (by decide)), address_frame_take]
    simp [CONFIG_DFU_HOST_RECEIVE_TIMEOUT_MS]
  have e3 : send_data (((address_frame address).set 0 ((len - 1) % 256)).set 1
        ((0xFF ^^^ (((address_frame address).set 0 ((len - 1) % 256)).getD 0 0)) % 256))
      2 CONFIG_DFU_HOST_RECEIVE_TIMEOUT_MS
      { s with
          n_tx := s.n_tx + 2, n_rx := s.n_rx + 2,
          trace := s.trace ++ [Call.transmit [0x11, 0xEE], Call.receive 1 1000,
            Call.transmit (address_frame address), Call.receive 1 1000],
          rcv_buffer := store_bytes (store_bytes s.rcv_buffer 0 [0x79]) 0 [0x79] }
      = some (0, { s with
          n_tx := s.n_tx + 3, n_rx := s.n_rx + 3,
          trace := s.trace ++ [Call.transmit [0x11, 0xEE], Call.receive 1 1000,
            Call.transmit (address_frame address), Call.receive 1 1000,
            Call.transmit [len - 1, 0xFF ^^^ (len - 1)], Call.receive 1 1000],
          rcv_buffer := store_bytes (store_bytes (store_bytes s.rcv_buffer 0 [0x79])
            0 [0x79]) 0 [0x79] }) := by
    rw [send_data_ack _ 2 _ _ (by decide) (by decide) (htx 2 (by decide))
      (hack 2 (by decide)), length_frame_bytes address len h1 h2]
    simp [CONFIG_DFU_HOST_RECEIVE_TIMEOUT_MS]
  have hl0 : len ≠ 0 := by omega
  have ht : List.take len data = data := List.take_of_length_le (le_of_eq hlen)
  simp only [dfu_host_read_memory, hl0, CONFIG_DFU_HOST_RX_BUFFER_SIZE, h2, not_true,
    or_self, if_false, e1, e2, e3, lt_irrefl, recv_fixed, HAL_UART_Receive, hdata]
  simp [CONFIG_DFU_HOST_RECEIVE_TIMEOUT_MS, hlen, read_exchange, ht]

/-! ## The `while` loop of `APP_STATE_CHECK_FW_CRC` against a device that serves the image -/

theorem address_frame_mod (x : Nat) : address_frame (x % 2 ^ 32) = address_frame x := by
  have e1 : (x % 2 ^ 32) >>> 24 % 256 = x >>> 24 % 256 := by
    simp only [Nat.shiftRight_eq_div_pow]; omega
  have e2 : (x % 2 ^ 32) >>> 16 % 256 = x >>> 16 % 256 := by
    simp only [Nat.shiftRight_eq_div_pow]; omega
  have e3 : (x % 2 ^ 32) >>> 8 % 256 = x >>> 8 % 256 := by
    simp only [Nat.shiftRight_eq_div_pow]; omega
  have e4 : x % 2 ^ 32 % 256 = x % 256 := by omega
  simp only [address_frame, e1, e2, e3, e4]

theorem read_exchange_congr (a b len : Nat) (h : a % 2 ^ 32 = b % 2 ^ 32) :
    read_exchange a len = read_exchange b len := by
  have e : address_frame a = address_frame b := by
    rw [← address_frame_mod a, ← address_frame_mod b, h]
  simp only [read_exchange, e]

theorem rcv_bytes_of_store (t : Sys) (buf : Nat → Nat) (data : List Nat)
    (h : t.rcv_buffer = store_bytes buf 0 data) :
    rcv_bytes t data.length = data.map (fun b => b % 256) := by
  rw [← rcv_bytes_store t buf data]
  simp only [rcv_bytes, h]

theorem read_retry_first (addr sz : Nat) (s t : Sys) (n : Nat) (rc0 : Int) (e0 : Nat)
    (hsz : 0 < sz) (h : dfu_host_read_memory addr sz s = some ((sz : Int), t)) :
    read_retry addr sz (n + 1) rc0 e0 s = some (((sz : Int), 0), t) := by
  have hpos : (sz : Int) > 0 := by exact_mod_cast hsz
  simp [read_retry, h, hpos]

/-- One iteration of the loop when the device serves the chunk `data`. -/
theorem check_loop_step (fuel : Nat) (v : check_vars) (s : Sys) (data : List Nat)
    (hd : v.data_left ≠ 0)
    (htx : ∀ i, i < 3 → s.tx_status (s.n_tx + i) = HalStatus.HAL_OK)
    (hack : ∀ k, k < 3 → s.rx_line (s.n_rx + k) = ⟨false, [0x79]⟩)
    (hdata : s.rx_line (s.n_rx + 3) = ⟨false, data⟩)
    (hlen : data.length = MIN v.data_left 256) :
    check_loop (fuel + 1) v s =
      check_loop fuel
        { data_left := v.data_left - MIN v.data_left 256,
          crc := crc16_reflect 0xA001 v.crc (data.map fun b => b % 256),
          addr := (v.addr + MIN v.data_left 256) % 2 ^ 32 }
        (after_read s v.addr (MIN v.data_left 256) data) := by
  have h1 : 1 ≤ MIN v.data_left 256 := by
    unfold MIN; split_ifs <;> omega
  have h2 : MIN v.data_left 256 ≤ 256 := by
    unfold MIN; split_ifs <;> omega
  have hr := dfu_host_read_memory_ok v.addr (MIN v.data_left 256) s data h1 h2 htx hack hdata hlen
  have hrr := read_retry_first v.addr (MIN v.data_left 256) s
    (after_read s v.addr (MIN v.data_left 256) data) 4 0 0 h1 hr
  have hb : rcv_bytes (after_read s v.addr (MIN v.data_left 256) data) (MIN v.data_left 256)
      = data.map fun b => b % 256 := by
    rw [← hlen]
    exact rcv_bytes_of_store _ _ data rfl
  simp only [check_loop, hd, if_false, hrr, ne_eq, not_true, Int.toNat_ofNat, hb]

theorem MIN_eq_min (a b : Nat) : MIN a b = min a b := by
  unfold MIN
  split_ifs <;> omega

theorem Frame_after_read (s : Sys) (addr len : Nat) (data : List Nat) :
    Frame s (after_read s addr len data) :=
  ⟨rfl, rfl, rfl, rfl, rfl, rfl, rfl, rfl, ⟨_, rfl⟩⟩

theorem image_served_after_read (s : Sys) (img : List Nat) (addr len : Nat) (data : List Nat)
    (h : image_served s img) : image_served (after_read s addr len data) (img.drop 256) := by
  obtain ⟨htx, hrx⟩ := h
  refine ⟨?_, ?_⟩
  · intro i
    have := htx (3 + i)
    simpa [after_read, Nat.add_assoc] using this
  · intro j hj
    have hj' : j + 1 < chunk_count img.length := by
      simp only [chunk_count, List.length_drop] at hj ⊢
      omega
    obtain ⟨ha, hd⟩ := hrx (j + 1) hj'
    refine ⟨?_, ?_⟩
    · intro k hk
      have := ha k hk
      have e : (after_read s addr len data).n_rx + 4 * j + k = s.n_rx + 4 * (j + 1) + k := by
        simp only [after_read]; omega
      rw [e]
      exact this
    · have e : (after_read s addr len data).n_rx + 4 * j + 3 = s.n_rx + 4 * (j + 1) + 3 := by
        simp only [after_read]; omega
      rw [e, List.drop_drop]
      have e2 : 256 + 256 * j = 256 * (j + 1) := by omega
      rw [e2]
      exact hd

/-- The loop against a device that serves the image `img` of `data_left`
bytes: it runs to `data_left = 0`, folds the CRC over the image, and makes
exactly the calls of `chunk_count data_left` Read-Memory exchanges, the `i`-th
at address `addr + 256 i` with length `MIN (data_left - 256 i) 256`. -/
theorem check_loop_served : ∀ (fuel : Nat) (v : check_vars) (s : Sys) (img : List Nat),
    img.length = v.data_left → v.data_left ≤ fuel → image_served s img →
    ∃ a t, check_loop fuel v s
        = some (⟨0, crc16_reflect 0xA001 v.crc (img.map fun b => b % 256), a⟩, t)
      ∧ Frame s t
      ∧ t.n_tx = s.n_tx + 3 * chunk_count v.data_left
      ∧ t.n_rx = s.n_rx + 4 * chunk_count v.data_left
      ∧ t.trace = s.trace ++ (List.range (chunk_count v.data_left)).flatMap
          (fun i => read_exchange (v.addr + 256 * i) (MIN (v.data_left - 256 * i) 256)) := by
  intro fuel
  induction fuel with
  | zero =>
    intro v s img hlen hle hserved
    have h0 : v.data_left = 0 := Nat.le_zero.mp hle
    have himg : img = [] := List.length_eq_zero.mp (hlen.trans h0)
    refine ⟨v.addr, s, ?_, Frame.refl s, ?_, ?_, ?_⟩
    · simp only [check_loop, h0, if_true, himg, List.map_nil, crc16_reflect, List.foldl_nil]
      rw [← h0]
    · simp [h0, chunk_count]
    · simp [h0, chunk_count]
    · simp [h0, chunk_count]
  | succ fuel ih =>
    intro v s img hlen hle hserved
    by_cases h0 : v.data_left = 0
    · have himg : img = [] := List.length_eq_zero.mp (hlen.trans h0)
      refine ⟨v.addr, s, ?_, Frame.refl s, ?_, ?_, ?_⟩
      · simp only [check_loop, h0, if_true, himg, List.map_nil, crc16_reflect, List.foldl_nil]
        rw [← h0]
      · simp [h0, chunk_count]
      · simp [h0, chunk_count]
      · simp [h0, chunk_count]
    · have hmin : MIN v.data_left 256 = min v.data_left 256 := MIN_eq_min _ _
      have hc0 : 0 < chunk_count img.length := by
        simp only [chunk_count, hlen]; omega
      obtain ⟨hack, hdata⟩ := hserved.2 0 hc0
      have hstep := check_loop_step fuel v s (img.take 256) h0
        (fun i _ => hserved.1 i)
        (fun k hk => by simpa using hack k hk)
        (by simpa using hdata)
        (by rw [List.length_take, hlen, hmin]; omega)
      obtain ⟨a, t, hrun, hframe, hntx, hnrx, htrace⟩ :=
        ih { data_left := v.data_left - MIN v.data_left 256,
             crc := crc16_reflect 0xA001 v.crc ((img.take 256).map fun b => b % 256),
             addr := (v.addr + MIN v.data_left 256) % 2 ^ 32 }
          (after_read s v.addr (MIN v.data_left 256) (img.take 256)) (img.drop 256)
          (by simp only [List.length_drop, hlen, hmin]; omega)
          (by simp only [hmin]; omega)
          (image_served_after_read s img _ _ _ hserved)
      have hcc : chunk_count v.data_left
          = chunk_count (v.data_left - MIN v.data_left 256) + 1 := by
        simp only [chunk_count, hmin]; omega
      refine ⟨a, t, ?_, Frame.trans (Frame_after_read _ _ _ _) hframe, ?_, ?_, ?_⟩
      · rw [hstep, hrun]
        simp only [← crc16_reflect_append, ← List.map_append, List.take_append_drop]
      · rw [hntx, hcc]; simp only [after_read]; omega
      · rw [hnrx, hcc]; simp only [after_read]; omega
      · rw [htrace, hcc, List.range_succ_eq_map, List.flatMap_cons, List.flatMap_map]
        simp only [after_read, List.append_assoc, Nat.mul_zero, Nat.add_zero, Nat.sub_zero]
        congr 2
        apply List.flatMap_congr
        intro i hi
        have hi' : i < chunk_count (v.data_left - MIN v.data_left 256) := List.mem_range.mp hi
        have hbig : 256 < v.data_left := by
          simp only [chunk_count, hmin] at hi'; omega
        have hm : MIN v.data_left 256 = 256 := by rw [hmin]; omega
        rw [hm]
        have e1 : v.data_left - 256 - 256 * i = v.data_left - 256 * i.succ := by
          simp only [Nat.succ_eq_add_one]; omega
        rw [e1]
        apply read_exchange_congr
        simp only [Nat.succ_eq_add_one]
        omega

/-! ## The frame of the automaton's helpers -/

theorem Frame_dfu_host_read_memory (address len : Nat) (s : Sys) (rc : Int) (t : Sys)
    (h : dfu_host_read_memory address len s = some (rc, t)) : Frame s t := by
  simp only [dfu_host_read_memory] at h
  split_ifs at h
  · simp only [Option.some.injEq, Prod.mk.injEq] at h
    rw [← h.2]; exact Frame.refl s
  · split at h
    · cases h
    · rename_i rc1 s1 hc
      have f1 := Frame_send_command _ _ _ _ _ hc
      split_ifs at h
      · simp only [Option.some.injEq, Prod.mk.injEq] at h
        rw [← h.2]; exact f1
      · split at h
        · cases h
        · rename_i rc2 s2 hc2
          have f2 := Frame.trans f1 (Frame_send_data _ _ _ _ _ _ hc2)
          split_ifs at h
          · simp only [Option.some.injEq, Prod.mk.injEq] at h
            rw [← h.2]; exact f2
          · split at h
            · cases h
            · rename_i rc3 s3 hc3
              have f3 := Frame.trans f2 (Frame_send_data _ _ _ _ _ _ hc3)
              split_ifs at h
              · simp only [Option.some.injEq, Prod.mk.injEq] at h
                rw [← h.2]; exact f3
              · split at h
                · cases h
                · rename_i rc4 s4 hc4
                  simp only [Option.some.injEq, Prod.mk.injEq] at h
                  rw [← h.2]
                  exact Frame.trans f3 (Frame_recv_fixed _ _ _ _ _ hc4)

theorem Frame_read_retry (addr sz : Nat) (n : Nat) :
    ∀ (rc0 : Int) (e0 : Nat) (s : Sys) (r : Int × Nat) (t : Sys),
      read_retry addr sz n rc0 e0 s = some (r, t) → Frame s t := by
  induction n with
  | zero =>
    intro rc0 e0 s r t h
    simp only [read_retry, Option.some.injEq, Prod.mk.injEq] at h
    rw [← h.2]; exact Frame.refl s
  | succ n ih =>
    intro rc0 e0 s r t h
    simp only [read_retry] at h
    split at h
    · cases h
    · rename_i rc s1 hr
      have f1 := Frame_dfu_host_read_memory _ _ _ _ _ hr
      split_ifs at h
      · simp only [Option.some.injEq, Prod.mk.injEq] at h
        rw [← h.2]; exact f1
      · exact Frame.trans f1 (ih _ _ _ _ _ h)

/-- The loop changes `app_state` (when it gives up) but nothing else outside
the engine. -/
theorem Frame_check_loop (fuel : Nat) :
    ∀ (v : check_vars) (s : Sys) (w : check_vars) (t : Sys),
      check_loop fuel v s = some (w, t) → Frame s { t with app_state := s.app_state } := by
  induction fuel with
  | zero =>
    intro v s w t h
    simp only [check_loop] at h
    split_ifs at h
    simp only [Option.some.injEq, Prod.mk.injEq] at h
    rw [← h.2]; exact Frame.refl s
  | succ fuel ih =>
    intro v s w t h
    simp only [check_loop] at h
    split_ifs at h
    · simp only [Option.some.injEq, Prod.mk.injEq] at h
      rw [← h.2]; exact Frame.refl s
    · split at h
      · cases h
      · rename_i rc err_cnt s1 hr
        have f1 := Frame_read_retry _ _ _ _ _ _ _ _ hr
        split_ifs at h
        · simp only [Option.some.injEq, Prod.mk.injEq] at h
          rw [← h.2]
          exact ⟨f1.assert_on, rfl, f1.fw_meta, f1.led_done, f1.led_failure, f1.tx_status,
            f1.rx_line, f1.it_status, f1.trace⟩
        · have f2 := ih _ _ _ _ h
          exact ⟨f2.assert_on.trans f1.assert_on, rfl, f2.fw_meta.trans f1.fw_meta,
            f2.led_done.trans f1.led_done, f2.led_failure.trans f1.led_failure,
            f2.tx_status.trans f1.tx_status, f2.rx_line.trans f1.rx_line,
            f2.it_status.trans f1.it_status,
            (Frame.trans f1 f2).trace⟩

theorem address_frame_flash_base : address_frame 0x08000000 = [0x08, 0, 0, 0, 0x08] := by
  decide

/-- The Go operation returns; it transmits the command frame `21 DE` and, when
that is acknowledged, the address frame; a non-negative result means both
frames were transmitted. -/
theorem dfu_host_go_returns (address : Nat) (s : Sys) :
    ∃ rc t, dfu_host_go address s = some (rc, t) ∧ Frame s t
      ∧ ((rc < 0 ∧ tx_frames t.trace = tx_frames s.trace ++ [[0x21, 0xDE]])
          ∨ tx_frames t.trace = tx_frames s.trace ++ [[0x21, 0xDE], address_frame address]) := by
  obtain ⟨rc1, s1, h1, hf1⟩ := send_data_tx_frames
    [DFU_HOST_CMD_ID_GO % 256, (0xFF ^^^ DFU_HOST_CMD_ID_GO) % 256] 2
    CONFIG_DFU_HOST_RECEIVE_TIMEOUT_MS s (by decide) (by decide)
  have hf1' : tx_frames s1.trace = tx_frames s.trace ++ [[0x21, 0xDE]] := hf1
  by_cases hrc : rc1 < 0
  · refine ⟨rc1, s1, ?_, Frame_send_data _ _ _ _ _ _ h1, Or.inl ⟨hrc, hf1'⟩⟩
    simp only [dfu_host_go, send_command, h1, hrc, if_true]
  · obtain ⟨rc2, s2, h2, hf2⟩ := send_data_tx_frames (address_frame address) 5
      CONFIG_DFU_HOST_RECEIVE_TIMEOUT_MS s1 (by decide) (by decide)
    refine ⟨rc2, s2, ?_, Frame.trans (Frame_send_data _ _ _ _ _ _ h1)
      (Frame_send_data _ _ _ _ _ _ h2), Or.inr ?_⟩
    · simp only [dfu_host_go, send_command, h1, hrc, if_false, h2]
    · rw [hf2, hf1', address_frame_take]
      simp

/-! ## Concrete images -/

set_option maxRecDepth 100000 in
theorem image_beef_first_chunk :
    crc16_reflect 0xA001 0xFFFF (image_beef.take 256) = 0x7FD5 := by
  decide!

set_option maxRecDepth 100000 in
theorem image_beef_second_chunk :
    crc16_reflect 0xA001 0x7FD5 (image_beef.drop 256) = 0xBEEF := by
  decide!

/-- The two 256-byte chunks of `image_beef` have the combined CRC-16 `0xBEEF`. -/
theorem image_beef_crc : crc16_reflect 0xA001 0xFFFF image_beef = 0xBEEF := by
  rw [← List.take_append_drop 256 image_beef, crc16_reflect_append, image_beef_first_chunk,
    image_beef_second_chunk]

set_option maxRecDepth 100000 in
theorem image_zero_crc_first_chunk :
    crc16_reflect 0xA001 0xFFFF (image_zero_crc.take 256) = 0x64BF := by
  decide!

set_option maxRecDepth 100000 in
theorem image_zero_crc_second_chunk :
    crc16_reflect 0xA001 0x64BF (image_zero_crc.drop 256) = 0 := by
  decide!

/-- The two 256-byte chunks of `image_zero_crc` have the combined CRC-16 `0x0000`. -/
theorem image_zero_crc_crc : crc16_reflect 0xA001 0xFFFF image_zero_crc = 0 := by
  rw [← List.take_append_drop 256 image_zero_crc, crc16_reflect_append,
    image_zero_crc_first_chunk, image_zero_crc_second_chunk]

set_option maxRecDepth 100000 in
theorem image_beef_bytes : ∀ b ∈ image_beef, b < 256 := by
  decide!

set_option maxRecDepth 100000 in
theorem image_zero_crc_bytes : ∀ b ∈ image_zero_crc, b < 256 := by
  decide!

theorem image_served_sys_image (img : List Nat) (crc16 : Nat) :
    image_served (sys_image img crc16) img := by
  refine ⟨fun _ => rfl, ?_⟩
  intro j _
  refine ⟨?_, ?_⟩
  · intro k hk
    have e : (sys_image img crc16).n_rx + 4 * j + k = 4 * j + k := by
      simp [sys_image, sys_ack]
    rw [e]
    have hne : (4 * j + k) % 4 ≠ 3 := by omega
    simp [sys_image, device_serving, hne]
  · have e : (sys_image img crc16).n_rx + 4 * j + 3 = 4 * j + 3 := by
      simp [sys_image, sys_ack]
    rw [e]
    have h3 : (4 * j + 3) % 4 = 3 := by omega
    have h4 : (4 * j + 3) / 4 = j := by omega
    simp [sys_image, device_serving, h3, h4]

/-! ## C8: the chunk schedule -/

theorem map_mod_of_bytes (img : List Nat) (h : ∀ b ∈ img, b < 256) :
    img.map (fun b => b % 256) = img := by
  induction img with
  | nil => rfl
  | cons b bs ih =>
    have hb : b % 256 = b := Nat.mod_eq_of_lt (h b (List.mem_cons_self b bs))
    simp only [List.map_cons, hb]
    rw [ih fun c hc => h c (List.mem_cons_of_mem b hc)]

/-- The chunk lengths add up to the size. -/
theorem chunk_lengths_sum (m : Nat) : ∀ n, n ≤ 256 * m →
    ((List.range m).map fun i => min 256 (n - 256 * i)).sum = n := by
  induction m with
  | zero =>
    intro n hn
    have h0 : n = 0 := by omega
    subst h0
    rfl
  | succ m ih =>
    intro n hn
    rw [List.range_succ_eq_map, List.map_cons, List.map_map, List.sum_cons]
    have e : ((fun i => min 256 (n - 256 * i)) ∘ Nat.succ)
        = fun i => min 256 (n - 256 - 256 * i) := by
      funext i
      have e1 : n - 256 * (i + 1) = n - 256 - 256 * i := by omega
      simp only [Function.comp, Nat.succ_eq_add_one, e1]
    rw [e, ih (n - 256) (by omega)]
    simp only [Nat.mul_zero, Nat.sub_zero]
    omega

/-- C8: for every `fw_size`, when the device serves every read, the loop of the
`APP_STATE_CHECK_FW_CRC` step runs to `data_left = 0`; its calls are exactly
those of `chunk_count fw_size = ceil(fw_size / 256)` Read-Memory exchanges,
the `i`-th (i = 0, 1, ...) with the address frame of `0x08000000 + 256 i` and
the length `min 256 (fw_size - 256 i)`; the lengths sum to `fw_size`; the CRC
at loop exit is the CRC-16 of the image, that is, of the served bytes in
address order; and the step returns, its trace beginning with those calls. -/
theorem C8_chunk_schedule (s : Sys) (img : List Nat)
    (hs : s.app_state = app_state_t.APP_STATE_CHECK_FW_CRC)
    (hlen : img.length = s.fw_meta.fw_size) (hbytes : ∀ b ∈ img, b < 256)
    (hserved : image_served s img) :
    ∃ a t, check_loop s.fw_meta.fw_size
          { data_left := s.fw_meta.fw_size, crc := 0xFFFF, addr := 0x08000000 } s
        = some (⟨0, crc16_reflect 0xA001 0xFFFF img, a⟩, t)
      ∧ t.trace = s.trace ++ (List.range (chunk_count s.fw_meta.fw_size)).flatMap
          (fun i => read_exchange (0x08000000 + 256 * i) (min 256 (s.fw_meta.fw_size - 256 * i)))
      ∧ t.n_tx = s.n_tx + 3 * chunk_count s.fw_meta.fw_size
      ∧ t.n_rx = s.n_rx + 4 * chunk_count s.fw_meta.fw_size
      ∧ s.fw_meta.fw_size ≤ 256 * chunk_count s.fw_meta.fw_size
      ∧ 256 * chunk_count s.fw_meta.fw_size < s.fw_meta.fw_size + 256
      ∧ ((List.range (chunk_count s.fw_meta.fw_size)).map
          fun i => min 256 (s.fw_meta.fw_size - 256 * i)).sum = s.fw_meta.fw_size
      ∧ ∃ u rest, app_dispatch s = some u ∧ u.trace = t.trace ++ rest := by
  obtain ⟨a, t, hrun, hframe, hntx, hnrx, htrace⟩ :=
    check_loop_served s.fw_meta.fw_size
      { data_left := s.fw_meta.fw_size, crc := 0xFFFF, addr := 0x08000000 } s img hlen
      (Nat.le_refl _) hserved
  rw [map_mod_of_bytes img hbytes] at hrun
  have hsched : (fun i => read_exchange (0x08000000 + 256 * i)
        (MIN (s.fw_meta.fw_size - 256 * i) 256))
      = fun i => read_exchange (0x08000000 + 256 * i) (min 256 (s.fw_meta.fw_size - 256 * i)) := by
    funext i
    rw [MIN_eq_min, Nat.min_comm]
  have hcc1 : s.fw_meta.fw_size ≤ 256 * chunk_count s.fw_meta.fw_size := by
    simp only [chunk_count]; omega
  have hcc2 : 256 * chunk_count s.fw_meta.fw_size < s.fw_meta.fw_size + 256 := by
    simp only [chunk_count]; omega
  refine ⟨a, t, hrun, ?_, hntx, hnrx, hcc1, hcc2, chunk_lengths_sum _ _ hcc1, ?_⟩
  · rw [htrace]
    simp only [hsched]
  · by_cases hcrc : t.fw_meta.crc16 ≠ crc16_reflect 0xA001 0xFFFF img
    · refine ⟨{ t with app_state := app_state_t.APP_STATE_CHECK_FAILURE }, [], ?_, ?_⟩
      · simp only [app_dispatch, hs, hrun, if_pos hcrc]
      · simp
    · obtain ⟨rc, u, hgo, hfu, -⟩ := dfu_host_go_returns 0x08000000 t
      obtain ⟨rest, hrest⟩ := hfu.trace
      by_cases hrc : rc < 0
      · refine ⟨{ u with app_state := app_state_t.APP_STATE_CHECK_FAILURE }, rest, ?_, hrest⟩
        simp only [app_dispatch, hs, hrun, if_neg hcrc, hgo, if_pos hrc]
      · refine ⟨{ u with app_state := app_state_t.APP_STATE_CHECK_DONE }, rest, ?_, hrest⟩
        simp only [app_dispatch, hs, hrun, if_neg hcrc, hgo, if_neg hrc]

theorem sys_image_fw_size (img : List Nat) (crc16 : Nat) :
    (sys_image img crc16).fw_meta.fw_size = img.length := rfl

theorem image_beef_length : image_beef.length = 512 := by
  simp [image_beef]

theorem image_zero_crc_length : image_zero_crc.length = 512 := by
  simp only [image_zero_crc, List.length_append, List.length_replicate, List.length_cons,
    List.length_nil]

theorem C8_chunk_schedule_witness :
    ((sys_image image_beef 0xBEEF).app_state = app_state_t.APP_STATE_CHECK_FW_CRC
      ∧ image_beef.length = (sys_image image_beef 0xBEEF).fw_meta.fw_size
      ∧ (∀ b ∈ image_beef, b < 256)
      ∧ image_served (sys_image image_beef 0xBEEF) image_beef)
    ∧ ∃ a t, check_loop 512 { data_left := 512, crc := 0xFFFF, addr := 0x08000000 }
          (sys_image image_beef 0xBEEF)
        = some (⟨0, 0xBEEF, a⟩, t)
      ∧ t.trace = read_exchange 0x08000000 256 ++ read_exchange 0x08000100 256 := by
  have hsz : (sys_image image_beef 0xBEEF).fw_meta.fw_size = 512 :=
    (sys_image_fw_size _ _).trans image_beef_length
  refine ⟨⟨rfl, (sys_image_fw_size _ _).symm, image_beef_bytes, image_served_sys_image _ _⟩, ?_⟩
  obtain ⟨a, t, h1, h2, -⟩ := C8_chunk_schedule (sys_image image_beef 0xBEEF) image_beef rfl
    (sys_image_fw_size _ _).symm image_beef_bytes (image_served_sys_image _ _)
  rw [image_beef_crc, hsz] at h1
  rw [hsz] at h2
  have hc : chunk_count 512 = 2 := by decide
  refine ⟨a, t, h1, ?_⟩
  rw [h2, hc]
  rfl

/-! ## The `APP_STATE_CHECK_FW_CRC` loop always ends -/

theorem recv_fixed_returns (len timeout : Nat) (s : Sys) (h1 : len ≤ 256) (h2 : 0 < timeout) :
    ∃ rc t, recv_fixed len timeout s = some (rc, t) := by
  simp only [recv_fixed, CONFIG_DFU_HOST_RX_BUFFER_SIZE, h1, h2, and_self, not_true, and_false,
    if_false]
  split_ifs <;> exact ⟨_, _, rfl⟩

theorem dfu_host_read_memory_returns (address len : Nat) (s : Sys)
    (h1 : 1 ≤ len) (h2 : len ≤ 256) :
    ∃ rc t, dfu_host_read_memory address len s = some (rc, t) := by
  have hl0 : len ≠ 0 := by omega
  obtain ⟨rc1, s1, e1, -⟩ := send_data_tx_frames
    [DFU_HOST_CMD_ID_READ_MEM % 256, (0xFF ^^^ DFU_HOST_CMD_ID_READ_MEM) % 256] 2
    CONFIG_DFU_HOST_RECEIVE_TIMEOUT_MS s (by decide) (by decide)
  obtain ⟨rc2, s2, e2, -⟩ := send_data_tx_frames (address_frame address) 5
    CONFIG_DFU_HOST_RECEIVE_TIMEOUT_MS s1 (by decide) (by decide)
  obtain ⟨rc3, s3, e3, -⟩ := send_data_tx_frames
    (((address_frame address).set 0 ((len - 1) % 256)).set 1
      ((0xFF ^^^ (((address_frame address).set 0 ((len - 1) % 256)).getD 0 0)) % 256)) 2
    CONFIG_DFU_HOST_RECEIVE_TIMEOUT_MS s2 (by decide) (by decide)
  obtain ⟨rc4, s4, e4⟩ := recv_fixed_returns len CONFIG_DFU_HOST_RECEIVE_TIMEOUT_MS s3 h2
    (by decide)
  simp only [dfu_host_read_memory, hl0, CONFIG_DFU_HOST_RX_BUFFER_SIZE, h2, not_true, or_self,
    if_false, send_command, e1]
  split_ifs
  · exact ⟨_, _, rfl⟩
  · simp only [e2]
    split_ifs
    · exact ⟨_, _, rfl⟩
    · simp only [e3]
      split_ifs
      · exact ⟨_, _, rfl⟩
      · simp only [e4]
        exact ⟨_, _, rfl⟩

theorem read_retry_returns (addr sz : Nat) (h1 : 1 ≤ sz) (h2 : sz ≤ 256) (n : Nat) :
    ∀ (rc0 : Int) (e0 : Nat) (s : Sys), ∃ r t, read_retry addr sz n rc0 e0 s = some (r, t) := by
  induction n with
  | zero => intro rc0 e0 s; exact ⟨_, _, rfl⟩
  | succ n ih =>
    intro rc0 e0 s
    obtain ⟨rc, t, h⟩ := dfu_host_read_memory_returns addr sz s h1 h2
    simp only [read_retry, h]
    split_ifs
    · exact ⟨_, _, rfl⟩
    · exact ih _ _ _

/-- With at least `data_left` unrollings the loop ends, whatever the
transport does: `fw_size` unrollings are enough in `app_dispatch`. -/
theorem check_loop_returns (fuel : Nat) :
    ∀ (v : check_vars) (s : Sys), v.data_left ≤ fuel →
      ∃ w t, check_loop fuel v s = some (w, t) := by
  induction fuel with
  | zero =>
    intro v s h
    have h0 : v.data_left = 0 := Nat.le_zero.mp h
    exact ⟨v, s, by simp only [check_loop, h0, if_true]⟩
  | succ fuel ih =>
    intro v s h
    by_cases h0 : v.data_left = 0
    · exact ⟨v, s, by simp only [check_loop, h0, if_true]⟩
    · have h1 : 1 ≤ MIN v.data_left 256 := by rw [MIN_eq_min]; omega
      have h2 : MIN v.data_left 256 ≤ 256 := by rw [MIN_eq_min]; omega
      obtain ⟨r, t, hr⟩ := read_retry_returns v.addr (MIN v.data_left 256) h1 h2 5 0 0 s
      obtain ⟨rc, e⟩ := r
      simp only [check_loop, h0, if_false, hr]
      have hle : v.data_left - MIN v.data_left 256 ≤ fuel := by omega
      split_ifs
      · exact ⟨_, _, rfl⟩
      · exact ih _ _ hle

/-- The `APP_STATE_CHECK_FW_CRC` step always returns, and never in
`APP_STATE_INITIAL`. -/
theorem check_fw_crc_returns (s : Sys)
    (hs : s.app_state = app_state_t.APP_STATE_CHECK_FW_CRC) :
    ∃ t, app_dispatch s = some t
      ∧ (t.app_state = app_state_t.APP_STATE_CHECK_FAILURE
          ∨ t.app_state = app_state_t.APP_STATE_CHECK_DONE) := by
  obtain ⟨v, s1, hloop⟩ := check_loop_returns s.fw_meta.fw_size
    { data_left := s.fw_meta.fw_size, crc := 0xFFFF, addr := 0x08000000 } s (Nat.le_refl _)
  obtain ⟨rc, s2, hgo, -, -⟩ := dfu_host_go_returns 0x08000000 s1
  by_cases hc : s1.fw_meta.crc16 ≠ v.crc
  · refine ⟨{ s1 with app_state := app_state_t.APP_STATE_CHECK_FAILURE }, ?_, Or.inl rfl⟩
    simp only [app_dispatch, hs, hloop, if_pos hc]
  · by_cases hrc : rc < 0
    · refine ⟨{ s2 with app_state := app_state_t.APP_STATE_CHECK_FAILURE }, ?_, Or.inl rfl⟩
      simp only [app_dispatch, hs, hloop, if_neg hc, hgo, if_pos hrc]
    · refine ⟨{ s2 with app_state := app_state_t.APP_STATE_CHECK_DONE }, ?_, Or.inr rfl⟩
      simp only [app_dispatch, hs, hloop, if_neg hc, hgo, if_neg hrc]

/-! ## C5: the CRC matches -/

/-- The Go operation against a device that acknowledges both frames. -/
theorem dfu_host_go_acked (address : Nat) (s : Sys)
    (htx : ∀ i, i < 2 → s.tx_status (s.n_tx + i) = HalStatus.HAL_OK)
    (hack : ∀ k, k < 2 → s.rx_line (s.n_rx + k) = ⟨false, [0x79]⟩) :
    ∃ t, dfu_host_go address s = some (0, t)
      ∧ tx_frames t.trace = tx_frames s.trace ++ [[0x21, 0xDE], address_frame address] := by
  obtain ⟨rc, t, hgo, -, hfr⟩ := dfu_host_go_returns address s
  have e1 : send_command DFU_HOST_CMD_ID_GO CONFIG_DFU_HOST_RECEIVE_TIMEOUT_MS s
      = some (0, { s with
          n_tx := s.n_tx + 1, n_rx := s.n_rx + 1,
          trace := s.trace ++ [Call.transmit [0x21, 0xDE], Call.receive 1 1000],
          rcv_buffer := store_bytes s.rcv_buffer 0 [0x79] }) := by
    rw [send_command, send_data_ack _ 2 _ s (by decide) (by decide) (htx 0 (by decide))
      (hack 0 (by decide))]
    rfl
  have e2 := send_data_ack (address_frame address) 5 CONFIG_DFU_HOST_RECEIVE_TIMEOUT_MS
      { s with
          n_tx := s.n_tx + 1, n_rx := s.n_rx + 1,
          trace := s.trace ++ [Call.transmit [0x21, 0xDE], Call.receive 1 1000],
          rcv_buffer := store_bytes s.rcv_buffer 0 [0x79] }
      (by decide) (by decide) (htx 1 (by decide)) (hack 1 (by decide))
  have hgo2 := hgo
  simp only [dfu_host_go, e1, lt_irrefl, if_false, e2, Option.some.injEq, Prod.mk.injEq]
    at hgo2
  have hrc : rc = 0 := hgo2.1.symm
  subst hrc
  refine ⟨t, hgo, ?_⟩
  rcases hfr with ⟨hneg, -⟩ | h
  · exact absurd hneg (lt_irrefl 0)
  · exact h

/-- The Go operation against a device that answers `NACK` to the command frame. -/
theorem dfu_host_go_nacked (address : Nat) (s : Sys)
    (htx : s.tx_status s.n_tx = HalStatus.HAL_OK)
    (hnack : s.rx_line s.n_rx = ⟨false, [0x1F]⟩) :
    ∃ t, dfu_host_go address s = some (DFU_HOST_ERR_NACK, t) := by
  have e1 : send_command DFU_HOST_CMD_ID_GO CONFIG_DFU_HOST_RECEIVE_TIMEOUT_MS s
      = some (DFU_HOST_ERR_NACK, { s with
          n_tx := s.n_tx + 1, n_rx := s.n_rx + 1,
          trace := s.trace ++ [Call.transmit [0x21, 0xDE], Call.receive 1 1000],
          rcv_buffer := store_bytes s.rcv_buffer 0 [0x1F] }) := by
    rw [send_command, send_data_ok_tx _ 2 _ s (by decide) (by decide) htx 0x1F (by decide) hnack]
    rfl
  have hneg : DFU_HOST_ERR_NACK < 0 := by decide
  obtain ⟨rc, t, hgo, -, -⟩ := dfu_host_go_returns address s
  have hgo2 := hgo
  simp only [dfu_host_go, e1, if_pos hneg, Option.some.injEq, Prod.mk.injEq] at hgo2
  rw [← hgo2.1] at hgo
  exact ⟨t, hgo⟩

/-- C5: in `APP_STATE_CHECK_FW_CRC` the loop ends; when it has consumed all
`fw_size` bytes (`data_left = 0` at loop exit: every chunk was read) and the
CRC folded over them equals the stored `crc16`, the step issues Go with
address `0x08000000`: it transmits the command frame `21 DE` and, once that is
acknowledged, the address frame `08 00 00 00 08`; the step ends in
`APP_STATE_CHECK_DONE` when Go succeeds (both frames went out) and in
`APP_STATE_CHECK_FAILURE` when Go fails. -/
theorem C5_crc_match_issues_go (s : Sys)
    (hs : s.app_state = app_state_t.APP_STATE_CHECK_FW_CRC) :
    ∃ v s1, check_loop s.fw_meta.fw_size
          { data_left := s.fw_meta.fw_size, crc := 0xFFFF, addr := 0x08000000 } s = some (v, s1)
      ∧ (v.data_left = 0 → v.crc = s.fw_meta.crc16 →
          ∃ rc s2, dfu_host_go 0x08000000 s1 = some (rc, s2)
            ∧ (∃ rest, tx_frames s2.trace = tx_frames s1.trace ++ [0x21, 0xDE] :: rest)
            ∧ (0 ≤ rc →
                tx_frames s2.trace
                  = tx_frames s1.trace ++ [[0x21, 0xDE], [0x08, 0, 0, 0, 0x08]]
                ∧ app_dispatch s
                  = some { s2 with app_state := app_state_t.APP_STATE_CHECK_DONE })
            ∧ (rc < 0 →
                app_dispatch s
                  = some { s2 with app_state := app_state_t.APP_STATE_CHECK_FAILURE })) := by
  obtain ⟨v, s1, hloop⟩ := check_loop_returns s.fw_meta.fw_size
    { data_left := s.fw_meta.fw_size, crc := 0xFFFF, addr := 0x08000000 } s (Nat.le_refl _)
  refine ⟨v, s1, hloop, ?_⟩
  intro _ hcrc
  obtain ⟨rc, s2, hgo, -, hfr⟩ := dfu_host_go_returns 0x08000000 s1
  have hmeta : s1.fw_meta = s.fw_meta := (Frame_check_loop _ _ _ _ _ hloop).fw_meta
  have hc : ¬ s1.fw_meta.crc16 ≠ v.crc := by
    rw [hmeta, hcrc]
    exact fun h => h rfl
  rw [address_frame_flash_base] at hfr
  refine ⟨rc, s2, hgo, ?_, ?_, ?_⟩
  · rcases hfr with ⟨-, h⟩ | h
    · exact ⟨[], h⟩
    · exact ⟨[[0x08, 0, 0, 0, 0x08]], h⟩
  · intro hrc
    have hrc' : ¬ rc < 0 := not_lt.mpr hrc
    refine ⟨?_, ?_⟩
    · rcases hfr with ⟨hneg, -⟩ | h
      · exact absurd hneg hrc'
      · exact h
    · simp only [app_dispatch, hs, hloop, if_neg hc, hgo, if_neg hrc']
  · intro hrc
    simp only [app_dispatch, hs, hloop, if_neg hc, hgo, if_pos hrc]

theorem image_served_sys_beef_go_nacked : image_served sys_beef_go_nacked image_beef := by
  refine ⟨fun _ => rfl, ?_⟩
  intro j hj
  have hj2 : j < 2 := by
    rw [image_beef_length] at hj
    exact hj
  obtain ⟨ha, hd⟩ := (image_served_sys_image image_beef 0xBEEF).2 j hj
  refine ⟨?_, ?_⟩
  · intro k hk
    have hne : ¬ (4 * j + k = 8) := by omega
    have := ha k hk
    simpa [sys_beef_go_nacked, sys_image, sys_ack, hne] using this
  · have hne : ¬ (4 * j = 5) := by omega
    simpa [sys_beef_go_nacked, sys_image, sys_ack, hne] using hd

theorem two_chunk_frames :
    tx_frames (([] : List Call) ++ (List.range (chunk_count 512)).flatMap
        (fun i => read_exchange (0x08000000 + 256 * i) (MIN (512 - 256 * i) 256)))
      = [[0x11, 0xEE], [0x08, 0, 0, 0, 0x08], [0xFF, 0x00],
         [0x11, 0xEE], [0x08, 0, 1, 0, 0x09], [0xFF, 0x00]] := by
  decide

set_option maxRecDepth 100000 in
theorem C5_crc_match_issues_go_witness :
    ((sys_image image_beef 0xBEEF).app_state = app_state_t.APP_STATE_CHECK_FW_CRC
      ∧ (sys_image image_beef 0xBEEF).fw_meta = ⟨512, 0xBEEF⟩
      ∧ crc16_reflect 0xA001 0xFFFF image_beef = 0xBEEF)
    ∧ (∃ u, app_dispatch (sys_image image_beef 0xBEEF) = some u
        ∧ u.app_state = app_state_t.APP_STATE_CHECK_DONE
        ∧ tx_frames u.trace
          = [[0x11, 0xEE], [0x08, 0, 0, 0, 0x08], [0xFF, 0x00],
             [0x11, 0xEE], [0x08, 0, 1, 0, 0x09], [0xFF, 0x00],
             [0x21, 0xDE], [0x08, 0, 0, 0, 0x08]])
    ∧ ∃ u, app_dispatch sys_beef_go_nacked = some u
        ∧ u.app_state = app_state_t.APP_STATE_CHECK_FAILURE := by
  have hsz : (sys_image image_beef 0xBEEF).fw_meta.fw_size = 512 :=
    (sys_image_fw_size _ _).trans image_beef_length
  have hmeta : (sys_image image_beef 0xBEEF).fw_meta = ⟨512, 0xBEEF⟩ := by
    show (⟨image_beef.length, 0xBEEF⟩ : fw_meta_t) = ⟨512, 0xBEEF⟩
    rw [image_beef_length]
  have hcc : chunk_count 512 = 2 := by decide
  refine ⟨⟨rfl, hmeta, image_beef_crc⟩, ?_, ?_⟩
  · obtain ⟨a, t, hrun, hframe, hntx, hnrx, htrace⟩ :=
      check_loop_served (sys_image image_beef 0xBEEF).fw_meta.fw_size
        { data_left := (sys_image image_beef 0xBEEF).fw_meta.fw_size, crc := 0xFFFF,
          addr := 0x08000000 }
        (sys_image image_beef 0xBEEF) image_beef (sys_image_fw_size image_beef 0xBEEF).symm
        (Nat.le_refl _)
        (image_served_sys_image _ _)
    rw [map_mod_of_bytes image_beef image_beef_bytes, image_beef_crc] at hrun
    obtain ⟨v, s1, hloop, himp⟩ := C5_crc_match_issues_go (sys_image image_beef 0xBEEF) rfl
    rw [hrun] at hloop
    simp only [Option.some.injEq, Prod.mk.injEq] at hloop
    obtain ⟨hv, hs1⟩ := hloop
    subst hv hs1
    obtain ⟨rc, s2, hgo, -, hdone, -⟩ := himp rfl rfl
    have hnrx' : t.n_rx = 8 := by
      rw [hnrx]
      show 0 + 4 * chunk_count (sys_image image_beef 0xBEEF).fw_meta.fw_size = 8
      rw [hsz, hcc]
    obtain ⟨t', hgo', -⟩ := dfu_host_go_acked 0x08000000 t
      (fun i _ => by rw [hframe.tx_status]; rfl)
      (fun k hk => by
        rw [hframe.rx_line, hnrx']
        have hne : (8 + k) % 4 ≠ 3 := by omega
        simp [sys_image, device_serving, hne])
    rw [hgo] at hgo'
    simp only [Option.some.injEq, Prod.mk.injEq] at hgo'
    obtain ⟨hfr, hd⟩ := hdone (le_of_eq hgo'.1.symm)
    refine ⟨_, hd, rfl, ?_⟩
    show tx_frames s2.trace = _
    rw [hfr, htrace]
    show tx_frames (([] : List Call) ++ (List.range
        (chunk_count (sys_image image_beef 0xBEEF).fw_meta.fw_size)).flatMap
        (fun i => read_exchange (0x08000000 + 256 * i)
          (MIN ((sys_image image_beef 0xBEEF).fw_meta.fw_size - 256 * i) 256))) ++ _ = _
    rw [hsz, two_chunk_frames]
    rfl
  · have hsz2 : sys_beef_go_nacked.fw_meta.fw_size = 512 := hsz
    obtain ⟨a, t, hrun, hframe, hntx, hnrx, htrace⟩ :=
      check_loop_served sys_beef_go_nacked.fw_meta.fw_size
        { data_left := sys_beef_go_nacked.fw_meta.fw_size, crc := 0xFFFF, addr := 0x08000000 }
        sys_beef_go_nacked image_beef (sys_image_fw_size image_beef 0xBEEF).symm
        (Nat.le_refl _)
        image_served_sys_beef_go_nacked
    rw [map_mod_of_bytes image_beef image_beef_bytes, image_beef_crc] at hrun
    obtain ⟨v, s1, hloop, himp⟩ := C5_crc_match_issues_go sys_beef_go_nacked rfl
    rw [hrun] at hloop
    simp only [Option.some.injEq, Prod.mk.injEq] at hloop
    obtain ⟨hv, hs1⟩ := hloop
    subst hv hs1
    obtain ⟨rc, s2, hgo, -, -, hfail⟩ := himp rfl rfl
    have hnrx' : t.n_rx = 8 := by
      rw [hnrx]
      show 0 + 4 * chunk_count sys_beef_go_nacked.fw_meta.fw_size = 8
      rw [hsz2, hcc]
    obtain ⟨t', hgo'⟩ := dfu_host_go_nacked 0x08000000 t
      (by rw [hframe.tx_status]; rfl)
      (by rw [hframe.rx_line, hnrx']; rfl)
    rw [hgo] at hgo'
    simp only [Option.some.injEq, Prod.mk.injEq] at hgo'
    have hneg : rc < 0 := by rw [hgo'.1]; decide
    exact ⟨_, hfail hneg, rfl⟩

/-! ## C6: the CRC does not match -/

/-- C6 (counterexample): the image is 34 zero bytes (CRC-16 `0x3F00`), the
stored checksum is `0xBEEF`, and the device serves the single chunk.  The loop
reads it (`data_left = 0` at exit), the step ends in `APP_STATE_CHECK_FAILURE`,
and the frames it transmitted are `11 EE`, `08 00 00 00 08` and the length
frame `21 DE` (34 - 1 = 0x21): a frame starting with the byte `0x21` was
transmitted although no Go command was issued. -/
theorem C6_length_frame_looks_like_go :
    (check_loop 34 { data_left := 34, crc := 0xFFFF, addr := 0x08000000 }
        (sys_image (List.replicate 34 0) 0xBEEF)).map Prod.fst
      = some { data_left := 0, crc := 0x3F00, addr := 0x08000022 }
    ∧ (app_dispatch (sys_image (List.replicate 34 0) 0xBEEF)).map
        (fun t => (t.app_state, tx_frames t.trace))
      = some (app_state_t.APP_STATE_CHECK_FAILURE,
          [[0x11, 0xEE], [0x08, 0, 0, 0, 0x08], [0x21, 0xDE]])
    ∧ ¬ ∀ f ∈ [[0x11, 0xEE], [0x08, 0, 0, 0, 0x08], [0x21, 0xDE]], f.head? ≠ some 0x21 := by
  decide!

/-- C6 (amended): in `APP_STATE_CHECK_FW_CRC` the loop ends; when it has
consumed all `fw_size` bytes and the CRC folded over them differs from the
stored `crc16`, the step ends in `APP_STATE_CHECK_FAILURE` and `dfu_host_go` is
not called: the final machine is the one at loop exit with only `app_state`
changed, so the step makes no transport call after the chunk reads; against a
device that serves the image its trace consists of the Read-Memory exchanges
of the chunks and nothing else. -/
theorem C6_crc_mismatch_no_go (s : Sys)
    (hs : s.app_state = app_state_t.APP_STATE_CHECK_FW_CRC) :
    ∃ v s1, check_loop s.fw_meta.fw_size
          { data_left := s.fw_meta.fw_size, crc := 0xFFFF, addr := 0x08000000 } s = some (v, s1)
      ∧ (v.data_left = 0 → v.crc ≠ s.fw_meta.crc16 →
          app_dispatch s = some { s1 with app_state := app_state_t.APP_STATE_CHECK_FAILURE }
          ∧ ∀ img : List Nat, img.length = s.fw_meta.fw_size → image_served s img →
              s1.trace = s.trace ++ (List.range (chunk_count s.fw_meta.fw_size)).flatMap
                (fun i => read_exchange (0x08000000 + 256 * i)
                  (min 256 (s.fw_meta.fw_size - 256 * i)))) := by
  obtain ⟨v, s1, hloop⟩ := check_loop_returns s.fw_meta.fw_size
    { data_left := s.fw_meta.fw_size, crc := 0xFFFF, addr := 0x08000000 } s (Nat.le_refl _)
  refine ⟨v, s1, hloop, ?_⟩
  intro _ hcrc
  have hmeta : s1.fw_meta = s.fw_meta := (Frame_check_loop _ _ _ _ _ hloop).fw_meta
  have hc : s1.fw_meta.crc16 ≠ v.crc := by
    rw [hmeta]
    exact fun h => hcrc h.symm
  refine ⟨?_, ?_⟩
  · simp only [app_dispatch, hs, hloop, if_pos hc]
  · intro img hlen hserved
    obtain ⟨a, t, hrun, -, -, -, htrace⟩ :=
      check_loop_served s.fw_meta.fw_size
        { data_left := s.fw_meta.fw_size, crc := 0xFFFF, addr := 0x08000000 } s img hlen
        (Nat.le_refl _) hserved
    rw [hloop] at hrun
    simp only [Option.some.injEq, Prod.mk.injEq] at hrun
    rw [hrun.2, htrace]
    congr 1
    apply List.flatMap_congr
    intro i _
    show read_exchange _ (MIN _ 256) = _
    rw [MIN_eq_min, Nat.min_comm]

set_option maxRecDepth 100000 in
theorem C6_crc_mismatch_no_go_witness :
    ((sys_image image_zero_crc 0xBEEF).app_state = app_state_t.APP_STATE_CHECK_FW_CRC
      ∧ (sys_image image_zero_crc 0xBEEF).fw_meta = ⟨512, 0xBEEF⟩
      ∧ crc16_reflect 0xA001 0xFFFF image_zero_crc = 0x0000)
    ∧ ∃ u, app_dispatch (sys_image image_zero_crc 0xBEEF) = some u
        ∧ u.app_state = app_state_t.APP_STATE_CHECK_FAILURE
        ∧ u.trace = read_exchange 0x08000000 256 ++ read_exchange 0x08000100 256 := by
  have hsz : (sys_image image_zero_crc 0xBEEF).fw_meta.fw_size = 512 :=
    (sys_image_fw_size _ _).trans image_zero_crc_length
  have hmeta : (sys_image image_zero_crc 0xBEEF).fw_meta = ⟨512, 0xBEEF⟩ := by
    show (⟨image_zero_crc.length, 0xBEEF⟩ : fw_meta_t) = ⟨512, 0xBEEF⟩
    rw [image_zero_crc_length]
  have hcc : chunk_count 512 = 2 := by decide
  refine ⟨⟨rfl, hmeta, image_zero_crc_crc⟩, ?_⟩
  obtain ⟨a, t, hrun, -, -, -, -⟩ :=
    check_loop_served (sys_image image_zero_crc 0xBEEF).fw_meta.fw_size
      { data_left := (sys_image image_zero_crc 0xBEEF).fw_meta.fw_size, crc := 0xFFFF,
        addr := 0x08000000 }
      (sys_image image_zero_crc 0xBEEF) image_zero_crc
      (sys_image_fw_size image_zero_crc 0xBEEF).symm (Nat.le_refl _)
      (image_served_sys_image _ _)
  rw [map_mod_of_bytes image_zero_crc image_zero_crc_bytes, image_zero_crc_crc] at hrun
  obtain ⟨v, s1, hloop, himp⟩ := C6_crc_mismatch_no_go (sys_image image_zero_crc 0xBEEF) rfl
  rw [hrun] at hloop
  simp only [Option.some.injEq, Prod.mk.injEq] at hloop
  obtain ⟨hv, hs1⟩ := hloop
  subst hv hs1
  obtain ⟨hd, htr⟩ := himp rfl (show (0 : Nat) ≠ 0xBEEF by decide)
  have htr' := htr image_zero_crc (sys_image_fw_size image_zero_crc 0xBEEF).symm
    (image_served_sys_image _ _)
  refine ⟨_, hd, rfl, ?_⟩
  show t.trace = _
  rw [htr', hsz, hcc]
  rfl

/-! ## C11, C12: the XOR-8 checksum -/

theorem xor_mod_256 (a d : Nat) : (a % 256 ^^^ d) % 256 = (a ^^^ d) % 256 := by
  apply Nat.eq_of_testBit_eq
  intro i
  have h := Nat.testBit_mod_two_pow (a % 256 ^^^ d) 8 i
  have h' := Nat.testBit_mod_two_pow (a ^^^ d) 8 i
  have h'' := Nat.testBit_mod_two_pow a 8 i
  simp only [show (2 : Nat) ^ 8 = 256 by norm_num] at h h' h''
  rw [h, h', Nat.testBit_xor, Nat.testBit_xor, h'']
  by_cases hi : i < 8 <;> simp [hi]

theorem xor8_fold (l : List Nat) : ∀ acc : Nat,
    l.foldl (fun result d => (result ^^^ d) &&& 0xFF) (acc % 256)
      = l.foldl (fun r d => r ^^^ d) acc % 256 := by
  induction l with
  | nil => intro acc; rfl
  | cons d ds ih =>
    intro acc
    have e : (acc % 256 ^^^ d) &&& 0xFF = (acc ^^^ d) % 256 := by
      rw [show (0xFF : Nat) = 2 ^ 8 - 1 by norm_num, Nat.and_pow_two_sub_one_eq_mod]
      exact xor_mod_256 acc d
    simp only [List.foldl_cons, e]
    exact ih (acc ^^^ d)

/-- The checksum `calc_xor8` over a whole list is the XOR of its bytes, cut to
eight bits. -/
theorem calc_xor8_eq (l : List Nat) : calc_xor8 l l.length = xor_all l % 256 := by
  have h := xor8_fold l 0
  simpa [calc_xor8, xor_all] using h

theorem xor_all_append (a b : List Nat) : xor_all (a ++ b) = xor_all a ^^^ xor_all b := by
  have h : ∀ (l : List Nat) (x : Nat),
      l.foldl (fun r d => r ^^^ d) x = x ^^^ l.foldl (fun r d => r ^^^ d) 0 := by
    intro l
    induction l with
    | nil => intro x; simp
    | cons d ds ih =>
      intro x
      simp only [List.foldl_cons]
      rw [ih (x ^^^ d), ih (0 ^^^ d), Nat.zero_xor, Nat.xor_assoc]
  simp only [xor_all, List.foldl_append]
  exact h b _

/-- C11: for every (non-empty) byte sequence `s`, `calc_xor8` over `s` with
`calc_xor8(s)` appended is 0. -/
theorem C11_xor8_self_check (s : List Nat) (hs : s ≠ []) :
    calc_xor8 (s ++ [calc_xor8 s s.length]) (s ++ [calc_xor8 s s.length]).length = 0
    ∧ 0 < s.length := by
  refine ⟨?_, List.length_pos.mpr hs⟩
  rw [calc_xor8_eq, xor_all_append, calc_xor8_eq]
  have e : xor_all [xor_all s % 256] = xor_all s % 256 := by simp [xor_all]
  rw [e, Nat.xor_comm, xor_mod_256, Nat.xor_self]

theorem C11_xor8_self_check_witness :
    [0x08, 0x00, 0x01, 0x00] ≠ []
    ∧ calc_xor8 ([0x08, 0x00, 0x01, 0x00] ++ [calc_xor8 [0x08, 0x00, 0x01, 0x00] 4]) 5 = 0 :=
  ⟨by decide, (C11_xor8_self_check [0x08, 0x00, 0x01, 0x00] (by decide)).1⟩

theorem filter_xor_parity (p q : Nat → Bool) (l : List Nat) :
    (l.filter fun i => (p i ^^ q i)).length % 2
      = ((l.filter p).length + (l.filter q).length) % 2 := by
  induction l with
  | nil => rfl
  | cons a as ih =>
    simp only [List.filter_cons]
    cases hp : p a <;> cases hq : q a <;> simp <;> omega

theorem flipped_bits_xor (a b : Nat) :
    flipped_bits (a ^^^ b) % 2 = (flipped_bits a + flipped_bits b) % 2 := by
  have h := filter_xor_parity (fun i => a.testBit i) (fun i => b.testBit i) (List.range 8)
  simpa [flipped_bits, Nat.testBit_xor] using h

theorem flipped_bits_mod (x : Nat) : flipped_bits (x % 256) = flipped_bits x := by
  unfold flipped_bits
  congr 1
  apply List.filter_congr
  intro i hi
  have hi8 : i < 8 := List.mem_range.mp hi
  have h := Nat.testBit_mod_two_pow x 8 i
  simp only [show (2 : Nat) ^ 8 = 256 by norm_num] at h
  rw [h]
  simp [hi8]

theorem flipped_bits_zero : flipped_bits 0 = 0 := by decide

theorem flipped_bits_xor_all (errs : List Nat) :
    flipped_bits (xor_all errs) % 2 = (errs.map flipped_bits).sum % 2 := by
  induction errs using List.reverseRecOn with
  | nil => rfl
  | append_singleton es e ih =>
    have e1 : xor_all [e] = e := by simp [xor_all]
    rw [xor_all_append, e1, flipped_bits_xor, List.map_append, List.sum_append]
    simp only [List.map_cons, List.map_nil, List.sum_cons, List.sum_nil, Nat.add_zero]
    omega

theorem xor_all_corrupt : ∀ (frame errs : List Nat), errs.length = frame.length →
    xor_all (corrupt frame errs) = xor_all frame ^^^ xor_all errs := by
  intro frame
  induction frame with
  | nil =>
    intro errs h
    have : errs = [] := List.length_eq_zero.mp h
    subst this
    rfl
  | cons b bs ih =>
    intro errs h
    cases errs with
    | nil => simp at h
    | cons e es =>
      have hl : es.length = bs.length := by simpa using h
      have e1 : corrupt (b :: bs) (e :: es) = [b ^^^ e] ++ corrupt bs es := rfl
      have e2 : b :: bs = [b] ++ bs := rfl
      have e3 : e :: es = [e] ++ es := rfl
      rw [e1, xor_all_append, ih es hl, e2, e3, xor_all_append, xor_all_append]
      have s1 : ∀ x : Nat, xor_all [x] = x := fun x => by simp [xor_all]
      rw [s1, s1, s1]
      apply Nat.eq_of_testBit_eq
      intro i
      simp only [Nat.testBit_xor]
      cases b.testBit i <;> cases e.testBit i <;> cases (xor_all bs).testBit i <;>
        cases (xor_all es).testBit i <;> rfl

/-- C12: for every non-empty byte sequence `s` and every corruption of the
frame `s ++ [calc_xor8(s)]` that flips an odd number of bits (the masks `errs`,
one per byte of the frame, say which bits of the data bytes and of the
checksum byte are flipped), `calc_xor8` over the corrupted frame is non-zero. -/
theorem C12_xor8_detects_odd_flips (s errs : List Nat) (hs : s ≠ [])
    (hlen : errs.length = s.length + 1) (hmask : ∀ e ∈ errs, e < 256)
    (hodd : (errs.map flipped_bits).sum % 2 = 1) :
    calc_xor8 (corrupt (s ++ [calc_xor8 s s.length]) errs) (s.length + 1) ≠ 0
    ∧ (corrupt (s ++ [calc_xor8 s s.length]) errs).length = s.length + 1
    ∧ 0 < s.length ∧ ∀ e ∈ errs, flipped_bits e ≤ 8 ∧ e < 256 := by
  have hlen' : errs.length = (s ++ [calc_xor8 s s.length]).length := by simp [hlen]
  have hcl : (corrupt (s ++ [calc_xor8 s s.length]) errs).length = s.length + 1 := by
    simp [corrupt, hlen]
  refine ⟨?_, hcl, List.length_pos.mpr hs, ?_⟩
  · intro h0
    rw [← hcl, calc_xor8_eq, xor_all_corrupt _ _ hlen'] at h0
    have hf : xor_all (s ++ [calc_xor8 s s.length]) % 256 = 0 := by
      rw [← calc_xor8_eq]
      exact (show calc_xor8 (s ++ [calc_xor8 s s.length])
        (s ++ [calc_xor8 s s.length]).length = 0 by
          rw [calc_xor8_eq, xor_all_append, calc_xor8_eq]
          have e : xor_all [xor_all s % 256] = xor_all s % 256 := by simp [xor_all]
          rw [e, Nat.xor_comm, xor_mod_256, Nat.xor_self])
    have p0 : flipped_bits (xor_all (s ++ [calc_xor8 s s.length]) ^^^ xor_all errs) = 0 := by
      rw [← flipped_bits_mod, h0, flipped_bits_zero]
    have p1 : flipped_bits (xor_all (s ++ [calc_xor8 s s.length])) = 0 := by
      rw [← flipped_bits_mod, hf, flipped_bits_zero]
    have p2 := flipped_bits_xor (xor_all (s ++ [calc_xor8 s s.length])) (xor_all errs)
    have p3 := flipped_bits_xor_all errs
    rw [p0, p1] at p2
    omega
  · intro e he
    refine ⟨?_, hmask e he⟩
    unfold flipped_bits
    exact (List.length_filter_le _ _).trans (by simp)

theorem C12_xor8_detects_odd_flips_witness :
    ([0x08, 0x00, 0x01, 0x00] ≠ [] ∧ [0x00, 0x10, 0x00, 0x03, 0x00].length = 4 + 1
      ∧ (∀ e ∈ [0x00, 0x10, 0x00, 0x03, 0x00], e < 256)
      ∧ ([0x00, 0x10, 0x00, 0x03, 0x00].map flipped_bits).sum % 2 = 1)
    ∧ calc_xor8 (corrupt ([0x08, 0x00, 0x01, 0x00] ++ [calc_xor8 [0x08, 0x00, 0x01, 0x00] 4])
        [0x00, 0x10, 0x00, 0x03, 0x00]) 5 ≠ 0 :=
  ⟨⟨by decide, by decide, by decide, by decide⟩,
   (C12_xor8_detects_odd_flips [0x08, 0x00, 0x01, 0x00] [0x00, 0x10, 0x00, 0x03, 0x00]
     (by decide) (by decide) (by decide) (by decide)).1⟩

/-! ## The payload buffer of the write operations -/

theorem calc_xor8_take (data : List Nat) (len : Nat) :
    calc_xor8 data len = xor_all (data.take len) % 256 := by
  have h := xor8_fold (data.take len) 0
  simpa [calc_xor8, xor_all] using h

theorem calc_xor8_lt (data : List Nat) (len : Nat) : calc_xor8 data len < 256 := by
  rw [calc_xor8_take]
  exact Nat.mod_lt _ (by decide)

theorem calc_xor8_take_left (a b : List Nat) :
    calc_xor8 (a ++ b) a.length = calc_xor8 a a.length := by
  simp [calc_xor8]

/-- The payload buffer when it is large enough: `n - 1`, the `n` bytes of
`src` and the XOR-8 of these `n + 1` bytes fill its first `n + 2` elements. -/
theorem fill_payload_ok (size : Nat) (src : List Nat) (n : Nat)
    (h1 : 1 ≤ n) (h2 : n ≤ 256) (hsize : n + 2 ≤ size) (hsrc : n ≤ src.length)
    (hb : ∀ b ∈ src, b < 256) :
    ∃ buf, fill_payload size src n = some buf
      ∧ buf.take (n + 2)
          = (n - 1) :: src.take n ++ [calc_xor8 ((n - 1) :: src.take n) (n + 1)] := by
  have e1 : (n - 1) % 256 = n - 1 := Nat.mod_eq_of_lt (by omega)
  have hD : (src.take n).map (fun b => b % 256) = src.take n := by
    conv_rhs => rw [← List.map_id (src.take n)]
    apply List.map_congr_left
    intro b hbm
    exact Nat.mod_eq_of_lt (hb b (List.mem_of_mem_take hbm))
  have hDl : (src.take n).length = n := by simp [hsrc]
  obtain ⟨k, hk⟩ : ∃ k, size = n + 2 + k := ⟨size - (n + 2), by omega⟩
  subst hk
  have hrep : List.replicate (n + 2 + k) 0 = 0 :: List.replicate (n + 1 + k) 0 := by
    rw [show n + 2 + k = (n + 1 + k) + 1 by omega, List.replicate_succ]
  have hdrop : List.drop n (List.replicate (n + 1 + k) 0) = 0 :: List.replicate k 0 := by
    rw [List.drop_replicate, show n + 1 + k - n = k + 1 by omega, List.replicate_succ]
  have hb1 : array_memcpy ((List.replicate (n + 2 + k) 0).set 0 (n - 1)) 1 src n
      = some (((n - 1) :: src.take n) ++ 0 :: List.replicate k 0) := by
    have hc : n ≤ src.length ∧ 1 + n ≤ n + 1 + k + 1 := ⟨hsrc, by omega⟩
    simp only [array_memcpy, hrep, List.set_cons_zero, List.length_cons, List.length_replicate,
      hc, and_self, if_true, hD]
    rw [show 1 + n = n + 1 by omega]
    simp [hdrop]
  have hlen : ((n - 1) :: src.take n).length = n + 1 := by simp [hDl]
  have hx : calc_xor8 (((n - 1) :: src.take n) ++ 0 :: List.replicate k 0) (n + 1)
      = calc_xor8 ((n - 1) :: src.take n) (n + 1) := by
    have h := calc_xor8_take_left ((n - 1) :: src.take n) (0 :: List.replicate k 0)
    rw [hlen] at h
    exact h
  have hv : calc_xor8 ((n - 1) :: src.take n) (n + 1) % 256
      = calc_xor8 ((n - 1) :: src.take n) (n + 1) := Nat.mod_eq_of_lt (calc_xor8_lt _ _)
  refine ⟨((n - 1) :: src.take n) ++
    calc_xor8 ((n - 1) :: src.take n) (n + 1) :: List.replicate k 0, ?_, ?_⟩
  · have hlt : n + 1 < (((n - 1) :: src.take n) ++ 0 :: List.replicate k 0).length := by
      simp [hDl]
    have h0 : array_store (List.replicate (n + 2 + k) 0) 0 (n - 1)
        = some ((List.replicate (n + 2 + k) 0).set 0 (n - 1)) := by
      simp [array_store, e1]
    unfold fill_payload
    rw [h0, Option.some_bind, hb1, Option.some_bind]
    unfold array_store
    rw [if_pos hlt, hx, hv]
    congr 1
    rw [List.set_append_right _ _ (by rw [hlen]), hlen, Nat.sub_self, List.set_cons_zero]
  · rw [show n + 2 = ((n - 1) :: src.take n).length + 1 by rw [hlen],
      List.take_append]
    simp

/-- The payload buffer of `dfu_host_write_memory` for `len = 256`: the store of
the checksum at `buf[257]` lies outside `uint8_t buf[256 + 1]`. -/
theorem fill_payload_256 (src : List Nat) : fill_payload (256 + 1) src 256 = none := by
  unfold fill_payload
  cases h0 : array_store (List.replicate (256 + 1) 0) 0 (256 - 1) with
  | none => rfl
  | some b0 =>
    rw [Option.some_bind]
    have hl0 : b0.length = 257 := by
      simp only [array_store] at h0
      split_ifs at h0
      simp only [Option.some.injEq] at h0
      rw [← h0, List.length_set, List.length_replicate]
    cases h : array_memcpy b0 1 src 256 with
    | none => rfl
    | some b1 =>
      have hl : b1.length = 257 := by
        simp only [array_memcpy] at h
        split_ifs at h with hc
        simp only [Option.some.injEq] at h
        rw [← h]
        simp only [List.length_append, List.length_take, List.length_map, List.length_drop, hl0]
        omega
      rw [Option.some_bind]
      unfold array_store
      rw [if_neg (by omega)]

/-! ## C13: the address frame -/

theorem address_frame_bytes (a : Nat) (ha : a < 2 ^ 32) :
    address_frame a
      = [a >>> 24, (a >>> 16) &&& 0xFF, (a >>> 8) &&& 0xFF, a &&& 0xFF,
         (a >>> 24) ^^^ ((a >>> 16) &&& 0xFF) ^^^ ((a >>> 8) &&& 0xFF) ^^^ (a &&& 0xFF)] := by
  have m : ∀ x : Nat, x &&& 0xFF = x % 256 := fun x => by
    rw [show (0xFF : Nat) = 2 ^ 8 - 1 by norm_num, Nat.and_pow_two_sub_one_eq_mod]
  have e0 : (a >>> 24) % 256 = a >>> 24 := by
    apply Nat.mod_eq_of_lt
    simp only [Nat.shiftRight_eq_div_pow]
    omega
  have hx : calc_xor8 [a >>> 24, (a >>> 16) % 256, (a >>> 8) % 256, a % 256, 0] 4
      = (a >>> 24) ^^^ (a >>> 16) % 256 ^^^ (a >>> 8) % 256 ^^^ a % 256 := by
    rw [calc_xor8_take]
    have e : xor_all (List.take 4 [a >>> 24, (a >>> 16) % 256, (a >>> 8) % 256, a % 256, 0])
        = (a >>> 24) ^^^ (a >>> 16) % 256 ^^^ (a >>> 8) % 256 ^^^ a % 256 := by
      simp [xor_all]
    rw [e]
    apply Nat.mod_eq_of_lt
    have l0 : a >>> 24 < 2 ^ 8 := by rw [← e0]; exact Nat.mod_lt _ (by decide)
    have l1 : (a >>> 16) % 256 < 2 ^ 8 := Nat.mod_lt _ (by decide)
    have l2 : (a >>> 8) % 256 < 2 ^ 8 := Nat.mod_lt _ (by decide)
    have l3 : a % 256 < 2 ^ 8 := Nat.mod_lt _ (by decide)
    exact Nat.xor_lt_two_pow (Nat.xor_lt_two_pow (Nat.xor_lt_two_pow l0 l1) l2) l3
  simp only [address_frame, m, e0, hx]
  rfl

theorem address_frame_recover (a : Nat) (ha : a < 2 ^ 32) :
    (address_frame a).getD 0 0 * 2 ^ 24 + (address_frame a).getD 1 0 * 2 ^ 16
      + (address_frame a).getD 2 0 * 2 ^ 8 + (address_frame a).getD 3 0 = a := by
  have e : ∀ i v, i < 4 → (address_frame a).getD i v
      = [(a >>> 24) % 256, (a >>> 16) % 256, (a >>> 8) % 256, a % 256].getD i v := by
    intro i v hi
    simp only [address_frame]
    interval_cases i <;> rfl
  rw [e 0 0 (by decide), e 1 0 (by decide), e 2 0 (by decide), e 3 0 (by decide)]
  simp only [List.getD_cons_zero, List.getD_cons_succ, Nat.shiftRight_eq_div_pow]
  omega

theorem recv_fixed_tx_frames (len timeout : Nat) (s : Sys) (rc : Int) (t : Sys)
    (h : recv_fixed len timeout s = some (rc, t)) : tx_frames t.trace = tx_frames s.trace := by
  simp only [recv_fixed] at h
  split_ifs at h <;>
    (simp only [Option.some.injEq, Prod.mk.injEq] at h; rw [← h.2];
     simp [HAL_UART_Receive, tx_frames_append, tx_frames])

/-- An acknowledged command frame: `send_command` returns 0 and has made one
transmit and one receive. -/
theorem send_command_ack (cmd : Nat) (s : Sys) (hcmd : cmd ∈ cmd_id_t)
    (htx : s.tx_status s.n_tx = HalStatus.HAL_OK)
    (hrx : s.rx_line s.n_rx = ⟨false, [0x79]⟩) :
    ∃ t, send_command cmd CONFIG_DFU_HOST_RECEIVE_TIMEOUT_MS s = some (0, t)
      ∧ tx_frames t.trace = tx_frames s.trace ++ [[cmd, 0xFF ^^^ cmd]]
      ∧ t.n_tx = s.n_tx + 1 ∧ t.n_rx = s.n_rx + 1
      ∧ t.tx_status = s.tx_status ∧ t.rx_line = s.rx_line ∧ t.assert_on = s.assert_on := by
  have hb : List.take 2 [cmd % 256, (0xFF ^^^ cmd) % 256] = [cmd, 0xFF ^^^ cmd] := by
    simp only [cmd_id_t, List.mem_cons, List.mem_singleton, List.not_mem_nil, or_false] at hcmd
    rcases hcmd with h | h | h | h | h | h | h | h | h | h | h | h <;> subst h <;> decide
  refine ⟨{ s with
      n_tx := s.n_tx + 1, n_rx := s.n_rx + 1,
      trace := s.trace ++ [Call.transmit (List.take 2 [cmd % 256, (0xFF ^^^ cmd) % 256]),
        Call.receive 1 CONFIG_DFU_HOST_RECEIVE_TIMEOUT_MS],
      rcv_buffer := store_bytes s.rcv_buffer 0 [0x79] }, ?_, ?_, rfl, rfl, rfl, rfl, rfl⟩
  · rw [send_command, send_data_ack _ 2 _ s (by decide) (by decide) htx hrx]
  · simp [tx_frames_append, tx_frames, hb]

theorem dfu_host_read_memory_address (a len : Nat) (s : Sys) (h1 : 1 ≤ len) (h2 : len ≤ 256)
    (htx : s.tx_status s.n_tx = HalStatus.HAL_OK)
    (hrx : s.rx_line s.n_rx = ⟨false, [0x79]⟩) :
    ∃ rc t rest, dfu_host_read_memory a len s = some (rc, t)
      ∧ tx_frames t.trace = tx_frames s.trace ++ [0x11, 0xEE] :: address_frame a :: rest := by
  have hl0 : len ≠ 0 := by omega
  obtain ⟨s1, e1, f1, -⟩ := send_command_ack DFU_HOST_CMD_ID_READ_MEM s (by decide) htx hrx
  obtain ⟨rc2, s2, e2, f2⟩ := send_data_tx_frames (address_frame a) 5
    CONFIG_DFU_HOST_RECEIVE_TIMEOUT_MS s1 (by decide) (by decide)
  obtain ⟨rc3, s3, e3, f3⟩ := send_data_tx_frames
    (((address_frame a).set 0 ((len - 1) % 256)).set 1
      ((0xFF ^^^ (((address_frame a).set 0 ((len - 1) % 256)).getD 0 0)) % 256)) 2
    CONFIG_DFU_HOST_RECEIVE_TIMEOUT_MS s2 (by decide) (by decide)
  obtain ⟨rc4, s4, e4⟩ := recv_fixed_returns len CONFIG_DFU_HOST_RECEIVE_TIMEOUT_MS s3 h2
    (by decide)
  have f4 := recv_fixed_tx_frames _ _ _ _ _ e4
  rw [address_frame_take, f1] at f2
  have f2' : tx_frames s2.trace = tx_frames s.trace ++ [0x11, 0xEE] :: address_frame a :: [] := by
    rw [f2]
    simp [DFU_HOST_CMD_ID_READ_MEM]
  simp only [dfu_host_read_memory, hl0, CONFIG_DFU_HOST_RX_BUFFER_SIZE, h2, not_true, or_self,
    if_false, e1, lt_irrefl, e2]
  split_ifs
  · exact ⟨_, _, [], rfl, f2'⟩
  · simp only [e3]
    split_ifs
    · exact ⟨_, _, _, rfl, by rw [f3, f2', List.append_assoc]; rfl⟩
    · simp only [e4]
      exact ⟨_, _, _, rfl, by rw [f4, f3, f2', List.append_assoc]; rfl⟩

theorem dfu_host_write_memory_address (a : Nat) (data : List Nat) (len : Nat) (s : Sys)
    (h1 : 1 ≤ len) (h2 : len ≤ 255) (hd : len ≤ data.length) (hb : ∀ b ∈ data, b < 256)
    (htx : s.tx_status s.n_tx = HalStatus.HAL_OK)
    (hrx : s.rx_line s.n_rx = ⟨false, [0x79]⟩) :
    ∃ rc t rest, dfu_host_write_memory a data len s = some (rc, t)
      ∧ tx_frames t.trace = tx_frames s.trace ++ [0x31, 0xCE] :: address_frame a :: rest := by
  have hl0 : len ≠ 0 := by omega
  have h256 : len ≤ 256 := by omega
  obtain ⟨s1, e1, f1, -⟩ := send_command_ack DFU_HOST_CMD_ID_WRITE_MEM s (by decide) htx hrx
  obtain ⟨rc2, s2, e2, f2⟩ := send_data_tx_frames (address_frame a) 5
    CONFIG_DFU_HOST_RECEIVE_TIMEOUT_MS s1 (by decide) (by decide)
  obtain ⟨buf, eb, -⟩ := fill_payload_ok (256 + 1) data len h1 h256 (by omega) hd hb
  obtain ⟨rc3, s3, e3, f3⟩ := send_data_tx_frames buf (len + 2)
    CONFIG_DFU_HOST_RECEIVE_TIMEOUT_MS s2 (by omega) (by decide)
  rw [address_frame_take, f1] at f2
  have f2' : tx_frames s2.trace = tx_frames s.trace ++ [0x31, 0xCE] :: address_frame a :: [] := by
    rw [f2]
    simp [DFU_HOST_CMD_ID_WRITE_MEM]
  simp only [dfu_host_write_memory, hl0, h256, not_true, or_self, if_false, e1, lt_irrefl, e2]
  split_ifs
  · exact ⟨_, _, [], rfl, f2'⟩
  · simp only [eb, e3]
    split_ifs
    · exact ⟨_, _, _, rfl, by rw [f3, f2', List.append_assoc]; rfl⟩
    · exact ⟨_, _, _, rfl, by rw [f3, f2', List.append_assoc]; rfl⟩

theorem dfu_host_go_address (a : Nat) (s : Sys)
    (htx : s.tx_status s.n_tx = HalStatus.HAL_OK)
    (hrx : s.rx_line s.n_rx = ⟨false, [0x79]⟩) :
    ∃ rc t, dfu_host_go a s = some (rc, t)
      ∧ tx_frames t.trace = tx_frames s.trace ++ [[0x21, 0xDE], address_frame a] := by
  obtain ⟨s1, e1, f1, -⟩ := send_command_ack DFU_HOST_CMD_ID_GO s (by decide) htx hrx
  obtain ⟨rc2, s2, e2, f2⟩ := send_data_tx_frames (address_frame a) 5
    CONFIG_DFU_HOST_RECEIVE_TIMEOUT_MS s1 (by decide) (by decide)
  rw [address_frame_take, f1] at f2
  refine ⟨rc2, s2, ?_, ?_⟩
  · simp only [dfu_host_go, e1, lt_irrefl, if_false, e2]
  · rw [f2]
    simp [DFU_HOST_CMD_ID_GO]

/-- C13: for every 32-bit address `a` the address frame is the five bytes
`[a>>24, (a>>16)&0xFF, (a>>8)&0xFF, a&0xFF, XOR of those four]`, most
significant byte first, and `a` is recovered from its first four bytes; and
each of Read-Memory, Write-Memory and Go, once its command frame is
acknowledged, returns and has transmitted this frame right after the command
frame. -/
theorem C13_address_frame (a : Nat) (ha : a < 2 ^ 32) :
    address_frame a
      = [a >>> 24, (a >>> 16) &&& 0xFF, (a >>> 8) &&& 0xFF, a &&& 0xFF,
         (a >>> 24) ^^^ ((a >>> 16) &&& 0xFF) ^^^ ((a >>> 8) &&& 0xFF) ^^^ (a &&& 0xFF)]
    ∧ (address_frame a).getD 0 0 * 2 ^ 24 + (address_frame a).getD 1 0 * 2 ^ 16
        + (address_frame a).getD 2 0 * 2 ^ 8 + (address_frame a).getD 3 0 = a
    ∧ (∀ (s : Sys) (len : Nat), 1 ≤ len → len ≤ 256 →
        s.tx_status s.n_tx = HalStatus.HAL_OK → s.rx_line s.n_rx = ⟨false, [0x79]⟩ →
        ∃ rc t rest, dfu_host_read_memory a len s = some (rc, t)
          ∧ tx_frames t.trace
              = tx_frames s.trace ++ [0x11, 0xEE] :: address_frame a :: rest)
    ∧ (∀ (s : Sys) (data : List Nat) (len : Nat), 1 ≤ len → len ≤ 255 →
        len ≤ data.length → (∀ b ∈ data, b < 256) →
        s.tx_status s.n_tx = HalStatus.HAL_OK → s.rx_line s.n_rx = ⟨false, [0x79]⟩ →
        ∃ rc t rest, dfu_host_write_memory a data len s = some (rc, t)
          ∧ tx_frames t.trace
              = tx_frames s.trace ++ [0x31, 0xCE] :: address_frame a :: rest)
    ∧ (∀ s : Sys,
        s.tx_status s.n_tx = HalStatus.HAL_OK → s.rx_line s.n_rx = ⟨false, [0x79]⟩ →
        ∃ rc t, dfu_host_go a s = some (rc, t)
          ∧ tx_frames t.trace = tx_frames s.trace ++ [[0x21, 0xDE], address_frame a]) :=
  ⟨address_frame_bytes a ha, address_frame_recover a ha,
   fun s len h1 h2 htx hrx => dfu_host_read_memory_address a len s h1 h2 htx hrx,
   fun s data len h1 h2 hd hb htx hrx =>
     dfu_host_write_memory_address a data len s h1 h2 hd hb htx hrx,
   fun s htx hrx => dfu_host_go_address a s htx hrx⟩

theorem C13_address_frame_witness :
    (0x0803F800 : Nat) < 2 ^ 32
    ∧ address_frame 0x0803F800 = [0x08, 0x03, 0xF8, 0x00, 0xF3]
    ∧ (∃ rc t rest, dfu_host_read_memory 0x0803F800 6 sys_ack = some (rc, t)
        ∧ tx_frames t.trace = [0x11, 0xEE] :: [0x08, 0x03, 0xF8, 0x00, 0xF3] :: rest)
    ∧ (∃ rc t rest, dfu_host_write_memory 0x0803F800 [0xAA, 0x55] 2 sys_ack = some (rc, t)
        ∧ tx_frames t.trace = [0x31, 0xCE] :: [0x08, 0x03, 0xF8, 0x00, 0xF3] :: rest)
    ∧ (∃ rc t, dfu_host_go 0x0803F800 sys_ack = some (rc, t)
        ∧ tx_frames t.trace = [[0x21, 0xDE], [0x08, 0x03, 0xF8, 0x00, 0xF3]]) := by
  have h := C13_address_frame 0x0803F800 (by decide)
  refine ⟨by decide, by decide, ?_, ?_, ?_⟩
  · obtain ⟨rc, t, rest, e, f⟩ := h.2.2.1 sys_ack 6 (by decide) (by decide) rfl rfl
    exact ⟨rc, t, rest, e, by rw [f]; rfl⟩
  · obtain ⟨rc, t, rest, e, f⟩ := h.2.2.2.1 sys_ack [0xAA, 0x55] 2 (by decide) (by decide)
      (by decide) (by decide) rfl rfl
    exact ⟨rc, t, rest, e, by rw [f]; rfl⟩
  · obtain ⟨rc, t, e, f⟩ := h.2.2.2.2 sys_ack rfl rfl
    exact ⟨rc, t, e, by rw [f]; decide⟩

/-! ## C14, C15: Read-Memory -/

/-- C14 (counterexample): in a debug build (`ASSERT_ON`) a Read-Memory request
for 257 bytes does not return `DFU_HOST_ERR_EINVAL`: the failed `CHECK` ends in
`assert_post_action` and the call does not return at all. -/
theorem C14_read_memory_debug_build_hangs :
    sys_debug.assert_on = true
    ∧ (dfu_host_read_memory 0x08000000 257 sys_debug).isNone = true
    ∧ (dfu_host_read_memory 0x08000000 257 sys_debug).map Prod.fst
        ≠ some DFU_HOST_ERR_EINVAL := by
  decide

/-- C14 (amended): for every requested length greater than the receive buffer
capacity (256), `dfu_host_read_memory` makes no transport call; in a build
without `ASSERT_ON` it returns `DFU_HOST_ERR_EINVAL` (-1001) in an unchanged
state, whose trace in particular holds no new transmit or receive, and in a
build with `ASSERT_ON` it does not return. -/
theorem C14_read_memory_length_check (address len : Nat) (s : Sys)
    (hlen : CONFIG_DFU_HOST_RX_BUFFER_SIZE < len) :
    (s.assert_on = false →
      dfu_host_read_memory address len s = some (DFU_HOST_ERR_EINVAL, s))
    ∧ (s.assert_on = true → dfu_host_read_memory address len s = none)
    ∧ (∀ rc t, dfu_host_read_memory address len s = some (rc, t) →
        rc = -1001 ∧ t.trace = s.trace ∧ t.n_tx = s.n_tx ∧ t.n_rx = s.n_rx ∧ t.n_it = s.n_it) := by
  have h : ¬ len ≤ CONFIG_DFU_HOST_RX_BUFFER_SIZE := not_le.mpr hlen
  refine ⟨?_, ?_, ?_⟩
  · intro ha
    simp [dfu_host_read_memory, h, ha]
  · intro ha
    simp [dfu_host_read_memory, h, ha]
  · intro rc t hr
    simp only [dfu_host_read_memory, h, not_false_eq_true, or_true, if_true] at hr
    split_ifs at hr
    simp only [Option.some.injEq, Prod.mk.injEq] at hr
    rw [← hr.1, ← hr.2]
    exact ⟨rfl, rfl, rfl, rfl, rfl⟩

theorem C14_read_memory_length_check_witness :
    CONFIG_DFU_HOST_RX_BUFFER_SIZE < 257
    ∧ dfu_host_read_memory 0x08000000 257 sys_ack = some (DFU_HOST_ERR_EINVAL, sys_ack) :=
  ⟨by decide, (C14_read_memory_length_check 0x08000000 257 sys_ack (by decide)).1 rfl⟩

set_option maxRecDepth 100000 in
theorem xor_ff_eq_sub : ∀ k, k < 256 → 0xFF ^^^ k = 255 - k := by
  decide

/-- C15: for every address and every length `1 ≤ len ≤ 256`, when the three
frames are transmitted and acknowledged and the device then delivers `len`
bytes, `dfu_host_read_memory` transmits in order `[0x11, 0xEE]`, the address
frame and the length frame `[len-1, 0xFF xor (len-1)]`, returns `len`, and the
first `len` bytes of the receive buffer (to which `*result` points) are the
delivered bytes. -/
theorem C15_read_memory_success (address len : Nat) (s : Sys) (data : List Nat)
    (h1 : 1 ≤ len) (h2 : len ≤ 256)
    (htx : ∀ i, i < 3 → s.tx_status (s.n_tx + i) = HalStatus.HAL_OK)
    (hack : ∀ k, k < 3 → s.rx_line (s.n_rx + k) = ⟨false, [0x79]⟩)
    (hdata : s.rx_line (s.n_rx + 3) = ⟨false, data⟩) (hlen : data.length = len)
    (hbytes : ∀ b ∈ data, b < 256) :
    ∃ t, dfu_host_read_memory address len s = some ((len : Int), t)
      ∧ tx_frames t.trace
          = tx_frames s.trace
              ++ [[0x11, 0xEE], address_frame address, [len - 1, 0xFF ^^^ (len - 1)]]
      ∧ rcv_bytes t len = data
      ∧ (address_frame address).length = 5 ∧ 0xFF ^^^ (len - 1) = 255 - (len - 1) := by
  have hx : 0xFF ^^^ (len - 1) = 255 - (len - 1) := xor_ff_eq_sub _ (by omega)
  refine ⟨_, dfu_host_read_memory_ok address len s data h1 h2 htx hack hdata hlen, ?_, ?_,
    by simp [address_frame], hx⟩
  · simp [tx_frames_append, tx_frames, read_exchange]
  · rw [← hlen]
    rw [rcv_bytes_of_store _ _ data rfl]
    conv_rhs => rw [← List.map_id data]
    apply List.map_congr_left
    intro b hb
    exact Nat.mod_eq_of_lt (hbytes b hb)

theorem C15_read_memory_success_witness :
    ∃ t, dfu_host_read_memory 0x0803F800 6 sys_six_bytes = some (6, t)
      ∧ tx_frames t.trace = [[0x11, 0xEE], [0x08, 0x03, 0xF8, 0x00, 0xF3], [0x05, 0xFA]]
      ∧ rcv_bytes t 6 = [0x00, 0x02, 0x00, 0x00, 0xEF, 0xBE] := by
  obtain ⟨t, e, f, r, -⟩ := C15_read_memory_success 0x0803F800 6 sys_six_bytes
    [0x00, 0x02, 0x00, 0x00, 0xEF, 0xBE] (by decide) (by decide)
    (fun i _ => rfl) (fun k hk => by interval_cases k <;> rfl) rfl rfl (by decide)
  exact ⟨t, e, by rw [f]; decide, r⟩

/-! ## C16: Write-Memory -/

theorem send_data_ack_frames (buffer : List Nat) (size : Nat) (s : Sys) (hsize : size ≠ 0)
    (htx : s.tx_status s.n_tx = HalStatus.HAL_OK)
    (hrx : s.rx_line s.n_rx = ⟨false, [0x79]⟩) :
    ∃ t, send_data buffer size CONFIG_DFU_HOST_RECEIVE_TIMEOUT_MS s = some (0, t)
      ∧ tx_frames t.trace = tx_frames s.trace ++ [buffer.take size]
      ∧ t.n_tx = s.n_tx + 1 ∧ t.n_rx = s.n_rx + 1
      ∧ t.tx_status = s.tx_status ∧ t.rx_line = s.rx_line ∧ t.assert_on = s.assert_on :=
  ⟨_, send_data_ack buffer size _ s hsize (by decide) htx hrx,
    by simp [tx_frames_append, tx_frames], rfl, rfl, rfl, rfl, rfl⟩

/-- A Write-Memory call whose command and address frames are acknowledged has
no defined result for `len = 256`: the checksum is stored at `buf[257]`, outside
`uint8_t buf[256 + 1]`. -/
theorem dfu_host_write_memory_256 (a : Nat) (data : List Nat) (s : Sys)
    (htx : ∀ i, i < 2 → s.tx_status (s.n_tx + i) = HalStatus.HAL_OK)
    (hack : ∀ k, k < 2 → s.rx_line (s.n_rx + k) = ⟨false, [0x79]⟩) :
    dfu_host_write_memory a data 256 s = none := by
  obtain ⟨s1, e1, -, n1, r1, x1, l1, -⟩ :=
    send_command_ack DFU_HOST_CMD_ID_WRITE_MEM s (by decide) (htx 0 (by decide))
      (hack 0 (by decide))
  obtain ⟨s2, e2, -⟩ := send_data_ack_frames (address_frame a) 5 s1 (by decide)
    (by rw [x1, n1]; exact htx 1 (by decide)) (by rw [l1, r1]; exact hack 1 (by decide))
  simp only [dfu_host_write_memory, e1, e2, fill_payload_256]
  simp

/-- A Write-Memory exchange that the device serves, for `1 ≤ len ≤ 255`. -/
theorem dfu_host_write_memory_ok (a : Nat) (data : List Nat) (len : Nat) (s : Sys)
    (h1 : 1 ≤ len) (h2 : len ≤ 255) (hd : data.length = len) (hb : ∀ b ∈ data, b < 256)
    (htx : ∀ i, i < 3 → s.tx_status (s.n_tx + i) = HalStatus.HAL_OK)
    (hack : ∀ k, k < 3 → s.rx_line (s.n_rx + k) = ⟨false, [0x79]⟩) :
    ∃ t, dfu_host_write_memory a data len s = some ((len : Int), t)
      ∧ tx_frames t.trace
          = tx_frames s.trace ++ [[0x31, 0xCE], address_frame a,
              (len - 1) :: data ++ [calc_xor8 ((len - 1) :: data) (len + 1)]] := by
  have hl0 : len ≠ 0 := by omega
  have h256 : len ≤ 256 := by omega
  obtain ⟨s1, e1, f1, n1, r1, x1, l1, -⟩ :=
    send_command_ack DFU_HOST_CMD_ID_WRITE_MEM s (by decide) (htx 0 (by decide))
      (hack 0 (by decide))
  obtain ⟨s2, e2, f2, n2, r2, x2, l2, -⟩ := send_data_ack_frames (address_frame a) 5 s1
    (by decide) (by rw [x1, n1]; exact htx 1 (by decide))
    (by rw [l1, r1]; exact hack 1 (by decide))
  obtain ⟨buf, eb, tb⟩ := fill_payload_ok (256 + 1) data len h1 h256 (by omega) (le_of_eq hd.symm)
    hb
  obtain ⟨s3, e3, f3, -⟩ := send_data_ack_frames buf (len + 2) s2 (by omega)
    (by rw [x2, n2, x1, n1]; exact htx 2 (by decide))
    (by rw [l2, r2, l1, r1]; exact hack 2 (by decide))
  have ht : List.take len data = data := List.take_of_length_le (le_of_eq hd)
  refine ⟨s3, ?_, ?_⟩
  · simp only [dfu_host_write_memory, hl0, h256, not_true, or_self, if_false, e1, lt_irrefl, e2,
      eb, e3]
  · rw [f3, f2, f1, tb, ht, address_frame_take]
    simp [DFU_HOST_CMD_ID_WRITE_MEM]

/-- C16 (counterexample): Write-Memory does not return `DFU_HOST_ERR_EINVAL` for
`len = 0` in a debug build (`ASSERT_ON`), where the failed `CHECK` never returns;
and for `len = 256`, with all frames acknowledged, it does not return 256: the
checksum store `buf[len + 1]` falls outside `uint8_t buf[256 + 1]`, so the call
has no defined result. -/
theorem C16_write_memory_zero_and_full_length :
    (dfu_host_write_memory 0x08000000 [] 0 sys_debug).isNone = true
    ∧ (dfu_host_write_memory 0x08000000 [] 0 sys_debug).map Prod.fst
        ≠ some DFU_HOST_ERR_EINVAL
    ∧ dfu_host_write_memory 0x08000000 (List.replicate 256 0xA5) 256 sys_ack = none
    ∧ (dfu_host_write_memory 0x08000000 (List.replicate 256 0xA5) 256 sys_ack).map Prod.fst
        ≠ some 256 := by
  have h := dfu_host_write_memory_256 0x08000000 (List.replicate 256 0xA5) sys_ack
    (fun _ _ => rfl) (fun _ _ => rfl)
  refine ⟨by decide, by decide, h, ?_⟩
  rw [h]
  simp

/-- C16 (amended): for every address, every length `1 ≤ len ≤ 255` and every
data block of that length, when the device acknowledges each frame
`dfu_host_write_memory` transmits `[0x31, 0xCE]`, the address frame and the
`(len+2)`-byte payload frame `[len-1, data[0..len), XOR-8 of (len-1 followed
by data)]`, and returns `len`; for `len = 0` or `len > 256` it transmits
nothing: a build without `ASSERT_ON` returns `DFU_HOST_ERR_EINVAL` in an
unchanged state, a build with `ASSERT_ON` does not return. -/
theorem C16_write_memory (a : Nat) (data : List Nat) (len : Nat) (s : Sys)
    (h1 : 1 ≤ len) (h2 : len ≤ 255) (hd : data.length = len) (hb : ∀ b ∈ data, b < 256)
    (htx : ∀ i, i < 3 → s.tx_status (s.n_tx + i) = HalStatus.HAL_OK)
    (hack : ∀ k, k < 3 → s.rx_line (s.n_rx + k) = ⟨false, [0x79]⟩) :
    (∃ t, dfu_host_write_memory a data len s = some ((len : Int), t)
      ∧ tx_frames t.trace
          = tx_frames s.trace ++ [[0x31, 0xCE], address_frame a,
              (len - 1) :: data ++ [calc_xor8 ((len - 1) :: data) (len + 1)]]
      ∧ ((len - 1) :: data ++ [calc_xor8 ((len - 1) :: data) (len + 1)]).length = len + 2)
    ∧ (∀ (bad : Nat) (d : List Nat) (u : Sys), bad = 0 ∨ 256 < bad →
        (u.assert_on = false →
          dfu_host_write_memory a d bad u = some (DFU_HOST_ERR_EINVAL, u))
        ∧ (u.assert_on = true → dfu_host_write_memory a d bad u = none)) := by
  refine ⟨?_, ?_⟩
  · obtain ⟨t, e, f⟩ := dfu_host_write_memory_ok a data len s h1 h2 hd hb htx hack
    exact ⟨t, e, f, by simp [hd]⟩
  · intro bad d u hbad
    have hc : bad = 0 ∨ ¬ bad ≤ 256 := hbad.imp id not_le.mpr
    constructor <;> intro ha <;>
      (unfold dfu_host_write_memory; rw [if_pos hc, ha]; rfl)

theorem C16_write_memory_witness :
    (∃ t, dfu_host_write_memory 0x08000000 [0xDE, 0xAD, 0xBE, 0xEF] 4 sys_ack = some (4, t)
      ∧ tx_frames t.trace
          = [[0x31, 0xCE], [0x08, 0x00, 0x00, 0x00, 0x08], [0x03, 0xDE, 0xAD, 0xBE, 0xEF, 0x21]])
    ∧ dfu_host_write_memory 0x08000000 [] 0 sys_ack = some (DFU_HOST_ERR_EINVAL, sys_ack) := by
  have h := C16_write_memory 0x08000000 [0xDE, 0xAD, 0xBE, 0xEF] 4 sys_ack (by decide)
    (by decide) rfl (by decide) (fun _ _ => rfl) (fun _ _ => rfl)
  obtain ⟨t, e, f, -⟩ := h.1
  exact ⟨⟨t, e, by rw [f]; decide⟩, (h.2 0 [] sys_ack (Or.inl rfl)).1 rfl⟩

/-! ## C17, C18, C19: Get-Version and Get-ID -/

/-- An acknowledged command frame followed by a variable-length receive in
which `data` (no `ACK`, no `NACK` among the bytes, at most 255 of them) and then
the terminating byte `fin` arrive in time. -/
theorem command_then_recv (cmd fin : Nat) (s : Sys) (data : List Nat) (rest : List Ev)
    (htx : s.tx_status s.n_tx = HalStatus.HAL_OK)
    (hrx : s.rx_line s.n_rx = ⟨false, [0x79]⟩)
    (hfin : fin = 0x79 ∨ fin = 0x1F) (hk : data.length ≤ 255)
    (hbytes : ∀ b ∈ data, b < 256 ∧ b ≠ 0x79 ∧ b ≠ 0x1F)
    (hev : s.events = data.map Ev.rx ++ Ev.rx fin :: rest)
    (hit : ∀ i, i ≤ data.length → s.it_status (s.n_it + i) = HalStatus.HAL_OK)
    (hdl : HAL_GetTick s + CONFIG_DFU_HOST_RECEIVE_TIMEOUT_MS < 2 ^ 32) :
    ∃ s1 t, send_command cmd CONFIG_DFU_HOST_RECEIVE_TIMEOUT_MS s = some (0, s1)
      ∧ recv CONFIG_DFU_HOST_RECEIVE_TIMEOUT_MS s1
          = some (if fin = 0x1F then DFU_HOST_ERR_NACK
                  else if s.rcv_err ≠ 0 then s.rcv_err else (data.length : Int), t)
      ∧ t.rcv_count = data.length ∧ rcv_bytes t data.length = data ∧ t.events = rest := by
  have e1 := send_data_ack [cmd % 256, (0xFF ^^^ cmd) % 256] 2
    CONFIG_DFU_HOST_RECEIVE_TIMEOUT_MS s (by decide) (by decide) htx hrx
  obtain ⟨t, h, hc, hb, he⟩ := recv_data_terminated CONFIG_DFU_HOST_RECEIVE_TIMEOUT_MS fin
    { s with
        n_tx := s.n_tx + 1, n_rx := s.n_rx + 1,
        trace := s.trace ++ [Call.transmit (List.take 2 [cmd % 256, (0xFF ^^^ cmd) % 256]),
          Call.receive 1 CONFIG_DFU_HOST_RECEIVE_TIMEOUT_MS],
        rcv_buffer := store_bytes s.rcv_buffer 0 [0x79] }
    data rest hfin (by decide) hk hbytes hev hit hdl
  exact ⟨_, t, e1, h, hc, hb, he⟩

theorem on_event_elapse (ms : Nat) (u : Sys) :
    on_event (Ev.elapse ms) u = { u with now := u.now + ms } := rfl

theorem tick_after_elapse (ms : Nat) (u : Sys) :
    HAL_GetTick { u with now := u.now + ms } ≤ HAL_GetTick u + ms := by
  show (u.now + ms) % 2 ^ 32 ≤ u.now % 2 ^ 32 + ms
  omega

/-- The wait loop while the events `pre` happen and then a terminating byte
`fin` (`ACK` or `NACK`) arrives: `pre` is any interleaving of arriving bytes (no
`ACK`, no `NACK` among them, room in the buffer for all) and of time passing,
the time that passes in `pre` ending before the deadline.  The loop is left
through `rcv_cplt`, the bytes are in the buffer behind those received before,
and `rcv_err` is touched only by a `NACK`. -/
theorem recv_wait_timed (end_tp fin : Nat) (rest : List Ev)
    (hfin : fin = 0x79 ∨ fin = 0x1F) :
    ∀ (pre : List Ev) (u : Sys),
      u.rcv_cplt = false → u.armed = some u.rcv_count → u.cb_registered = true →
      HAL_GetTick u + ev_time pre < end_tp → u.rcv_count + (ev_bytes pre).length ≤ 255 →
      (∀ b ∈ ev_bytes pre, b < 256 ∧ b ≠ 0x79 ∧ b ≠ 0x1F) →
      (∀ i, i < (ev_bytes pre).length → u.it_status (u.n_it + i) = HalStatus.HAL_OK) →
      ∃ t, recv_wait end_tp (pre ++ Ev.rx fin :: rest) u = some (true, t)
        ∧ t.rcv_count = u.rcv_count + (ev_bytes pre).length
        ∧ t.rcv_err = (if fin = 0x1F then DFU_HOST_ERR_NACK else u.rcv_err)
        ∧ t.events = rest
        ∧ t.now = u.now + ev_time pre
        ∧ (∀ i, i < u.rcv_count → t.rcv_buffer i = u.rcv_buffer i)
        ∧ (∀ i, i < (ev_bytes pre).length →
            t.rcv_buffer (u.rcv_count + i) = (ev_bytes pre).getD i 0) := by
  intro pre
  induction pre with
  | nil =>
    intro u hc ha hcb ht _ _ _
    have ht' : HAL_GetTick u < end_tp := by
      simp only [ev_time, Nat.add_zero] at ht
      exact ht
    simp only [List.nil_append]
    rw [recv_wait_pending end_tp _ rest u hc ht']
    rcases hfin with h | h
    · subst h
      rw [on_event_rx_ack u ha hcb, recv_wait_complete _ _ _ rfl]
      refine ⟨_, rfl, rfl, rfl, rfl, rfl, ?_, ?_⟩
      · intro i hi
        exact Function.update_noteq (Nat.ne_of_lt hi) _ _
      · intro i hi
        exact absurd hi (Nat.not_lt_zero i)
    · subst h
      rw [on_event_rx_nack u ha hcb, recv_wait_complete _ _ _ rfl]
      refine ⟨_, rfl, rfl, rfl, rfl, rfl, ?_, ?_⟩
      · intro i hi
        exact Function.update_noteq (Nat.ne_of_lt hi) _ _
      · intro i hi
        exact absurd hi (Nat.not_lt_zero i)
  | cons e es ih =>
    intro u hc ha hcb ht hroom hbytes hit
    cases e with
    | rx b =>
      simp only [ev_bytes, ev_time, List.length_cons] at ht hroom hbytes hit ⊢
      obtain ⟨hb, hback, hbnack⟩ := hbytes b (List.mem_cons_self b _)
      simp only [List.cons_append]
      rw [recv_wait_pending end_tp _ _ u hc (by omega),
        on_event_rx_data b u ha hcb hb hback hbnack (by omega) (hit 0 (Nat.succ_pos _))]
      obtain ⟨t, hrun, hcount, herr, hev, hnow, hold, hnew⟩ := ih
        { u with armed := some (u.rcv_count + 1),
                 rcv_buffer := Function.update u.rcv_buffer u.rcv_count b,
                 rcv_count := u.rcv_count + 1,
                 n_it := u.n_it + 1,
                 trace := u.trace ++ [Call.receive_it (u.rcv_count + 1)] }
        hc rfl hcb ht (by show u.rcv_count + 1 + (ev_bytes es).length ≤ 255; omega)
        (fun c hc' => hbytes c (List.mem_cons_of_mem b hc'))
        (fun i hi => by
          have := hit (i + 1) (Nat.succ_lt_succ hi)
          show u.it_status (u.n_it + 1 + i) = HalStatus.HAL_OK
          rw [Nat.add_assoc, Nat.add_comm 1 i]
          exact this)
      refine ⟨t, hrun, ?_, herr, hev, hnow, ?_, ?_⟩
      · rw [hcount]
        show u.rcv_count + 1 + (ev_bytes es).length = u.rcv_count + ((ev_bytes es).length + 1)
        omega
      · intro i hi
        rw [hold i (Nat.lt_succ_of_lt hi)]
        exact Function.update_noteq (Nat.ne_of_lt hi) _ _
      · intro i hi
        cases i with
        | zero =>
          rw [Nat.add_zero, hold u.rcv_count (Nat.lt_succ_self _)]
          simp
        | succ j =>
          have := hnew j (Nat.lt_of_succ_lt_succ hi)
          have e : u.rcv_count + (j + 1) = u.rcv_count + 1 + j := by omega
          rw [e]
          simpa using this
    | elapse ms =>
      simp only [ev_bytes, ev_time] at ht hroom hbytes hit ⊢
      simp only [List.cons_append]
      rw [recv_wait_pending end_tp _ _ u hc (by omega), on_event_elapse]
      have htick := tick_after_elapse ms u
      obtain ⟨t, hrun, hcount, herr, hev, hnow, hold, hnew⟩ := ih
        { u with now := u.now + ms } hc ha hcb (by omega) hroom hbytes hit
      refine ⟨t, hrun, hcount, herr, hev, ?_, hold, hnew⟩
      rw [hnow]
      show u.now + ms + ev_time es = u.now + (ms + ev_time es)
      omega

/-- What `recv` returns when the events `pre` happen and then a terminating
byte `fin` arrives: `pre` is any interleaving of arriving bytes (at most 255,
none of them `ACK` or `NACK`) and of time passing, and less than `timeout`
milliseconds pass in it.  After a `NACK` the result is `DFU_HOST_ERR_NACK`; after
an `ACK` it is the number of bytes when `rcv_err` was 0 on entry, and otherwise
the value that `rcv_err` had on entry. -/
theorem recv_timed_terminated (timeout fin : Nat) (s : Sys) (pre rest : List Ev)
    (hfin : fin = 0x79 ∨ fin = 0x1F) (hk : (ev_bytes pre).length ≤ 255)
    (hbytes : ∀ b ∈ ev_bytes pre, b < 256 ∧ b ≠ 0x79 ∧ b ≠ 0x1F)
    (hev : s.events = pre ++ Ev.rx fin :: rest)
    (htime : ev_time pre < timeout)
    (hit : ∀ i, i ≤ (ev_bytes pre).length → s.it_status (s.n_it + i) = HalStatus.HAL_OK)
    (hdl : HAL_GetTick s + timeout < 2 ^ 32) :
    ∃ t, recv timeout s
        = some (if fin = 0x1F then DFU_HOST_ERR_NACK
                else if s.rcv_err ≠ 0 then s.rcv_err else ((ev_bytes pre).length : Int), t)
      ∧ t.rcv_count = (ev_bytes pre).length
      ∧ rcv_bytes t (ev_bytes pre).length = ev_bytes pre ∧ t.events = rest
      ∧ t.now = s.now + ev_time pre := by
  have hit0 : s.it_status s.n_it = HalStatus.HAL_OK := hit 0 (Nat.zero_le _)
  obtain ⟨t, hrun, hcount, herr, hevt, hnow, -, hnew⟩ :=
    recv_wait_timed (HAL_GetTick s + timeout) fin rest hfin pre
    { s with cb_registered := true, rcv_count := 0, rcv_cplt := false,
             n_it := s.n_it + 1, armed := some 0,
             trace := s.trace ++ [Call.register_cb] ++ [Call.receive_it 0] }
    rfl rfl rfl (show HAL_GetTick s + ev_time pre < HAL_GetTick s + timeout by omega)
    (by show 0 + (ev_bytes pre).length ≤ 255; omega) hbytes
    (fun i hi => by
      have := hit (i + 1) hi
      show s.it_status (s.n_it + 1 + i) = HalStatus.HAL_OK
      rw [Nat.add_assoc, Nat.add_comm 1 i]
      exact this)
  have hto : 0 < timeout := by omega
  have hnot : ¬ (s.assert_on = true ∧ ¬ 0 < timeout) := fun h => h.2 hto
  have hstart : start_rcv_next_byte
      { HAL_UART_RegisterCallback s with rcv_count := 0, rcv_cplt := false }
      = (DFU_HOST_ERR_NONE,
        { s with cb_registered := true, rcv_count := 0, rcv_cplt := false,
                 n_it := s.n_it + 1, armed := some 0,
                 trace := s.trace ++ [Call.register_cb] ++ [Call.receive_it 0] }) := by
    simp [start_rcv_next_byte, HAL_UART_RegisterCallback, CONFIG_DFU_HOST_RX_BUFFER_SIZE,
      HAL_UART_Receive_IT, hit0]
  have hend : (HAL_GetTick s + timeout) % 2 ^ 32 = HAL_GetTick s + timeout :=
    Nat.mod_eq_of_lt hdl
  have htick : HAL_GetTick
      { s with cb_registered := true, rcv_count := 0, rcv_cplt := false,
               n_it := s.n_it + 1, armed := some 0,
               trace := s.trace ++ [Call.register_cb] ++ [Call.receive_it 0] }
      = HAL_GetTick s := rfl
  have hneg : ¬ DFU_HOST_ERR_NONE < 0 := by decide
  rw [← hev] at hrun
  refine ⟨t, ?_, by simpa using hcount, ?_, hevt, hnow⟩
  · simp only [recv, if_neg hnot, hstart, if_neg hneg, htick, hend, hrun, herr]
    rcases hfin with h | h
    · subst h
      have hcount' : t.rcv_count = (ev_bytes pre).length := by simpa using hcount
      simp only [show ¬ ((0x79 : Nat) = 0x1F) by decide, if_false, hcount']
      split_ifs <;> rfl
    · subst h
      simp only [if_true]
      rfl
  · apply List.ext_getElem
    · simp [rcv_bytes]
    · intro i h1 h2
      have h' : t.rcv_buffer (0 + i) = (ev_bytes pre).getD i 0 := hnew i h2
      rw [Nat.zero_add] at h'
      simp only [rcv_bytes, List.getElem_map, List.getElem_range]
      rw [h']
      simp [List.getD_eq_getElem?_getD, List.getElem?_eq_getElem h2]

/-- An acknowledged command frame followed by a variable-length receive in
which the events `pre` happen and then the terminating byte `fin` arrives, less
than the receive timeout passing in `pre`. -/
theorem command_then_recv_timed (cmd fin : Nat) (s : Sys) (pre rest : List Ev)
    (htx : s.tx_status s.n_tx = HalStatus.HAL_OK)
    (hrx : s.rx_line s.n_rx = ⟨false, [0x79]⟩)
    (hfin : fin = 0x79 ∨ fin = 0x1F) (hk : (ev_bytes pre).length ≤ 255)
    (hbytes : ∀ b ∈ ev_bytes pre, b < 256 ∧ b ≠ 0x79 ∧ b ≠ 0x1F)
    (hev : s.events = pre ++ Ev.rx fin :: rest)
    (htime : ev_time pre < CONFIG_DFU_HOST_RECEIVE_TIMEOUT_MS)
    (hit : ∀ i, i ≤ (ev_bytes pre).length → s.it_status (s.n_it + i) = HalStatus.HAL_OK)
    (hdl : HAL_GetTick s + CONFIG_DFU_HOST_RECEIVE_TIMEOUT_MS < 2 ^ 32) :
    ∃ s1 t, send_command cmd CONFIG_DFU_HOST_RECEIVE_TIMEOUT_MS s = some (0, s1)
      ∧ recv CONFIG_DFU_HOST_RECEIVE_TIMEOUT_MS s1
          = some (if fin = 0x1F then DFU_HOST_ERR_NACK
                  else if s.rcv_err ≠ 0 then s.rcv_err else ((ev_bytes pre).length : Int), t)
      ∧ t.rcv_count = (ev_bytes pre).length
      ∧ rcv_bytes t (ev_bytes pre).length = ev_bytes pre ∧ t.events = rest
      ∧ t.now = s.now + ev_time pre := by
  have e1 := send_data_ack [cmd % 256, (0xFF ^^^ cmd) % 256] 2
    CONFIG_DFU_HOST_RECEIVE_TIMEOUT_MS s (by decide) (by decide) htx hrx
  obtain ⟨t, h, hc, hb, he, hn⟩ := recv_timed_terminated CONFIG_DFU_HOST_RECEIVE_TIMEOUT_MS fin
    { s with
        n_tx := s.n_tx + 1, n_rx := s.n_rx + 1,
        trace := s.trace ++ [Call.transmit (List.take 2 [cmd % 256, (0xFF ^^^ cmd) % 256]),
          Call.receive 1 CONFIG_DFU_HOST_RECEIVE_TIMEOUT_MS],
        rcv_buffer := store_bytes s.rcv_buffer 0 [0x79] }
    pre rest hfin hk hbytes hev htime hit hdl
  exact ⟨_, t, e1, h, hc, hb, he, hn⟩

theorem bcd2bin_byte (v : Nat) (hv : v < 256) :
    bcd2bin v = 10 * (v >>> 4) + (v &&& 0x0F) := by
  have m : v &&& 0x0F = v % 16 := by
    rw [show (0x0F : Nat) = 2 ^ 4 - 1 by norm_num, Nat.and_pow_two_sub_one_eq_mod]
  unfold bcd2bin
  rw [m, Nat.shiftRight_eq_div_pow]
  omega

theorem rcv_bytes_head (t : Sys) (n : Nat) (data : List Nat) (hn : 0 < n)
    (h : rcv_bytes t n = data) : t.rcv_buffer 0 = data.getD 0 0 := by
  obtain ⟨m, rfl⟩ : ∃ m, n = m + 1 := ⟨n - 1, by omega⟩
  rw [← h]
  simp [rcv_bytes, List.range_succ_eq_map]

set_option maxRecDepth 1000000 in
/-- C17 (counterexample): a device whose version byte is `0x79` (version 7.9)
replies `79 00 00` and the final `ACK`; three bytes precede the final `ACK`, yet
`dfu_host_get_version` returns `DFU_HOST_ERR_WRONG_ANS` instead of 79, because
the reception stops at the first byte equal to `ACK`.  And a reply of 256
bytes before the final `ACK` yields `DFU_HOST_ERR_OVERFLOW`, not
`DFU_HOST_ERR_WRONG_ANS`. -/
theorem C17_get_version_in_band_ack :
    (dfu_host_get_version (sys_reply [0x79, 0x00, 0x00, 0x79])).map Prod.fst
      = some DFU_HOST_ERR_WRONG_ANS
    ∧ ((10 * (0x79 >>> 4) + (0x79 &&& 0x0F) : Nat) : Int) = 79
    ∧ (dfu_host_get_version (sys_reply (List.replicate 256 0x00 ++ [0x79]))).map Prod.fst
        = some DFU_HOST_ERR_OVERFLOW
    ∧ DFU_HOST_ERR_OVERFLOW ≠ DFU_HOST_ERR_WRONG_ANS := by
  decide

/-- C17 (amended): when the command frame is acknowledged and the bytes
delivered before the first byte equal to `ACK` arrive in time, `dfu_host_get_version`
returns the binary-coded-decimal decoding `10*(v >> 4) + (v & 0x0F)` of the first
byte `v` when exactly 3 bytes were delivered, and `DFU_HOST_ERR_WRONG_ANS`
otherwise.  Here `pre` is what happens before that `ACK`, any interleaving of bytes
arriving and of time passing: less than the receive timeout of 1000 ms passes
in it, it delivers no `ACK` and no `NACK` byte and at most 255 bytes, every
receive can be armed, and no receive error is pending from an earlier
exchange. -/
theorem C17_get_version_reply (s : Sys) (pre rest : List Ev)
    (htx : s.tx_status s.n_tx = HalStatus.HAL_OK)
    (hrx : s.rx_line s.n_rx = ⟨false, [0x79]⟩)
    (hk : (ev_bytes pre).length ≤ 255)
    (hbytes : ∀ b ∈ ev_bytes pre, b < 256 ∧ b ≠ 0x79 ∧ b ≠ 0x1F)
    (hev : s.events = pre ++ Ev.rx 0x79 :: rest)
    (htime : ev_time pre < CONFIG_DFU_HOST_RECEIVE_TIMEOUT_MS)
    (hit : ∀ i, i ≤ (ev_bytes pre).length → s.it_status (s.n_it + i) = HalStatus.HAL_OK)
    (hdl : HAL_GetTick s + CONFIG_DFU_HOST_RECEIVE_TIMEOUT_MS < 2 ^ 32)
    (herr : s.rcv_err = 0) :
    (dfu_host_get_version s).map Prod.fst
      = some (if (ev_bytes pre).length = 3
              then ((10 * ((ev_bytes pre).getD 0 0 >>> 4)
                      + ((ev_bytes pre).getD 0 0 &&& 0x0F) : Nat) : Int)
              else DFU_HOST_ERR_WRONG_ANS) := by
  obtain ⟨s1, t, e1, e2, -, hb, -⟩ := command_then_recv_timed DFU_HOST_CMD_ID_GET_VERSION 0x79 s
    pre rest htx hrx (Or.inl rfl) hk hbytes hev htime hit hdl
  simp only [show (0x79 : Nat) ≠ 0x1F by decide, if_false, herr, ne_eq, not_true] at e2
  simp only [dfu_host_get_version, e1, lt_irrefl, if_false, e2]
  have hneg : ¬ (((ev_bytes pre).length : Int) < 0) := by omega
  rw [if_neg hneg]
  by_cases h3 : (ev_bytes pre).length = 3
  · have hv : t.rcv_buffer 0 = (ev_bytes pre).getD 0 0 :=
      rcv_bytes_head t _ (ev_bytes pre) (by omega) hb
    have hlt : (ev_bytes pre).getD 0 0 < 256 := by
      match ev_bytes pre, h3, hbytes with
      | [a, _, _], _, hbytes => exact (hbytes a (by simp)).1
    have h3' : ¬ (((ev_bytes pre).length : Int) ≠ 3) := by omega
    rw [if_neg h3', if_pos h3, hv, bcd2bin_byte _ hlt]
    rfl
  · have h3' : ((ev_bytes pre).length : Int) ≠ 3 := by omega
    rw [if_pos h3', if_neg h3]
    rfl

theorem C17_get_version_reply_witness :
    (dfu_host_get_version (sys_timed [Ev.elapse 3, Ev.rx 0x31, Ev.elapse 1, Ev.rx 0x00,
        Ev.rx 0x00, Ev.elapse 2, Ev.rx 0x79])).map Prod.fst = some 31
    ∧ (dfu_host_get_version (sys_timed [Ev.rx 0x31, Ev.elapse 999, Ev.rx 0x00,
        Ev.rx 0x79])).map Prod.fst = some DFU_HOST_ERR_WRONG_ANS :=
  ⟨C17_get_version_reply (sys_timed [Ev.elapse 3, Ev.rx 0x31, Ev.elapse 1, Ev.rx 0x00,
       Ev.rx 0x00, Ev.elapse 2, Ev.rx 0x79])
     [Ev.elapse 3, Ev.rx 0x31, Ev.elapse 1, Ev.rx 0x00, Ev.rx 0x00, Ev.elapse 2] [] rfl rfl
     (by decide) (by decide) rfl (by decide) (fun _ _ => rfl) (by decide) rfl,
   C17_get_version_reply (sys_timed [Ev.rx 0x31, Ev.elapse 999, Ev.rx 0x00, Ev.rx 0x79])
     [Ev.rx 0x31, Ev.elapse 999, Ev.rx 0x00] [] rfl rfl
     (by decide) (by decide) rfl (by decide) (fun _ _ => rfl) (by decide) rfl⟩

/-- C18 (evaluation at the failing input): the device acknowledges the
Get-Version command and replies `31 00 00` and `ACK` (version 3.1).
`dfu_host_get_version` returns 31, that is `0x1F` with nibbles 1 and 15, not the
number `0x31` with the nibbles 3 and 1 of the version byte that the header
announces; the returned value equals the version byte only for the bytes
below `0x10`. -/
theorem C18_get_version_returns_decoded_value :
    (dfu_host_get_version (sys_reply [0x31, 0x00, 0x00, 0x79])).map Prod.fst = some 31
    ∧ (31 : Int) ≠ 0x31
    ∧ (bcd2bin 0x31 >>> 4, bcd2bin 0x31 &&& 0x0F) = (1, 15)
    ∧ (0x31 >>> 4, 0x31 &&& 0x0F) = (3, 1)
    ∧ (List.range 256).filter (fun v => bcd2bin v = v) = List.range 16 := by
  decide

theorem rcv_bytes_tail (t : Sys) (n : Nat) (data : List Nat) (h : rcv_bytes t n = data) :
    (List.range (n - 1)).map (fun i => t.rcv_buffer (1 + i)) = data.drop 1 := by
  rw [← h]
  apply List.ext_getElem
  · simp [rcv_bytes]
  · intro i h1 h2
    simp [rcv_bytes, Nat.add_comm]

set_option maxRecDepth 1000000 in
/-- C19 (counterexample): a device with the product ID `0x0479` replies
`01 04 79` and the final `ACK`; three bytes precede the final `ACK`, yet
`dfu_host_get_id` reports `id_len = 1` (the ID cut to `04`) instead of 2, because
the reception stops at the first byte equal to `ACK`.  And a reply of 256
bytes before the final `ACK` yields `DFU_HOST_ERR_OVERFLOW`, not 0. -/
theorem C19_get_id_in_band_ack :
    (dfu_host_get_id (sys_reply [0x01, 0x04, 0x79, 0x79])).map
        (fun p => (p.1, p.2.rcv_count, p.2.rcv_buffer 1))
      = some (⟨0, some 1, some 1⟩, 2, 0x04)
    ∧ (dfu_host_get_id (sys_reply (List.replicate 256 0x00 ++ [0x79]))).map
        (fun p => p.1.rc) = some DFU_HOST_ERR_OVERFLOW
    ∧ DFU_HOST_ERR_OVERFLOW ≠ 0 := by
  decide

/-- C19 (amended): when the command frame is acknowledged and the `n` bytes
delivered before the first byte equal to `ACK` arrive in time, `dfu_host_get_id`
returns `DFU_HOST_ERR_WRONG_ANS` for `n = 0`; for `n ≥ 1` it returns 0, sets `*id` to
`rcv_buffer + 1` and `*id_len` to `n - 1`, and the `n - 1` bytes there are the bytes
delivered without the leading one.  Here `pre` is what happens before that `ACK`,
any interleaving of bytes arriving and of time passing: less than the receive
timeout of 1000 ms passes in it, it delivers no `ACK` and no `NACK` byte and at
most 255 bytes, every receive can be armed, and no receive error is pending
from an earlier exchange. -/
theorem C19_get_id_reply (s : Sys) (pre rest : List Ev)
    (htx : s.tx_status s.n_tx = HalStatus.HAL_OK)
    (hrx : s.rx_line s.n_rx = ⟨false, [0x79]⟩)
    (hk : (ev_bytes pre).length ≤ 255)
    (hbytes : ∀ b ∈ ev_bytes pre, b < 256 ∧ b ≠ 0x79 ∧ b ≠ 0x1F)
    (hev : s.events = pre ++ Ev.rx 0x79 :: rest)
    (htime : ev_time pre < CONFIG_DFU_HOST_RECEIVE_TIMEOUT_MS)
    (hit : ∀ i, i ≤ (ev_bytes pre).length → s.it_status (s.n_it + i) = HalStatus.HAL_OK)
    (hdl : HAL_GetTick s + CONFIG_DFU_HOST_RECEIVE_TIMEOUT_MS < 2 ^ 32)
    (herr : s.rcv_err = 0) :
    ∃ t, dfu_host_get_id s
        = some (if (ev_bytes pre).length = 0 then ⟨DFU_HOST_ERR_WRONG_ANS, none, none⟩
                else ⟨DFU_HOST_ERR_NONE, some 1, some ((ev_bytes pre).length - 1)⟩, t)
      ∧ (List.range ((ev_bytes pre).length - 1)).map (fun i => t.rcv_buffer (1 + i))
          = (ev_bytes pre).drop 1 := by
  obtain ⟨s1, t, e1, e2, -, hb, -⟩ := command_then_recv_timed DFU_HOST_CMD_ID_GET_ID 0x79 s pre
    rest htx hrx (Or.inl rfl) hk hbytes hev htime hit hdl
  simp only [show (0x79 : Nat) ≠ 0x1F by decide, if_false, herr, ne_eq, not_true] at e2
  refine ⟨t, ?_, rcv_bytes_tail t _ (ev_bytes pre) hb⟩
  simp only [dfu_host_get_id, e1, lt_irrefl, if_false, e2]
  have hneg : ¬ (((ev_bytes pre).length : Int) < 0) := by omega
  rw [if_neg hneg]
  by_cases h0 : (ev_bytes pre).length = 0
  · have h0' : ((ev_bytes pre).length : Int) = 0 := by omega
    rw [if_pos h0', if_pos h0]
  · have h0' : ¬ ((ev_bytes pre).length : Int) = 0 := by omega
    have e : (((ev_bytes pre).length : Int) - 1).toNat = (ev_bytes pre).length - 1 := by omega
    rw [if_neg h0', if_neg h0, e]

theorem C19_get_id_reply_witness :
    (∃ t, dfu_host_get_id (sys_timed [Ev.elapse 2, Ev.rx 0x01, Ev.rx 0x04, Ev.elapse 1,
          Ev.rx 0x15, Ev.elapse 1, Ev.rx 0x79])
        = some (⟨0, some 1, some 2⟩, t)
      ∧ [t.rcv_buffer 1, t.rcv_buffer 2] = [0x04, 0x15])
    ∧ (∃ t, dfu_host_get_id (sys_timed [Ev.elapse 999, Ev.rx 0x79])
        = some (⟨DFU_HOST_ERR_WRONG_ANS, none, none⟩, t)) := by
  obtain ⟨t, e, b⟩ := C19_get_id_reply (sys_timed [Ev.elapse 2, Ev.rx 0x01, Ev.rx 0x04,
      Ev.elapse 1, Ev.rx 0x15, Ev.elapse 1, Ev.rx 0x79])
    [Ev.elapse 2, Ev.rx 0x01, Ev.rx 0x04, Ev.elapse 1, Ev.rx 0x15, Ev.elapse 1] []
    rfl rfl (by decide) (by decide) rfl (by decide) (fun _ _ => rfl) (by decide) rfl
  obtain ⟨u, e', -⟩ := C19_get_id_reply (sys_timed [Ev.elapse 999, Ev.rx 0x79])
    [Ev.elapse 999] []
    rfl rfl (by decide) (by decide) rfl (by decide) (fun _ _ => rfl) (by decide) rfl
  exact ⟨⟨t, e, b⟩, ⟨u, e'⟩⟩

/-! ## C20: Write-Protect over a range of sectors -/

theorem area_sectors_eq (start len : Nat) (h : start + len ≤ 256) :
    area_sectors start len = List.range' start len := by
  rw [List.range'_eq_map_range]
  apply List.map_congr_left
  intro i hi
  have hi' : i < len := List.mem_range.mp hi
  exact Nat.mod_eq_of_lt (by omega)

set_option maxRecDepth 1000000 in
/-- C20 (counterexample): in a debug build (`ASSERT_ON`) the call with
`start = 2 > end = 1` does not return `DFU_HOST_ERR_EINVAL`, it does not return at
all.  And the range is not always expanded to `start, ..., end`: for `start = 0`,
`end = 255` the 8-bit `len` is 0 and the call returns `DFU_HOST_ERR_EINVAL` without
transmitting, whereas Write-Protect(sectors) with the 256 sectors returns 0; for
`start = 0`, `end = 256` only sector 0 is sent (payload `00 00 00`), with result 0. -/
theorem C20_write_protect_area_truncates :
    (dfu_host_write_protect_area 2 1 sys_debug).isNone = true
    ∧ (dfu_host_write_protect_area 0 255 sys_ack).map (fun p => (p.1, tx_frames p.2.trace))
        = some (DFU_HOST_ERR_EINVAL, [])
    ∧ (dfu_host_write_protect_sectors (List.range' 0 256) 256 sys_ack).map Prod.fst = some 0
    ∧ (dfu_host_write_protect_area 0 256 sys_ack).map (fun p => (p.1, tx_frames p.2.trace))
        = some (0, [[0x63, 0x9C], [0x00, 0x00, 0x00]])
    ∧ (dfu_host_write_protect_sectors (List.range' 0 257) 257 sys_ack).map
          (fun p => tx_frames p.2.trace)
        ≠ (dfu_host_write_protect_area 0 256 sys_ack).map (fun p => tx_frames p.2.trace) := by
  decide

/-- C20 (amended): for sector numbers `start ≤ end ≤ 255` with at most 255
sectors in the range, `dfu_host_write_protect_area` is the call of
`dfu_host_write_protect_sectors` with the list `start, start+1, ..., end`
(`end - start + 1` entries, increasing by one); for `start > end` nothing is
transmitted: a build without `ASSERT_ON` returns `DFU_HOST_ERR_EINVAL` in an
unchanged state, a build with `ASSERT_ON` does not return. -/
theorem C20_write_protect_area (start end_ : Nat) (s : Sys)
    (h : start ≤ end_) (he : end_ ≤ 255) (hc : end_ - start + 1 ≤ 255) :
    dfu_host_write_protect_area start end_ s
      = dfu_host_write_protect_sectors (List.range' start (end_ - start + 1))
          (end_ - start + 1) s
    ∧ (List.range' start (end_ - start + 1)).length = end_ - start + 1
    ∧ (∀ i, i < end_ - start + 1 → (List.range' start (end_ - start + 1)).getD i 0 = start + i)
    ∧ (∀ (a b : Nat) (u : Sys), b < a →
        (u.assert_on = false → dfu_host_write_protect_area a b u = some (DFU_HOST_ERR_EINVAL, u))
        ∧ (u.assert_on = true → dfu_host_write_protect_area a b u = none)) := by
  refine ⟨?_, List.length_range' _ _ _, ?_, ?_⟩
  · have hn : ¬ ¬ start ≤ end_ := not_not.mpr h
    have hm : (end_ - start + 1) % 256 = end_ - start + 1 := Nat.mod_eq_of_lt (by omega)
    simp only [dfu_host_write_protect_area, if_neg hn, hm]
    rw [area_sectors_eq start _ (by omega)]
  · intro i hi
    rw [List.getD_eq_getElem _ _ (by simpa using hi), List.getElem_range']
    simp
  · intro a b u hab
    have hn : ¬ a ≤ b := not_le.mpr hab
    constructor <;> intro ha <;> simp [dfu_host_write_protect_area, hn, ha]

theorem C20_write_protect_area_witness :
    ((3 : Nat) ≤ 5 ∧ (5 : Nat) ≤ 255 ∧ 5 - 3 + 1 ≤ 255)
    ∧ dfu_host_write_protect_area 3 5 sys_ack
        = dfu_host_write_protect_sectors [3, 4, 5] 3 sys_ack
    ∧ (dfu_host_write_protect_area 3 5 sys_ack).map (fun p => (p.1, tx_frames p.2.trace))
        = some (0, [[0x63, 0x9C], [0x02, 0x03, 0x04, 0x05, 0x00]])
    ∧ dfu_host_write_protect_area 5 3 sys_ack = some (DFU_HOST_ERR_EINVAL, sys_ack) := by
  have h := C20_write_protect_area 3 5 sys_ack (by decide) (by decide) (by decide)
  exact ⟨⟨by decide, by decide, by decide⟩, h.1, by decide,
    (h.2.2.2 5 3 sys_ack (by decide)).1 rfl⟩

/-! ## C21, C22: Write-Protect(sectors) and Erase-All -/

set_option maxRecDepth 1000000 in
/-- C21 (counterexample): in a debug build (`ASSERT_ON`) the call with `count = 0`
does not return `DFU_HOST_ERR_EINVAL`, it does not return at all.  And for 257
sectors the first byte of the payload frame is `(257 - 1) mod 256 = 0`, not
`count - 1`: the frame of 259 bytes announces a single sector. -/
theorem C21_write_protect_sectors_zero_and_large_count :
    (dfu_host_write_protect_sectors [] 0 sys_debug).isNone = true
    ∧ (dfu_host_write_protect_sectors [] 0 sys_debug).map Prod.fst
        ≠ some DFU_HOST_ERR_EINVAL
    ∧ (dfu_host_write_protect_sectors (List.replicate 257 0x01) 257 sys_ack).map
        (fun p => (p.1, ((tx_frames p.2.trace).getD 1 []).length,
          ((tx_frames p.2.trace).getD 1 []).head?))
      = some (0, 259, some 0) := by
  decide

/-- C21 (amended): for every sector list of `1 ≤ count ≤ 256` entries, after the
command `[0x63, 0x9C]` is acknowledged `dfu_host_write_protect_sectors` returns
and has transmitted, right after the command frame, the `(count+2)`-byte frame
`[count-1, sector_ids[0..count), XOR-8 of (count-1 followed by the sector ids)]`
and nothing else; for `count = 0` nothing is transmitted: a build without
`ASSERT_ON` returns `DFU_HOST_ERR_EINVAL` in an unchanged state, a build with
`ASSERT_ON` does not return. -/
theorem C21_write_protect_sectors (sectors : List Nat) (count : Nat) (s : Sys)
    (h1 : 1 ≤ count) (h2 : count ≤ 256) (hd : sectors.length = count)
    (hb : ∀ b ∈ sectors, b < 256)
    (htx : s.tx_status s.n_tx = HalStatus.HAL_OK)
    (hrx : s.rx_line s.n_rx = ⟨false, [0x79]⟩) :
    (∃ rc t, dfu_host_write_protect_sectors sectors count s = some (rc, t)
      ∧ tx_frames t.trace
          = tx_frames s.trace ++ [[0x63, 0x9C],
              (count - 1) :: sectors ++ [calc_xor8 ((count - 1) :: sectors) (count + 1)]]
      ∧ ((count - 1) :: sectors ++ [calc_xor8 ((count - 1) :: sectors) (count + 1)]).length
          = count + 2)
    ∧ (∀ (d : List Nat) (u : Sys),
        (u.assert_on = false →
          dfu_host_write_protect_sectors d 0 u = some (DFU_HOST_ERR_EINVAL, u))
        ∧ (u.assert_on = true → dfu_host_write_protect_sectors d 0 u = none)) := by
  refine ⟨?_, ?_⟩
  · have hc0 : count ≠ 0 := by omega
    obtain ⟨s1, e1, f1, -⟩ := send_command_ack DFU_HOST_CMD_ID_WRITE_PROTECT s (by decide)
      htx hrx
    obtain ⟨buf, eb, tb⟩ := fill_payload_ok (count + 2) sectors count h1 h2 (le_refl _)
      (le_of_eq hd.symm) hb
    obtain ⟨rc2, s2, e2, f2⟩ := send_data_tx_frames buf (count + 2)
      CONFIG_DFU_HOST_RECEIVE_TIMEOUT_MS s1 (by omega) (by decide)
    have ht : List.take count sectors = sectors := List.take_of_length_le (le_of_eq hd)
    refine ⟨rc2, s2, ?_, ?_, by simp [hd]⟩
    · simp only [dfu_host_write_protect_sectors, if_neg hc0, e1, lt_irrefl, if_false, eb, e2]
    · rw [f2, f1, tb, ht]
      simp [DFU_HOST_CMD_ID_WRITE_PROTECT]
  · intro d u
    constructor <;> intro ha <;> simp [dfu_host_write_protect_sectors, ha]

theorem C21_write_protect_sectors_witness :
    (∃ rc t, dfu_host_write_protect_sectors [0x02, 0x05] 2 sys_ack = some (rc, t)
      ∧ tx_frames t.trace = [[0x63, 0x9C], [0x01, 0x02, 0x05, 0x06]])
    ∧ dfu_host_write_protect_sectors [] 0 sys_ack = some (DFU_HOST_ERR_EINVAL, sys_ack) := by
  have h := C21_write_protect_sectors [0x02, 0x05] 2 sys_ack (by decide) (by decide) rfl
    (by decide) rfl rfl
  obtain ⟨rc, t, e, f, -⟩ := h.1
  exact ⟨⟨rc, t, e, by rw [f]; decide⟩, (h.2 [] sys_ack).1 rfl⟩

/-- C22: after the command frame `[0x44, 0xBB]` is acknowledged,
`dfu_host_erase_all` is `send_data` of the three bytes `[0xFF, 0xFF, 0x00]`
(`0x00` being `calc_xor8` of `0xFF, 0xFF`): it returns, has transmitted exactly
this frame after the command frame, and its result is that of the frame's
acknowledgment; when the frame is transmitted and answered by one byte `r`,
the result is 0 for `ACK`, `DFU_HOST_ERR_NACK` for `NACK` and
`DFU_HOST_ERR_WRONG_ANS` otherwise. -/
theorem C22_erase_all (s : Sys)
    (htx : s.tx_status s.n_tx = HalStatus.HAL_OK)
    (hrx : s.rx_line s.n_rx = ⟨false, [0x79]⟩) :
    calc_xor8 [0xFF, 0xFF] 2 = 0x00
    ∧ (∃ s1, send_command DFU_HOST_CMD_ID_WRITE_EXT_ERASE CONFIG_DFU_HOST_RECEIVE_TIMEOUT_MS s
          = some (0, s1)
        ∧ tx_frames s1.trace = tx_frames s.trace ++ [[0x44, 0xBB]]
        ∧ dfu_host_erase_all s
            = send_data [0xFF, 0xFF, 0x00] 3 CONFIG_DFU_HOST_RECEIVE_TIMEOUT_MS s1)
    ∧ (∃ rc t, dfu_host_erase_all s = some (rc, t)
        ∧ tx_frames t.trace = tx_frames s.trace ++ [[0x44, 0xBB], [0xFF, 0xFF, 0x00]])
    ∧ (∀ r, r < 256 → s.tx_status (s.n_tx + 1) = HalStatus.HAL_OK →
        s.rx_line (s.n_rx + 1) = ⟨false, [r]⟩ →
        (dfu_host_erase_all s).map Prod.fst
          = some (if r = 0x79 then DFU_HOST_ERR_NONE
                  else if r = 0x1F then DFU_HOST_ERR_NACK
                  else DFU_HOST_ERR_WRONG_ANS)) := by
  obtain ⟨s1, e1, f1, n1, r1, x1, l1, -⟩ :=
    send_command_ack DFU_HOST_CMD_ID_WRITE_EXT_ERASE s (by decide) htx hrx
  have hbuf : (([0, 0, 0].set 0 0xFF).set 1 0xFF).set 2
      (calc_xor8 (([0, 0, 0].set 0 0xFF).set 1 0xFF) 2) = [0xFF, 0xFF, 0x00] := by decide
  have he : dfu_host_erase_all s
      = send_data [0xFF, 0xFF, 0x00] 3 CONFIG_DFU_HOST_RECEIVE_TIMEOUT_MS s1 := by
    simp only [dfu_host_erase_all, e1, lt_irrefl, if_false, hbuf]
  refine ⟨by decide, ⟨s1, e1, f1, he⟩, ?_, ?_⟩
  · obtain ⟨rc2, s2, e2, f2⟩ := send_data_tx_frames [0xFF, 0xFF, 0x00] 3
      CONFIG_DFU_HOST_RECEIVE_TIMEOUT_MS s1 (by decide) (by decide)
    refine ⟨rc2, s2, he.trans e2, ?_⟩
    rw [f2, f1]
    simp [DFU_HOST_CMD_ID_WRITE_EXT_ERASE]
  · intro r hr htx1 hrx1
    rw [he, send_data_ok_tx _ 3 _ s1 (by decide) (by decide) (by rw [x1, n1]; exact htx1) r hr
      (by rw [l1, r1]; exact hrx1)]
    simp [DFU_HOST_ERR_NONE, DFU_HOST_ERR_NACK, DFU_HOST_ERR_WRONG_ANS]

theorem C22_erase_all_witness :
    (sys_ack.tx_status sys_ack.n_tx = HalStatus.HAL_OK
      ∧ sys_ack.rx_line sys_ack.n_rx = ⟨false, [0x79]⟩)
    ∧ (∃ rc t, dfu_host_erase_all sys_ack = some (rc, t)
        ∧ tx_frames t.trace = [[0x44, 0xBB], [0xFF, 0xFF, 0x00]])
    ∧ (dfu_host_erase_all sys_ack).map Prod.fst = some 0 := by
  have h := C22_erase_all sys_ack rfl rfl
  refine ⟨⟨rfl, rfl⟩, h.2.2.1, ?_⟩
  exact h.2.2.2 0x79 (by decide) rfl rfl

/-! ## The receive buffer invariant -/

theorem start_rcv_next_byte_snd (s : Sys) :
    (start_rcv_next_byte s).2
      = if s.rcv_count = 256 then s else (HAL_UART_Receive_IT s.rcv_count s).2 := by
  simp only [start_rcv_next_byte, CONFIG_DFU_HOST_RX_BUFFER_SIZE]
  split_ifs <;> rfl

theorem rcv_inv_start_rcv_next_byte (s : Sys) (h : rcv_inv s) :
    rcv_inv (start_rcv_next_byte s).2
    ∧ (start_rcv_next_byte s).2.rcv_buffer = s.rcv_buffer
    ∧ (start_rcv_next_byte s).2.rcv_count = s.rcv_count := by
  obtain ⟨h1, h2, h3⟩ := h
  rw [start_rcv_next_byte_snd]
  split_ifs with hfull
  · exact ⟨⟨h1, h2, h3⟩, rfl, rfl⟩
  · have hlt : s.rcv_count < 256 := by omega
    refine ⟨⟨h1, ?_, ?_⟩, rfl, rfl⟩
    · intro idx hidx
      simp only [HAL_UART_Receive_IT] at hidx
      split_ifs at hidx with hst
      · simp only [Option.some.injEq] at hidx
        exact ⟨hidx.symm, by omega⟩
      · exact h2 idx hidx
    · intro idx hidx
      simp only [HAL_UART_Receive_IT, List.mem_append, List.mem_singleton,
        Call.receive_it.injEq] at hidx
      rcases hidx with hm | hm
      · exact h3 idx hm
      · omega

theorem rcv_inv_of_fields (s t : Sys) (h : rcv_inv s) (h1 : t.rcv_count = s.rcv_count)
    (h2 : t.armed = s.armed ∨ t.armed = none) (h3 : t.trace = s.trace) : rcv_inv t := by
  obtain ⟨a, b, c⟩ := h
  refine ⟨by rw [h1]; exact a, ?_, by rw [h3]; exact c⟩
  intro idx hidx
  rcases h2 with h2 | h2
  · rw [h2] at hidx
    rw [h1]
    exact b idx hidx
  · rw [h2] at hidx
    cases hidx

/-- The callback, run when the receive armed at `rcv_buffer[rcv_count]` has
completed: the invariant is kept and the callback stores nothing. -/
theorem rcv_inv_rcv_complete_cb (s : Sys) (h : rcv_inv s) (hlt : s.rcv_count < 256)
    (harm : s.armed = none) :
    rcv_inv (rcv_complete_cb s) ∧ (rcv_complete_cb s).rcv_buffer = s.rcv_buffer := by
  simp only [rcv_complete_cb]
  split_ifs with hn ha hneg
  · exact ⟨rcv_inv_of_fields s _ h rfl (Or.inl rfl) rfl, rfl⟩
  · exact ⟨rcv_inv_of_fields s _ h rfl (Or.inl rfl) rfl, rfl⟩
  · have hs : rcv_inv { s with rcv_count := s.rcv_count + 1 } :=
      ⟨(by show s.rcv_count + 1 ≤ 256; omega),
       (fun idx hidx => by
         have hidx' : s.armed = some idx := hidx
         rw [harm] at hidx'
         cases hidx'), h.2.2⟩
    obtain ⟨hi, hb, -⟩ := rcv_inv_start_rcv_next_byte _ hs
    exact ⟨rcv_inv_of_fields _ _ hi rfl (Or.inl rfl) rfl, hb⟩
  · have hs : rcv_inv { s with rcv_count := s.rcv_count + 1 } :=
      ⟨(by show s.rcv_count + 1 ≤ 256; omega),
       (fun idx hidx => by
         have hidx' : s.armed = some idx := hidx
         rw [harm] at hidx'
         cases hidx'), h.2.2⟩
    obtain ⟨hi, hb, -⟩ := rcv_inv_start_rcv_next_byte _ hs
    exact ⟨hi, hb⟩

/-- One event of the busy-wait keeps the invariant and leaves everything
outside the 256 bytes of `rcv_buffer` alone. -/
theorem rcv_inv_on_event (e : Ev) (s : Sys) (h : rcv_inv s) :
    rcv_inv (on_event e s)
    ∧ ∀ i, 256 ≤ i → (on_event e s).rcv_buffer i = s.rcv_buffer i := by
  cases e with
  | elapse ms => exact ⟨rcv_inv_of_fields s _ h rfl (Or.inl rfl) rfl, fun _ _ => rfl⟩
  | rx b =>
    cases harm : s.armed with
    | none =>
      have e : on_event (Ev.rx b) s = s := by simp [on_event, harm]
      rw [e]
      exact ⟨h, fun _ _ => rfl⟩
    | some idx =>
      obtain ⟨hidx, hlt⟩ := h.2.1 idx harm
      have e : on_event (Ev.rx b) s
          = if s.cb_registered = true
            then rcv_complete_cb { s with
              armed := none, rcv_buffer := Function.update s.rcv_buffer idx (b % 256) }
            else { s with
              armed := none, rcv_buffer := Function.update s.rcv_buffer idx (b % 256) } := by
        simp [on_event, harm]
      have hs1 : rcv_inv { s with
          armed := none, rcv_buffer := Function.update s.rcv_buffer idx (b % 256) } :=
        rcv_inv_of_fields s _ h rfl (Or.inr rfl) rfl
      have hout : ∀ i, 256 ≤ i → Function.update s.rcv_buffer idx (b % 256) i
          = s.rcv_buffer i := fun i hi => Function.update_noteq (by omega) _ _
      rw [e]
      split_ifs with hcb
      · obtain ⟨hi, hb⟩ := rcv_inv_rcv_complete_cb _ hs1 (by show s.rcv_count < 256; omega) rfl
        refine ⟨hi, fun i hi' => ?_⟩
        rw [hb]
        exact hout i hi'
      · exact ⟨hs1, hout⟩

theorem rcv_inv_abort (s : Sys) (h : rcv_inv s) : rcv_inv (HAL_UART_AbortReceive_IT s) := by
  refine ⟨h.1, ?_, ?_⟩
  · intro idx hidx
    cases hidx
  · intro idx hidx
    simp only [HAL_UART_AbortReceive_IT, List.mem_append, List.mem_singleton] at hidx
    rcases hidx with hm | hm
    · exact h.2.2 idx hm
    · cases hm

theorem rcv_inv_recv_wait (end_tp : Nat) :
    ∀ (evs : List Ev) (s : Sys) (b : Bool) (t : Sys), rcv_inv s →
      recv_wait end_tp evs s = some (b, t) →
      rcv_inv t ∧ (∀ i, 256 ≤ i → t.rcv_buffer i = s.rcv_buffer i)
        ∧ (b = false → t.armed = none)
        ∧ (b = true → t.rcv_cplt = true) := by
  have stop : ∀ (evs : List Ev) (s : Sys) (b : Bool) (t : Sys), rcv_inv s →
      (if s.rcv_cplt = true then some (true, { s with events := evs })
        else if HAL_GetTick s ≥ end_tp then
          some (false, HAL_UART_AbortReceive_IT { s with events := evs })
        else none) = some (b, t) →
      rcv_inv t ∧ (∀ i, 256 ≤ i → t.rcv_buffer i = s.rcv_buffer i)
        ∧ (b = false → t.armed = none)
        ∧ (b = true → t.rcv_cplt = true) := by
    intro evs s b t h hr
    split_ifs at hr with hc ht
    · simp only [Option.some.injEq, Prod.mk.injEq] at hr
      obtain ⟨hb, ht'⟩ := hr
      subst hb; subst ht'
      refine ⟨rcv_inv_of_fields s _ h rfl (Or.inl rfl) rfl, fun _ _ => rfl, ?_, fun _ => hc⟩
      intro hf
      cases hf
    · simp only [Option.some.injEq, Prod.mk.injEq] at hr
      obtain ⟨hb, ht'⟩ := hr
      subst hb; subst ht'
      refine ⟨rcv_inv_abort _ (rcv_inv_of_fields s _ h rfl (Or.inl rfl) rfl), fun _ _ => rfl,
        fun _ => rfl, ?_⟩
      intro hf
      cases hf
  intro evs
  induction evs with
  | nil =>
    intro s b t h hr
    exact stop [] s b t h (by simpa only [recv_wait] using hr)
  | cons e es ih =>
    intro s b t h hr
    by_cases hc : s.rcv_cplt = true
    · exact stop (e :: es) s b t h (by simpa only [recv_wait, hc, if_true] using hr)
    · by_cases ht : HAL_GetTick s ≥ end_tp
      · exact stop (e :: es) s b t h (by simpa only [recv_wait, hc, ht, if_true, if_false] using hr)
      · simp only [recv_wait, hc, ht, if_false] at hr
        obtain ⟨hi, ho⟩ := rcv_inv_on_event e s h
        obtain ⟨a1, a2, a3, a4⟩ := ih (on_event e s) b t hi hr
        exact ⟨a1, fun i hi' => (a2 i hi').trans (ho i hi'), a3, a4⟩

theorem start_rcv_next_byte_fst_neg (s : Sys) (h : (start_rcv_next_byte s).1 < 0) :
    (start_rcv_next_byte s).2.armed = s.armed := by
  simp only [start_rcv_next_byte, HAL_UART_Receive_IT] at h ⊢
  split_ifs at h ⊢ with h1 h2
  · rfl
  · exact absurd h (show ¬ DFU_HOST_ERR_NONE < 0 by decide)
  · rfl

theorem start_rcv_next_byte_cplt (s : Sys) :
    (start_rcv_next_byte s).2.rcv_cplt = s.rcv_cplt := by
  rw [start_rcv_next_byte_snd]
  split_ifs <;> rfl

/-- Once `rcv_cplt` is set no receive is pending: the flag is set by the
callback only, after the armed receive has completed and without a new one
having been armed. -/
theorem cplt_idle_on_event (e : Ev) (s : Sys) (h : s.rcv_cplt = true → s.armed = none) :
    (on_event e s).rcv_cplt = true → (on_event e s).armed = none := by
  cases e with
  | elapse ms => exact h
  | rx b =>
    cases harm : s.armed with
    | none =>
      have e : on_event (Ev.rx b) s = s := by simp [on_event, harm]
      rw [e]
      intro _
      exact harm
    | some idx =>
      have hc : s.rcv_cplt = false := by
        cases hcp : s.rcv_cplt with
        | false => rfl
        | true => rw [h hcp] at harm; cases harm
      have e : on_event (Ev.rx b) s
          = if s.cb_registered = true
            then rcv_complete_cb { s with
              armed := none, rcv_buffer := Function.update s.rcv_buffer idx (b % 256) }
            else { s with
              armed := none, rcv_buffer := Function.update s.rcv_buffer idx (b % 256) } := by
        simp [on_event, harm]
      rw [e]
      split_ifs with hcb
      · simp only [rcv_complete_cb]
        split_ifs with hn ha hneg
        · intro _; rfl
        · intro _; rfl
        · intro _
          exact start_rcv_next_byte_fst_neg _ hneg
        · intro hcp
          rw [start_rcv_next_byte_cplt] at hcp
          have hcp' : s.rcv_cplt = true := hcp
          rw [hc] at hcp'
          cases hcp'
      · intro _; rfl

theorem cplt_idle_recv_wait (end_tp : Nat) :
    ∀ (evs : List Ev) (s : Sys) (b : Bool) (t : Sys), (s.rcv_cplt = true → s.armed = none) →
      recv_wait end_tp evs s = some (b, t) → t.armed = none := by
  have stop : ∀ (evs : List Ev) (s : Sys) (b : Bool) (t : Sys),
      (s.rcv_cplt = true → s.armed = none) →
      (if s.rcv_cplt = true then some (true, { s with events := evs })
        else if HAL_GetTick s ≥ end_tp then
          some (false, HAL_UART_AbortReceive_IT { s with events := evs })
        else none) = some (b, t) → t.armed = none := by
    intro evs s b t h hr
    split_ifs at hr with hc ht
    · simp only [Option.some.injEq, Prod.mk.injEq] at hr
      rw [← hr.2]
      exact h hc
    · simp only [Option.some.injEq, Prod.mk.injEq] at hr
      rw [← hr.2]
      rfl
  intro evs
  induction evs with
  | nil =>
    intro s b t h hr
    exact stop [] s b t h (by simpa only [recv_wait] using hr)
  | cons e es ih =>
    intro s b t h hr
    by_cases hc : s.rcv_cplt = true
    · exact stop (e :: es) s b t h (by simpa only [recv_wait, hc, if_true] using hr)
    · by_cases ht : HAL_GetTick s ≥ end_tp
      · exact stop (e :: es) s b t h
          (by simpa only [recv_wait, hc, ht, if_true, if_false] using hr)
      · simp only [recv_wait, hc, ht, if_false] at hr
        exact ih (on_event e s) b t (cplt_idle_on_event e s h) hr

/-- A variable-length receive entered while no receive is pending keeps the
invariant, ends with no receive pending, stores nothing outside the 256
bytes of `rcv_buffer`, and starts by registering the callback and arming the
first receive at `rcv_buffer[0]`. -/
theorem rcv_inv_recv (timeout : Nat) (s : Sys) (rc : Int) (t : Sys)
    (h : rcv_inv s) (hidle : s.armed = none) (hr : recv timeout s = some (rc, t)) :
    rcv_inv t ∧ t.armed = none
      ∧ (∀ i, 256 ≤ i → t.rcv_buffer i = s.rcv_buffer i)
      ∧ ∃ rest, t.trace = s.trace ++ Call.register_cb :: Call.receive_it 0 :: rest := by
  have h2 : rcv_inv { HAL_UART_RegisterCallback s with rcv_count := 0, rcv_cplt := false } := by
    refine ⟨Nat.zero_le _, ?_, ?_⟩
    · intro idx hidx
      have hidx' : s.armed = some idx := hidx
      rw [hidle] at hidx'
      cases hidx'
    · intro idx hidx
      simp only [HAL_UART_RegisterCallback, List.mem_append, List.mem_singleton] at hidx
      rcases hidx with hm | hm
      · exact h.2.2 idx hm
      · cases hm
  obtain ⟨h3, hbuf, -⟩ := rcv_inv_start_rcv_next_byte _ h2
  have htr : (start_rcv_next_byte
      { HAL_UART_RegisterCallback s with rcv_count := 0, rcv_cplt := false }).2.trace
        = s.trace ++ [Call.register_cb, Call.receive_it 0] := by
    rw [start_rcv_next_byte_snd]
    simp [HAL_UART_Receive_IT, HAL_UART_RegisterCallback]
  simp only [recv] at hr
  split_ifs at hr with ha hneg
  · simp only [Option.some.injEq, Prod.mk.injEq] at hr
    rw [← hr.2]
    refine ⟨h3, ?_, fun i _ => by rw [hbuf]; rfl, [], by rw [htr]⟩
    rw [start_rcv_next_byte_fst_neg _ hneg]
    exact hidle
  · split at hr
    · cases hr
    · rename_i s3 hw
      simp only [Option.some.injEq, Prod.mk.injEq] at hr
      rw [← hr.2]
      obtain ⟨a1, a2, -, -⟩ := rcv_inv_recv_wait _ _ _ _ _ h3 hw
      obtain ⟨l, hl⟩ := (Frame_recv_wait _ _ _ _ _ hw).trace
      refine ⟨a1, cplt_idle_recv_wait _ _ _ _ _ ?_ hw, fun i hi => ?_, l, ?_⟩
      · intro hcp
        rw [start_rcv_next_byte_cplt] at hcp
        cases hcp
      · rw [a2 i hi, hbuf]
        rfl
      · rw [hl, htr]
        simp
    · rename_i s3 hw
      obtain ⟨a1, a2, -, -⟩ := rcv_inv_recv_wait _ _ _ _ _ h3 hw
      obtain ⟨l, hl⟩ := (Frame_recv_wait _ _ _ _ _ hw).trace
      have hidle3 : s3.armed = none := cplt_idle_recv_wait _ _ _ _ _ (by
        intro hcp
        rw [start_rcv_next_byte_cplt] at hcp
        cases hcp) hw
      have hb3 : ∀ i, 256 ≤ i → s3.rcv_buffer i = s.rcv_buffer i := fun i hi => by
        rw [a2 i hi, hbuf]
        rfl
      have ht3 : ∃ rest, s3.trace = s.trace ++ Call.register_cb :: Call.receive_it 0 :: rest :=
        ⟨l, by rw [hl, htr]; simp⟩
      split_ifs at hr <;>
        (simp only [Option.some.injEq, Prod.mk.injEq] at hr; rw [← hr.2];
         exact ⟨a1, hidle3, hb3, ht3⟩)

/-! ## C23: overflow of the receive buffer -/

/-- A data byte arrives while the receive armed at the last element,
`rcv_buffer[255]`, is pending: it is stored, the count reaches 256, no further
receive is armed and the reception ends with `DFU_HOST_ERR_OVERFLOW`. -/
theorem on_event_rx_last (b : Nat) (u : Sys)
    (harmed : u.armed = some u.rcv_count) (hcb : u.cb_registered = true)
    (hb : b < 256) (hack : b ≠ 0x79) (hnack : b ≠ 0x1F) (hfull : u.rcv_count + 1 = 256) :
    on_event (Ev.rx b) u =
      { u with armed := none,
               rcv_buffer := Function.update u.rcv_buffer u.rcv_count b,
               rcv_count := u.rcv_count + 1,
               rcv_err := DFU_HOST_ERR_OVERFLOW,
               rcv_cplt := true } := by
  have hb' : b % 256 = b := Nat.mod_eq_of_lt hb
  simp [on_event, harmed, hcb, rcv_complete_cb, hb', DFU_HOST_RESP_ACK, DFU_HOST_RESP_NACK,
    hack, hnack, start_rcv_next_byte, CONFIG_DFU_HOST_RX_BUFFER_SIZE, hfull,
    DFU_HOST_ERR_OVERFLOW]

/-- The wait loop while bytes that are neither `ACK` nor `NACK` arrive before
the deadline and fill the buffer up to its last element. -/
theorem recv_wait_overflow (end_tp : Nat) (rest : List Ev) :
    ∀ (data : List Nat) (u : Sys),
      u.rcv_cplt = false → u.armed = some u.rcv_count → u.cb_registered = true →
      HAL_GetTick u < end_tp → u.rcv_count + data.length = 256 → u.rcv_count < 256 →
      (∀ b ∈ data, b < 256 ∧ b ≠ 0x79 ∧ b ≠ 0x1F) →
      (∀ i, i + 1 < data.length → u.it_status (u.n_it + i) = HalStatus.HAL_OK) →
      ∃ t, recv_wait end_tp (data.map Ev.rx ++ rest) u = some (true, t)
        ∧ t.rcv_count = 256
        ∧ t.rcv_err = DFU_HOST_ERR_OVERFLOW
        ∧ t.events = rest
        ∧ (∀ i, i < u.rcv_count → t.rcv_buffer i = u.rcv_buffer i)
        ∧ (∀ i, i < data.length → t.rcv_buffer (u.rcv_count + i) = data.getD i 0) := by
  intro data
  induction data with
  | nil =>
    intro u _ _ _ _ hlen hlt _ _
    simp only [List.length_nil, Nat.add_zero] at hlen
    omega
  | cons b bs ih =>
    intro u hc ha hcb ht hlen hlt hbytes hit
    obtain ⟨hb, hback, hbnack⟩ := hbytes b (List.mem_cons_self b bs)
    simp only [List.length_cons] at hlen hit
    simp only [List.map_cons, List.cons_append]
    rw [recv_wait_pending end_tp _ _ u hc ht]
    by_cases hfull : u.rcv_count + 1 = 256
    · have hbs : bs = [] := List.length_eq_zero.mp (by omega)
      subst hbs
      rw [on_event_rx_last b u ha hcb hb hback hbnack hfull, recv_wait_complete _ _ _ rfl]
      refine ⟨_, rfl, hfull, rfl, rfl, ?_, ?_⟩
      · intro i hi
        exact Function.update_noteq (Nat.ne_of_lt hi) _ _
      · intro i hi
        have hi0 : i = 0 := by simpa using hi
        subst hi0
        simp
    · rw [on_event_rx_data b u ha hcb hb hback hbnack hfull (hit 0 (by omega))]
      obtain ⟨t, hrun, hcount, herr, hev, hold, hnew⟩ := ih
        { u with armed := some (u.rcv_count + 1),
                 rcv_buffer := Function.update u.rcv_buffer u.rcv_count b,
                 rcv_count := u.rcv_count + 1,
                 n_it := u.n_it + 1,
                 trace := u.trace ++ [Call.receive_it (u.rcv_count + 1)] }
        hc rfl hcb ht (by show u.rcv_count + 1 + bs.length = 256; omega)
        (by show u.rcv_count + 1 < 256; omega)
        (fun c hc' => hbytes c (List.mem_cons_of_mem b hc'))
        (fun i hi => by
          have := hit (i + 1) (by omega)
          show u.it_status (u.n_it + 1 + i) = HalStatus.HAL_OK
          rw [Nat.add_assoc, Nat.add_comm 1 i]
          exact this)
      refine ⟨t, hrun, hcount, herr, hev, ?_, ?_⟩
      · intro i hi
        rw [hold i (Nat.lt_succ_of_lt hi)]
        exact Function.update_noteq (Nat.ne_of_lt hi) _ _
      · intro i hi
        cases i with
        | zero =>
          rw [Nat.add_zero, hold u.rcv_count (Nat.lt_succ_self _)]
          simp
        | succ j =>
          have := hnew j (Nat.lt_of_succ_lt_succ (by simpa using hi))
          have e : u.rcv_count + (j + 1) = u.rcv_count + 1 + j := by omega
          rw [e]
          simpa using this

/-- The wait loop while the events `pre` happen, any interleaving of time
passing and of bytes arriving that are neither `ACK` nor `NACK` and fill the
buffer up to its last element, the time that passes in `pre` ending before the
deadline. -/
theorem recv_wait_timed_overflow (end_tp : Nat) (rest : List Ev) :
    ∀ (pre : List Ev) (u : Sys),
      u.rcv_cplt = false → u.armed = some u.rcv_count → u.cb_registered = true →
      HAL_GetTick u + ev_time pre < end_tp →
      u.rcv_count + (ev_bytes pre).length = 256 → u.rcv_count < 256 →
      (∀ b ∈ ev_bytes pre, b < 256 ∧ b ≠ 0x79 ∧ b ≠ 0x1F) →
      (∀ i, i + 1 < (ev_bytes pre).length → u.it_status (u.n_it + i) = HalStatus.HAL_OK) →
      ∃ t, recv_wait end_tp (pre ++ rest) u = some (true, t)
        ∧ t.rcv_count = 256
        ∧ t.rcv_err = DFU_HOST_ERR_OVERFLOW
        ∧ (∃ k, t.events = (pre ++ rest).drop k)
        ∧ (∀ i, i < u.rcv_count → t.rcv_buffer i = u.rcv_buffer i)
        ∧ (∀ i, i < (ev_bytes pre).length →
            t.rcv_buffer (u.rcv_count + i) = (ev_bytes pre).getD i 0) := by
  intro pre
  induction pre with
  | nil =>
    intro u _ _ _ _ hlen hlt _ _
    simp only [ev_bytes, List.length_nil, Nat.add_zero] at hlen
    omega
  | cons e es ih =>
    intro u hc ha hcb ht hlen hlt hbytes hit
    cases e with
    | rx b =>
      simp only [ev_bytes, ev_time, List.length_cons] at ht hlen hbytes hit ⊢
      obtain ⟨hb, hback, hbnack⟩ := hbytes b (List.mem_cons_self b _)
      simp only [List.cons_append]
      rw [recv_wait_pending end_tp _ _ u hc (by omega)]
      by_cases hfull : u.rcv_count + 1 = 256
      · have hbs : ev_bytes es = [] := List.length_eq_zero.mp (by omega)
        rw [on_event_rx_last b u ha hcb hb hback hbnack hfull, recv_wait_complete _ _ _ rfl]
        refine ⟨_, rfl, hfull, rfl, ⟨1, rfl⟩, ?_, ?_⟩
        · intro i hi
          exact Function.update_noteq (Nat.ne_of_lt hi) _ _
        · intro i hi
          rw [hbs] at hi ⊢
          have hi0 : i = 0 := by simpa using hi
          subst hi0
          simp
      · rw [on_event_rx_data b u ha hcb hb hback hbnack hfull (hit 0 (by omega))]
        obtain ⟨t, hrun, hcount, herr, ⟨k, hev⟩, hold, hnew⟩ := ih
          { u with armed := some (u.rcv_count + 1),
                   rcv_buffer := Function.update u.rcv_buffer u.rcv_count b,
                   rcv_count := u.rcv_count + 1,
                   n_it := u.n_it + 1,
                   trace := u.trace ++ [Call.receive_it (u.rcv_count + 1)] }
          hc rfl hcb ht (by show u.rcv_count + 1 + (ev_bytes es).length = 256; omega)
          (by show u.rcv_count + 1 < 256; omega)
          (fun c hc' => hbytes c (List.mem_cons_of_mem b hc'))
          (fun i hi => by
            have := hit (i + 1) (by omega)
            show u.it_status (u.n_it + 1 + i) = HalStatus.HAL_OK
            rw [Nat.add_assoc, Nat.add_comm 1 i]
            exact this)
        refine ⟨t, hrun, hcount, herr, ⟨k + 1, hev⟩, ?_, ?_⟩
        · intro i hi
          rw [hold i (Nat.lt_succ_of_lt hi)]
          exact Function.update_noteq (Nat.ne_of_lt hi) _ _
        · intro i hi
          cases i with
          | zero =>
            rw [Nat.add_zero, hold u.rcv_count (Nat.lt_succ_self _)]
            simp
          | succ j =>
            have := hnew j (Nat.lt_of_succ_lt_succ hi)
            have e : u.rcv_count + (j + 1) = u.rcv_count + 1 + j := by omega
            rw [e]
            simpa using this
    | elapse ms =>
      simp only [ev_bytes, ev_time] at ht hlen hbytes hit ⊢
      simp only [List.cons_append]
      rw [recv_wait_pending end_tp _ _ u hc (by omega), on_event_elapse]
      have htick := tick_after_elapse ms u
      obtain ⟨t, hrun, hcount, herr, ⟨k, hev⟩, hold, hnew⟩ := ih
        { u with now := u.now + ms } hc ha hcb (by omega) hlen hlt hbytes hit
      exact ⟨t, hrun, hcount, herr, ⟨k + 1, hev⟩, hold, hnew⟩

/-- A state in which nothing has been received and no call has been made yet
satisfies the receive buffer invariant. -/
theorem rcv_inv_of_idle (s : Sys) (h1 : s.rcv_count ≤ 256) (h2 : s.armed = none)
    (h3 : s.trace = []) : rcv_inv s := by
  refine ⟨h1, ?_, ?_⟩
  · intro idx hidx
    rw [h2] at hidx
    cases hidx
  · intro idx hidx
    rw [h3] at hidx
    cases hidx

/-- C23: a variable-length receive, entered in a state that satisfies the
receive buffer invariant with no receive pending, during which the device
delivers 256 bytes that are neither `ACK` (0x79) nor `NACK` (0x1F), returns
`DFU_HOST_ERR_OVERFLOW`.  Here `pre` is the delivery, any interleaving of the 256
bytes arriving and of time passing in which less than `timeout` milliseconds
pass (every `HAL_UART_Receive_IT` call succeeding).  The 256 bytes fill
`rcv_buffer`, nothing is stored at an index of 256 or more, every
`HAL_UART_Receive_IT` call was given an address inside the buffer, and afterwards
no receive is pending, so that later bytes are dropped. -/
theorem C23_recv_overflow (timeout : Nat) (s : Sys) (pre rest : List Ev)
    (hk : (ev_bytes pre).length = 256)
    (hbytes : ∀ b ∈ ev_bytes pre, b < 256 ∧ b ≠ 0x79 ∧ b ≠ 0x1F)
    (hev : s.events = pre ++ rest)
    (htime : ev_time pre < timeout)
    (hit : ∀ i, i < 256 → s.it_status (s.n_it + i) = HalStatus.HAL_OK)
    (hdl : HAL_GetTick s + timeout < 2 ^ 32)
    (hinv : rcv_inv s) (hidle : s.armed = none) :
    ∃ t, recv timeout s = some (DFU_HOST_ERR_OVERFLOW, t)
      ∧ DFU_HOST_ERR_OVERFLOW = -1005
      ∧ t.rcv_count = 256 ∧ rcv_bytes t 256 = ev_bytes pre
      ∧ (∀ i, 256 ≤ i → t.rcv_buffer i = s.rcv_buffer i)
      ∧ (∀ idx, Call.receive_it idx ∈ t.trace → idx < 256)
      ∧ t.armed = none ∧ (∀ b, on_event (Ev.rx b) t = t) := by
  have hit0 : s.it_status s.n_it = HalStatus.HAL_OK := hit 0 (by decide)
  obtain ⟨t, hrun, hcount, herr, -, -, hnew⟩ :=
    recv_wait_timed_overflow (HAL_GetTick s + timeout) rest pre
    { s with cb_registered := true, rcv_count := 0, rcv_cplt := false,
             n_it := s.n_it + 1, armed := some 0,
             trace := s.trace ++ [Call.register_cb] ++ [Call.receive_it 0] }
    rfl rfl rfl (show HAL_GetTick s + ev_time pre < HAL_GetTick s + timeout by omega)
    (by show 0 + (ev_bytes pre).length = 256; omega) (by show 0 < 256; decide) hbytes
    (fun i hi => by
      have := hit (i + 1) (by omega)
      show s.it_status (s.n_it + 1 + i) = HalStatus.HAL_OK
      rw [Nat.add_assoc, Nat.add_comm 1 i]
      exact this)
  have hto : 0 < timeout := by omega
  have hnot : ¬ (s.assert_on = true ∧ ¬ 0 < timeout) := fun h => h.2 hto
  have hstart : start_rcv_next_byte
      { HAL_UART_RegisterCallback s with rcv_count := 0, rcv_cplt := false }
      = (DFU_HOST_ERR_NONE,
        { s with cb_registered := true, rcv_count := 0, rcv_cplt := false,
                 n_it := s.n_it + 1, armed := some 0,
                 trace := s.trace ++ [Call.register_cb] ++ [Call.receive_it 0] }) := by
    simp [start_rcv_next_byte, HAL_UART_RegisterCallback, CONFIG_DFU_HOST_RX_BUFFER_SIZE,
      HAL_UART_Receive_IT, hit0]
  have hend : (HAL_GetTick s + timeout) % 2 ^ 32 = HAL_GetTick s + timeout :=
    Nat.mod_eq_of_lt hdl
  have htick : HAL_GetTick
      { s with cb_registered := true, rcv_count := 0, rcv_cplt := false,
               n_it := s.n_it + 1, armed := some 0,
               trace := s.trace ++ [Call.register_cb] ++ [Call.receive_it 0] }
      = HAL_GetTick s := rfl
  have hneg : ¬ DFU_HOST_ERR_NONE < 0 := by decide
  have hov : DFU_HOST_ERR_OVERFLOW ≠ 0 := by decide
  rw [← hev] at hrun
  have hrecv : recv timeout s = some (DFU_HOST_ERR_OVERFLOW, t) := by
    simp only [recv, if_neg hnot, hstart, if_neg hneg, htick, hend, hrun, herr, ne_eq, hov,
      not_false_eq_true, if_true]
  obtain ⟨a1, a2, a3, -⟩ := rcv_inv_recv timeout s _ t hinv hidle hrecv
  refine ⟨t, hrecv, rfl, hcount, ?_, a3, a1.2.2, a2, ?_⟩
  · rw [← hk]
    apply List.ext_getElem
    · simp [rcv_bytes]
    · intro i h1 h2
      have h' : t.rcv_buffer (0 + i) = (ev_bytes pre).getD i 0 := hnew i h2
      rw [Nat.zero_add] at h'
      simp only [rcv_bytes, List.getElem_map, List.getElem_range]
      rw [h']
      simp [List.getD_eq_getElem?_getD, List.getElem?_eq_getElem h2]
  · intro b
    simp [on_event, a2]

set_option maxRecDepth 1000000 in
theorem slow_flood_bytes :
    ev_bytes slow_flood = List.replicate 256 0x00 ∧ ev_time slow_flood = 768 := by
  decide

set_option maxRecDepth 1000000 in
theorem C23_recv_overflow_witness :
    ∃ t, recv 1000 (sys_timed (slow_flood ++ [Ev.rx 0x79]))
        = some (DFU_HOST_ERR_OVERFLOW, t)
      ∧ t.rcv_count = 256 ∧ t.armed = none
      ∧ (∀ idx, Call.receive_it idx ∈ t.trace → idx < 256) := by
  obtain ⟨t, h, -, hc, -, -, htr, ha, -⟩ := C23_recv_overflow 1000
    (sys_timed (slow_flood ++ [Ev.rx 0x79])) slow_flood [Ev.rx 0x79]
    (by rw [slow_flood_bytes.1]; exact List.length_replicate _ _)
    (fun b hb => by
      rw [slow_flood_bytes.1] at hb
      rw [List.eq_of_mem_replicate hb]
      decide)
    rfl (by rw [slow_flood_bytes.2]; decide)
    (fun _ _ => rfl) (by decide)
    (rcv_inv_of_idle _ (by decide) rfl rfl) rfl
  exact ⟨t, h, hc, ha, htr⟩

/-! ## C24: the receive buffer invariant -/

theorem rcv_inv_recv_fixed (len timeout : Nat) (s : Sys) (rc : Int) (t : Sys)
    (h : rcv_inv s) (hr : recv_fixed len timeout s = some (rc, t)) :
    rcv_inv t ∧ t.armed = s.armed := by
  have key : rcv_inv (HAL_UART_Receive len timeout s).2
      ∧ (HAL_UART_Receive len timeout s).2.armed = s.armed := by
    refine ⟨⟨h.1, h.2.1, ?_⟩, rfl⟩
    intro idx hidx
    simp only [HAL_UART_Receive, List.mem_append, List.mem_singleton] at hidx
    rcases hidx with hm | hm
    · exact h.2.2 idx hm
    · cases hm
  simp only [recv_fixed] at hr
  split_ifs at hr <;>
    (simp only [Option.some.injEq, Prod.mk.injEq] at hr; rw [← hr.2]; exact key)

theorem rcv_inv_send_data (buffer : List Nat) (size timeout : Nat) (s : Sys) (rc : Int)
    (t : Sys) (h : rcv_inv s) (hr : send_data buffer size timeout s = some (rc, t)) :
    rcv_inv t ∧ t.armed = s.armed := by
  have key : rcv_inv (HAL_UART_Transmit (buffer.take size) s).2
      ∧ (HAL_UART_Transmit (buffer.take size) s).2.armed = s.armed := by
    refine ⟨⟨h.1, h.2.1, ?_⟩, rfl⟩
    intro idx hidx
    simp only [HAL_UART_Transmit, List.mem_append, List.mem_singleton] at hidx
    rcases hidx with hm | hm
    · exact h.2.2 idx hm
    · cases hm
  simp only [send_data] at hr
  split_ifs at hr with h1 h2 h3
  · simp only [Option.some.injEq, Prod.mk.injEq] at hr
    rw [← hr.2]
    exact ⟨h, rfl⟩
  · cases hf : recv_fixed 1 timeout (HAL_UART_Transmit (List.take size buffer) s).2 with
    | none => rw [hf] at hr; cases hr
    | some p =>
      obtain ⟨rc1, s1⟩ := p
      obtain ⟨k1, k2⟩ := rcv_inv_recv_fixed _ _ _ _ _ key.1 hf
      have e : t = s1 := by
        rw [hf] at hr
        simp only [] at hr
        split_ifs at hr <;>
          (simp only [Option.some.injEq, Prod.mk.injEq] at hr; exact hr.2.symm)
      rw [e]
      exact ⟨k1, k2.trans key.2⟩
  · simp only [Option.some.injEq, Prod.mk.injEq] at hr
    rw [← hr.2]
    exact key

/-- C24: the receive buffer invariant `rcv_inv` (the count of received bytes is
at most 256, a pending interrupt-driven receive stores at `rcv_buffer[rcv_count]`
with `rcv_count < 256`, and every `HAL_UART_Receive_IT` call so far was given an
index below 256) holds at start-up and is kept by `start_rcv_next_byte`, by
`rcv_complete_cb` when it runs for the completed receive, by every event and
hence every sequence of events of the busy-wait, by `recv` entered with no
receive pending (which then ends with none pending), and by the blocking
exchanges `send_data` and `recv_fixed`; and every `recv` starts by arming the
receive at index 0, that is with the count reset to 0. -/
theorem C24_receive_buffer_invariant :
    (∀ s : Sys, rcv_inv s →
      s.rcv_count ≤ 256 ∧ (∀ idx, s.armed = some idx → idx < 256)
        ∧ ∀ idx, Call.receive_it idx ∈ s.trace → idx < 256)
    ∧ (∀ s : Sys, s.rcv_count = 0 → s.armed = none → s.trace = [] → rcv_inv s)
    ∧ (∀ s : Sys, rcv_inv s → rcv_inv (start_rcv_next_byte s).2)
    ∧ (∀ s : Sys, rcv_inv s → s.rcv_count < 256 → s.armed = none →
        rcv_inv (rcv_complete_cb s))
    ∧ (∀ (evs : List Ev) (s : Sys), rcv_inv s →
        rcv_inv (evs.foldl (fun u e => on_event e u) s))
    ∧ (∀ (timeout : Nat) (s : Sys) (rc : Int) (t : Sys), rcv_inv s → s.armed = none →
        recv timeout s = some (rc, t) →
        rcv_inv t ∧ t.armed = none
          ∧ ∃ rest, t.trace = s.trace ++ Call.register_cb :: Call.receive_it 0 :: rest)
    ∧ (∀ (buffer : List Nat) (size timeout : Nat) (s : Sys) (rc : Int) (t : Sys),
        rcv_inv s → send_data buffer size timeout s = some (rc, t) →
        rcv_inv t ∧ t.armed = s.armed)
    ∧ (∀ (len timeout : Nat) (s : Sys) (rc : Int) (t : Sys),
        rcv_inv s → recv_fixed len timeout s = some (rc, t) →
        rcv_inv t ∧ t.armed = s.armed) := by
  refine ⟨?_, ?_, ?_, ?_, ?_, ?_, ?_, ?_⟩
  · intro s h
    exact ⟨h.1, fun idx hidx => (h.2.1 idx hidx).2, h.2.2⟩
  · intro s h1 h2 h3
    exact rcv_inv_of_idle s (by omega) h2 h3
  · intro s h
    exact (rcv_inv_start_rcv_next_byte s h).1
  · intro s h hlt harm
    exact (rcv_inv_rcv_complete_cb s h hlt harm).1
  · intro evs
    induction evs with
    | nil => intro s h; exact h
    | cons e es ih =>
      intro s h
      exact ih (on_event e s) (rcv_inv_on_event e s h).1
  · intro timeout s rc t h hidle hr
    obtain ⟨a1, a2, -, a4⟩ := rcv_inv_recv timeout s rc t h hidle hr
    exact ⟨a1, a2, a4⟩
  · intro buffer size timeout s rc t h hr
    exact rcv_inv_send_data buffer size timeout s rc t h hr
  · intro len timeout s rc t h hr
    exact rcv_inv_recv_fixed len timeout s rc t h hr

theorem recv_one_byte_example :
    (recv 1000 (sys_reply [0x41, 0x79])).isSome = true := by decide

theorem C24_receive_buffer_invariant_witness :
    rcv_inv (sys_reply [0x41, 0x79])
    ∧ rcv_inv ((recv 1000 (sys_reply [0x41, 0x79])).get recv_one_byte_example).2
    ∧ ((recv 1000 (sys_reply [0x41, 0x79])).get recv_one_byte_example).2.armed = none := by
  have h0 : rcv_inv (sys_reply [0x41, 0x79]) :=
    C24_receive_buffer_invariant.2.1 (sys_reply [0x41, 0x79]) rfl rfl rfl
  have h := C24_receive_buffer_invariant.2.2.2.2.2.1 1000 (sys_reply [0x41, 0x79])
    ((recv 1000 (sys_reply [0x41, 0x79])).get recv_one_byte_example).1
    ((recv 1000 (sys_reply [0x41, 0x79])).get recv_one_byte_example).2 h0 rfl (by simp)
  exact ⟨h0, h.1, h.2.1⟩

/-! ## C25, C26: timeouts -/

/-- C25 (evaluation at the failing input): `recv(1000)` is entered at the tick
`0xFFFFFFFF` and no byte arrives.  The deadline `end_tp = HAL_GetTick() + timeout`
wraps to 999, the first poll finds `HAL_GetTick() >= end_tp`, and the call
aborts the receive and returns `DFU_HOST_ERR_TIMEOUT` at once: the tick still
reads `0xFFFFFFFF` and the 1000 ms that were about to pass have not passed.
Entered at tick 0 the same call returns `DFU_HOST_ERR_TIMEOUT` at tick 1000. -/
theorem C25_recv_deadline_wraps :
    (0xFFFFFFFF + 1000) % 2 ^ 32 = 999
    ∧ (recv 1000 (sys_waiting 0xFFFFFFFF 1000)).map
        (fun p => (p.1, HAL_GetTick p.2, p.2.events, p.2.trace))
      = some (DFU_HOST_ERR_TIMEOUT, 0xFFFFFFFF, [Ev.elapse 1000],
          [Call.register_cb, Call.receive_it 0, Call.abort_receive])
    ∧ (recv 1000 (sys_waiting 0 1000)).map
        (fun p => (p.1, HAL_GetTick p.2, p.2.events, p.2.trace))
      = some (DFU_HOST_ERR_TIMEOUT, 1000, [],
          [Call.register_cb, Call.receive_it 0, Call.abort_receive]) := by
  decide

/-- C26 (evaluation at the failing input): the device stays silent, so the
blocking receive of the acknowledgment byte ends with `HAL_TIMEOUT`; `send_data`,
`dfu_host_ping` and `dfu_host_get_version` return `DFU_HOST_ERR_EIO` (-1000), not
`DFU_HOST_ERR_TIMEOUT` (-1003).  Likewise `dfu_host_read_memory` returns
`DFU_HOST_ERR_EIO` when the three frames are acknowledged and the data phase
times out. -/
theorem C26_fixed_receive_timeout_is_eio :
    (HAL_UART_Receive 1 1000 (HAL_UART_Transmit [0x7F] sys_silent).2).1 = HalStatus.HAL_TIMEOUT
    ∧ (send_data [0x7F] 1 1000 sys_silent).map Prod.fst = some (-1000)
    ∧ (dfu_host_ping 1000 sys_silent).map Prod.fst = some (-1000)
    ∧ (dfu_host_get_version sys_silent).map Prod.fst = some (-1000)
    ∧ (dfu_host_read_memory 0x08000000 4 sys_data_silent).map
        (fun p => (p.1, p.2.n_rx)) = some (-1000, 4)
    ∧ DFU_HOST_ERR_EIO = -1000 ∧ DFU_HOST_ERR_TIMEOUT = -1003 := by
  decide

/-! ## C27, C28: argument checks of `send_data` and `dfu_host_init` -/

/-- C27 (counterexample): in a debug build (`ASSERT_ON`) `send_data` with
`size = 0`, and likewise with a timeout of 0, does not return
`DFU_HOST_ERR_EINVAL`: it does not return at all. -/
theorem C27_send_data_debug_build_hangs :
    (send_data [0x7F] 0 1000 sys_debug).isNone = true
    ∧ (send_data [0x7F] 1 0 sys_debug).isNone = true
    ∧ (send_data [0x7F] 0 1000 sys_debug).map Prod.fst ≠ some DFU_HOST_ERR_EINVAL := by
  decide

/-- C27 (amended): for `size = 0` or a timeout of 0 `send_data` makes no
transport call; a build without `ASSERT_ON` returns `DFU_HOST_ERR_EINVAL` in an
unchanged state and a build with `ASSERT_ON` does not return.  For valid
arguments, if `HAL_UART_Transmit` fails, `send_data` returns `DFU_HOST_ERR_EIO`
having made that one transmit call and no receive call. -/
theorem C27_send_data_checks (buffer : List Nat) (size timeout : Nat) (s : Sys) :
    (size = 0 ∨ timeout = 0 →
      (s.assert_on = false → send_data buffer size timeout s = some (DFU_HOST_ERR_EINVAL, s))
      ∧ (s.assert_on = true → send_data buffer size timeout s = none))
    ∧ (size ≠ 0 → timeout ≠ 0 → s.tx_status s.n_tx ≠ HalStatus.HAL_OK →
        ∃ t, send_data buffer size timeout s = some ( DFU_HOST_ERR_EIO, t)
          ∧ t.trace = s.trace ++ [Call.transmit (buffer.take size)]
          ∧ t.n_tx = s.n_tx + 1 ∧ t.n_rx = s.n_rx ∧ t.n_it = s.n_it
          ∧ t.rcv_buffer = s.rcv_buffer) := by
  refine ⟨?_, ?_⟩
  · intro h
    constructor <;> intro ha <;> simp [send_data, h, ha]
  · intro h1 h2 h3
    refine ⟨(HAL_UART_Transmit (buffer.take size) s).2, ?_, rfl, rfl, rfl, rfl, rfl⟩
    have h3' : ¬ (HAL_UART_Transmit (List.take size buffer) s).1 = HalStatus.HAL_OK := h3
    simp only [send_data, h1, h2, or_self, if_false, if_neg h3']

theorem C27_send_data_checks_witness :
    send_data [0x7F] 0 1000 sys_ack = some (DFU_HOST_ERR_EINVAL, sys_ack)
    ∧ (∃ t, send_data [0x7F] 1 1000 sys_read_fails = some ( DFU_HOST_ERR_EIO, t)
        ∧ t.trace = [Call.transmit [0x7F]] ∧ t.n_rx = 0) := by
  have h := C27_send_data_checks [0x7F] 0 1000 sys_ack
  have h' := C27_send_data_checks [0x7F] 1 1000 sys_read_fails
  obtain ⟨t, e, tr, -, nr, -⟩ := h'.2 (by decide) (by decide) (by decide)
  exact ⟨(h.1 (Or.inl rfl)).1 rfl, t, e, tr, nr⟩

/-- C28 (counterexample): `dfu_host_init(NULL)` never returns
`DFU_HOST_ERR_EINVAL`.  In a debug build (`ASSERT_ON`) the assertion fails and the
call does not return; in a release build the assertion is compiled out, the
`NULL` handle is bound and the call returns 0. -/
theorem C28_init_null_handle :
    (dfu_host_init none sys_debug).isNone = true
    ∧ (dfu_host_init none sys_ack).map (fun p => (p.1, p.2.huart)) = some (0, none)
    ∧ (dfu_host_init none sys_ack).map Prod.fst ≠ some DFU_HOST_ERR_EINVAL := by
  decide

/-- C28 (amended): `dfu_host_init` called with a present handle binds the handle
(`huart = handle`, nothing else changes) and returns 0, in both builds; called
with a `NULL` handle in a build with `ASSERT_ON` it does not return. -/
theorem C28_init (handle : Option Nat) (s : Sys) :
    (∀ hd, handle = some hd →
      dfu_host_init handle s = some (0, { s with huart := some hd }))
    ∧ (handle = none → s.assert_on = true → dfu_host_init handle s = none) := by
  refine ⟨?_, ?_⟩
  · intro hd hh
    subst hh
    simp [dfu_host_init]
  · intro hh ha
    simp [dfu_host_init, hh, ha]

theorem C28_init_witness :
    (dfu_host_init (some 1) sys_ack).map (fun p => (p.1, p.2.huart)) = some (0, some 1)
    ∧ dfu_host_init none sys_debug = none := by
  have h := C28_init (some 1) sys_ack
  have h' := C28_init none sys_debug
  refine ⟨?_, h'.2 rfl rfl⟩
  rw [h.1 1 rfl]
  rfl

/-! ## C29: no retry, fail-fast -/

theorem tx_frames_start_rcv_next_byte (s : Sys) :
    tx_frames (start_rcv_next_byte s).2.trace = tx_frames s.trace := by
  rw [start_rcv_next_byte_snd]
  split_ifs
  · rfl
  · simp [HAL_UART_Receive_IT, tx_frames_append, tx_frames]

theorem tx_frames_rcv_complete_cb (s : Sys) :
    tx_frames (rcv_complete_cb s).trace = tx_frames s.trace := by
  simp only [rcv_complete_cb]
  split_ifs
  · rfl
  · rfl
  · exact tx_frames_start_rcv_next_byte _
  · exact tx_frames_start_rcv_next_byte _

theorem tx_frames_on_event (e : Ev) (s : Sys) :
    tx_frames (on_event e s).trace = tx_frames s.trace := by
  cases e with
  | elapse ms => rfl
  | rx b =>
    cases harm : s.armed with
    | none =>
      have e : on_event (Ev.rx b) s = s := by simp [on_event, harm]
      rw [e]
    | some idx =>
      have e : on_event (Ev.rx b) s
          = if s.cb_registered = true
            then rcv_complete_cb { s with
              armed := none, rcv_buffer := Function.update s.rcv_buffer idx (b % 256) }
            else { s with
              armed := none, rcv_buffer := Function.update s.rcv_buffer idx (b % 256) } := by
        simp [on_event, harm]
      rw [e]
      split_ifs
      · exact tx_frames_rcv_complete_cb _
      · rfl

theorem tx_frames_recv_wait (end_tp : Nat) :
    ∀ (evs : List Ev) (s : Sys) (b : Bool) (t : Sys),
      recv_wait end_tp evs s = some (b, t) → tx_frames t.trace = tx_frames s.trace := by
  have stop : ∀ (evs : List Ev) (s : Sys) (b : Bool) (t : Sys),
      (if s.rcv_cplt = true then some (true, { s with events := evs })
        else if HAL_GetTick s ≥ end_tp then
          some (false, HAL_UART_AbortReceive_IT { s with events := evs })
        else none) = some (b, t) → tx_frames t.trace = tx_frames s.trace := by
    intro evs s b t hr
    split_ifs at hr with hc ht
    · simp only [Option.some.injEq, Prod.mk.injEq] at hr
      rw [← hr.2]
    · simp only [Option.some.injEq, Prod.mk.injEq] at hr
      rw [← hr.2]
      simp [HAL_UART_AbortReceive_IT, tx_frames_append, tx_frames]
  intro evs
  induction evs with
  | nil =>
    intro s b t hr
    exact stop [] s b t (by simpa only [recv_wait] using hr)
  | cons e es ih =>
    intro s b t hr
    by_cases hc : s.rcv_cplt = true
    · exact stop (e :: es) s b t (by simpa only [recv_wait, hc, if_true] using hr)
    · by_cases ht : HAL_GetTick s ≥ end_tp
      · exact stop (e :: es) s b t
          (by simpa only [recv_wait, hc, ht, if_true, if_false] using hr)
      · simp only [recv_wait, hc, ht, if_false] at hr
        exact (ih (on_event e s) b t hr).trans (tx_frames_on_event e s)

/-- A variable-length receive transmits nothing. -/
theorem recv_tx_frames (timeout : Nat) (s : Sys) (rc : Int) (t : Sys)
    (hr : recv timeout s = some (rc, t)) : tx_frames t.trace = tx_frames s.trace := by
  have h0 : tx_frames (start_rcv_next_byte
      { HAL_UART_RegisterCallback s with rcv_count := 0, rcv_cplt := false }).2.trace
        = tx_frames s.trace := by
    rw [tx_frames_start_rcv_next_byte]
    simp [HAL_UART_RegisterCallback, tx_frames_append, tx_frames]
  simp only [recv] at hr
  split_ifs at hr with ha hneg
  · simp only [Option.some.injEq, Prod.mk.injEq] at hr
    rw [← hr.2]
    exact h0
  · split at hr
    · cases hr
    · rename_i s3 hw
      simp only [Option.some.injEq, Prod.mk.injEq] at hr
      rw [← hr.2]
      exact (tx_frames_recv_wait _ _ _ _ _ hw).trans h0
    · rename_i s3 hw
      have h3 := (tx_frames_recv_wait _ _ _ _ _ hw).trans h0
      split_ifs at hr <;>
        (simp only [Option.some.injEq, Prod.mk.injEq] at hr; rw [← hr.2]; exact h3)

/-- A blocking exchange hands its frame to the transport exactly once. -/
theorem send_data_tx_once (buffer : List Nat) (size timeout : Nat) (s : Sys) (rc : Int)
    (t : Sys) (hsize : size ≠ 0) (hto : timeout ≠ 0)
    (hr : send_data buffer size timeout s = some (rc, t)) :
    tx_frames t.trace = tx_frames s.trace ++ [buffer.take size] := by
  obtain ⟨rc', t', e, f⟩ := send_data_tx_frames buffer size timeout s hsize
    (Nat.pos_of_ne_zero hto)
  rw [e] at hr
  simp only [Option.some.injEq, Prod.mk.injEq] at hr
  rw [← hr.2]
  exact f

theorem send_data_take (buffer : List Nat) (size timeout : Nat) (s : Sys) :
    send_data (buffer.take size) size timeout s = send_data buffer size timeout s := by
  simp only [send_data, List.take_take, Nat.min_self]

/-- Fail-fast sequencing on the wire: when the `i`-th step adds the frames
`frs[i]` to those transmitted, a run adds the frames of its first `k` steps, in
order and each once, and it stops before the last step only with an error. -/
theorem fail_fast_frames (steps : List (Sys → Option (Int × Sys)))
    (frs : List (List (List Nat)))
    (h : List.Forall₂ (fun f fr => ∀ (s : Sys) (rc : Int) (t : Sys), f s = some (rc, t) →
      tx_frames t.trace = tx_frames s.trace ++ fr) steps frs) :
    ∀ (s : Sys) (rc : Int) (t : Sys), fail_fast steps s = some (rc, t) →
      ∃ k, k ≤ steps.length
        ∧ tx_frames t.trace = tx_frames s.trace ++ (frs.take k).flatten
        ∧ (k < steps.length → rc < 0) := by
  induction h with
  | nil =>
    intro s rc t hr
    simp only [fail_fast, Option.some.injEq, Prod.mk.injEq] at hr
    refine ⟨0, le_refl _, ?_, fun hk => absurd hk (Nat.lt_irrefl _)⟩
    rw [← hr.2]
    simp
  | @cons f fr fs frs' hf hrest ih =>
    intro s rc t hr
    cases fs with
    | nil =>
      cases hrest
      simp only [fail_fast] at hr
      refine ⟨1, le_refl _, ?_, fun hk => absurd hk (Nat.lt_irrefl _)⟩
      rw [hf s rc t hr]
      simp
    | cons g gs =>
      simp only [fail_fast] at hr
      cases hfs : f s with
      | none => rw [hfs] at hr; cases hr
      | some p =>
        obtain ⟨rc1, s1⟩ := p
        rw [hfs] at hr
        simp only [] at hr
        have hf1 := hf s rc1 s1 hfs
        split_ifs at hr with hneg
        · simp only [Option.some.injEq, Prod.mk.injEq] at hr
          refine ⟨1, by simp, ?_, fun _ => by rw [← hr.1]; exact hneg⟩
          rw [← hr.2, hf1]
          simp
        · obtain ⟨k, hk, hfr, hlt⟩ := ih s1 rc t hr
          refine ⟨k + 1, by simpa using hk, ?_, fun hk' => hlt (by simpa using hk')⟩
          rw [hfr, hf1]
          simp

/-- The error that a fail-fast run returns is the error that one of its
steps returned, together with the state that step left. -/
theorem fail_fast_error (steps : List (Sys → Option (Int × Sys))) :
    ∀ (s : Sys) (rc : Int) (t : Sys), fail_fast steps s = some (rc, t) → rc < 0 →
      ∃ f u, f ∈ steps ∧ f u = some (rc, t) := by
  induction steps with
  | nil =>
    intro s rc t hr hneg
    simp only [fail_fast, Option.some.injEq, Prod.mk.injEq] at hr
    rw [← hr.1] at hneg
    exact absurd hneg (by decide)
  | cons f fs ih =>
    intro s rc t hr hneg
    cases fs with
    | nil =>
      simp only [fail_fast] at hr
      exact ⟨f, s, List.mem_cons_self _ _, hr⟩
    | cons g gs =>
      simp only [fail_fast] at hr
      cases hfs : f s with
      | none => rw [hfs] at hr; cases hr
      | some p =>
        obtain ⟨rc1, s1⟩ := p
        rw [hfs] at hr
        simp only [] at hr
        split_ifs at hr with h1
        · simp only [Option.some.injEq, Prod.mk.injEq] at hr
          exact ⟨f, s, List.mem_cons_self _ _, by rw [hfs, hr.1, hr.2]⟩
        · obtain ⟨f', u, hm, hu⟩ := ih s1 rc t hr hneg
          exact ⟨f', u, List.mem_cons_of_mem _ hm, hu⟩

theorem fail_fast_two (f g : Sys → Option (Int × Sys)) (s : Sys) :
    fail_fast [f, g] s
      = match f s with
        | none => none
        | some (rc, t) => if rc < 0 then some (rc, t) else g t := by
  simp only [fail_fast]

theorem dfu_host_go_fail_fast (a : Nat) (s : Sys) :
    dfu_host_go a s
      = fail_fast [send_command DFU_HOST_CMD_ID_GO CONFIG_DFU_HOST_RECEIVE_TIMEOUT_MS,
          send_data (address_frame a) 5 CONFIG_DFU_HOST_RECEIVE_TIMEOUT_MS] s := by
  rw [fail_fast_two]
  rfl

theorem dfu_host_erase_all_fail_fast (s : Sys) :
    dfu_host_erase_all s
      = fail_fast [send_command DFU_HOST_CMD_ID_WRITE_EXT_ERASE
            CONFIG_DFU_HOST_RECEIVE_TIMEOUT_MS,
          send_data [0xFF, 0xFF, 0x00] 3 CONFIG_DFU_HOST_RECEIVE_TIMEOUT_MS] s := by
  rw [fail_fast_two]
  rfl

theorem dfu_host_write_unprotect_fail_fast (s : Sys) :
    dfu_host_write_unprotect s
      = fail_fast [send_command DFU_HOST_CMD_ID_WRITE_UNPROTECT
            CONFIG_DFU_HOST_RECEIVE_TIMEOUT_MS,
          recv CONFIG_DFU_HOST_RECEIVE_TIMEOUT_MS] s := by
  rw [fail_fast_two]
  rfl

theorem dfu_host_readout_protect_fail_fast (s : Sys) :
    dfu_host_readout_protect s
      = fail_fast [send_command DFU_HOST_CMD_ID_READOUT_PROTECT
            CONFIG_DFU_HOST_RECEIVE_TIMEOUT_MS,
          recv CONFIG_DFU_HOST_RECEIVE_TIMEOUT_MS] s := by
  rw [fail_fast_two]
  rfl

theorem dfu_host_readout_unprotect_fail_fast (s : Sys) :
    dfu_host_readout_unprotect s
      = fail_fast [send_command DFU_HOST_CMD_ID_READOUT_UNPROTECT
            CONFIG_DFU_HOST_RECEIVE_TIMEOUT_MS,
          recv CONFIG_DFU_HOST_RECEIVE_TIMEOUT_MS] s := by
  rw [fail_fast_two]
  rfl

theorem payload_frame_length (n : Nat) (src : List Nat) (hd : src.length = n) :
    ((n - 1) :: src ++ [calc_xor8 ((n - 1) :: src) (n + 1)]).length = n + 2 := by
  simp [hd]

theorem send_data_payload (size : Nat) (src : List Nat) (n : Nat) (s : Sys)
    (h1 : 1 ≤ n) (h2 : n ≤ 256) (hsize : n + 2 ≤ size) (hd : src.length = n)
    (hb : ∀ b ∈ src, b < 256) :
    ∃ buf, fill_payload size src n = some buf
      ∧ send_data buf (n + 2) CONFIG_DFU_HOST_RECEIVE_TIMEOUT_MS s
          = send_data ((n - 1) :: src ++ [calc_xor8 ((n - 1) :: src) (n + 1)]) (n + 2)
              CONFIG_DFU_HOST_RECEIVE_TIMEOUT_MS s := by
  obtain ⟨buf, eb, tb⟩ := fill_payload_ok size src n h1 h2 hsize (le_of_eq hd.symm) hb
  have ht : List.take n src = src := List.take_of_length_le (le_of_eq hd)
  rw [ht] at tb
  refine ⟨buf, eb, ?_⟩
  rw [← send_data_take buf, tb]

theorem dfu_host_write_protect_sectors_fail_fast (sectors : List Nat) (count : Nat) (s : Sys)
    (h1 : 1 ≤ count) (h2 : count ≤ 256) (hd : sectors.length = count)
    (hb : ∀ b ∈ sectors, b < 256) :
    dfu_host_write_protect_sectors sectors count s
      = fail_fast [send_command DFU_HOST_CMD_ID_WRITE_PROTECT
            CONFIG_DFU_HOST_RECEIVE_TIMEOUT_MS,
          send_data ((count - 1) :: sectors
              ++ [calc_xor8 ((count - 1) :: sectors) (count + 1)]) (count + 2)
            CONFIG_DFU_HOST_RECEIVE_TIMEOUT_MS] s := by
  have hc0 : count ≠ 0 := by omega
  rw [fail_fast_two]
  simp only [dfu_host_write_protect_sectors, if_neg hc0]
  cases hcmd : send_command DFU_HOST_CMD_ID_WRITE_PROTECT CONFIG_DFU_HOST_RECEIVE_TIMEOUT_MS s with
  | none => rfl
  | some p =>
    obtain ⟨rc, s1⟩ := p
    obtain ⟨buf, eb, es⟩ := send_data_payload (count + 2) sectors count s1 h1 h2 (le_refl _) hd hb
    simp only [eb, es]

theorem dfu_host_read_memory_fail_fast (a len : Nat) (s : Sys) (h1 : 1 ≤ len)
    (h2 : len ≤ 256) :
    dfu_host_read_memory a len s
      = fail_fast [send_command DFU_HOST_CMD_ID_READ_MEM CONFIG_DFU_HOST_RECEIVE_TIMEOUT_MS,
          send_data (address_frame a) 5 CONFIG_DFU_HOST_RECEIVE_TIMEOUT_MS,
          send_data [len - 1, 0xFF ^^^ (len - 1)] 2 CONFIG_DFU_HOST_RECEIVE_TIMEOUT_MS,
          recv_fixed len CONFIG_DFU_HOST_RECEIVE_TIMEOUT_MS] s := by
  have hl0 : len ≠ 0 := by omega
  have hlf : ∀ u : Sys, send_data (((address_frame a).set 0 ((len - 1) % 256)).set 1
        ((0xFF ^^^ (((address_frame a).set 0 ((len - 1) % 256)).getD 0 0)) % 256))
      2 CONFIG_DFU_HOST_RECEIVE_TIMEOUT_MS u
      = send_data [len - 1, 0xFF ^^^ (len - 1)] 2 CONFIG_DFU_HOST_RECEIVE_TIMEOUT_MS u := by
    intro u
    rw [← send_data_take, length_frame_bytes a len h1 h2]
  simp only [dfu_host_read_memory, hl0, CONFIG_DFU_HOST_RX_BUFFER_SIZE, h2, not_true, or_self,
    if_false, fail_fast, hlf]
  cases send_command DFU_HOST_CMD_ID_READ_MEM CONFIG_DFU_HOST_RECEIVE_TIMEOUT_MS s with
  | none => rfl
  | some p =>
    obtain ⟨rc, s1⟩ := p
    simp only []
    split_ifs
    · rfl
    · cases send_data (address_frame a) 5 CONFIG_DFU_HOST_RECEIVE_TIMEOUT_MS s1 with
      | none => rfl
      | some p2 =>
        obtain ⟨rc2, s2⟩ := p2
        simp only []
        split_ifs
        · rfl
        · cases send_data [len - 1, 0xFF ^^^ (len - 1)] 2
            CONFIG_DFU_HOST_RECEIVE_TIMEOUT_MS s2 with
          | none => rfl
          | some p3 =>
            obtain ⟨rc3, s3⟩ := p3
            simp only []
            split_ifs
            · rfl
            · cases recv_fixed len CONFIG_DFU_HOST_RECEIVE_TIMEOUT_MS s3 <;> rfl

theorem dfu_host_write_memory_fail_fast (a : Nat) (data : List Nat) (len : Nat) (s : Sys)
    (h1 : 1 ≤ len) (h2 : len ≤ 255) (hd : data.length = len) (hb : ∀ b ∈ data, b < 256) :
    dfu_host_write_memory a data len s
      = (fail_fast [send_command DFU_HOST_CMD_ID_WRITE_MEM CONFIG_DFU_HOST_RECEIVE_TIMEOUT_MS,
          send_data (address_frame a) 5 CONFIG_DFU_HOST_RECEIVE_TIMEOUT_MS,
          send_data ((len - 1) :: data ++ [calc_xor8 ((len - 1) :: data) (len + 1)]) (len + 2)
            CONFIG_DFU_HOST_RECEIVE_TIMEOUT_MS] s).map
        (fun p => if p.1 < 0 then p else ((len : Int), p.2)) := by
  have hl0 : len ≠ 0 := by omega
  have h256 : len ≤ 256 := by omega
  simp only [dfu_host_write_memory, hl0, h256, not_true, or_self, if_false, fail_fast]
  cases send_command DFU_HOST_CMD_ID_WRITE_MEM CONFIG_DFU_HOST_RECEIVE_TIMEOUT_MS s with
  | none => rfl
  | some p =>
    obtain ⟨rc, s1⟩ := p
    simp only []
    split_ifs with hn
    · simp [hn]
    · cases send_data (address_frame a) 5 CONFIG_DFU_HOST_RECEIVE_TIMEOUT_MS s1 with
      | none => rfl
      | some p2 =>
        obtain ⟨rc2, s2⟩ := p2
        simp only []
        split_ifs with hn2
        · simp [hn2]
        · obtain ⟨buf, eb, es⟩ := send_data_payload (256 + 1) data len s2 h1 h256 (by omega) hd hb
          simp only [eb, es]
          cases send_data ((len - 1) :: data ++ [calc_xor8 ((len - 1) :: data) (len + 1)])
            (len + 2) CONFIG_DFU_HOST_RECEIVE_TIMEOUT_MS s2 with
          | none => rfl
          | some p3 =>
            obtain ⟨rc3, s3⟩ := p3
            simp only [Option.map_some']
            split_ifs <;> rfl

theorem flatten_take_singletons (tail : List (List (List Nat)))
    (htail : ∀ k, (tail.take k).flatten = []) :
    ∀ (F : List (List Nat)) (k : Nat),
      ((F.map (fun f => [f]) ++ tail).take k).flatten = F.take k := by
  intro F
  induction F with
  | nil =>
    intro k
    simpa using htail k
  | cons f fs ih =>
    intro k
    cases k with
    | zero => simp
    | succ j =>
      have := ih j
      simp only [List.map_cons, List.cons_append, List.take_succ_cons, List.flatten_cons,
        List.singleton_append]
      rw [this]
      rfl

/-- A fail-fast run of steps that transmit the frames of `F` one by one,
possibly followed by steps that transmit nothing, sends a prefix of `F`. -/
theorem sent_prefix_of_fail_fast (steps : List (Sys → Option (Int × Sys)))
    (F : List (List Nat)) (tail : List (List (List Nat)))
    (htail : ∀ k, (tail.take k).flatten = [])
    (h : List.Forall₂ (fun f fr => ∀ (s : Sys) (rc : Int) (t : Sys), f s = some (rc, t) →
      tx_frames t.trace = tx_frames s.trace ++ fr) steps (F.map (fun f => [f]) ++ tail))
    (s : Sys) (rc : Int) (t : Sys) (hr : fail_fast steps s = some (rc, t)) :
    sent_prefix F s rc t := by
  obtain ⟨k, hk, hfr, hlt⟩ := fail_fast_frames steps _ h s rc t hr
  have hlen : steps.length = F.length + tail.length := by
    rw [h.length_eq]
    simp
  rw [flatten_take_singletons tail htail F k] at hfr
  refine ⟨min k F.length, Nat.min_le_right _ _, ?_, ?_⟩
  · rw [hfr]
    congr 1
    rw [← List.take_take]
    simp
  · intro hmin
    exact hlt (by omega)

theorem send_command_tx_once (cmd : Nat) (hcmd : cmd ∈ cmd_id_t) (s : Sys) (rc : Int) (t : Sys)
    (hr : send_command cmd CONFIG_DFU_HOST_RECEIVE_TIMEOUT_MS s = some (rc, t)) :
    tx_frames t.trace = tx_frames s.trace ++ [[cmd, 0xFF ^^^ cmd]] := by
  have hb : List.take 2 [cmd % 256, (0xFF ^^^ cmd) % 256] = [cmd, 0xFF ^^^ cmd] := by
    simp only [cmd_id_t, List.mem_cons, List.mem_singleton, List.not_mem_nil, or_false] at hcmd
    rcases hcmd with h | h | h | h | h | h | h | h | h | h | h | h <;> subst h <;> decide
  have h := send_data_tx_once _ 2 _ s rc t (by decide) (by decide) hr
  rw [hb] at h
  exact h

theorem take_of_length_eq (l : List Nat) (n : Nat) (h : l.length = n) : l.take n = l :=
  List.take_of_length_le (le_of_eq h)

theorem dfu_host_go_sent (a : Nat) (s : Sys) (rc : Int) (t : Sys)
    (hr : dfu_host_go a s = some (rc, t)) :
    sent_prefix [[0x21, 0xDE], address_frame a] s rc t := by
  rw [dfu_host_go_fail_fast] at hr
  refine sent_prefix_of_fail_fast _ _ [] (fun k => by simp) ?_ s rc t hr
  refine List.Forall₂.cons ?_ (List.Forall₂.cons ?_ List.Forall₂.nil)
  · intro u rc' v hu
    exact send_command_tx_once DFU_HOST_CMD_ID_GO (by decide) u rc' v hu
  · intro u rc' v hu
    have h := send_data_tx_once _ 5 _ u rc' v (by decide) (by decide) hu
    rw [address_frame_take] at h
    exact h

theorem dfu_host_erase_all_sent (s : Sys) (rc : Int) (t : Sys)
    (hr : dfu_host_erase_all s = some (rc, t)) :
    sent_prefix [[0x44, 0xBB], [0xFF, 0xFF, 0x00]] s rc t := by
  rw [dfu_host_erase_all_fail_fast] at hr
  refine sent_prefix_of_fail_fast _ _ [] (fun k => by simp) ?_ s rc t hr
  refine List.Forall₂.cons ?_ (List.Forall₂.cons ?_ List.Forall₂.nil)
  · intro u rc' v hu
    exact send_command_tx_once DFU_HOST_CMD_ID_WRITE_EXT_ERASE (by decide) u rc' v hu
  · intro u rc' v hu
    exact send_data_tx_once _ 3 _ u rc' v (by decide) (by decide) hu

theorem command_recv_sent (cmd : Nat) (hcmd : cmd ∈ cmd_id_t) (s : Sys) (rc : Int) (t : Sys)
    (hr : fail_fast [send_command cmd CONFIG_DFU_HOST_RECEIVE_TIMEOUT_MS,
      recv CONFIG_DFU_HOST_RECEIVE_TIMEOUT_MS] s = some (rc, t)) :
    sent_prefix [[cmd, 0xFF ^^^ cmd]] s rc t := by
  refine sent_prefix_of_fail_fast _ _ [[]] (fun k => by cases k <;> simp) ?_ s rc t hr
  refine List.Forall₂.cons ?_ (List.Forall₂.cons ?_ List.Forall₂.nil)
  · intro u rc' v hu
    exact send_command_tx_once cmd hcmd u rc' v hu
  · intro u rc' v hu
    rw [recv_tx_frames _ u rc' v hu]
    simp

theorem dfu_host_read_memory_sent (a len : Nat) (s : Sys) (rc : Int) (t : Sys)
    (h1 : 1 ≤ len) (h2 : len ≤ 256) (hr : dfu_host_read_memory a len s = some (rc, t)) :
    sent_prefix [[0x11, 0xEE], address_frame a, [len - 1, 0xFF ^^^ (len - 1)]] s rc t := by
  rw [dfu_host_read_memory_fail_fast a len s h1 h2] at hr
  refine sent_prefix_of_fail_fast _ _ [[]] (fun k => by cases k <;> simp) ?_ s rc t hr
  refine List.Forall₂.cons ?_ (List.Forall₂.cons ?_ (List.Forall₂.cons ?_
    (List.Forall₂.cons ?_ List.Forall₂.nil)))
  · intro u rc' v hu
    exact send_command_tx_once DFU_HOST_CMD_ID_READ_MEM (by decide) u rc' v hu
  · intro u rc' v hu
    have h := send_data_tx_once _ 5 _ u rc' v (by decide) (by decide) hu
    rw [address_frame_take] at h
    exact h
  · intro u rc' v hu
    exact send_data_tx_once _ 2 _ u rc' v (by decide) (by decide) hu
  · intro u rc' v hu
    rw [recv_fixed_tx_frames _ _ u rc' v hu]
    simp

theorem dfu_host_write_protect_sectors_sent (sectors : List Nat) (count : Nat) (s : Sys)
    (rc : Int) (t : Sys) (h1 : 1 ≤ count) (h2 : count ≤ 256) (hd : sectors.length = count)
    (hb : ∀ b ∈ sectors, b < 256)
    (hr : dfu_host_write_protect_sectors sectors count s = some (rc, t)) :
    sent_prefix [[0x63, 0x9C],
      (count - 1) :: sectors ++ [calc_xor8 ((count - 1) :: sectors) (count + 1)]] s rc t := by
  rw [dfu_host_write_protect_sectors_fail_fast sectors count s h1 h2 hd hb] at hr
  refine sent_prefix_of_fail_fast _ _ [] (fun k => by simp) ?_ s rc t hr
  refine List.Forall₂.cons ?_ (List.Forall₂.cons ?_ List.Forall₂.nil)
  · intro u rc' v hu
    exact send_command_tx_once DFU_HOST_CMD_ID_WRITE_PROTECT (by decide) u rc' v hu
  · intro u rc' v hu
    have h := send_data_tx_once _ (count + 2) _ u rc' v (by omega) (by decide) hu
    rw [take_of_length_eq _ _ (payload_frame_length count sectors hd)] at h
    exact h

theorem dfu_host_write_memory_sent (a : Nat) (data : List Nat) (len : Nat) (s : Sys)
    (rc : Int) (t : Sys) (h1 : 1 ≤ len) (h2 : len ≤ 255) (hd : data.length = len)
    (hb : ∀ b ∈ data, b < 256) (hr : dfu_host_write_memory a data len s = some (rc, t)) :
    sent_prefix [[0x31, 0xCE], address_frame a,
      (len - 1) :: data ++ [calc_xor8 ((len - 1) :: data) (len + 1)]] s rc t := by
  rw [dfu_host_write_memory_fail_fast a data len s h1 h2 hd hb] at hr
  cases hff : fail_fast [send_command DFU_HOST_CMD_ID_WRITE_MEM
      CONFIG_DFU_HOST_RECEIVE_TIMEOUT_MS,
    send_data (address_frame a) 5 CONFIG_DFU_HOST_RECEIVE_TIMEOUT_MS,
    send_data ((len - 1) :: data ++ [calc_xor8 ((len - 1) :: data) (len + 1)]) (len + 2)
      CONFIG_DFU_HOST_RECEIVE_TIMEOUT_MS] s with
  | none => rw [hff] at hr; cases hr
  | some p =>
    obtain ⟨rc0, t0⟩ := p
    rw [hff] at hr
    have hsp : sent_prefix [[0x31, 0xCE], address_frame a,
        (len - 1) :: data ++ [calc_xor8 ((len - 1) :: data) (len + 1)]] s rc0 t0 := by
      refine sent_prefix_of_fail_fast _ _ [] (fun k => by simp) ?_ s rc0 t0 hff
      refine List.Forall₂.cons ?_ (List.Forall₂.cons ?_ (List.Forall₂.cons ?_
        List.Forall₂.nil))
      · intro u rc' v hu
        exact send_command_tx_once DFU_HOST_CMD_ID_WRITE_MEM (by decide) u rc' v hu
      · intro u rc' v hu
        have h := send_data_tx_once _ 5 _ u rc' v (by decide) (by decide) hu
        rw [address_frame_take] at h
        exact h
      · intro u rc' v hu
        have h := send_data_tx_once _ (len + 2) _ u rc' v (by omega) (by decide) hu
        rw [take_of_length_eq _ _ (payload_frame_length len data hd)] at h
        exact h
    simp only [Option.map_some'] at hr
    obtain ⟨k, hk, hfr, hlt⟩ := hsp
    split_ifs at hr with hneg
    · simp only [Option.some.injEq, Prod.mk.injEq] at hr
      rw [← hr.1, ← hr.2]
      exact ⟨k, hk, hfr, hlt⟩
    · simp only [Option.some.injEq, Prod.mk.injEq] at hr
      rw [← hr.2]
      exact ⟨k, hk, hfr, fun hk' => absurd (hlt hk') hneg⟩

/-- C29: every multi-frame operation is the fail-fast sequence of its steps:
Go and Erase-All (command, one frame), Read-Memory (command, address frame,
length frame, data receive), Write-Memory (command, address frame, payload
frame; for `1 ≤ len ≤ 255`), Write-Protect (command, payload frame; for
`1 ≤ count ≤ 256`) and the command + final-`ACK` operations Write-Unprotect,
Readout-Protect and Readout-Unprotect (command, variable-length receive).
Hence whenever such an operation returns, the frames it transmitted are a
prefix of its frames, each transmitted once and in order, and all of them
unless the result is an error; and an error returned by a fail-fast sequence
is the error returned by one of its steps, in the state that step left. -/
theorem C29_fail_fast :
    ((∀ (a : Nat) (s : Sys), dfu_host_go a s
        = fail_fast [send_command DFU_HOST_CMD_ID_GO CONFIG_DFU_HOST_RECEIVE_TIMEOUT_MS,
            send_data (address_frame a) 5 CONFIG_DFU_HOST_RECEIVE_TIMEOUT_MS] s)
      ∧ (∀ s : Sys, dfu_host_erase_all s
        = fail_fast [send_command DFU_HOST_CMD_ID_WRITE_EXT_ERASE
              CONFIG_DFU_HOST_RECEIVE_TIMEOUT_MS,
            send_data [0xFF, 0xFF, 0x00] 3 CONFIG_DFU_HOST_RECEIVE_TIMEOUT_MS] s)
      ∧ (∀ (a len : Nat) (s : Sys), 1 ≤ len → len ≤ 256 → dfu_host_read_memory a len s
        = fail_fast [send_command DFU_HOST_CMD_ID_READ_MEM CONFIG_DFU_HOST_RECEIVE_TIMEOUT_MS,
            send_data (address_frame a) 5 CONFIG_DFU_HOST_RECEIVE_TIMEOUT_MS,
            send_data [len - 1, 0xFF ^^^ (len - 1)] 2 CONFIG_DFU_HOST_RECEIVE_TIMEOUT_MS,
            recv_fixed len CONFIG_DFU_HOST_RECEIVE_TIMEOUT_MS] s)
      ∧ (∀ (a : Nat) (data : List Nat) (len : Nat) (s : Sys), 1 ≤ len → len ≤ 255 →
          data.length = len → (∀ b ∈ data, b < 256) → dfu_host_write_memory a data len s
        = (fail_fast [send_command DFU_HOST_CMD_ID_WRITE_MEM
              CONFIG_DFU_HOST_RECEIVE_TIMEOUT_MS,
            send_data (address_frame a) 5 CONFIG_DFU_HOST_RECEIVE_TIMEOUT_MS,
            send_data ((len - 1) :: data ++ [calc_xor8 ((len - 1) :: data) (len + 1)])
              (len + 2) CONFIG_DFU_HOST_RECEIVE_TIMEOUT_MS] s).map
          (fun p => if p.1 < 0 then p else ((len : Int), p.2)))
      ∧ (∀ (sectors : List Nat) (count : Nat) (s : Sys), 1 ≤ count → count ≤ 256 →
          sectors.length = count → (∀ b ∈ sectors, b < 256) →
          dfu_host_write_protect_sectors sectors count s
        = fail_fast [send_command DFU_HOST_CMD_ID_WRITE_PROTECT
              CONFIG_DFU_HOST_RECEIVE_TIMEOUT_MS,
            send_data ((count - 1) :: sectors
                ++ [calc_xor8 ((count - 1) :: sectors) (count + 1)]) (count + 2)
              CONFIG_DFU_HOST_RECEIVE_TIMEOUT_MS] s)
      ∧ (∀ s : Sys, dfu_host_write_unprotect s
        = fail_fast [send_command DFU_HOST_CMD_ID_WRITE_UNPROTECT
              CONFIG_DFU_HOST_RECEIVE_TIMEOUT_MS,
            recv CONFIG_DFU_HOST_RECEIVE_TIMEOUT_MS] s)
      ∧ (∀ s : Sys, dfu_host_readout_protect s
        = fail_fast [send_command DFU_HOST_CMD_ID_READOUT_PROTECT
              CONFIG_DFU_HOST_RECEIVE_TIMEOUT_MS,
            recv CONFIG_DFU_HOST_RECEIVE_TIMEOUT_MS] s)
      ∧ (∀ s : Sys, dfu_host_readout_unprotect s
        = fail_fast [send_command DFU_HOST_CMD_ID_READOUT_UNPROTECT
              CONFIG_DFU_HOST_RECEIVE_TIMEOUT_MS,
            recv CONFIG_DFU_HOST_RECEIVE_TIMEOUT_MS] s))
    ∧ ((∀ (a : Nat) (s : Sys) (rc : Int) (t : Sys), dfu_host_go a s = some (rc, t) →
          sent_prefix [[0x21, 0xDE], address_frame a] s rc t)
      ∧ (∀ (s : Sys) (rc : Int) (t : Sys), dfu_host_erase_all s = some (rc, t) →
          sent_prefix [[0x44, 0xBB], [0xFF, 0xFF, 0x00]] s rc t)
      ∧ (∀ (a len : Nat) (s : Sys) (rc : Int) (t : Sys), 1 ≤ len → len ≤ 256 →
          dfu_host_read_memory a len s = some (rc, t) →
          sent_prefix [[0x11, 0xEE], address_frame a, [len - 1, 0xFF ^^^ (len - 1)]] s rc t)
      ∧ (∀ (a : Nat) (data : List Nat) (len : Nat) (s : Sys) (rc : Int) (t : Sys),
          1 ≤ len → len ≤ 255 → data.length = len → (∀ b ∈ data, b < 256) →
          dfu_host_write_memory a data len s = some (rc, t) →
          sent_prefix [[0x31, 0xCE], address_frame a,
            (len - 1) :: data ++ [calc_xor8 ((len - 1) :: data) (len + 1)]] s rc t)
      ∧ (∀ (sectors : List Nat) (count : Nat) (s : Sys) (rc : Int) (t : Sys),
          1 ≤ count → count ≤ 256 → sectors.length = count → (∀ b ∈ sectors, b < 256) →
          dfu_host_write_protect_sectors sectors count s = some (rc, t) →
          sent_prefix [[0x63, 0x9C],
            (count - 1) :: sectors ++ [calc_xor8 ((count - 1) :: sectors) (count + 1)]]
            s rc t)
      ∧ (∀ (s : Sys) (rc : Int) (t : Sys), dfu_host_write_unprotect s = some (rc, t) →
          sent_prefix [[0x73, 0x8C]] s rc t)
      ∧ (∀ (s : Sys) (rc : Int) (t : Sys), dfu_host_readout_protect s = some (rc, t) →
          sent_prefix [[0x82, 0x7D]] s rc t)
      ∧ (∀ (s : Sys) (rc : Int) (t : Sys), dfu_host_readout_unprotect s = some (rc, t) →
          sent_prefix [[0x92, 0x6D]] s rc t))
    ∧ (∀ (steps : List (Sys → Option (Int × Sys))) (s : Sys) (rc : Int) (t : Sys),
        fail_fast steps s = some (rc, t) → rc < 0 →
        ∃ f u, f ∈ steps ∧ f u = some (rc, t)) := by
  refine ⟨⟨dfu_host_go_fail_fast, dfu_host_erase_all_fail_fast,
      dfu_host_read_memory_fail_fast, dfu_host_write_memory_fail_fast,
      dfu_host_write_protect_sectors_fail_fast, dfu_host_write_unprotect_fail_fast,
      dfu_host_readout_protect_fail_fast, dfu_host_readout_unprotect_fail_fast⟩,
    ⟨dfu_host_go_sent, dfu_host_erase_all_sent, ?_, ?_, ?_, ?_, ?_, ?_⟩, fail_fast_error⟩
  · intro a len s rc t h1 h2 hr
    exact dfu_host_read_memory_sent a len s rc t h1 h2 hr
  · intro a data len s rc t h1 h2 hd hb hr
    exact dfu_host_write_memory_sent a data len s rc t h1 h2 hd hb hr
  · intro sectors count s rc t h1 h2 hd hb hr
    exact dfu_host_write_protect_sectors_sent sectors count s rc t h1 h2 hd hb hr
  · intro s rc t hr
    rw [dfu_host_write_unprotect_fail_fast] at hr
    exact command_recv_sent DFU_HOST_CMD_ID_WRITE_UNPROTECT (by decide) s rc t hr
  · intro s rc t hr
    rw [dfu_host_readout_protect_fail_fast] at hr
    exact command_recv_sent DFU_HOST_CMD_ID_READOUT_PROTECT (by decide) s rc t hr
  · intro s rc t hr
    rw [dfu_host_readout_unprotect_fail_fast] at hr
    exact command_recv_sent DFU_HOST_CMD_ID_READOUT_UNPROTECT (by decide) s rc t hr

theorem read_memory_nack_example :
    (dfu_host_read_memory 0x08000000 256 sys_nack).isSome = true := by decide

theorem C29_fail_fast_witness :
    (dfu_host_read_memory 0x08000000 256 sys_nack).map
        (fun p => (p.1, tx_frames p.2.trace)) = some (DFU_HOST_ERR_NACK, [[0x11, 0xEE]])
    ∧ sent_prefix [[0x11, 0xEE], address_frame 0x08000000, [256 - 1, 0xFF ^^^ (256 - 1)]]
        sys_nack ((dfu_host_read_memory 0x08000000 256 sys_nack).get
          read_memory_nack_example).1
        ((dfu_host_read_memory 0x08000000 256 sys_nack).get read_memory_nack_example).2 :=
  ⟨by decide,
   C29_fail_fast.2.1.2.2.1 0x08000000 256 sys_nack _ _ (by decide) (by decide) (by simp)⟩

/-! ## C30: the closed result set -/

theorem closed_nonneg (rc : Int) (h : 0 ≤ rc) : closed_result rc := Or.inl h

theorem closed_io_error : closed_result DFU_HOST_ERR_EIO := Or.inr (Or.inl rfl)

theorem closed_EINVAL : closed_result DFU_HOST_ERR_EINVAL := Or.inr (Or.inr (Or.inl rfl))

theorem closed_NACK : closed_result DFU_HOST_ERR_NACK :=
  Or.inr (Or.inr (Or.inr (Or.inl rfl)))

theorem closed_TIMEOUT : closed_result DFU_HOST_ERR_TIMEOUT :=
  Or.inr (Or.inr (Or.inr (Or.inr (Or.inl rfl))))

theorem closed_WRONG_ANS : closed_result DFU_HOST_ERR_WRONG_ANS :=
  Or.inr (Or.inr (Or.inr (Or.inr (Or.inr (Or.inl rfl)))))

theorem closed_OVERFLOW : closed_result DFU_HOST_ERR_OVERFLOW :=
  Or.inr (Or.inr (Or.inr (Or.inr (Or.inr (Or.inr rfl)))))

theorem closed_recv_fixed (len timeout : Nat) : closed_op (recv_fixed len timeout) := by
  intro s rc t hs hr
  simp only [recv_fixed] at hr
  split_ifs at hr <;>
    (simp only [Option.some.injEq, Prod.mk.injEq] at hr; rw [← hr.1, ← hr.2])
  · exact ⟨closed_nonneg _ (Int.natCast_nonneg len), hs⟩
  · exact ⟨closed_io_error, hs⟩

theorem closed_send_data (buffer : List Nat) (size timeout : Nat) :
    closed_op (send_data buffer size timeout) := by
  intro s rc t hs hr
  simp only [send_data] at hr
  split_ifs at hr with h1 h2 h3
  · simp only [Option.some.injEq, Prod.mk.injEq] at hr
    rw [← hr.1, ← hr.2]
    exact ⟨closed_EINVAL, hs⟩
  · cases hf : recv_fixed 1 timeout (HAL_UART_Transmit (List.take size buffer) s).2 with
    | none => rw [hf] at hr; cases hr
    | some p =>
      obtain ⟨rc1, s1⟩ := p
      obtain ⟨k1, k2⟩ := closed_recv_fixed 1 timeout _ rc1 s1
        (show closed_result (HAL_UART_Transmit (List.take size buffer) s).2.rcv_err from hs) hf
      rw [hf] at hr
      simp only [] at hr
      split_ifs at hr <;>
        (simp only [Option.some.injEq, Prod.mk.injEq] at hr; rw [← hr.1, ← hr.2])
      · exact ⟨k1, k2⟩
      · exact ⟨closed_nonneg _ (le_refl _), k2⟩
      · exact ⟨closed_NACK, k2⟩
      · exact ⟨closed_WRONG_ANS, k2⟩
  · simp only [Option.some.injEq, Prod.mk.injEq] at hr
    rw [← hr.1, ← hr.2]
    exact ⟨closed_io_error, hs⟩

theorem closed_send_command (cmd timeout : Nat) : closed_op (send_command cmd timeout) :=
  closed_send_data _ _ _

theorem closed_start_rcv_next_byte (s : Sys) :
    closed_result (start_rcv_next_byte s).1
    ∧ (start_rcv_next_byte s).2.rcv_err = s.rcv_err := by
  simp only [start_rcv_next_byte]
  split_ifs
  · exact ⟨closed_OVERFLOW, rfl⟩
  · exact ⟨closed_nonneg _ (le_refl _), rfl⟩
  · exact ⟨closed_io_error, rfl⟩

theorem closed_rcv_complete_cb (s : Sys) (h : closed_result s.rcv_err) :
    closed_result (rcv_complete_cb s).rcv_err := by
  simp only [rcv_complete_cb]
  split_ifs
  · exact closed_NACK
  · exact h
  · exact (closed_start_rcv_next_byte _).1
  · rw [(closed_start_rcv_next_byte _).2]
    exact h

theorem closed_on_event (e : Ev) (s : Sys) (h : closed_result s.rcv_err) :
    closed_result (on_event e s).rcv_err := by
  cases e with
  | elapse ms => exact h
  | rx b =>
    cases harm : s.armed with
    | none =>
      have e : on_event (Ev.rx b) s = s := by simp [on_event, harm]
      rw [e]
      exact h
    | some idx =>
      have e : on_event (Ev.rx b) s
          = if s.cb_registered = true
            then rcv_complete_cb { s with
              armed := none, rcv_buffer := Function.update s.rcv_buffer idx (b % 256) }
            else { s with
              armed := none, rcv_buffer := Function.update s.rcv_buffer idx (b % 256) } := by
        simp [on_event, harm]
      rw [e]
      split_ifs
      · exact closed_rcv_complete_cb _ h
      · exact h

theorem closed_recv_wait (end_tp : Nat) :
    ∀ (evs : List Ev) (s : Sys) (b : Bool) (t : Sys), closed_result s.rcv_err →
      recv_wait end_tp evs s = some (b, t) → closed_result t.rcv_err := by
  have stop : ∀ (evs : List Ev) (s : Sys) (b : Bool) (t : Sys), closed_result s.rcv_err →
      (if s.rcv_cplt = true then some (true, { s with events := evs })
        else if HAL_GetTick s ≥ end_tp then
          some (false, HAL_UART_AbortReceive_IT { s with events := evs })
        else none) = some (b, t) → closed_result t.rcv_err := by
    intro evs s b t h hr
    split_ifs at hr with hc ht <;>
      (simp only [Option.some.injEq, Prod.mk.injEq] at hr; rw [← hr.2]; exact h)
  intro evs
  induction evs with
  | nil =>
    intro s b t h hr
    exact stop [] s b t h (by simpa only [recv_wait] using hr)
  | cons e es ih =>
    intro s b t h hr
    by_cases hc : s.rcv_cplt = true
    · exact stop (e :: es) s b t h (by simpa only [recv_wait, hc, if_true] using hr)
    · by_cases ht : HAL_GetTick s ≥ end_tp
      · exact stop (e :: es) s b t h
          (by simpa only [recv_wait, hc, ht, if_true, if_false] using hr)
      · simp only [recv_wait, hc, ht, if_false] at hr
        exact ih (on_event e s) b t (closed_on_event e s h) hr

theorem closed_recv (timeout : Nat) : closed_op (recv timeout) := by
  intro s rc t hs hr
  obtain ⟨c1, c2⟩ := closed_start_rcv_next_byte
    { HAL_UART_RegisterCallback s with rcv_count := 0, rcv_cplt := false }
  have c3 : closed_result (start_rcv_next_byte
      { HAL_UART_RegisterCallback s with rcv_count := 0, rcv_cplt := false }).2.rcv_err := by
    rw [c2]
    exact hs
  simp only [recv] at hr
  split_ifs at hr with ha hneg
  · simp only [Option.some.injEq, Prod.mk.injEq] at hr
    rw [← hr.1, ← hr.2]
    exact ⟨c1, c3⟩
  · split at hr
    · cases hr
    · rename_i s3 hw
      simp only [Option.some.injEq, Prod.mk.injEq] at hr
      rw [← hr.1, ← hr.2]
      exact ⟨closed_TIMEOUT, closed_recv_wait _ _ _ _ _ c3 hw⟩
    · rename_i s3 hw
      have c4 := closed_recv_wait _ _ _ _ _ c3 hw
      split_ifs at hr <;>
        (simp only [Option.some.injEq, Prod.mk.injEq] at hr; rw [← hr.1, ← hr.2])
      · exact ⟨c4, c4⟩
      · exact ⟨closed_nonneg _ (Int.natCast_nonneg _), c4⟩

/-- A fail-fast sequence of operations that keep to the closed result set
keeps to it. -/
theorem closed_fail_fast (steps : List (Sys → Option (Int × Sys)))
    (h : ∀ f ∈ steps, closed_op f) : closed_op (fail_fast steps) := by
  induction steps with
  | nil =>
    intro s rc t hs hr
    simp only [fail_fast, Option.some.injEq, Prod.mk.injEq] at hr
    rw [← hr.1, ← hr.2]
    exact ⟨closed_nonneg _ (le_refl _), hs⟩
  | cons f fs ih =>
    intro s rc t hs hr
    cases fs with
    | nil =>
      simp only [fail_fast] at hr
      exact h f (List.mem_cons_self _ _) s rc t hs hr
    | cons g gs =>
      simp only [fail_fast] at hr
      cases hfs : f s with
      | none => rw [hfs] at hr; cases hr
      | some p =>
        obtain ⟨rc1, s1⟩ := p
        obtain ⟨k1, k2⟩ := h f (List.mem_cons_self _ _) s rc1 s1 hs hfs
        rw [hfs] at hr
        simp only [] at hr
        split_ifs at hr
        · simp only [Option.some.injEq, Prod.mk.injEq] at hr
          rw [← hr.1, ← hr.2]
          exact ⟨k1, k2⟩
        · exact ih (fun f' hf' => h f' (List.mem_cons_of_mem _ hf')) s1 rc t k2 hr

theorem closed_two (f g : Sys → Option (Int × Sys)) (hf : closed_op f) (hg : closed_op g) :
    closed_op (fail_fast [f, g]) :=
  closed_fail_fast [f, g] (by
    intro f' hf'
    simp only [List.mem_cons, List.mem_singleton, List.not_mem_nil, or_false] at hf'
    rcases hf' with h | h <;> subst h
    · exact hf
    · exact hg)

theorem closed_dfu_host_init (handle : Option Nat) : closed_op (dfu_host_init handle) := by
  intro s rc t hs hr
  simp only [dfu_host_init] at hr
  split_ifs at hr
  simp only [Option.some.injEq, Prod.mk.injEq] at hr
  rw [← hr.1, ← hr.2]
  exact ⟨closed_nonneg _ (le_refl _), hs⟩

theorem closed_dfu_host_ping (timeout : Nat) : closed_op (dfu_host_ping timeout) := by
  intro s rc t hs hr
  simp only [dfu_host_ping] at hr
  split_ifs at hr
  · exact closed_send_data _ _ _ s rc t hs hr
  · simp only [Option.some.injEq, Prod.mk.injEq] at hr
    rw [← hr.1, ← hr.2]
    exact ⟨closed_EINVAL, hs⟩

theorem closed_dfu_host_go (a : Nat) : closed_op (dfu_host_go a) := by
  intro s rc t hs hr
  rw [dfu_host_go_fail_fast] at hr
  exact closed_two _ _ (closed_send_command _ _) (closed_send_data _ _ _) s rc t hs hr

theorem closed_dfu_host_erase_all : closed_op dfu_host_erase_all := by
  intro s rc t hs hr
  rw [dfu_host_erase_all_fail_fast] at hr
  exact closed_two _ _ (closed_send_command _ _) (closed_send_data _ _ _) s rc t hs hr

theorem closed_dfu_host_write_unprotect : closed_op dfu_host_write_unprotect := by
  intro s rc t hs hr
  rw [dfu_host_write_unprotect_fail_fast] at hr
  exact closed_two _ _ (closed_send_command _ _) (closed_recv _) s rc t hs hr

theorem closed_dfu_host_readout_protect : closed_op dfu_host_readout_protect := by
  intro s rc t hs hr
  rw [dfu_host_readout_protect_fail_fast] at hr
  exact closed_two _ _ (closed_send_command _ _) (closed_recv _) s rc t hs hr

theorem closed_dfu_host_readout_unprotect : closed_op dfu_host_readout_unprotect := by
  intro s rc t hs hr
  rw [dfu_host_readout_unprotect_fail_fast] at hr
  exact closed_two _ _ (closed_send_command _ _) (closed_recv _) s rc t hs hr

theorem closed_dfu_host_get_version : closed_op dfu_host_get_version := by
  intro s rc t hs hr
  simp only [dfu_host_get_version] at hr
  cases h1 : send_command DFU_HOST_CMD_ID_GET_VERSION CONFIG_DFU_HOST_RECEIVE_TIMEOUT_MS s with
  | none => rw [h1] at hr; cases hr
  | some p =>
    obtain ⟨rc1, s1⟩ := p
    obtain ⟨k1, k2⟩ := closed_send_command _ _ s rc1 s1 hs h1
    rw [h1] at hr
    simp only [] at hr
    split_ifs at hr
    · simp only [Option.some.injEq, Prod.mk.injEq] at hr
      rw [← hr.1, ← hr.2]
      exact ⟨k1, k2⟩
    · cases h2 : recv CONFIG_DFU_HOST_RECEIVE_TIMEOUT_MS s1 with
      | none => rw [h2] at hr; cases hr
      | some p2 =>
        obtain ⟨rc2, s2⟩ := p2
        obtain ⟨m1, m2⟩ := closed_recv _ s1 rc2 s2 k2 h2
        rw [h2] at hr
        simp only [] at hr
        split_ifs at hr <;>
          (simp only [Option.some.injEq, Prod.mk.injEq] at hr; rw [← hr.1, ← hr.2])
        · exact ⟨m1, m2⟩
        · exact ⟨closed_WRONG_ANS, m2⟩
        · exact ⟨closed_nonneg _ (Int.natCast_nonneg _), m2⟩

theorem closed_dfu_host_get_id (s : Sys) (r : GetId) (t : Sys)
    (hs : closed_result s.rcv_err) (hr : dfu_host_get_id s = some (r, t)) :
    closed_result r.rc ∧ closed_result t.rcv_err := by
  simp only [dfu_host_get_id] at hr
  cases h1 : send_command DFU_HOST_CMD_ID_GET_ID CONFIG_DFU_HOST_RECEIVE_TIMEOUT_MS s with
  | none => rw [h1] at hr; cases hr
  | some p =>
    obtain ⟨rc1, s1⟩ := p
    obtain ⟨k1, k2⟩ := closed_send_command _ _ s rc1 s1 hs h1
    rw [h1] at hr
    simp only [] at hr
    split_ifs at hr
    · simp only [Option.some.injEq, Prod.mk.injEq] at hr
      rw [← hr.1, ← hr.2]
      exact ⟨k1, k2⟩
    · cases h2 : recv CONFIG_DFU_HOST_RECEIVE_TIMEOUT_MS s1 with
      | none => rw [h2] at hr; cases hr
      | some p2 =>
        obtain ⟨rc2, s2⟩ := p2
        obtain ⟨m1, m2⟩ := closed_recv _ s1 rc2 s2 k2 h2
        rw [h2] at hr
        simp only [] at hr
        split_ifs at hr <;>
          (simp only [Option.some.injEq, Prod.mk.injEq] at hr; rw [← hr.1, ← hr.2])
        · exact ⟨m1, m2⟩
        · exact ⟨closed_WRONG_ANS, m2⟩
        · exact ⟨closed_nonneg _ (le_refl _), m2⟩

theorem closed_dfu_host_read_memory (a len : Nat) : closed_op (dfu_host_read_memory a len) := by
  intro s rc t hs hr
  by_cases hv : 1 ≤ len ∧ len ≤ 256
  · rw [dfu_host_read_memory_fail_fast a len s hv.1 hv.2] at hr
    refine closed_fail_fast _ ?_ s rc t hs hr
    intro f hf
    simp only [List.mem_cons, List.mem_singleton, List.not_mem_nil, or_false] at hf
    rcases hf with h | h | h | h <;> subst h
    · exact closed_send_command _ _
    · exact closed_send_data _ _ _
    · exact closed_send_data _ _ _
    · exact closed_recv_fixed _ _
  · have hc : len = 0 ∨ ¬ len ≤ CONFIG_DFU_HOST_RX_BUFFER_SIZE := by
      simp only [CONFIG_DFU_HOST_RX_BUFFER_SIZE]
      omega
    simp only [dfu_host_read_memory, if_pos hc] at hr
    split_ifs at hr
    simp only [Option.some.injEq, Prod.mk.injEq] at hr
    rw [← hr.1, ← hr.2]
    exact ⟨closed_EINVAL, hs⟩

theorem closed_payload_step (size : Nat) (src : List Nat) (n : Nat) :
    closed_op (fun s => match fill_payload size src n with
      | none => none
      | some buf => send_data buf (n + 2) CONFIG_DFU_HOST_RECEIVE_TIMEOUT_MS s) := by
  intro s rc t hs hr
  cases hb : fill_payload size src n with
  | none => simp only [hb] at hr; cases hr
  | some buf =>
    simp only [hb] at hr
    exact closed_send_data _ _ _ s rc t hs hr

theorem closed_dfu_host_write_protect_sectors (sectors : List Nat) (count : Nat) :
    closed_op (dfu_host_write_protect_sectors sectors count) := by
  intro s rc t hs hr
  simp only [dfu_host_write_protect_sectors] at hr
  split_ifs at hr with h0 ha
  · simp only [Option.some.injEq, Prod.mk.injEq] at hr
    rw [← hr.1, ← hr.2]
    exact ⟨closed_EINVAL, hs⟩
  · have e := fail_fast_two (send_command DFU_HOST_CMD_ID_WRITE_PROTECT
        CONFIG_DFU_HOST_RECEIVE_TIMEOUT_MS)
      (fun s => match fill_payload (count + 2) sectors count with
        | none => none
        | some buf => send_data buf (count + 2) CONFIG_DFU_HOST_RECEIVE_TIMEOUT_MS s) s
    rw [← e] at hr
    exact closed_two _ _ (closed_send_command _ _) (closed_payload_step _ _ _) s rc t hs hr

theorem closed_dfu_host_write_protect_area (start end_ : Nat) :
    closed_op (dfu_host_write_protect_area start end_) := by
  intro s rc t hs hr
  simp only [dfu_host_write_protect_area] at hr
  split_ifs at hr
  · exact closed_dfu_host_write_protect_sectors _ _ s rc t hs hr
  · simp only [Option.some.injEq, Prod.mk.injEq] at hr
    rw [← hr.1, ← hr.2]
    exact ⟨closed_EINVAL, hs⟩

theorem closed_dfu_host_write_memory (a : Nat) (data : List Nat) (len : Nat) :
    closed_op (dfu_host_write_memory a data len) := by
  intro s rc t hs hr
  simp only [dfu_host_write_memory] at hr
  split_ifs at hr with h0 ha
  · simp only [Option.some.injEq, Prod.mk.injEq] at hr
    rw [← hr.1, ← hr.2]
    exact ⟨closed_EINVAL, hs⟩
  · cases h1 : send_command DFU_HOST_CMD_ID_WRITE_MEM CONFIG_DFU_HOST_RECEIVE_TIMEOUT_MS s with
    | none => rw [h1] at hr; cases hr
    | some p =>
      obtain ⟨rc1, s1⟩ := p
      obtain ⟨k1, k2⟩ := closed_send_command _ _ s rc1 s1 hs h1
      rw [h1] at hr
      simp only [] at hr
      split_ifs at hr
      · simp only [Option.some.injEq, Prod.mk.injEq] at hr
        rw [← hr.1, ← hr.2]
        exact ⟨k1, k2⟩
      · cases h2 : send_data (address_frame a) 5 CONFIG_DFU_HOST_RECEIVE_TIMEOUT_MS s1 with
        | none => rw [h2] at hr; cases hr
        | some p2 =>
          obtain ⟨rc2, s2⟩ := p2
          obtain ⟨m1, m2⟩ := closed_send_data _ _ _ s1 rc2 s2 k2 h2
          rw [h2] at hr
          simp only [] at hr
          split_ifs at hr
          · simp only [Option.some.injEq, Prod.mk.injEq] at hr
            rw [← hr.1, ← hr.2]
            exact ⟨m1, m2⟩
          · cases hb : fill_payload (256 + 1) data len with
            | none => rw [hb] at hr; cases hr
            | some buf =>
              rw [hb] at hr
              simp only [] at hr
              cases h3 : send_data buf (len + 2) CONFIG_DFU_HOST_RECEIVE_TIMEOUT_MS s2 with
              | none => rw [h3] at hr; cases hr
              | some p3 =>
                obtain ⟨rc3, s3⟩ := p3
                obtain ⟨n1, n2⟩ := closed_send_data _ _ _ s2 rc3 s3 m2 h3
                rw [h3] at hr
                simp only [] at hr
                split_ifs at hr <;>
                  (simp only [Option.some.injEq, Prod.mk.injEq] at hr; rw [← hr.1, ← hr.2])
                · exact ⟨n1, n2⟩
                · exact ⟨closed_nonneg _ (Int.natCast_nonneg _), n2⟩

/-- C30: every public `dfu_host_*` operation keeps to the closed result set.
Started with any arguments in a state whose pending receive error `rcv_err`
is of the closed set (at start-up it is 0), whatever the transport does, a
call that returns yields a value that is non-negative or one of -1000 (EIO),
-1001 (EINVAL), -1002 (NACK), -1003 (TIMEOUT), -1004 (WRONG_ANS), -1005
(OVERFLOW), and leaves `rcv_err` in the closed set, so that the property holds
along every sequence of calls. -/
theorem C30_closed_result_set :
    (∀ rc : Int, closed_result rc ↔
      (0 ≤ rc ∨ rc = -1000 ∨ rc = -1001 ∨ rc = -1002 ∨ rc = -1003 ∨ rc = -1004 ∨ rc = -1005))
    ∧ (∀ s : Sys, s.rcv_err = 0 → closed_result s.rcv_err)
    ∧ (∀ handle, closed_op (dfu_host_init handle))
    ∧ (∀ timeout, closed_op (dfu_host_ping timeout))
    ∧ closed_op dfu_host_get_version
    ∧ (∀ (s : Sys) (r : GetId) (t : Sys), closed_result s.rcv_err →
        dfu_host_get_id s = some (r, t) → closed_result r.rc ∧ closed_result t.rcv_err)
    ∧ (∀ a len, closed_op (dfu_host_read_memory a len))
    ∧ (∀ a data len, closed_op (dfu_host_write_memory a data len))
    ∧ (∀ a, closed_op (dfu_host_go a))
    ∧ closed_op dfu_host_erase_all
    ∧ (∀ sectors count, closed_op (dfu_host_write_protect_sectors sectors count))
    ∧ (∀ start end_, closed_op (dfu_host_write_protect_area start end_))
    ∧ closed_op dfu_host_write_unprotect
    ∧ closed_op dfu_host_readout_protect
    ∧ closed_op dfu_host_readout_unprotect := by
  refine ⟨fun rc => Iff.rfl, ?_, closed_dfu_host_init, closed_dfu_host_ping,
    closed_dfu_host_get_version, closed_dfu_host_get_id, closed_dfu_host_read_memory,
    closed_dfu_host_write_memory, closed_dfu_host_go, closed_dfu_host_erase_all,
    closed_dfu_host_write_protect_sectors, closed_dfu_host_write_protect_area,
    closed_dfu_host_write_unprotect, closed_dfu_host_readout_protect,
    closed_dfu_host_readout_unprotect⟩
  intro s h
  rw [h]
  exact closed_nonneg _ (le_refl _)

theorem get_version_31_example :
    (dfu_host_get_version (sys_reply [0x31, 0x00, 0x00, 0x79])).isSome = true := by decide

theorem C30_closed_result_set_witness :
    (sys_reply [0x31, 0x00, 0x00, 0x79]).rcv_err = 0
    ∧ closed_result
        ((dfu_host_get_version (sys_reply [0x31, 0x00, 0x00, 0x79])).get
          get_version_31_example).1
    ∧ ((dfu_host_get_version (sys_reply [0x31, 0x00, 0x00, 0x79])).get
          get_version_31_example).1 = 31 := by
  have h0 := C30_closed_result_set.2.1 (sys_reply [0x31, 0x00, 0x00, 0x79]) rfl
  have h := C30_closed_result_set.2.2.2.2.1 (sys_reply [0x31, 0x00, 0x00, 0x79])
    ((dfu_host_get_version (sys_reply [0x31, 0x00, 0x00, 0x79])).get get_version_31_example).1
    ((dfu_host_get_version (sys_reply [0x31, 0x00, 0x00, 0x79])).get get_version_31_example).2
    h0 (by simp)
  exact ⟨rfl, h.1, by decide⟩

/-! ## C31: the command + final-`ACK` operations -/

/-- What the three command + final-`ACK` operations return when the command
frame is acknowledged and then `data` (no `ACK`, no `NACK` among the bytes) and
the final `ACK` arrive in time: the value of `rcv_err` at entry when that is not
0, and otherwise the number of bytes that preceded the `ACK`. -/
theorem command_final_ack_returns (s : Sys) (data : List Nat) (rest : List Ev)
    (htx : s.tx_status s.n_tx = HalStatus.HAL_OK)
    (hrx : s.rx_line s.n_rx = ⟨false, [0x79]⟩)
    (hk : data.length ≤ 255)
    (hbytes : ∀ b ∈ data, b < 256 ∧ b ≠ 0x79 ∧ b ≠ 0x1F)
    (hev : s.events = data.map Ev.rx ++ Ev.rx 0x79 :: rest)
    (hit : ∀ i, i ≤ data.length → s.it_status (s.n_it + i) = HalStatus.HAL_OK)
    (hdl : HAL_GetTick s + CONFIG_DFU_HOST_RECEIVE_TIMEOUT_MS < 2 ^ 32) :
    (dfu_host_write_unprotect s).map Prod.fst
      = some (if s.rcv_err ≠ 0 then s.rcv_err else (data.length : Int))
    ∧ (dfu_host_readout_protect s).map Prod.fst
      = some (if s.rcv_err ≠ 0 then s.rcv_err else (data.length : Int))
    ∧ (dfu_host_readout_unprotect s).map Prod.fst
      = some (if s.rcv_err ≠ 0 then s.rcv_err else (data.length : Int)) := by
  have hne : (0x79 : Nat) ≠ 0x1F := by decide
  refine ⟨?_, ?_, ?_⟩
  · obtain ⟨s1, t, e1, e2, -⟩ := command_then_recv DFU_HOST_CMD_ID_WRITE_UNPROTECT 0x79 s data
      rest htx hrx (Or.inl rfl) hk hbytes hev hit hdl
    simp only [dfu_host_write_unprotect, e1, lt_irrefl, if_false, e2, if_neg hne,
      Option.map_some']
  · obtain ⟨s1, t, e1, e2, -⟩ := command_then_recv DFU_HOST_CMD_ID_READOUT_PROTECT 0x79 s data
      rest htx hrx (Or.inl rfl) hk hbytes hev hit hdl
    simp only [dfu_host_readout_protect, e1, lt_irrefl, if_false, e2, if_neg hne,
      Option.map_some']
  · obtain ⟨s1, t, e1, e2, -⟩ := command_then_recv DFU_HOST_CMD_ID_READOUT_UNPROTECT 0x79 s
      data rest htx hrx (Or.inl rfl) hk hbytes hev hit hdl
    simp only [dfu_host_readout_unprotect, e1, lt_irrefl, if_false, e2, if_neg hne,
      Option.map_some']

/-- C31 (evaluation at the failing input): a first Readout-Unprotect is
acknowledged and then answered by `NACK`; it returns `DFU_HOST_ERR_NACK`.  A
second call, started in the state the first one left, has its command frame
acknowledged and receives the final `ACK` with nothing before it, and still
returns `DFU_HOST_ERR_NACK` (-1002) instead of 0, because `recv` never clears
`rcv_err`; the same holds for Write-Unprotect and Readout-Protect.  And when
one byte precedes the final `ACK`, the operations return 1, the byte count of
`recv`.  On a fresh engine with nothing before the `ACK` they return 0. -/
theorem C31_final_ack_not_zero :
    (dfu_host_readout_unprotect (sys_reply [0x1F, 0x79])).map Prod.fst = some (-1002)
    ∧ ((dfu_host_readout_unprotect (sys_reply [0x1F, 0x79])).bind
        fun p => dfu_host_readout_unprotect p.2).map
          (fun p => (p.1, p.2.rcv_count, p.2.rcv_cplt, p.2.events))
        = some (-1002, 0, true, [])
    ∧ ((dfu_host_readout_unprotect (sys_reply [0x1F, 0x79])).bind
        fun p => dfu_host_write_unprotect p.2).map Prod.fst = some (-1002)
    ∧ ((dfu_host_readout_unprotect (sys_reply [0x1F, 0x79])).bind
        fun p => dfu_host_readout_protect p.2).map Prod.fst = some (-1002)
    ∧ (dfu_host_write_unprotect (sys_reply [0x00, 0x79])).map Prod.fst = some 1
    ∧ (dfu_host_readout_protect (sys_reply [0x00, 0x79])).map Prod.fst = some 1
    ∧ (dfu_host_readout_unprotect (sys_reply [0x00, 0x79])).map Prod.fst = some 1
    ∧ (dfu_host_readout_unprotect (sys_reply [0x79])).map Prod.fst = some 0 := by
  decide

/-! ## C33: the terminal states -/

theorem app_dispatch_check_done (s : Sys)
    (h : s.app_state = app_state_t.APP_STATE_CHECK_DONE) :
    app_dispatch s
      = some { s with led_done := !s.led_done, now := s.now + 1000,
                      trace := s.trace ++ [Call.led_write (!s.led_done), Call.delay 1000] } := by
  simp [app_dispatch, h, HAL_Delay, board_led_write]

theorem app_dispatch_check_failure (s : Sys)
    (h : s.app_state = app_state_t.APP_STATE_CHECK_FAILURE) :
    app_dispatch s
      = some { s with led_failure := !s.led_failure, now := s.now + 150,
                      trace := s.trace
                        ++ [Call.led_write (!s.led_failure), Call.delay 150] } := by
  simp [app_dispatch, h, HAL_Delay, board_led_write]

/-- C33: a step taken in `APP_STATE_CHECK_DONE` (in `APP_STATE_CHECK_FAILURE`)
returns and changes nothing but the indicator flag of that state, which is
toggled and written to the LED, the clock, which advances by the delay of
1000 ms (150 ms), and the trace, which gains exactly these two calls: the
state of the automaton is unchanged, nothing is transmitted or received, and
the engine's statics are untouched.  Hence every number of further steps
stays in the terminal state with no transmit and no receive call. -/
theorem C33_terminal_states (s : Sys)
    (h : s.app_state = app_state_t.APP_STATE_CHECK_DONE
      ∨ s.app_state = app_state_t.APP_STATE_CHECK_FAILURE) :
    (s.app_state = app_state_t.APP_STATE_CHECK_DONE →
      app_dispatch s
        = some { s with led_done := !s.led_done, now := s.now + 1000,
                        trace := s.trace
                          ++ [Call.led_write (!s.led_done), Call.delay 1000] })
    ∧ (s.app_state = app_state_t.APP_STATE_CHECK_FAILURE →
      app_dispatch s
        = some { s with led_failure := !s.led_failure, now := s.now + 150,
                        trace := s.trace
                          ++ [Call.led_write (!s.led_failure), Call.delay 150] })
    ∧ ∀ n : Nat, ∃ t, (fun o : Option Sys => o.bind app_dispatch)^[n] (some s) = some t
        ∧ t.app_state = s.app_state ∧ tx_frames t.trace = tx_frames s.trace
        ∧ t.n_tx = s.n_tx ∧ t.n_rx = s.n_rx ∧ t.n_it = s.n_it
        ∧ t.rcv_buffer = s.rcv_buffer ∧ t.fw_meta = s.fw_meta := by
  refine ⟨app_dispatch_check_done s, app_dispatch_check_failure s, ?_⟩
  intro n
  induction n with
  | zero => exact ⟨s, rfl, rfl, rfl, rfl, rfl, rfl, rfl, rfl⟩
  | succ n ih =>
    obtain ⟨t, ht, h1, h2, h3, h4, h5, h6, h7⟩ := ih
    rw [Function.iterate_succ_apply', ht, Option.some_bind]
    rw [← h1] at h
    rcases h with hd | hf
    · rw [app_dispatch_check_done t hd]
      refine ⟨_, rfl, h1, ?_, h3, h4, h5, h6, h7⟩
      rw [← h2]
      simp [tx_frames_append, tx_frames]
    · rw [app_dispatch_check_failure t hf]
      refine ⟨_, rfl, h1, ?_, h3, h4, h5, h6, h7⟩
      rw [← h2]
      simp [tx_frames_append, tx_frames]

theorem C33_terminal_states_witness :
    ({ sys_ack with app_state := app_state_t.APP_STATE_CHECK_FAILURE } : Sys).app_state
      = app_state_t.APP_STATE_CHECK_FAILURE
    ∧ (app_dispatch { sys_ack with app_state := app_state_t.APP_STATE_CHECK_FAILURE }).map
        (fun t => (t.app_state, t.led_failure, t.now, t.trace))
      = some (app_state_t.APP_STATE_CHECK_FAILURE, true, 150,
          [Call.led_write true, Call.delay 150]) := by
  have h := (C33_terminal_states
    { sys_ack with app_state := app_state_t.APP_STATE_CHECK_FAILURE } (Or.inr rfl)).2.1 rfl
  refine ⟨rfl, ?_⟩
  rw [h]
  rfl

/-! ## C32: `APP_STATE_READ_META`, success -/

/-- C32: in `APP_STATE_READ_META`, when `dfu_host_get_id`, `dfu_host_get_version` and
the Read-Memory of 6 bytes at the metadata address `0x0803F800` all return
without error, the step returns: it stores `fw_size` from the first four bytes
of the receive buffer (least significant byte first), `crc16` from the next
two bytes (least significant byte first), changes nothing else of the state
the read left, and ends in `APP_STATE_CHECK_FW_CRC`. -/
theorem C32_read_meta_success (s s1 s2 s3 : Sys) (r : GetId) (rc2 rc3 : Int)
    (hs : s.app_state = app_state_t.APP_STATE_READ_META)
    (h1 : dfu_host_get_id s = some (r, s1)) (hr1 : 0 ≤ r.rc)
    (h2 : dfu_host_get_version s1 = some (rc2, s2)) (hr2 : 0 ≤ rc2)
    (h3 : dfu_host_read_memory 0x0803F800 6 s2 = some (rc3, s3)) (hr3 : 0 ≤ rc3) :
    app_dispatch s
      = some { s3 with
          fw_meta :=
            { fw_size := s3.rcv_buffer 0 + s3.rcv_buffer 1 * 2 ^ 8 + s3.rcv_buffer 2 * 2 ^ 16
                + s3.rcv_buffer 3 * 2 ^ 24,
              crc16 := s3.rcv_buffer 4 + s3.rcv_buffer 5 * 2 ^ 8 },
          app_state := app_state_t.APP_STATE_CHECK_FW_CRC }
    ∧ board_get_fw_meta_addr = 0x0803F800 := by
  refine ⟨?_, rfl⟩
  have n1 : ¬ r.rc < 0 := not_lt.mpr hr1
  have n2 : ¬ rc2 < 0 := not_lt.mpr hr2
  have n3 : ¬ rc3 < 0 := not_lt.mpr hr3
  have hm : read_fw_meta s2
      = some (0, { s3 with fw_meta := fw_meta_of_buffer s3.rcv_buffer }) := by
    have h3' : dfu_host_read_memory board_get_fw_meta_addr 6 s2 = some (rc3, s3) := h3
    simp only [read_fw_meta, h3', if_neg n3]
  simp only [app_dispatch, hs, h1, if_neg n1, h2, if_neg n2, hm, lt_irrefl, if_false]
  rfl

theorem read_meta_get_id_example :
    (dfu_host_get_id sys_read_meta).isSome = true := by decide

theorem read_meta_get_version_example :
    (dfu_host_get_version
      ((dfu_host_get_id sys_read_meta).get read_meta_get_id_example).2).isSome = true := by
  decide

theorem read_meta_read_example :
    (dfu_host_read_memory 0x0803F800 6
      ((dfu_host_get_version
        ((dfu_host_get_id sys_read_meta).get read_meta_get_id_example).2).get
          read_meta_get_version_example).2).isSome = true := by
  decide

theorem C32_read_meta_success_witness :
    sys_read_meta.app_state = app_state_t.APP_STATE_READ_META
    ∧ (app_dispatch sys_read_meta).map (fun t => (t.app_state, t.fw_meta, tx_frames t.trace))
      = some (app_state_t.APP_STATE_CHECK_FW_CRC, ⟨512, 0xBEEF⟩,
          [[0x02, 0xFD], [0x01, 0xFE], [0x11, 0xEE], [0x08, 0x03, 0xF8, 0x00, 0xF3],
           [0x05, 0xFA]]) := by
  have h := (C32_read_meta_success sys_read_meta _ _ _ _ _ _ rfl
    (Option.some_get read_meta_get_id_example).symm (by decide)
    (Option.some_get read_meta_get_version_example).symm (by decide)
    (Option.some_get read_meta_read_example).symm (by decide)).1
  refine ⟨rfl, ?_⟩
  rw [h]
  decide

/-! ## C35: Go and the verification of the image -/

set_option maxRecDepth 100000 in
/-- C35 (evaluation at the failing input): the metadata is `fw_size = 0xFFFFFFFF`,
`crc16 = 0xFFFF` and the device rejects the Read-Memory command of the first
chunk five times.  No byte of the image has been read, the loop is left with
`crc` still at its initial value `0xFFFF`, which equals the stored `crc16`, and
the step transmits the Go command `21 DE` with the address frame of
`0x08000000` and ends in `APP_STATE_CHECK_DONE`. -/
theorem C35_go_after_failed_chunk :
    sys_erased_meta.app_state = app_state_t.APP_STATE_CHECK_FW_CRC
    ∧ (read_retry 0x08000000 256 5 0 0 sys_erased_meta).map Prod.fst = some (-1002, 5)
    ∧ (app_dispatch sys_erased_meta).map
        (fun t => (t.app_state, tx_frames t.trace, t.n_rx))
      = some (app_state_t.APP_STATE_CHECK_DONE,
          [[0x11, 0xEE], [0x11, 0xEE], [0x11, 0xEE], [0x11, 0xEE], [0x11, 0xEE],
           [0x21, 0xDE], [0x08, 0, 0, 0, 0x08]], 7) := by
  decide

/-! ## C36: the bounds of the payload buffer of Write-Memory -/

theorem payload_indices_le (len i : Nat) (h : i ∈ payload_writes len ++ payload_reads len) :
    i ≤ len + 1 := by
  simp only [payload_writes, payload_reads, List.mem_append, List.mem_cons, List.mem_map,
    List.mem_range, List.mem_singleton, List.not_mem_nil, or_false] at h
  rcases h with (h | ⟨j, hj, rfl⟩ | h) | h | h <;> omega

theorem payload_last_written (len : Nat) : len + 1 ∈ payload_writes len := by
  simp [payload_writes]

/-- For `1 ≤ len ≤ 255` every index written or read lies inside `buf[256 + 1]`. -/
theorem payload_in_bounds (len : Nat) (h : len ≤ 255) :
    ∀ i ∈ payload_writes len ++ payload_reads len, i < 256 + 1 := by
  intro i hi
  have := payload_indices_le len i hi
  omega

/-- The three stores into the payload buffer are defined exactly when the
source holds `n` bytes and every written index lies inside the buffer. -/
theorem fill_payload_isSome (size : Nat) (src : List Nat) (n : Nat) :
    (fill_payload size src n).isSome = true
      ↔ n ≤ src.length ∧ ∀ i ∈ payload_writes n, i < size := by
  have hw : (∀ i ∈ payload_writes n, i < size) ↔ n + 1 < size := by
    constructor
    · intro h
      exact h _ (payload_last_written n)
    · intro h i hi
      have := payload_indices_le n i (List.mem_append_left _ hi)
      omega
  rw [hw]
  unfold fill_payload
  by_cases h0 : 0 < size
  · have e0 : array_store (List.replicate size 0) 0 (n - 1)
        = some ((List.replicate size 0).set 0 ((n - 1) % 256)) := by
      simp [array_store, h0]
    rw [e0, Option.some_bind]
    by_cases hm : n ≤ src.length ∧ 1 + n ≤ size
    · have hm' : n ≤ src.length
          ∧ 1 + n ≤ ((List.replicate size 0).set 0 ((n - 1) % 256)).length := by
        simpa using hm
      simp only [array_memcpy, if_pos hm', Option.some_bind, array_store]
      have hl : (List.take 1 ((List.replicate size 0).set 0 ((n - 1) % 256))
          ++ List.map (fun b => b % 256) (List.take n src)
          ++ List.drop (1 + n) ((List.replicate size 0).set 0 ((n - 1) % 256))).length
            = size := by
        simp only [List.length_append, List.length_take, List.length_map, List.length_drop,
          List.length_set, List.length_replicate]
        omega
      rw [hl]
      by_cases hlt : n + 1 < size
      · simp [hlt, hm.1]
      · simp [hlt]
    · have hm' : ¬ (n ≤ src.length
          ∧ 1 + n ≤ ((List.replicate size 0).set 0 ((n - 1) % 256)).length) := by
        simpa using hm
      simp only [array_memcpy, if_neg hm', Option.none_bind, Option.isSome_none]
      constructor
      · intro h
        cases h
      · intro h
        exact absurd ⟨h.1, by omega⟩ hm
  · have e0 : array_store (List.replicate size 0) 0 (n - 1) = none := by
      simp [array_store, h0]
    rw [e0, Option.none_bind]
    constructor
    · intro h
      cases h
    · intro h
      omega

set_option maxRecDepth 1000000 in
/-- C36 (evaluation at the failing input): for the accepted length `len = 256`
the checksum is written at index 257 and the transmit reads index 257, both
outside the 257 elements (indices 0 to 256) of `uint8_t buf[256 + 1]`; the stores
into the buffer are not all defined and, with the command and address frames
acknowledged, the call has no defined result.  For `len = 255` every index
written or read is inside the buffer. -/
theorem C36_write_memory_buffer_overrun :
    (payload_writes 256).filter (fun i => decide (256 + 1 ≤ i)) = [257]
    ∧ (payload_reads 256).filter (fun i => decide (256 + 1 ≤ i)) = [257]
    ∧ (List.replicate (256 + 1) 0).length = 257
    ∧ (fill_payload (256 + 1) (List.replicate 256 0x5A) 256).isSome = false
    ∧ (dfu_host_write_memory 0x08000000 (List.replicate 256 0x5A) 256 sys_ack).isSome = false
    ∧ (payload_writes 255 ++ payload_reads 255).all (fun i => decide (i < 256 + 1)) = true := by
  refine ⟨by decide, by decide, List.length_replicate _ _, ?_, ?_, by decide⟩
  · rw [fill_payload_256]
    rfl
  · rw [dfu_host_write_memory_256 0x08000000 (List.replicate 256 0x5A) sys_ack
      (fun _ _ => rfl) (fun _ _ => rfl)]
    rfl

/-! ## C38: the BCD helpers -/

set_option maxRecDepth 1000000 in
theorem bin2bcd_bcd2bin : ∀ x, x < 256 → x >>> 4 ≤ 9 → x &&& 0x0F ≤ 9 →
    bin2bcd (bcd2bin x) = x := by
  decide

set_option maxRecDepth 1000000 in
theorem bcd2bin_bin2bcd : ∀ n, n < 100 → bcd2bin (bin2bcd n) = n := by
  decide

set_option maxRecDepth 1000000 in
theorem bcd2bin_le : ∀ x, x < 256 →
    bcd2bin x ≤ 165 ∧ bcd2bin x = 10 * (x >>> 4) + (x &&& 0x0F) := by
  decide

theorem buffer_bytes_store (buf : Nat → Nat) (bytes : List Nat) (h : ∀ i, buf i < 256) :
    ∀ i, store_bytes buf 0 bytes i < 256 := by
  intro i
  simp only [store_bytes]
  split_ifs
  · exact Nat.mod_lt _ (by decide)
  · exact h i

theorem buffer_bytes_recv_fixed (len timeout : Nat) (s : Sys) (rc : Int) (t : Sys)
    (h : buffer_bytes s) (hr : recv_fixed len timeout s = some (rc, t)) : buffer_bytes t := by
  have key : buffer_bytes (HAL_UART_Receive len timeout s).2 :=
    buffer_bytes_store s.rcv_buffer _ h
  simp only [recv_fixed] at hr
  split_ifs at hr <;>
    (simp only [Option.some.injEq, Prod.mk.injEq] at hr; rw [← hr.2]; exact key)

theorem buffer_bytes_send_data (buffer : List Nat) (size timeout : Nat) (s : Sys) (rc : Int)
    (t : Sys) (h : buffer_bytes s) (hr : send_data buffer size timeout s = some (rc, t)) :
    buffer_bytes t := by
  have key : buffer_bytes (HAL_UART_Transmit (buffer.take size) s).2 := h
  simp only [send_data] at hr
  split_ifs at hr with h1 h2 h3
  · simp only [Option.some.injEq, Prod.mk.injEq] at hr
    rw [← hr.2]
    exact h
  · cases hf : recv_fixed 1 timeout (HAL_UART_Transmit (List.take size buffer) s).2 with
    | none => rw [hf] at hr; cases hr
    | some p =>
      obtain ⟨rc1, s1⟩ := p
      have k := buffer_bytes_recv_fixed _ _ _ _ _ key hf
      have e : t = s1 := by
        rw [hf] at hr
        simp only [] at hr
        split_ifs at hr <;>
          (simp only [Option.some.injEq, Prod.mk.injEq] at hr; exact hr.2.symm)
      rw [e]
      exact k
  · simp only [Option.some.injEq, Prod.mk.injEq] at hr
    rw [← hr.2]
    exact key

theorem buffer_bytes_start_rcv_next_byte (s : Sys) (h : buffer_bytes s) :
    buffer_bytes (start_rcv_next_byte s).2 := by
  rw [start_rcv_next_byte_snd]
  split_ifs
  · exact h
  · exact h

theorem buffer_bytes_rcv_complete_cb (s : Sys) (h : buffer_bytes s) :
    buffer_bytes (rcv_complete_cb s) := by
  simp only [rcv_complete_cb]
  split_ifs
  · exact h
  · exact h
  · exact buffer_bytes_start_rcv_next_byte _ h
  · exact buffer_bytes_start_rcv_next_byte _ h

theorem buffer_bytes_on_event (e : Ev) (s : Sys) (h : buffer_bytes s) :
    buffer_bytes (on_event e s) := by
  cases e with
  | elapse ms => exact h
  | rx b =>
    cases harm : s.armed with
    | none =>
      have e : on_event (Ev.rx b) s = s := by simp [on_event, harm]
      rw [e]
      exact h
    | some idx =>
      have e : on_event (Ev.rx b) s
          = if s.cb_registered = true
            then rcv_complete_cb { s with
              armed := none, rcv_buffer := Function.update s.rcv_buffer idx (b % 256) }
            else { s with
              armed := none, rcv_buffer := Function.update s.rcv_buffer idx (b % 256) } := by
        simp [on_event, harm]
      have hu : buffer_bytes { s with
          armed := none, rcv_buffer := Function.update s.rcv_buffer idx (b % 256) } := by
        intro i
        show Function.update s.rcv_buffer idx (b % 256) i < 256
        by_cases hi : i = idx
        · rw [hi, Function.update_same]
          exact Nat.mod_lt _ (by decide)
        · rw [Function.update_noteq hi]
          exact h i
      rw [e]
      split_ifs
      · exact buffer_bytes_rcv_complete_cb _ hu
      · exact hu

theorem buffer_bytes_recv_wait (end_tp : Nat) :
    ∀ (evs : List Ev) (s : Sys) (b : Bool) (t : Sys), buffer_bytes s →
      recv_wait end_tp evs s = some (b, t) → buffer_bytes t := by
  have stop : ∀ (evs : List Ev) (s : Sys) (b : Bool) (t : Sys), buffer_bytes s →
      (if s.rcv_cplt = true then some (true, { s with events := evs })
        else if HAL_GetTick s ≥ end_tp then
          some (false, HAL_UART_AbortReceive_IT { s with events := evs })
        else none) = some (b, t) → buffer_bytes t := by
    intro evs s b t h hr
    split_ifs at hr with hc ht <;>
      (simp only [Option.some.injEq, Prod.mk.injEq] at hr; rw [← hr.2]; exact h)
  intro evs
  induction evs with
  | nil =>
    intro s b t h hr
    exact stop [] s b t h (by simpa only [recv_wait] using hr)
  | cons e es ih =>
    intro s b t h hr
    by_cases hc : s.rcv_cplt = true
    · exact stop (e :: es) s b t h (by simpa only [recv_wait, hc, if_true] using hr)
    · by_cases ht : HAL_GetTick s ≥ end_tp
      · exact stop (e :: es) s b t h
          (by simpa only [recv_wait, hc, ht, if_true, if_false] using hr)
      · simp only [recv_wait, hc, ht, if_false] at hr
        exact ih (on_event e s) b t (buffer_bytes_on_event e s h) hr

theorem buffer_bytes_recv (timeout : Nat) (s : Sys) (rc : Int) (t : Sys)
    (h : buffer_bytes s) (hr : recv timeout s = some (rc, t)) : buffer_bytes t := by
  have c3 : buffer_bytes (start_rcv_next_byte
      { HAL_UART_RegisterCallback s with rcv_count := 0, rcv_cplt := false }).2 :=
    buffer_bytes_start_rcv_next_byte _ h
  simp only [recv] at hr
  split_ifs at hr with ha hneg
  · simp only [Option.some.injEq, Prod.mk.injEq] at hr
    rw [← hr.2]
    exact c3
  · split at hr
    · cases hr
    · rename_i s3 hw
      simp only [Option.some.injEq, Prod.mk.injEq] at hr
      rw [← hr.2]
      exact buffer_bytes_recv_wait _ _ _ _ _ c3 hw
    · rename_i s3 hw
      have c4 := buffer_bytes_recv_wait _ _ _ _ _ c3 hw
      split_ifs at hr <;>
        (simp only [Option.some.injEq, Prod.mk.injEq] at hr; rw [← hr.2]; exact c4)

/-- A non-negative result of `dfu_host_get_version` is the decoded first byte of
the receive buffer and lies between 0 and 165. -/
theorem dfu_host_get_version_nonneg (s : Sys) (rc : Int) (t : Sys) (h : buffer_bytes s)
    (hr : dfu_host_get_version s = some (rc, t)) (hrc : 0 ≤ rc) :
    rc = (bcd2bin (t.rcv_buffer 0) : Int) ∧ rc ≤ 165 := by
  simp only [dfu_host_get_version] at hr
  cases h1 : send_command DFU_HOST_CMD_ID_GET_VERSION CONFIG_DFU_HOST_RECEIVE_TIMEOUT_MS s with
  | none => rw [h1] at hr; cases hr
  | some p =>
    obtain ⟨rc1, s1⟩ := p
    have b1 := buffer_bytes_send_data _ _ _ s rc1 s1 h h1
    rw [h1] at hr
    simp only [] at hr
    split_ifs at hr with hn1
    · simp only [Option.some.injEq, Prod.mk.injEq] at hr
      rw [← hr.1] at hrc
      omega
    · cases h2 : recv CONFIG_DFU_HOST_RECEIVE_TIMEOUT_MS s1 with
      | none => rw [h2] at hr; cases hr
      | some p2 =>
        obtain ⟨rc2, s2⟩ := p2
        have b2 := buffer_bytes_recv _ s1 rc2 s2 b1 h2
        rw [h2] at hr
        simp only [] at hr
        split_ifs at hr with hn2 hn3 <;>
          simp only [Option.some.injEq, Prod.mk.injEq] at hr
        · rw [← hr.1] at hrc
          omega
        · rw [← hr.1] at hrc
          exact absurd hrc (by decide)
        · rw [← hr.1, ← hr.2]
          refine ⟨rfl, ?_⟩
          have := (bcd2bin_le (s2.rcv_buffer 0) (b2 0)).1
          omega

/-- C38: for every byte `x` whose two nibbles are both at most 9,
`bin2bcd(bcd2bin(x)) = x`; for every `n ≤ 99`, `bcd2bin(bin2bcd(n)) = n`; for every
byte `x`, `bcd2bin(x) ≤ 165`, so that the value `10*(x >> 4) + (x & 0x0F)` fits
the `uint8_t` result without wrapping; and a result of `dfu_host_get_version`
that is not an error is the decoded version byte, between 0 and 165. -/
theorem C38_bcd_helpers :
    (∀ x, x < 256 → x >>> 4 ≤ 9 → x &&& 0x0F ≤ 9 → bin2bcd (bcd2bin x) = x)
    ∧ (∀ n, n ≤ 99 → bcd2bin (bin2bcd n) = n)
    ∧ (∀ x, x < 256 → bcd2bin x ≤ 165 ∧ bcd2bin x = 10 * (x >>> 4) + (x &&& 0x0F))
    ∧ (∀ (s : Sys) (rc : Int) (t : Sys), buffer_bytes s →
        dfu_host_get_version s = some (rc, t) → 0 ≤ rc →
        rc = (bcd2bin (t.rcv_buffer 0) : Int) ∧ rc ≤ 165) :=
  ⟨bin2bcd_bcd2bin, fun n hn => bcd2bin_bin2bcd n (by omega), bcd2bin_le,
   dfu_host_get_version_nonneg⟩

theorem C38_bcd_helpers_witness :
    ((0x31 : Nat) < 256 ∧ 0x31 >>> 4 ≤ 9 ∧ 0x31 &&& 0x0F ≤ 9)
    ∧ bin2bcd (bcd2bin 0x31) = 0x31 ∧ bcd2bin (bin2bcd 31) = 31 ∧ bcd2bin 0xFF ≤ 165 :=
  ⟨⟨by decide, by decide, by decide⟩,
   C38_bcd_helpers.1 0x31 (by decide) (by decide) (by decide),
   C38_bcd_helpers.2.1 31 (by decide),
   (C38_bcd_helpers.2.2.1 0xFF (by decide)).1⟩

/-! ## C37: the loop of `APP_STATE_CHECK_FW_CRC` ends -/

theorem sent_prefix_length (F : List (List Nat)) (s : Sys) (rc : Int) (t : Sys)
    (h : sent_prefix F s rc t) :
    (tx_frames t.trace).length ≤ (tx_frames s.trace).length + F.length := by
  obtain ⟨k, hk, hf, -⟩ := h
  rw [hf, List.length_append, List.length_take]
  omega

/-- The retry loop returns, makes at most `n` reads in `n` iterations, and
each read transmits at most three frames. -/
theorem read_retry_calls_bound (addr sz : Nat) (h1 : 1 ≤ sz) (h2 : sz ≤ 256) (n : Nat) :
    ∀ (rc0 : Int) (e0 : Nat) (s : Sys),
      ∃ r t k, read_retry addr sz n rc0 e0 s = some (r, t)
        ∧ read_retry_calls addr sz n s = some k ∧ k ≤ n
        ∧ (tx_frames t.trace).length ≤ (tx_frames s.trace).length + 3 * k := by
  induction n with
  | zero =>
    intro rc0 e0 s
    exact ⟨_, s, 0, rfl, rfl, le_refl _, le_refl _⟩
  | succ n ih =>
    intro rc0 e0 s
    obtain ⟨rc, s1, hr⟩ := dfu_host_read_memory_returns addr sz s h1 h2
    have hl := sent_prefix_length _ s rc s1 (dfu_host_read_memory_sent addr sz s rc s1 h1 h2 hr)
    simp only [List.length_cons, List.length_nil] at hl
    simp only [read_retry, read_retry_calls, hr]
    split_ifs
    · exact ⟨_, s1, 1, rfl, rfl, by omega, by omega⟩
    · obtain ⟨r, t, k, e1, e2, hk, hf⟩ := ih rc ((e0 + 1) % 256) s1
      refine ⟨r, t, k + 1, e1, ?_, by omega, by omega⟩
      rw [e2]
      rfl

theorem chunk_count_step (d : Nat) (h : d ≠ 0) :
    chunk_count (d - MIN d 256) + 1 = chunk_count d := by
  rw [MIN_eq_min]
  unfold chunk_count
  omega

/-- The `while` loop, unrolled at least `data_left` times, returns after at most
`ceil(data_left / 256)` iterations with at most five reads each. -/
theorem check_loop_counts_bound (fuel : Nat) :
    ∀ (v : check_vars) (s : Sys), v.data_left ≤ fuel →
      ∃ w t it rd, check_loop fuel v s = some (w, t)
        ∧ check_loop_counts fuel v s = some (it, rd)
        ∧ it ≤ chunk_count v.data_left ∧ rd ≤ 5 * it
        ∧ (tx_frames t.trace).length ≤ (tx_frames s.trace).length + 3 * rd := by
  induction fuel with
  | zero =>
    intro v s h
    have h0 : v.data_left = 0 := Nat.le_zero.mp h
    exact ⟨v, s, 0, 0, by simp only [check_loop, h0, if_true],
      by simp only [check_loop_counts, h0, if_true], Nat.zero_le _, le_refl _, le_refl _⟩
  | succ fuel ih =>
    intro v s h
    by_cases h0 : v.data_left = 0
    · exact ⟨v, s, 0, 0, by simp only [check_loop, h0, if_true],
        by simp only [check_loop_counts, h0, if_true], Nat.zero_le _, le_refl _, le_refl _⟩
    · have h1 : 1 ≤ MIN v.data_left 256 := by rw [MIN_eq_min]; omega
      have h2 : MIN v.data_left 256 ≤ 256 := by rw [MIN_eq_min]; omega
      obtain ⟨r, s1, k, hr, hk, hk5, hf⟩ :=
        read_retry_calls_bound v.addr (MIN v.data_left 256) h1 h2 5 0 0 s
      obtain ⟨rc, e⟩ := r
      have hstep := chunk_count_step v.data_left h0
      have hle : v.data_left - MIN v.data_left 256 ≤ fuel := by omega
      simp only [check_loop, check_loop_counts, h0, if_false, hr, hk]
      split_ifs with he
      · refine ⟨_, _, 1, k, rfl, rfl, by omega, by omega, ?_⟩
        exact hf
      · obtain ⟨w, t, it, rd, e1, e2, b1, b2, b3⟩ := ih
          { data_left := v.data_left - MIN v.data_left 256,
            crc := crc16_reflect 0xA001 v.crc (rcv_bytes s1 rc.toNat),
            addr := (v.addr + MIN v.data_left 256) % 2 ^ 32 } s1 hle
        refine ⟨w, t, it + 1, rd + k, e1, ?_, ?_, by omega, by omega⟩
        · rw [e2]
          rfl
        · have : it ≤ chunk_count (v.data_left - MIN v.data_left 256) := b1
          omega

/-- C37: for every `fw_size` and every behaviour of the transport, the loop of
the `APP_STATE_CHECK_FW_CRC` step (unrolled `fw_size` times, as in `app_dispatch`)
returns after at most `ceil(fw_size / 256)` iterations and at most
`5 * ceil(fw_size / 256)` calls of `dfu_host_read_memory`, having transmitted at
most three frames per call; for while `data_left` is not 0 the chunk size
`MIN(data_left, 256)` is at least 1, so an iteration that reads its chunk lowers
`data_left`, and an iteration whose five reads fail is the last one. -/
theorem C37_check_loop_terminates (fw_size : Nat) (s : Sys) :
    (∃ w t it rd,
      check_loop fw_size { data_left := fw_size, crc := 0xFFFF, addr := 0x08000000 } s
        = some (w, t)
      ∧ check_loop_counts fw_size { data_left := fw_size, crc := 0xFFFF, addr := 0x08000000 } s
        = some (it, rd)
      ∧ it ≤ (fw_size + 255) / 256 ∧ rd ≤ 5 * it ∧ rd ≤ 5 * ((fw_size + 255) / 256)
      ∧ (tx_frames t.trace).length ≤ (tx_frames s.trace).length + 3 * rd)
    ∧ (∀ d, d ≠ 0 → 1 ≤ MIN d 256 ∧ MIN d 256 ≤ 256 ∧ d - MIN d 256 < d
        ∧ (d - MIN d 256 + 255) / 256 + 1 = (d + 255) / 256)
    ∧ (∀ (fuel : Nat) (v : check_vars) (u u1 : Sys) (rc : Int) (e : Nat), v.data_left ≠ 0 →
        read_retry v.addr (MIN v.data_left 256) 5 0 0 u = some ((rc, e), u1) → e ≠ 0 →
        check_loop (fuel + 1) v u
          = some (v, { u1 with app_state := app_state_t.APP_STATE_INITIAL })) := by
  refine ⟨?_, ?_, ?_⟩
  · obtain ⟨w, t, it, rd, e1, e2, b1, b2, b3⟩ := check_loop_counts_bound fw_size
      { data_left := fw_size, crc := 0xFFFF, addr := 0x08000000 } s (le_refl _)
    have b1' : it ≤ (fw_size + 255) / 256 := b1
    exact ⟨w, t, it, rd, e1, e2, b1', b2, by omega, b3⟩
  · intro d hd
    have := chunk_count_step d hd
    unfold chunk_count at this
    rw [MIN_eq_min] at this ⊢
    omega
  · intro fuel v u u1 rc e hv hr he
    simp only [check_loop, hv, if_false, hr, ne_eq, he, not_false_eq_true, if_true]

theorem C37_check_loop_terminates_witness :
    (check_loop 256 { data_left := 256, crc := 0xFFFF, addr := 0x08000000 }
        sys_read_nacked).isSome = true
    ∧ check_loop_counts 256 { data_left := 256, crc := 0xFFFF, addr := 0x08000000 }
        sys_read_nacked = some (1, 5) := by
  obtain ⟨w, t, it, rd, e1, e2, -⟩ := (C37_check_loop_terminates 256 sys_read_nacked).1
  refine ⟨by rw [e1]; rfl, by decide⟩

/-! ## C34: nesting of critical sections -/

theorem cs_inv_enter (a i0 : Bool) (c : CritState) (d : Nat) (h : cs_inv a i0 c d)
    (hd : d < UINT32_MAX) :
    ∃ c1, critical_section_enter c = some c1 ∧ cs_inv a i0 c1 (d + 1) := by
  obtain ⟨ha, hc, hle, hs, hin, hout⟩ := h
  have hU : UINT32_MAX = 2 ^ 32 - 1 := rfl
  have hmod : (d + 1) % 2 ^ 32 = d + 1 := Nat.mod_eq_of_lt (by omega)
  by_cases h0 : d = 0
  · have hs' : c.state_saved = false := by rw [hs]; simp [h0]
    have hctr : c.critical_section_reentrancy_counter < UINT32_MAX := by rw [hc]; exact hd
    refine ⟨CritState.mk c.assert_on ((c.critical_section_reentrancy_counter + 1) % 2 ^ 32) c.irq_enabled true false,
      by simp [critical_section_enter, hs', hctr, are_interrupts_enabled], ?_⟩
    refine ⟨ha, ?_, by omega, ?_, ?_, ?_⟩
    · show (c.critical_section_reentrancy_counter + 1) % 2 ^ 32 = d + 1
      rw [hc, hmod]
    · simp
    · intro _
      exact ⟨rfl, hout h0⟩
    · intro hf
      omega
  · have hpos : 0 < d := Nat.pos_of_ne_zero h0
    have hs' : c.state_saved = true := by rw [hs]; simp [hpos]
    have hctr : c.critical_section_reentrancy_counter < UINT32_MAX := by rw [hc]; exact hd
    refine ⟨CritState.mk c.assert_on ((c.critical_section_reentrancy_counter + 1) % 2 ^ 32) c.critical_interrupts_enabled true false,
      by simp [critical_section_enter, hs', hctr, are_interrupts_enabled], ?_⟩
    refine ⟨ha, ?_, by omega, ?_, ?_, ?_⟩
    · show (c.critical_section_reentrancy_counter + 1) % 2 ^ 32 = d + 1
      rw [hc, hmod]
    · show true = decide (0 < d + 1)
      simp
    · intro _
      exact ⟨rfl, (hin hpos).2⟩
    · intro hf
      omega

theorem cs_inv_exit (a i0 : Bool) (c : CritState) (d : Nat) (h : cs_inv a i0 c d) :
    ∃ c1, critical_section_exit c = some c1 ∧ cs_inv a i0 c1 (d - 1)
      ∧ (d = 0 → c1 = c) := by
  obtain ⟨ha, hc, hle, hs, hin, hout⟩ := h
  by_cases h0 : d = 0
  · have hc0 : c.critical_section_reentrancy_counter = 0 := by rw [hc, h0]
    refine ⟨c, by simp [critical_section_exit, hc0], ?_, fun _ => rfl⟩
    subst h0
    exact ⟨ha, hc, hle, hs, hin, hout⟩
  · have hpos : 0 < d := Nat.pos_of_ne_zero h0
    have hc0 : ¬ c.critical_section_reentrancy_counter = 0 := by rw [hc]; exact h0
    obtain ⟨hirq, hsaved⟩ := hin hpos
    by_cases h1 : d = 1
    · have hc1 : c.critical_section_reentrancy_counter - 1 = 0 := by rw [hc, h1]
      cases hi : i0 with
      | true =>
        have hce : c.critical_interrupts_enabled = true := by rw [hsaved, hi]
        refine ⟨CritState.mk c.assert_on (0) true false true,
          by simp [critical_section_exit, hc0, hc1, are_interrupts_enabled, hirq, hce],
          ?_, fun hf => absurd hf h0⟩
        subst h1
        exact ⟨ha, rfl, by decide, rfl, fun hf => absurd hf (by decide), fun _ => rfl⟩
      | false =>
        have hce : c.critical_interrupts_enabled = false := by rw [hsaved, hi]
        refine ⟨CritState.mk c.assert_on (0) false false false,
          by simp [critical_section_exit, hc0, hc1, are_interrupts_enabled, hirq, hce],
          ?_, fun hf => absurd hf h0⟩
        subst h1
        exact ⟨ha, rfl, by decide, rfl, fun hf => absurd hf (by decide), fun _ => rfl⟩
    · have hc1 : ¬ c.critical_section_reentrancy_counter - 1 = 0 := by rw [hc]; omega
      refine ⟨CritState.mk c.assert_on (c.critical_section_reentrancy_counter - 1)
          c.critical_interrupts_enabled c.state_saved c.irq_enabled,
        by simp [critical_section_exit, hc0, hc1], ?_, fun hf => absurd hf h0⟩
      refine ⟨ha, ?_, by omega, ?_, ?_, ?_⟩
      · show c.critical_section_reentrancy_counter - 1 = d - 1
        rw [hc]
      · show c.state_saved = decide (0 < d - 1)
        rw [hs]
        have : 0 < d - 1 := by omega
        simp [hpos, this]
      · intro _
        exact ⟨hirq, hsaved⟩
      · intro hf
        omega

/-- Along every sequence of calls whose nesting depth stays within
`UINT32_MAX`, every call returns and the state follows the nesting depth. -/
theorem cs_inv_run (a i0 : Bool) :
    ∀ (calls : List cs_call) (c : CritState) (d : Nat), cs_inv a i0 c d →
      cs_bounded calls d →
      ∃ c1, cs_run calls c = some c1 ∧ cs_inv a i0 c1 (cs_depth calls d) := by
  intro calls
  induction calls with
  | nil =>
    intro c d h _
    exact ⟨c, rfl, h⟩
  | cons x xs ih =>
    intro c d h hb
    cases x with
    | enter =>
      obtain ⟨c1, e1, h1⟩ := cs_inv_enter a i0 c d h hb.1
      obtain ⟨c2, e2, h2⟩ := ih c1 (d + 1) h1 hb.2
      exact ⟨c2, by simp only [cs_run, e1, Option.some_bind, e2], h2⟩
    | exit =>
      obtain ⟨c1, e1, h1, -⟩ := cs_inv_exit a i0 c d h
      obtain ⟨c2, e2, h2⟩ := ih c1 (d - 1) h1 hb
      exact ⟨c2, by simp only [cs_run, e1, Option.some_bind, e2], h2⟩

theorem cs_inv_outside (a i : Bool) : cs_inv a i (crit_outside a i) 0 :=
  ⟨rfl, rfl, Nat.zero_le _, rfl, fun h => absurd h (Nat.lt_irrefl _), fun _ => rfl⟩

theorem cs_run_append (l1 l2 : List cs_call) :
    ∀ c, cs_run (l1 ++ l2) c = (cs_run l1 c).bind (cs_run l2) := by
  induction l1 with
  | nil =>
    intro c
    rfl
  | cons x xs ih =>
    intro c
    cases x with
    | enter =>
      simp only [List.cons_append, cs_run]
      cases critical_section_enter c with
      | none => rfl
      | some c1 => exact ih c1
    | exit =>
      simp only [List.cons_append, cs_run]
      cases critical_section_exit c with
      | none => rfl
      | some c1 => exact ih c1

theorem cs_depth_append (l1 l2 : List cs_call) :
    ∀ d, cs_depth (l1 ++ l2) d = cs_depth l2 (cs_depth l1 d) := by
  induction l1 with
  | nil =>
    intro d
    rfl
  | cons x xs ih =>
    intro d
    cases x with
    | enter => exact ih (d + 1)
    | exit => exact ih (d - 1)

theorem cs_depth_enters (n : Nat) :
    ∀ d, cs_depth (List.replicate n cs_call.enter) d = d + n := by
  induction n with
  | zero =>
    intro d
    rfl
  | succ n ih =>
    intro d
    show cs_depth (List.replicate n cs_call.enter) (d + 1) = d + (n + 1)
    rw [ih]
    omega

theorem cs_depth_exits (n : Nat) :
    ∀ d, cs_depth (List.replicate n cs_call.exit) d = d - n := by
  induction n with
  | zero =>
    intro d
    rfl
  | succ n ih =>
    intro d
    show cs_depth (List.replicate n cs_call.exit) (d - 1) = d - (n + 1)
    rw [ih]
    omega

theorem cs_bounded_enters (n : Nat) :
    ∀ d, d + n ≤ UINT32_MAX → cs_bounded (List.replicate n cs_call.enter) d := by
  induction n with
  | zero =>
    intro d h
    exact h
  | succ n ih =>
    intro d h
    exact ⟨by omega, ih (d + 1) (by omega)⟩

/-- After `UINT32_MAX` nested enters the counter holds `UINT32_MAX`. -/
theorem cs_run_max_enters (a i : Bool) :
    cs_run (List.replicate (2 ^ 32 - 1) cs_call.enter) (crit_outside a i)
      = some (CritState.mk a (2 ^ 32 - 1) i true false) := by
  obtain ⟨c1, e1, h1, h2, -, h4, h5, -⟩ :=
    cs_inv_run a i (List.replicate (2 ^ 32 - 1) cs_call.enter) (crit_outside a i) 0
      (cs_inv_outside a i) (cs_bounded_enters _ 0 (by simp [UINT32_MAX]))
  rw [cs_depth_enters] at h2 h4 h5
  obtain ⟨h6, h7⟩ := h5 (by norm_num)
  rw [e1]
  cases c1
  simp only [Nat.zero_add] at h1 h2 h4 h6 h7
  simp only [Option.some.injEq, CritState.mk.injEq]
  exact ⟨h1, h2, h7, by rw [h4]; simp, h6⟩

theorem cs_run_wrapped_exits (i : Bool) (n : Nat) :
    cs_run (List.replicate n cs_call.exit) (CritState.mk false 0 i true false)
      = some (CritState.mk false 0 i true false) := by
  induction n with
  | zero => rfl
  | succ n ih =>
    show (critical_section_exit (CritState.mk false 0 i true false)).bind _ = _
    simp only [critical_section_exit, if_true, Option.some_bind]
    exact ih

/-- C34, counterexample: `2 ^ 32` nested calls of `critical_section_enter`,
started outside a critical section with interrupts enabled.  With `ASSERT_ON` the
last call fails `ASSERT_NO_MSG(critical_section_reentrancy_counter < UINT32_MAX)`
and does not return.  Without `ASSERT_ON` the counter wraps to 0 while
`state_saved` stays set: `in_critical_section()` is true with a counter of 0, every
following `critical_section_exit` returns at once, and after `2 ^ 32` exits, which
match all the enters, `in_critical_section()` is still true and interrupts are
still disabled although they were enabled on entry. -/
theorem C34_nesting_depth_overflow :
    cs_run (List.replicate (2 ^ 32) cs_call.enter) (crit_outside true true) = none
    ∧ cs_run (List.replicate (2 ^ 32) cs_call.enter) (crit_outside false true)
        = some (CritState.mk false 0 true true false)
    ∧ in_critical_section (CritState.mk false 0 true true false) = true
    ∧ cs_run (List.replicate (2 ^ 32) cs_call.enter ++ List.replicate (2 ^ 32) cs_call.exit)
        (crit_outside false true) = some (CritState.mk false 0 true true false)
    ∧ cs_depth (List.replicate (2 ^ 32) cs_call.enter ++ List.replicate (2 ^ 32) cs_call.exit) 0
        = 0 := by
  have hsplit : List.replicate (2 ^ 32) cs_call.enter
      = List.replicate (2 ^ 32 - 1) cs_call.enter ++ [cs_call.enter] := by
    rw [show (2 : Nat) ^ 32 = (2 ^ 32 - 1) + 1 by norm_num, List.replicate_succ']
    rfl
  have hrel : cs_run (List.replicate (2 ^ 32) cs_call.enter) (crit_outside false true)
      = some (CritState.mk false 0 true true false) := by
    rw [hsplit, cs_run_append, cs_run_max_enters]
    simp [cs_run, critical_section_enter, UINT32_MAX]
  refine ⟨?_, hrel, rfl, ?_, ?_⟩
  · rw [hsplit, cs_run_append, cs_run_max_enters]
    simp [cs_run, critical_section_enter, UINT32_MAX]
  · rw [cs_run_append, hrel, Option.some_bind]
    exact cs_run_wrapped_exits true (2 ^ 32)
  · rw [cs_depth_append, cs_depth_enters, cs_depth_exits]
    omega

/-- C34, amended: take any sequence of `critical_section_enter` /
`critical_section_exit` calls whose nesting depth never exceeds `UINT32_MAX`,
started outside a critical section (counter 0, `state_saved` clear) in either
build.  Every call returns; the reentrancy counter equals the number of enters
minus the number of matched exits; `in_critical_section()` is true exactly when
that number is positive; inside a section interrupts are disabled, and whenever
the outermost section has been closed interrupts are enabled if and only if they
were enabled before it was entered.  An exit with a counter of 0 returns the state
unchanged. -/
theorem C34_critical_section_nesting (calls : List cs_call) (c : CritState)
    (hc : c.critical_section_reentrancy_counter = 0) (hs : c.state_saved = false)
    (hb : cs_bounded calls 0) :
    (∃ c1, cs_run calls c = some c1
      ∧ c1.critical_section_reentrancy_counter = cs_depth calls 0
      ∧ (in_critical_section c1 = true ↔ 0 < cs_depth calls 0)
      ∧ (0 < c1.critical_section_reentrancy_counter ↔ 0 < cs_depth calls 0)
      ∧ (0 < cs_depth calls 0 → are_interrupts_enabled c1 = false)
      ∧ (cs_depth calls 0 = 0 → are_interrupts_enabled c1 = are_interrupts_enabled c))
    ∧ critical_section_exit c = some c := by
  have hinv : cs_inv c.assert_on c.irq_enabled c 0 :=
    ⟨rfl, hc, Nat.zero_le _, by rw [hs]; rfl, fun h => absurd h (Nat.lt_irrefl _), fun _ => rfl⟩
  obtain ⟨c1, e1, -, h2, -, h4, h5, h6⟩ := cs_inv_run _ _ calls c 0 hinv hb
  refine ⟨⟨c1, e1, h2, ?_, by rw [h2], fun h => (h5 h).1, h6⟩, ?_⟩
  · show c1.state_saved = true ↔ _
    rw [h4]
    simp
  · simp [critical_section_exit, hc]

theorem C34_critical_section_nesting_witness :
    (∃ c1, cs_run [cs_call.exit, cs_call.enter, cs_call.enter, cs_call.exit, cs_call.exit,
          cs_call.exit] (crit_outside true true) = some c1
      ∧ c1.critical_section_reentrancy_counter
          = cs_depth [cs_call.exit, cs_call.enter, cs_call.enter, cs_call.exit, cs_call.exit,
              cs_call.exit] 0
      ∧ (in_critical_section c1 = true
          ↔ 0 < cs_depth [cs_call.exit, cs_call.enter, cs_call.enter, cs_call.exit,
              cs_call.exit, cs_call.exit] 0)
      ∧ (0 < c1.critical_section_reentrancy_counter
          ↔ 0 < cs_depth [cs_call.exit, cs_call.enter, cs_call.enter, cs_call.exit,
              cs_call.exit, cs_call.exit] 0)
      ∧ (0 < cs_depth [cs_call.exit, cs_call.enter, cs_call.enter, cs_call.exit, cs_call.exit,
              cs_call.exit] 0 → are_interrupts_enabled c1 = false)
      ∧ (cs_depth [cs_call.exit, cs_call.enter, cs_call.enter, cs_call.exit, cs_call.exit,
              cs_call.exit] 0 = 0
          → are_interrupts_enabled c1 = are_interrupts_enabled (crit_outside true true)))
    ∧ critical_section_exit (crit_outside true true) = some (crit_outside true true) :=
  C34_critical_section_nesting _ (crit_outside true true) rfl rfl
    (by simp [cs_bounded, UINT32_MAX])

end FwChecker
